import Mathlib

/-!
# Demoszene: the scene orchestrator and its scenes

A shallow embedding of `Demo-Code/src/main.cpp` and of the three scenes it
drives (`LoginScene`, `TerminalScene`, `LocateScene`).

Conventions of the embedding.

* `float` and `double` values are rationals (`ℚ`). The definitions that keep
  the name of the source compute exactly, and a decimal literal is the rational
  it denotes (`0.75f` is `3/4`, `0.18f` is `9/50`); they carry the properties
  that do not depend on rounding. The definitions with the suffix `32` round
  every operation to binary32 and read every literal as its binary32 value;
  they carry the properties in which a rounded value decides an outcome.
* `int` is `Int`, `size_t` is `Nat` (every increment in the source is guarded
  by a comparison against a string or vector length, so no counter wraps).
* `std::string` is `List Char`, `std::vector` is `List`.
* A `std::function` member or a `SoundManager*` member is a `Bool`: whether a
  target is attached. Calls through it are reported in the result of the
  method that makes them.
* OpenGL, font and audio back ends are not modelled; each call that `main`
  makes into them is recorded, in program order, in the list of `Effect`s a
  frame returns.
-/

namespace Demoszene

/-! ## Easing functions (`main.cpp`, lines 28 to 48) -/

/-- Source: `float easeInQuad(float t) { return t * t; }` -/
def easeInQuad (t : ℚ) : ℚ := t * t

/-- Source: `float easeOutQuad(float t) { return t * (2 - t); }` -/
def easeOutQuad (t : ℚ) : ℚ := t * (2 - t)

/-- Element `i` of a string indexed by an `int`, as `s[i]` in the source. An index
outside the string is undefined behaviour there; the embedding reads a blank. -/
def charAt (s : List Char) (i : Int) : Char := s.getD i.toNat ' '

/-- Conversion of a `float` to `int`, which truncates toward zero. -/
def truncate (q : ℚ) : Int := if 0 ≤ q then ⌊q⌋ else ⌈q⌉

/-- Source: `fmod(x, y)` of the C library: `x - n * y` with `n` the quotient
`x / y` truncated toward zero. -/
def fmod (x y : ℚ) : ℚ := x - (truncate (x / y) : ℚ) * y

/-- Source: `glm::clamp(x, minVal, maxVal)`, which is `min(max(x, minVal), maxVal)`. -/
def clamp (x minVal maxVal : ℚ) : ℚ := min (max x minVal) maxVal

/-! ## Binary32 arithmetic

The scenes and `main` compute in `float`. Where a property depends on the
rounding of a `float` operation, the definitions with the suffix `32` are used:
in them every arithmetic operation of the source is followed by `f32`, the
rounding to the nearest binary32 value (ties to the even significand, gradual
underflow), each operation being rounded on its own, and every literal is the
binary32 value it denotes (`0.18f` is `f32 (9 / 50)`). Overflow does not occur
for the values of this program and is not modelled: the exponent is unbounded
above. -/

namespace Float32

/-- Nearest integer, a tie going to the even neighbour. -/
def roundEven (q : ℚ) : Int :=
  if q - ⌊q⌋ < 1 / 2 then ⌊q⌋
  else if 1 / 2 < q - ⌊q⌋ then ⌊q⌋ + 1
  else if ⌊q⌋ % 2 = 0 then ⌊q⌋ else ⌊q⌋ + 1

/-- The power of two with an integer exponent. -/
def pow2 (e : Int) : ℚ :=
  if 0 ≤ e then ((2 ^ e.toNat : ℕ) : ℚ) else 1 / ((2 ^ (-e).toNat : ℕ) : ℚ)

/-- For `a ≥ 1`: the number of halvings that bring `a` below 2 (the first
argument bounds the search). -/
def expUp : Nat → ℚ → Int
  | 0, _ => 0
  | n + 1, a => if 2 ≤ a then expUp n (a / 2) + 1 else 0

/-- For `0 ≤ a < 1`: minus the number of doublings that bring `a` up to 1, at
most the first argument. -/
def expDown : Nat → ℚ → Int
  | 0, _ => 0
  | n + 1, a => if a < 1 then expDown n (a * 2) - 1 else 0

/-- The binary exponent of a value: the `e` with `2 ^ e ≤ |q| < 2 ^ (e + 1)`, and
`-126`, the exponent of the subnormal numbers, for `|q| < 2 ^ (-126)`. -/
def exponent (q : ℚ) : Int :=
  if 1 ≤ |q| then expUp ⌈|q|⌉.toNat |q| else expDown 126 |q|

/-- The distance between neighbouring binary32 values at a value: 24 significant
bits. -/
def quantum (q : ℚ) : ℚ := pow2 (exponent q - 23)

/-- The binary32 value nearest to a rational, ties to even. -/
def round (q : ℚ) : ℚ := (roundEven (q / quantum q) : ℚ) * quantum q

end Float32

/-- Rounding of the exact result of a `float` operation, or of a decimal
literal, to binary32. -/
def f32 (q : ℚ) : ℚ := Float32.round q

/-- Source: `float easeInQuad(float t) { return t * t; }`, in binary32. -/
def easeInQuad32 (t : ℚ) : ℚ := f32 (t * t)

/-- Source: `float easeOutQuad(float t) { return t * (2 - t); }`, in binary32. -/
def easeOutQuad32 (t : ℚ) : ℚ := f32 (t * f32 (2 - t))

/-- Source: `float easeInOutQuad(float t)`:
`t < 0.5 ? 2 * t * t : -1 + (4 - 2 * t) * t`, in binary32; `2 * t * t` is
`(2 * t) * t`. -/
def easeInOutQuad32 (t : ℚ) : ℚ :=
  if t < 1 / 2 then f32 (f32 (2 * t) * t) else f32 (-1 + f32 (f32 (4 - f32 (2 * t)) * t))

/-! ## LoginScene (`scenes/LoginScene.h`, `scenes/LoginScene.cpp`) -/

/-- Source: `enum Stage` of `LoginScene`. -/
inductive LoginScene.Stage where
  | SHOW_USERNAME
  | WAIT_PASSWORD
  | SHOW_PASSWORD
  | VERIFYING
  | ACCESS_GRANTED
  | FINISHED
  deriving DecidableEq, Repr

/-- Data members of `class LoginScene`. -/
structure LoginScene where
  stage : LoginScene.Stage
  username : List Char
  password : List Char
  typedUsername : List Char
  typedPassword : List Char
  timer : ℚ
  charIndex : Int
  verifyingDots : ℚ
  accessTimer : ℚ
  onTypeCallback : Bool
  deriving DecidableEq, Repr

namespace LoginScene

/-- Source: `LoginScene::LoginScene()`: the member initialiser list; the callback is an
empty `std::function`. -/
def construct : LoginScene :=
  { stage := Stage.SHOW_USERNAME
    username := "htw saar".toList
    password := "********".toList
    typedUsername := []
    typedPassword := []
    timer := 0
    charIndex := 0
    verifyingDots := 0
    accessTimer := 0
    onTypeCallback := false }

/-- Source: `setOnTypeCallback(callback)` with a non-empty callback. -/
def setOnTypeCallback (s : LoginScene) : LoginScene :=
  { s with onTypeCallback := true }

/-- Source: `bool isFinished() const { return stage == FINISHED; }` -/
def isFinished (s : LoginScene) : Bool := s.stage == Stage.FINISHED

/-- Source: `LoginScene::update(float deltaTime)`. The second component is the number of
times `onTypeCallback` was invoked. -/
@[irreducible]
def update (s0 : LoginScene) (deltaTime : ℚ) : LoginScene × Nat :=
  let s := { s0 with timer := s0.timer + deltaTime }
  match s.stage with
  | Stage.SHOW_USERNAME =>
    let typed : LoginScene × Nat :=
      if s.charIndex < (s.username.length : Int) ∧ s.timer > 9 / 50 then
        ({ s with
            typedUsername := s.typedUsername ++ [charAt s.username s.charIndex]
            charIndex := s.charIndex + 1
            timer := 0 },
          if s.onTypeCallback then 1 else 0)
      else (s, 0)
    let s1 := typed.1
    if s1.charIndex = (s1.username.length : Int) then
      ({ s1 with stage := Stage.WAIT_PASSWORD, timer := 0 }, typed.2)
    else (s1, typed.2)
  | Stage.WAIT_PASSWORD =>
    if s.timer > 1 / 2 then
      ({ s with stage := Stage.SHOW_PASSWORD, timer := 0, charIndex := 0 }, 0)
    else (s, 0)
  | Stage.SHOW_PASSWORD =>
    let typed : LoginScene × Nat :=
      if s.charIndex < (s.password.length : Int) ∧ s.timer > 9 / 50 then
        ({ s with
            typedPassword := s.typedPassword ++ [charAt s.password s.charIndex]
            charIndex := s.charIndex + 1
            timer := 0 },
          if s.onTypeCallback then 1 else 0)
      else (s, 0)
    let s1 := typed.1
    if s1.charIndex = (s1.password.length : Int) then
      ({ s1 with stage := Stage.VERIFYING, timer := 0, verifyingDots := 0 }, typed.2)
    else (s1, typed.2)
  | Stage.VERIFYING =>
    let s1 := { s with verifyingDots := s.verifyingDots + deltaTime * 2 }
    if s1.timer > 3 / 2 then
      ({ s1 with stage := Stage.ACCESS_GRANTED, timer := 0, accessTimer := 0 }, 0)
    else (s1, 0)
  | Stage.ACCESS_GRANTED =>
    let s1 := { s with accessTimer := s.accessTimer + deltaTime }
    if s1.accessTimer > 3 / 2 then
      ({ s1 with stage := Stage.FINISHED }, 0)
    else (s1, 0)
  | Stage.FINISHED => (s, 0)

/-- Source: `LoginScene::reset()`: every member is assigned except `onTypeCallback`. -/
def reset (s : LoginScene) : LoginScene :=
  { s with
    stage := Stage.SHOW_USERNAME
    username := "htw saar".toList
    password := "********".toList
    typedUsername := []
    typedPassword := []
    timer := 0
    charIndex := 0
    verifyingDots := 0
    accessTimer := 0 }

end LoginScene

namespace LoginScene

/-- The scenes after each of a sequence of `update(deltaTime)` calls. -/
def states (s : LoginScene) : List ℚ → List LoginScene
  | [] => []
  | deltaTime :: rest => (s.update deltaTime).1 :: states (s.update deltaTime).1 rest

/-- The scene after a sequence of `update(deltaTime)` calls. -/
def after (s : LoginScene) : List ℚ → LoginScene
  | [] => s
  | deltaTime :: rest => after (s.update deltaTime).1 rest

/-- Number of type callback invocations over a sequence of `update` calls. -/
def totalCalls (s : LoginScene) : List ℚ → Nat
  | [] => 0
  | deltaTime :: rest => (s.update deltaTime).2 + totalCalls (s.update deltaTime).1 rest

/-- Successor of a stage in the order of `enum Stage`; `FINISHED` is last. -/
def Stage.next : Stage → Stage
  | SHOW_USERNAME => WAIT_PASSWORD
  | WAIT_PASSWORD => SHOW_PASSWORD
  | SHOW_PASSWORD => VERIFYING
  | VERIFYING => ACCESS_GRANTED
  | ACCESS_GRANTED => FINISHED
  | FINISHED => FINISHED

/-- The invariant of the typing animation: the two secrets are the built-in
strings, the text typed so far in the stage that types is the first `charIndex`
characters of its secret, with `0 ≤ charIndex < length`, a secret is untouched
before its stage and complete after it. -/
def WellTyped (s : LoginScene) : Prop :=
  s.username = "htw saar".toList ∧ s.password = "********".toList ∧
  match s.stage with
  | Stage.SHOW_USERNAME =>
    s.typedPassword = [] ∧ 0 ≤ s.charIndex ∧ s.charIndex < 8 ∧
      s.typedUsername = s.username.take s.charIndex.toNat
  | Stage.WAIT_PASSWORD => s.typedPassword = [] ∧ s.typedUsername = s.username
  | Stage.SHOW_PASSWORD =>
    s.typedUsername = s.username ∧ 0 ≤ s.charIndex ∧ s.charIndex < 8 ∧
      s.typedPassword = s.password.take s.charIndex.toNat
  | Stage.VERIFYING => s.typedUsername = s.username ∧ s.typedPassword = s.password
  | Stage.ACCESS_GRANTED => s.typedUsername = s.username ∧ s.typedPassword = s.password
  | Stage.FINISHED => s.typedUsername = s.username ∧ s.typedPassword = s.password

/-- The calls a client can make on a login scene. -/
inductive Op where
  | update (deltaTime : ℚ)
  | reset
  | setOnTypeCallback
  deriving DecidableEq, Repr

/-- The scene after one call. -/
def step (s : LoginScene) : Op → LoginScene
  | Op.update deltaTime => (s.update deltaTime).1
  | Op.reset => s.reset
  | Op.setOnTypeCallback => s.setOnTypeCallback

/-- The scene after a sequence of calls; the reachable scenes are
`construct.exec ops`. -/
def exec (s : LoginScene) (ops : List Op) : LoginScene := ops.foldl step s

/-- Source: `LoginScene::update(float deltaTime)` in binary32: the three
additions `timer += deltaTime`, `verifyingDots += deltaTime * 2.0f` and
`accessTimer += deltaTime` are rounded and the character threshold is the literal
`0.18f`; `0.5f` and `1.5f` are exact. The second component is the number of times
`onTypeCallback` was invoked. -/
@[irreducible]
def update32 (s0 : LoginScene) (deltaTime : ℚ) : LoginScene × Nat :=
  let s := { s0 with timer := f32 (s0.timer + deltaTime) }
  match s.stage with
  | Stage.SHOW_USERNAME =>
    let typed : LoginScene × Nat :=
      if s.charIndex < (s.username.length : Int) ∧ s.timer > f32 (9 / 50) then
        ({ s with
            typedUsername := s.typedUsername ++ [charAt s.username s.charIndex]
            charIndex := s.charIndex + 1
            timer := 0 },
          if s.onTypeCallback then 1 else 0)
      else (s, 0)
    let s1 := typed.1
    if s1.charIndex = (s1.username.length : Int) then
      ({ s1 with stage := Stage.WAIT_PASSWORD, timer := 0 }, typed.2)
    else (s1, typed.2)
  | Stage.WAIT_PASSWORD =>
    if s.timer > 1 / 2 then
      ({ s with stage := Stage.SHOW_PASSWORD, timer := 0, charIndex := 0 }, 0)
    else (s, 0)
  | Stage.SHOW_PASSWORD =>
    let typed : LoginScene × Nat :=
      if s.charIndex < (s.password.length : Int) ∧ s.timer > f32 (9 / 50) then
        ({ s with
            typedPassword := s.typedPassword ++ [charAt s.password s.charIndex]
            charIndex := s.charIndex + 1
            timer := 0 },
          if s.onTypeCallback then 1 else 0)
      else (s, 0)
    let s1 := typed.1
    if s1.charIndex = (s1.password.length : Int) then
      ({ s1 with stage := Stage.VERIFYING, timer := 0, verifyingDots := 0 }, typed.2)
    else (s1, typed.2)
  | Stage.VERIFYING =>
    let s1 := { s with verifyingDots := f32 (s.verifyingDots + f32 (deltaTime * 2)) }
    if s1.timer > 3 / 2 then
      ({ s1 with stage := Stage.ACCESS_GRANTED, timer := 0, accessTimer := 0 }, 0)
    else (s1, 0)
  | Stage.ACCESS_GRANTED =>
    let s1 := { s with accessTimer := f32 (s.accessTimer + deltaTime) }
    if s1.accessTimer > 3 / 2 then
      ({ s1 with stage := Stage.FINISHED }, 0)
    else (s1, 0)
  | Stage.FINISHED => (s, 0)

/-- The scene after a sequence of `update(deltaTime)` calls, in binary32. -/
def after32 (s : LoginScene) : List ℚ → LoginScene
  | [] => s
  | deltaTime :: rest => after32 (s.update32 deltaTime).1 rest

/-- Every data member except the type callback, in declaration order. -/
def observable (s : LoginScene) :
    Stage × List Char × List Char × List Char × List Char × ℚ × Int × ℚ × ℚ :=
  (s.stage, s.username, s.password, s.typedUsername, s.typedPassword, s.timer, s.charIndex,
    s.verifyingDots, s.accessTimer)

end LoginScene

/-! ## TerminalScene (`scenes/TerminalScene.h`, `scenes/TerminalScene.cpp`) -/

/-- Source: `struct CodeDemo` of `TerminalScene`. -/
structure TerminalScene.CodeDemo where
  code : List (List Char)
  output : List (List Char)
  deriving DecidableEq, Repr

/-- The members that `TerminalScene::TerminalScene()` neither lists in its
initialiser list nor assigns in its body, and that have no default member
initialiser: a constructed object holds whatever their storage held. -/
structure TerminalScene.Indeterminate where
  codeCharIndex : Nat
  directoryCharIndex : Nat
  fileCharIndex : Nat
  finished : Bool
  deriving DecidableEq, Repr

/-- Data members of `class TerminalScene` (the unused `SoundManager soundManager`
member is left out). -/
structure TerminalScene where
  onTypeCallback : Bool
  animationTextDirectory : List Char
  animationTextFile : List Char
  displayedTextDirectory : List Char
  displayedTextFile : List Char
  animationIndex : Nat
  animationIndexFile : Nat
  codeCharIndex : Nat
  directoryCharIndex : Nat
  fileCharIndex : Nat
  animationLastTime : ℚ
  fileTypingStartTime : ℚ
  demos : List TerminalScene.CodeDemo
  codeLineIndex : Nat
  lastCodeLineTime : ℚ
  codeLineInterval : ℚ
  demoStarted : Bool
  demoStartTime : ℚ
  finished : Bool
  currentTime : ℚ
  deriving DecidableEq, Repr

namespace TerminalScene

/-- Source: `TerminalScene::initializeDemos()`: the value assigned to `demos`. -/
def initializeDemos : List CodeDemo :=
  [ { code :=
        [ "#include <iostream>".toList,
          "".toList,
          "int main() \x7b".toList,
          "    std::cout << \"Projektarbeit: Einfuehrung in die Demoszene\" << std::endl;".toList,
          "    std::cout << \"Teilnehmer: Christian Petry, Xudong Zhang\" << std::endl;".toList,
          "    return 0;".toList,
          "\x7d".toList ]
      output :=
        [ "Projektarbeit: Einfuehrung in die Demoszene".toList,
          "Teilnehmer: Christian Petry, Xudong Zhang".toList ] } ]

/-- Source: `TerminalScene::TerminalScene()`. The argument supplies the members the
constructor leaves uninitialised; `currentTime` has the default member
initialiser `0.0f`, and the callback is an empty `std::function`. -/
def construct (u : Indeterminate) : TerminalScene :=
  { onTypeCallback := false
    animationTextDirectory := "cd RetroTerminal/".toList
    animationTextFile := "./RetroTerminal".toList
    displayedTextDirectory := "user@retroterminal:~$ ".toList
    displayedTextFile := "user@retroterminal:~RetroTerminal$ ".toList
    animationIndex := 0
    animationIndexFile := 0
    codeCharIndex := u.codeCharIndex
    directoryCharIndex := u.directoryCharIndex
    fileCharIndex := u.fileCharIndex
    animationLastTime := 0
    fileTypingStartTime := -1
    demos := initializeDemos
    codeLineIndex := 0
    lastCodeLineTime := 0
    codeLineInterval := 1 / 2
    demoStarted := false
    demoStartTime := 0
    finished := u.finished
    currentTime := 0 }

/-- Source: `setOnTypeCallback(callback)` with a non-empty callback. -/
def setOnTypeCallback (s : TerminalScene) : TerminalScene :=
  { s with onTypeCallback := true }

/-- The code lines `demos[0].code`; reading `demos[0]` of an empty vector is
undefined behaviour in the source, the embedding reads no lines. -/
def codeLines (s : TerminalScene) : List (List Char) :=
  match s.demos with
  | [] => []
  | d :: _ => d.code

/-- First block of `TerminalScene::update`: the directory typing animation. -/
def updateDirectory (s : TerminalScene) (currentTime : ℚ) : TerminalScene × Nat :=
  if s.animationIndex < s.animationTextDirectory.length ∧
      currentTime - s.animationLastTime ≥ 1 / 10 then
    ({ s with
        displayedTextDirectory :=
          s.displayedTextDirectory ++ [s.animationTextDirectory.getD s.animationIndex ' ']
        animationIndex := s.animationIndex + 1
        animationLastTime := currentTime },
      if s.onTypeCallback then 1 else 0)
  else (s, 0)

/-- Second block of `TerminalScene::update`: latch of `fileTypingStartTime`, the
file typing animation, and the reset of the latch. -/
def updateFile (s0 : TerminalScene) (currentTime : ℚ) : TerminalScene × Nat :=
  let s1 :=
    if s0.animationIndex ≥ s0.animationTextDirectory.length ∧ s0.animationIndexFile = 0 ∧
        s0.fileTypingStartTime < 0 then
      { s0 with fileTypingStartTime := currentTime }
    else s0
  let typed : TerminalScene × Nat :=
    if s1.animationIndex ≥ s1.animationTextDirectory.length ∧
        s1.animationIndexFile < s1.animationTextFile.length ∧
        s1.fileTypingStartTime ≥ 0 ∧
        currentTime - s1.fileTypingStartTime ≥ 1 ∧
        currentTime - s1.animationLastTime ≥ 1 / 10 then
      ({ s1 with
          displayedTextFile :=
            s1.displayedTextFile ++ [s1.animationTextFile.getD s1.animationIndexFile ' ']
          animationIndexFile := s1.animationIndexFile + 1
          animationLastTime := currentTime },
        if s1.onTypeCallback then 1 else 0)
    else (s1, 0)
  let s2 := typed.1
  if s2.animationIndex = 0 ∧ s2.animationIndexFile = 0 then
    ({ s2 with fileTypingStartTime := -1 }, typed.2)
  else (s2, typed.2)

/-- Third block of `TerminalScene::update`: start of the demo. -/
def updateDemoStart (s : TerminalScene) (currentTime : ℚ) : TerminalScene :=
  if s.animationIndex ≥ s.animationTextDirectory.length ∧
      s.animationIndexFile ≥ s.animationTextFile.length ∧ s.demoStarted = false then
    { s with demoStarted := true, demoStartTime := currentTime }
  else s

/-- Fourth block of `TerminalScene::update`: the code demo animation. -/
def updateCode (s : TerminalScene) (currentTime : ℚ) : TerminalScene × Nat :=
  if s.demoStarted = true ∧ currentTime - s.demoStartTime > 1 / 2 ∧ s.demos ≠ [] then
    if s.codeLineIndex < s.codeLines.length then
      if s.codeCharIndex < (s.codeLines.getD s.codeLineIndex []).length then
        if currentTime - s.lastCodeLineTime > 1 / 20 then
          ({ s with codeCharIndex := s.codeCharIndex + 1, lastCodeLineTime := currentTime },
            if s.onTypeCallback then 1 else 0)
        else (s, 0)
      else if currentTime - s.lastCodeLineTime > s.codeLineInterval then
        ({ s with
            codeLineIndex := s.codeLineIndex + 1
            codeCharIndex := 0
            lastCodeLineTime := currentTime }, 0)
      else (s, 0)
    else (s, 0)
  else (s, 0)

/-- Source: `TerminalScene::update(float currentTime)`: the four blocks in program
order. The second component is the number of `onTypeCallback` invocations. -/
@[irreducible]
def update (s0 : TerminalScene) (currentTime : ℚ) : TerminalScene × Nat :=
  let s := { s0 with currentTime := currentTime }
  let r1 := updateDirectory s currentTime
  let r2 := updateFile r1.1 currentTime
  let s3 := updateDemoStart r2.1 currentTime
  let r4 := updateCode s3 currentTime
  (r4.1, r1.2 + r2.2 + r4.2)

/-- The only write `TerminalScene::render` makes to the object: `finished` is
set once the output block is shown and more than a second has passed since
`lastCodeLineTime`. The parameter `currentTime` is the one of `render`. -/
@[irreducible]
def render (s : TerminalScene) (currentTime : ℚ) : TerminalScene :=
  if s.demoStarted = true ∧ currentTime - s.demoStartTime > 1 / 2 ∧ s.demos ≠ [] ∧
      s.codeLineIndex ≥ s.codeLines.length ∧ s.finished = false ∧
      currentTime - s.lastCodeLineTime > 1 then
    { s with finished := true }
  else s

/-- Source: `TerminalScene::reset()`. -/
def reset (s : TerminalScene) : TerminalScene :=
  { s with
    displayedTextDirectory := "user@retroterminal:~$ ".toList
    displayedTextFile := "user@retroterminal:~RetroTerminal$ ".toList
    animationIndex := 0
    animationIndexFile := 0
    animationLastTime := 0
    codeLineIndex := 0
    codeCharIndex := 0
    lastCodeLineTime := 0
    demoStarted := false
    demoStartTime := 0
    finished := false
    fileTypingStartTime := -1 }

/-- Source: `TerminalScene::isFinished() const`. -/
def isFinished (s : TerminalScene) : Bool :=
  decide (s.animationIndex ≥ s.animationTextDirectory.length) &&
  decide (s.animationIndexFile ≥ s.animationTextFile.length) &&
  s.demoStarted &&
  decide (s.codeLineIndex ≥ s.codeLines.length) &&
  decide (s.currentTime - s.lastCodeLineTime > 2)

/-- The scene after a sequence of `update(currentTime)` calls. -/
def after (s : TerminalScene) : List ℚ → TerminalScene
  | [] => s
  | currentTime :: rest => after (s.update currentTime).1 rest

/-- What is observed of a terminal scene: the displayed directory and file
text, the code line and character index, and the answer of `isFinished()`. -/
def observe (s : TerminalScene) : List Char × List Char × Nat × Nat × Bool :=
  (s.displayedTextDirectory, s.displayedTextFile, s.codeLineIndex, s.codeCharIndex,
    s.isFinished)

/-- The observations after each of a sequence of `update(currentTime)` calls. -/
def observations (s : TerminalScene) : List ℚ → List (List Char × List Char × Nat × Nat × Bool)
  | [] => []
  | currentTime :: rest =>
    (s.update currentTime).1.observe :: observations (s.update currentTime).1 rest

/-- The answers of `isFinished()` after each of a sequence of
`update(currentTime)` calls. -/
def answers (s : TerminalScene) : List ℚ → List Bool
  | [] => []
  | currentTime :: rest =>
    (s.update currentTime).1.isFinished :: answers (s.update currentTime).1 rest

/-- The members no member function assigns after construction still hold what
the constructor gave them. -/
def Intact (s : TerminalScene) : Prop :=
  s.animationTextDirectory = "cd RetroTerminal/".toList ∧
    s.animationTextFile = "./RetroTerminal".toList ∧
    s.demos = initializeDemos ∧ s.codeLineInterval = 1 / 2

/-- The scene with the members `update` and `isFinished` never read set to fixed
values: the callback (it only decides whether a sound is played), the unused
`directoryCharIndex` and `fileCharIndex`, and `finished` (written by `render`
only). -/
def core (s : TerminalScene) : TerminalScene :=
  { s with onTypeCallback := false, directoryCharIndex := 0, fileCharIndex := 0,
           finished := false }

/-- The total number of characters of the first demo's code lines. -/
def totalCodeChars (s : TerminalScene) : Nat := (s.codeLines.map List.length).sum

/-- The number of code lines of the first demo. -/
def numLines (s : TerminalScene) : Nat := s.codeLines.length

/-- The number of code characters revealed so far: those of the completed
lines and `codeCharIndex` of the current one. -/
def typedChars (s : TerminalScene) : Nat :=
  ((s.codeLines.take s.codeLineIndex).map List.length).sum + s.codeCharIndex

/-- The pacing of the code demo: the indices are within the code, and once a
code character or line has been revealed the demo has started and the last
code-line timestamp is later than `demoStartTime + 0.5` by more than 0.05 s for
every revealed character but the first and 0.5 s for every completed line. -/
def Paced (s : TerminalScene) : Prop :=
  s.codeLineIndex ≤ s.codeLines.length ∧
    s.codeCharIndex ≤ (s.codeLines.getD s.codeLineIndex []).length ∧
    ((s.codeLineIndex = 0 ∧ s.codeCharIndex = 0) ∨
      (s.demoStarted = true ∧
        s.lastCodeLineTime >
          s.demoStartTime + 1 / 2 + ((s.typedChars : ℚ) - 1) / 20 + (s.codeLineIndex : ℚ) / 2))

/-- What an update can reveal on the screen. -/
inductive Reveal where
  | directoryChar
  | fileChar
  | codeChar
  | codeLine
  deriving DecidableEq, Repr

/-- The directory or file character revealed by `update(currentTime)`, read off
the indices before and after the call. -/
def typingReveals (s : TerminalScene) (currentTime : ℚ) : List Reveal :=
  (if (s.update currentTime).1.animationIndex ≠ s.animationIndex then [Reveal.directoryChar]
    else []) ++
  (if (s.update currentTime).1.animationIndexFile ≠ s.animationIndexFile then [Reveal.fileChar]
    else [])

/-- The code character revealed or the code line started by
`update(currentTime)`, read off the indices before and after the call. -/
def codeReveals (s : TerminalScene) (currentTime : ℚ) : List Reveal :=
  if (s.update currentTime).1.codeLineIndex ≠ s.codeLineIndex then [Reveal.codeLine]
  else if (s.update currentTime).1.codeCharIndex ≠ s.codeCharIndex then [Reveal.codeChar]
  else []

/-- All that `update(currentTime)` reveals. -/
def reveals (s : TerminalScene) (currentTime : ℚ) : List Reveal :=
  s.typingReveals currentTime ++ s.codeReveals currentTime

/-- The timestamped reveals of a sequence of `update(currentTime)` calls. -/
def revealLog (s : TerminalScene) : List ℚ → List (ℚ × Reveal)
  | [] => []
  | currentTime :: rest =>
    (s.reveals currentTime).map (fun r => (currentTime, r)) ++
      revealLog (s.update currentTime).1 rest

/-- Directory and file characters. -/
def Reveal.isTyping : Reveal → Bool
  | Reveal.directoryChar => true
  | Reveal.fileChar => true
  | _ => false

/-- Code characters. -/
def Reveal.isCodeChar : Reveal → Bool
  | Reveal.codeChar => true
  | _ => false

/-- Code characters and line starts. -/
def Reveal.isCode : Reveal → Bool
  | Reveal.codeChar => true
  | Reveal.codeLine => true
  | _ => false

/-- Characters of any of the three texts, as opposed to line starts. -/
def Reveal.isChar : Reveal → Bool
  | Reveal.codeLine => false
  | _ => true

/-- The calls a client can make on a terminal scene; of `render` only its write
to `finished` is modelled. -/
inductive Op where
  | update (currentTime : ℚ)
  | render (currentTime : ℚ)
  | reset
  | setOnTypeCallback
  deriving DecidableEq, Repr

/-- The scene after one call. -/
def step (s : TerminalScene) : Op → TerminalScene
  | Op.update currentTime => (s.update currentTime).1
  | Op.render currentTime => s.render currentTime
  | Op.reset => s.reset
  | Op.setOnTypeCallback => s.setOnTypeCallback

/-- The scene after a sequence of calls; the scenes reachable from a
construction are `(construct u).exec ops`. -/
def exec (s : TerminalScene) (ops : List Op) : TerminalScene := ops.foldl step s

/-- The implicit stage order as far as the code line index: a file character is
typed only after the directory, the demo starts only after both texts, code
lines are started only after the demo has started and not beyond the last
line. -/
def Ordered (s : TerminalScene) : Prop :=
  (0 < s.animationIndexFile → s.animationTextDirectory.length ≤ s.animationIndex) ∧
    (s.demoStarted = true →
      s.animationTextDirectory.length ≤ s.animationIndex ∧
        s.animationTextFile.length ≤ s.animationIndexFile) ∧
    s.codeLineIndex ≤ s.codeLines.length ∧
    (0 < s.codeLineIndex → s.demoStarted = true)

/-- The part of the stage order that is about `codeCharIndex`: code characters
are typed only after the demo has started, and not beyond the end of the
current code line. -/
def CodeOrdered (s : TerminalScene) : Prop :=
  (0 < s.codeCharIndex → s.demoStarted = true) ∧
    s.codeCharIndex ≤ (s.codeLines.getD s.codeLineIndex []).length

/-- The timestamps of the reveals of the kinds `k`, in order. -/
def revealTimes (k : Reveal → Bool) (l : List (ℚ × Reveal)) : List ℚ :=
  (l.filter fun e => k e.2).map Prod.fst

/-- Timestamps one second apart up to 45 s, then 45.75 s, 46 s, 47 s and
47.76 s. From a reset scene the demo starts at 32 s, so 45.75 s is
`demoStart + 0.5 + 0.05 * 195 + 0.5 * 7` and 47.76 s is 2.01 s later. -/
def sparseTimes : List ℚ :=
  (List.range 45).map (fun k => (k : ℚ) + 1) ++ [183 / 4, 46, 47, 1194 / 25]

end TerminalScene

/-! ## LocateScene (`scenes/LocateScene.h`, `scenes/LocateScene.cpp`) -/

/-- Data members of `class LocateScene` that `update`, `reset` and `isFinished`
touch (the OpenGL handles are left out). -/
structure LocateScene where
  currentStep : Int
  timer : ℚ
  finished : Bool
  charTimer : ℚ
  charIndex : Int
  steps : List (List Char)
  zoom : ℚ
  targetZoom : ℚ
  centerX : ℚ
  centerY : ℚ
  targetCenterX : ℚ
  targetCenterY : ℚ
  locateAnimTimer : ℚ
  locatingStarted : Bool
  soundManager : Bool
  deriving DecidableEq, Repr

namespace LocateScene

/-- Source: `LocateScene::LocateScene()`; `locateAnimTimer` and `locatingStarted` take
their default member initialisers. -/
def construct : LocateScene :=
  { currentStep := 0
    timer := 0
    finished := false
    charTimer := 0
    charIndex := 0
    steps :=
      [ "Locating: Earth".toList, "Locating: Germany".toList,
        "Locating: Saarbruecken".toList, "Locating: HTW Saar".toList ]
    zoom := 1 / 2
    targetZoom := 1
    centerX := 1 / 2
    centerY := 1 / 2
    targetCenterX := 1 / 2
    targetCenterY := 1 / 2
    locateAnimTimer := 0
    locatingStarted := false
    soundManager := false }

/-- Source: `setSoundManager(mgr)` with a non-null pointer. -/
def setSoundManager (s : LocateScene) : LocateScene :=
  { s with soundManager := true }

/-- Source: `bool isFinished() const { return finished; }` -/
def isFinished (s : LocateScene) : Bool := s.finished

/-- The label `steps[currentStep]`; an index outside the vector is undefined
behaviour in the source, the embedding reads the empty string. -/
def stepLabel (s : LocateScene) : List Char := s.steps.getD s.currentStep.toNat []

/-- The predicate `mapAnimFinished` computed in `update` and in `render`. -/
def mapAnimFinished (s : LocateScene) : Bool :=
  decide (|s.zoom - s.targetZoom| < 1 / 100) &&
  decide (|s.centerX - s.targetCenterX| < 1 / 100) &&
  decide (|s.centerY - s.targetCenterY| < 1 / 100)

/-- The step change at the end of `LocateScene::update`, taken when its guard
holds. The second component lists the cues sent to the sound manager. -/
def advanceStep (s : LocateScene) : LocateScene × List Int :=
  let cue : List Int := if s.soundManager then [2] else []
  if s.currentStep = 0 then
    ({ s with currentStep := 1, targetZoom := 5, targetCenterX := 2 / 5, targetCenterY := 3 / 5,
              timer := 0, charIndex := 0 }, cue)
  else if s.currentStep = 1 then
    ({ s with currentStep := 2, targetZoom := 10, targetCenterX := 3 / 5, targetCenterY := 2 / 5,
              timer := 0, charIndex := 0 }, cue)
  else if s.currentStep = 2 then
    ({ s with currentStep := 3, targetZoom := 20, targetCenterX := 1 / 2, targetCenterY := 3 / 5,
              timer := 0, charIndex := 0 }, cue)
  else if s.currentStep = 3 then
    ({ s with finished := true }, [])
  else (s, [])

/-- Lines 136 to 143 of `LocateScene::update`: both timers advance and `zoom`,
`centerX`, `centerY` move towards their targets with `lerpSpeed = 3.0f`. The five
assignments write five different members and none reads a member another one
wrote, so they are one record update. -/
def interpolate (s : LocateScene) (deltaTime : ℚ) : LocateScene :=
  let lerpSpeed : ℚ := 3
  { s with
    timer := s.timer + deltaTime
    charTimer := s.charTimer + deltaTime
    zoom := s.zoom + (s.targetZoom - s.zoom) * lerpSpeed * deltaTime
    centerX := s.centerX + (s.targetCenterX - s.centerX) * lerpSpeed * deltaTime
    centerY := s.centerY + (s.targetCenterY - s.centerY) * lerpSpeed * deltaTime }

/-- Lines 144 to 147 of `LocateScene::update`: one more character of the label
every 0.1 s. -/
def revealChar (s : LocateScene) : LocateScene :=
  if s.charIndex < (s.stepLabel.length : Int) ∧ s.charTimer > 1 / 10 then
    { s with charIndex := s.charIndex + 1, charTimer := 0 }
  else s

/-- Lines 153 to 164 of `LocateScene::update`: `locateAnimTimer` runs only while
the map animation is finished; `settled` is the local `mapAnimFinished`. -/
def trackSettled (s : LocateScene) (settled : Bool) (deltaTime : ℚ) : LocateScene :=
  if settled then
    if s.locatingStarted = false then
      { s with locateAnimTimer := 0, locatingStarted := true }
    else { s with locateAnimTimer := s.locateAnimTimer + deltaTime }
  else { s with locatingStarted := false, locateAnimTimer := 0 }

/-- Source: `LocateScene::update(float deltaTime)`. The second component lists the
indices passed to `soundManager->playSound`. -/
@[irreducible]
def update (s0 : LocateScene) (deltaTime : ℚ) : LocateScene × List Int :=
  if s0.finished then (s0, [])
  else
    let s1 := (s0.interpolate deltaTime).revealChar
    let settled := s1.mapAnimFinished
    let s2 := s1.trackSettled settled deltaTime
    if s2.timer > 8 ∧ s2.charIndex = (s2.stepLabel.length : Int) ∧ settled = true then
      advanceStep s2
    else (s2, [])

/-- The predicate `mapAnimFinished` of `update` in binary32: the differences are
rounded and `eps` is the literal `0.01f`. -/
def mapAnimFinished32 (s : LocateScene) : Bool :=
  decide (|f32 (s.zoom - s.targetZoom)| < f32 (1 / 100)) &&
  decide (|f32 (s.centerX - s.targetCenterX)| < f32 (1 / 100)) &&
  decide (|f32 (s.centerY - s.targetCenterY)| < f32 (1 / 100))

/-- The step change at the end of `LocateScene::update` with the literals
`0.4f` and `0.6f` as binary32 values; `5.0f`, `10.0f`, `20.0f` and `0.5f` are
exact. -/
def advanceStep32 (s : LocateScene) : LocateScene × List Int :=
  let cue : List Int := if s.soundManager then [2] else []
  if s.currentStep = 0 then
    ({ s with currentStep := 1, targetZoom := 5, targetCenterX := f32 (2 / 5),
              targetCenterY := f32 (3 / 5), timer := 0, charIndex := 0 }, cue)
  else if s.currentStep = 1 then
    ({ s with currentStep := 2, targetZoom := 10, targetCenterX := f32 (3 / 5),
              targetCenterY := f32 (2 / 5), timer := 0, charIndex := 0 }, cue)
  else if s.currentStep = 2 then
    ({ s with currentStep := 3, targetZoom := 20, targetCenterX := 1 / 2,
              targetCenterY := f32 (3 / 5), timer := 0, charIndex := 0 }, cue)
  else if s.currentStep = 3 then
    ({ s with finished := true }, [])
  else (s, [])

/-- One interpolation `v += (target - v) * lerpSpeed * deltaTime` in binary32:
the subtraction, the two products (from left to right) and the addition are
each rounded. -/
def lerp32 (v target deltaTime : ℚ) : ℚ :=
  f32 (v + f32 (f32 (f32 (target - v) * 3) * deltaTime))

/-- Lines 136 to 143 of `LocateScene::update` in binary32. -/
def interpolate32 (s : LocateScene) (deltaTime : ℚ) : LocateScene :=
  { s with
    timer := f32 (s.timer + deltaTime)
    charTimer := f32 (s.charTimer + deltaTime)
    zoom := lerp32 s.zoom s.targetZoom deltaTime
    centerX := lerp32 s.centerX s.targetCenterX deltaTime
    centerY := lerp32 s.centerY s.targetCenterY deltaTime }

/-- Lines 144 to 147 of `LocateScene::update` with the literal `0.1f`. -/
def revealChar32 (s : LocateScene) : LocateScene :=
  if s.charIndex < (s.stepLabel.length : Int) ∧ s.charTimer > f32 (1 / 10) then
    { s with charIndex := s.charIndex + 1, charTimer := 0 }
  else s

/-- Lines 153 to 164 of `LocateScene::update` in binary32. -/
def trackSettled32 (s : LocateScene) (settled : Bool) (deltaTime : ℚ) : LocateScene :=
  if settled then
    if s.locatingStarted = false then
      { s with locateAnimTimer := 0, locatingStarted := true }
    else { s with locateAnimTimer := f32 (s.locateAnimTimer + deltaTime) }
  else { s with locatingStarted := false, locateAnimTimer := 0 }

/-- Source: `LocateScene::update(float deltaTime)` in binary32. The second
component lists the indices passed to `soundManager->playSound`. -/
@[irreducible]
def update32 (s0 : LocateScene) (deltaTime : ℚ) : LocateScene × List Int :=
  if s0.finished then (s0, [])
  else
    let s1 := (s0.interpolate32 deltaTime).revealChar32
    let settled := s1.mapAnimFinished32
    let s2 := s1.trackSettled32 settled deltaTime
    if s2.timer > 8 ∧ s2.charIndex = (s2.stepLabel.length : Int) ∧ settled = true then
      advanceStep32 s2
    else (s2, [])

/-- The writes and sound calls of `LocateScene::render(..., time, ...)`: while the
map animation is settled, cue 5 is played whenever at least 1.43 s have passed
since the function-local `static float lastRadarSoundTime`, which is then set to
`time`. Returns the new value of that static and the cues played. -/
@[irreducible]
def render (s : LocateScene) (lastRadarSoundTime time : ℚ) : ℚ × List Int :=
  if s.mapAnimFinished then
    if time - lastRadarSoundTime ≥ 143 / 100 then
      (time, if s.soundManager then [5] else [])
    else (lastRadarSoundTime, [])
  else (lastRadarSoundTime, [])

/-- Source: `LocateScene::reset()`. -/
def reset (s : LocateScene) : LocateScene :=
  { s with
    currentStep := 0
    timer := 0
    finished := false
    charTimer := 0
    charIndex := 0
    zoom := 1
    targetZoom := 1
    centerX := 1 / 2
    centerY := 1 / 2
    targetCenterX := 1 / 2
    targetCenterY := 1 / 2
    locateAnimTimer := 0
    locatingStarted := false }

/-- Source: `struct MapNorm`, the longitude and latitude range of a map. -/
structure MapNorm where
  lon_min : ℚ
  lon_max : ℚ
  lat_min : ℚ
  lat_max : ℚ
  deriving DecidableEq, Repr

/-- Source: `const MapNorm norm_de = {5.0f, 16.0f, 47.0f, 55.0f};` -/
def norm_de : MapNorm := ⟨5, 16, 47, 55⟩

/-- Source: `const MapNorm norm_saar = {6.35f, 7.45f, 49.11f, 49.65f};` -/
def norm_saar : MapNorm := ⟨127 / 20, 149 / 20, 4911 / 100, 993 / 20⟩

/-- Source: `const MapNorm norm_htw = {6.970, 6.978, 49.234, 49.242};` -/
def norm_htw : MapNorm := ⟨697 / 100, 3489 / 500, 24617 / 500, 24621 / 500⟩

/-- The local `showHighlight` of `LocateScene::render`: set in the branches of
steps 0, 1 and 2. -/
def showHighlight (s : LocateScene) : Bool :=
  if s.currentStep = 0 then true
  else if s.currentStep = 1 then true
  else if s.currentStep = 2 then true
  else false

/-- The local `mapScale` of `LocateScene::render`; 0.5 is its initial value. -/
def mapScale (s : LocateScene) (height : Int) : ℚ :=
  if s.currentStep = 0 then (height : ℚ) * (1 / 50)
  else if s.currentStep = 1 then (height : ℚ) * (2 / 25)
  else if s.currentStep = 2 then (height : ℚ) * (1 / 25)
  else if s.currentStep = 3 then (height : ℚ) * (1 / 50)
  else 1 / 2

/-- The locating data of `LocateScene::render`: `(lon, lat, norm)` of the step. -/
def locatingData (s : LocateScene) : ℚ × ℚ × MapNorm :=
  if s.currentStep = 0 then (104515 / 10000, 511657 / 10000, norm_de)
  else if s.currentStep = 1 then (7, 247 / 5, norm_de)
  else if s.currentStep = 2 then (874 / 125, 1231 / 25, norm_saar)
  else if s.currentStep = 3 then
    (6973688439719524 / 1000000000000000, 4923571585936071 / 100000000000000, norm_htw)
  else (0, 0, norm_de)

/-- The locals `(startX, startY)` of `LocateScene::render`: the camera centre
`(cx, cy)`, called the radar center position there. -/
def startPoint (s : LocateScene) (width height : Int) : ℚ × ℚ :=
  (s.centerX * (width : ℚ), s.centerY * (height : ℚ))

/-- The locals `(targetX, targetY)` of `LocateScene::render`. -/
def targetPoint (s : LocateScene) (width height : Int) : ℚ × ℚ :=
  let cx := s.centerX * (width : ℚ)
  let cy := s.centerY * (height : ℚ)
  let lon := s.locatingData.1
  let lat := s.locatingData.2.1
  let norm := s.locatingData.2.2
  let x := (lon - norm.lon_min) / (norm.lon_max - norm.lon_min) * 2 - 1
  let y_ := (lat - norm.lat_min) / (norm.lat_max - norm.lat_min) * 2 - 1
  (cx + x * s.mapScale height, cy + y_ * s.mapScale height)

/-- The local `t` of `LocateScene::render`, the targeting progress; `radarDelay`
is 1.5 s. -/
def targetingProgress (s : LocateScene) : ℚ :=
  if s.locateAnimTimer > 3 / 2 then clamp ((s.locateAnimTimer - 3 / 2) * (1 / 2)) 0 1 else 0

/-- The point `(px, py)` of `LocateScene::render` for a progress `t`. -/
def markerAt (s : LocateScene) (width height : Int) (t : ℚ) : ℚ × ℚ :=
  ((s.startPoint width height).1 +
      ((s.targetPoint width height).1 - (s.startPoint width height).1) * t,
    (s.startPoint width height).2 +
      ((s.targetPoint width height).2 - (s.startPoint width height).2) * t)

/-- The targeting marker `LocateScene::render` draws, if any: only while the map
animation is settled and `t > 0`. -/
def marker (s : LocateScene) (width height : Int) : Option (ℚ × ℚ) :=
  if s.mapAnimFinished then
    if s.targetingProgress > 0 then some (s.markerAt width height s.targetingProgress)
    else none
  else none

/-- The `pulseScale` with which `LocateScene::render` draws the highlight, if it
draws one. The period, the threshold and the scale are the binary32 literals
`0.7f`, `0.15f` and `1.05f`; `fmod` of two binary32 values is exact. -/
def highlight (s : LocateScene) (time : ℚ) : Option ℚ :=
  if s.mapAnimFinished then
    if s.targetingProgress > 0 then
      if s.targetingProgress ≥ 1 ∧ s.showHighlight = true then
        some (if fmod time (f32 (7 / 10)) < f32 (3 / 20) then f32 (21 / 20) else 1)
      else none
    else none
  else none

/-- The calls a client can make on a locate scene (`render` writes no member). -/
inductive Op where
  | update (deltaTime : ℚ)
  | reset
  | setSoundManager
  deriving DecidableEq, Repr

/-- The scene after one call. -/
def step (s : LocateScene) : Op → LocateScene
  | Op.update deltaTime => (s.update deltaTime).1
  | Op.reset => s.reset
  | Op.setSoundManager => s.setSoundManager

/-- The scene after a sequence of calls; the reachable scenes are
`construct.exec ops`. -/
def exec (s : LocateScene) (ops : List Op) : LocateScene := ops.foldl step s

/-- An update with `0 ≤ deltaTime ≤ 1/3`, or another call. -/
def Op.gentle : Op → Bool
  | Op.update deltaTime => decide (0 ≤ deltaTime) && decide (deltaTime ≤ 1 / 3)
  | _ => true

/-- The step and the label index are within the labels. -/
def InRange (s : LocateScene) : Prop :=
  s.steps = construct.steps ∧ 0 ≤ s.currentStep ∧ s.currentStep ≤ 3 ∧ 0 ≤ s.charIndex ∧
    s.charIndex ≤ (s.stepLabel.length : Int)

/-- The scene after a sequence of `update(deltaTime)` calls. -/
def after (s : LocateScene) : List ℚ → LocateScene
  | [] => s
  | deltaTime :: rest => after (s.update deltaTime).1 rest

/-- The triples `(currentStep, charIndex, finished)` after each of a sequence of
`update(deltaTime)` calls. -/
def progress (s : LocateScene) : List ℚ → List (Int × Int × Bool)
  | [] => []
  | deltaTime :: rest =>
    ((s.update deltaTime).1.currentStep, (s.update deltaTime).1.charIndex,
        (s.update deltaTime).1.finished) ::
      progress (s.update deltaTime).1 rest

/-- The scene after the increments of one update: timers advanced, zoom and
centre interpolated, label character revealed, `locateAnimTimer` tracked; the
step change is still to come. -/
def stepped (s : LocateScene) (deltaTime : ℚ) : LocateScene :=
  ((s.interpolate deltaTime).revealChar).trackSettled
    ((s.interpolate deltaTime).revealChar).mapAnimFinished deltaTime

/-- The condition of the step change, read after the increments of the update:
the step timer exceeds 8.0 s, the label is fully revealed and the map animation
is settled. -/
def advanceDue (s : LocateScene) (deltaTime : ℚ) : Prop :=
  (s.stepped deltaTime).timer > 8 ∧
    (s.stepped deltaTime).charIndex = ((s.stepped deltaTime).stepLabel.length : Int) ∧
    (s.stepped deltaTime).mapAnimFinished = true

/-- The targets `(targetZoom, targetCenterX, targetCenterY)` set on leaving step
0, 1 and 2. -/
def nextTarget (step : Int) : ℚ × ℚ × ℚ :=
  if step = 0 then (5, 2 / 5, 3 / 5)
  else if step = 1 then (10, 3 / 5, 2 / 5)
  else (20, 1 / 2, 3 / 5)

/-- The scene after the increments of one binary32 update: timers advanced,
zoom and centre interpolated, label character revealed, `locateAnimTimer`
tracked; the step change is still to come. -/
def stepped32 (s : LocateScene) (deltaTime : ℚ) : LocateScene :=
  ((s.interpolate32 deltaTime).revealChar32).trackSettled32
    ((s.interpolate32 deltaTime).revealChar32).mapAnimFinished32 deltaTime

/-- The condition of the step change in binary32, read after the increments of
the update: the step timer exceeds 8.0 s, the label is fully revealed and the
map animation is settled. -/
def advanceDue32 (s : LocateScene) (deltaTime : ℚ) : Prop :=
  (s.stepped32 deltaTime).timer > 8 ∧
    (s.stepped32 deltaTime).charIndex = ((s.stepped32 deltaTime).stepLabel.length : Int) ∧
    (s.stepped32 deltaTime).mapAnimFinished32 = true

/-- The targets `(targetZoom, targetCenterX, targetCenterY)` set on leaving step
0, 1 and 2: `(5.0f, 0.4f, 0.6f)`, `(10.0f, 0.6f, 0.4f)`, `(20.0f, 0.5f, 0.6f)`. -/
def nextTarget32 (step : Int) : ℚ × ℚ × ℚ :=
  if step = 0 then (5, f32 (2 / 5), f32 (3 / 5))
  else if step = 1 then (10, f32 (3 / 5), f32 (2 / 5))
  else (20, 1 / 2, f32 (3 / 5))

/-- The scene after one call, updates in binary32. -/
def step32 (s : LocateScene) : Op → LocateScene
  | Op.update deltaTime => (s.update32 deltaTime).1
  | Op.reset => s.reset
  | Op.setSoundManager => s.setSoundManager

/-- The scene after a sequence of calls, updates in binary32; the reachable
scenes are `construct.exec32 ops`. -/
def exec32 (s : LocateScene) (ops : List Op) : LocateScene := ops.foldl step32 s

/-- An update whose `deltaTime` is a binary32 value with `0 ≤ deltaTime ≤ 1/3`,
or another call. -/
def Op.gentle32 : Op → Bool
  | Op.update deltaTime =>
    decide (f32 deltaTime = deltaTime) && decide (0 ≤ deltaTime) && decide (deltaTime ≤ 1 / 3)
  | _ => true

/-- What every locate scene reached in binary32 satisfies: zoom and centre are
binary32 values, the zoom lies between 0.5 and its target, the centre between
`0.4f` and `0.6f`, and the targets are those of the step: `(1, 0.5, 0.5)` from
the constructor or `reset`, then the three triples of the step changes. -/
def OnTrack32 (s : LocateScene) : Prop :=
  f32 s.zoom = s.zoom ∧ f32 s.centerX = s.centerX ∧ f32 s.centerY = s.centerY ∧
  1 / 2 ≤ s.zoom ∧ s.zoom ≤ s.targetZoom ∧
  f32 (2 / 5) ≤ s.centerX ∧ s.centerX ≤ f32 (3 / 5) ∧
  f32 (2 / 5) ≤ s.centerY ∧ s.centerY ≤ f32 (3 / 5) ∧
  ((s.currentStep = 0 ∧ s.targetZoom = 1 ∧ s.targetCenterX = 1 / 2 ∧ s.targetCenterY = 1 / 2) ∨
    (s.currentStep = 1 ∧ s.targetZoom = 5 ∧ s.targetCenterX = f32 (2 / 5) ∧
      s.targetCenterY = f32 (3 / 5)) ∨
    (s.currentStep = 2 ∧ s.targetZoom = 10 ∧ s.targetCenterX = f32 (3 / 5) ∧
      s.targetCenterY = f32 (2 / 5)) ∨
    (s.currentStep = 3 ∧ s.targetZoom = 20 ∧ s.targetCenterX = 1 / 2 ∧
      s.targetCenterY = f32 (3 / 5)))

end LocateScene

/-! ## CRTEffect (`graphics/CRTEffect.h`, `graphics/CRTEffect.cpp`) -/

/-- The state of `class CRTEffect` that its size functions read and write: the
dimensions of the storage of `screenTexture`, which OpenGL keeps. The object
handles (`fbo`, `screenTexture`, the quad, the shader program) are left out. -/
structure CRTEffect where
  textureWidth : Int
  textureHeight : Int
  deriving DecidableEq, Repr

namespace CRTEffect

/-- Source: `CRTEffect::resize(int width, int height)`: it binds the texture and
calls `glTexImage2D(..., width, height, ..., NULL)`, which allocates new
storage of that size. The second component counts the `glTexImage2D` calls. -/
def resize (_c : CRTEffect) (width height : Int) : CRTEffect × Nat :=
  ({ textureWidth := width, textureHeight := height }, 1)

/-- Source: `CRTEffect::getWidth()`, which reads `GL_TEXTURE_WIDTH` back. -/
def getWidth (c : CRTEffect) : Int := c.textureWidth

/-- Source: `CRTEffect::getHeight()`, which reads `GL_TEXTURE_HEIGHT` back. -/
def getHeight (c : CRTEffect) : Int := c.textureHeight

end CRTEffect

/-! ## The main loop (`main.cpp`, lines 160 to 392) -/

/-- The `enum AppState` declared in `main`. -/
inductive AppState where
  | STATE_LOGIN
  | STATE_TERMINAL
  | STATE_COLLAPSE
  | STATE_BLACKSCREEN
  | STATE_REBUILD
  | STATE_LOCATE
  | STATE_RESET_COLLAPSE
  | STATE_RESET_BLACKSCREEN
  | STATE_RESET_REBUILD
  deriving DecidableEq, Repr

/-- Calls that leave the modelled state: one constructor per call site kind of
the main loop and of the scene methods it runs. -/
inductive Effect where
  /-- The call `font.load(path, fontPixelSize)` of the resize branch. -/
  | fontLoad (fontPixelSize : Int)
  /-- The call `crtEffect.resize(width, height)`. -/
  | crtResize (width height : Int)
  /-- The call `tvEffectScene.resize(width, height)`. -/
  | tvResize (width height : Int)
  /-- The call `crtEffect.beginRender()`. -/
  | beginRender
  /-- The call `crtEffect.endRender()`. -/
  | endRender
  /-- The call `loginScene.render(...)`. -/
  | loginRender
  /-- The call `terminalAnimation.render(...)`. -/
  | terminalRender
  /-- The call `locateScene.render(...)`. -/
  | locateRender
  /-- One invocation of a scene's `onTypeCallback`, bound in `main` to
  `soundManager.playRandomSound()`. -/
  | typeCallback
  /-- The call `soundManager->playSound(index)` made inside `LocateScene`. -/
  | locateSound (index : Int)
  /-- The call `soundManager.playSound(index)` made by `main` itself. -/
  | playSound (index : Int)
  /-- The call `soundManager.playBackgroundSound()`. -/
  | playBackgroundSound
  /-- The call `soundManager.stopBackgroundSound()`. -/
  | stopBackgroundSound
  /-- The call `loginScene.reset()`. -/
  | loginReset
  /-- The call `terminalAnimation.reset()`. -/
  | terminalReset
  /-- The call `locateScene.reset()`. -/
  | locateReset
  /-- The black screen branch: `glClearColor(0, 0.1 * (1 - fade), 0, 1); glClear(...)`. -/
  | clearFade (fade : ℚ)
  /-- The call `crtEffect.render(time)`. -/
  | crtRender (time : ℚ)
  /-- The call `tvEffectScene.render(time, closeAnim)`. -/
  | tvRender (time closeAnim : ℚ)
  deriving DecidableEq, Repr

/-- Everything the main loop carries from one iteration to the next: the locals
of `main` declared before the loop, the three scenes, the size of the offscreen
texture that `crtEffect.getWidth()` and `getHeight()` read back, and the
function-local static `lastRadarSoundTime` of `LocateScene::render`. -/
structure App where
  loginScene : LoginScene
  terminalAnimation : TerminalScene
  locateScene : LocateScene
  lastRadarSoundTime : ℚ
  crtWidth : Int
  crtHeight : Int
  lastFontSize : Int
  lastTime : ℚ
  appState : AppState
  tvCloseAnim : ℚ
  collapseStartTime : ℚ
  blackScreenStartTime : ℚ
  rebuildStartTime : ℚ
  locateSceneStartTime : ℚ
  backgroundSoundPlaying : Bool
  firstLocateEnter : Bool
  lastWidth : Int
  lastHeight : Int
  deriving DecidableEq, Repr

namespace App

/-- The state on entry to the main loop (`main.cpp`, lines 137 to 187): scenes
constructed and wired to the sound manager, `crtEffect.initialize(width, height)`
done, `lastTime = glfwGetTime()`. -/
def init (u : TerminalScene.Indeterminate) (width height : Int) (startTime : ℚ) : App :=
  { loginScene := LoginScene.construct.setOnTypeCallback
    terminalAnimation := (TerminalScene.construct u).setOnTypeCallback
    locateScene := LocateScene.construct.setSoundManager
    lastRadarSoundTime := -100
    crtWidth := width
    crtHeight := height
    lastFontSize := 0
    lastTime := startTime
    appState := AppState.STATE_LOGIN
    tvCloseAnim := 0
    collapseStartTime := 0
    blackScreenStartTime := 0
    rebuildStartTime := 0
    locateSceneStartTime := 0
    backgroundSoundPlaying := false
    firstLocateEnter := true
    lastWidth := 0
    lastHeight := 0 }

/-- The test `appState != STATE_BLACKSCREEN && appState != STATE_RESET_BLACKSCREEN`
that guards `beginRender` (line 230) and `endRender` (line 365). -/
def notBlack (st : AppState) : Bool :=
  st != AppState.STATE_BLACKSCREEN && st != AppState.STATE_RESET_BLACKSCREEN

/-- Lines 195 to 210: font reload and offscreen resize when the framebuffer size
changed. -/
def resizeStage (a : App) (width height : Int) : App × List Effect :=
  let r1 : App × List Effect :=
    if width ≠ a.lastWidth ∨ height ≠ a.lastHeight then
      let fontPixelSize : Int := max 16 (Int.tdiv height 32)
      ({ a with lastFontSize := fontPixelSize, lastWidth := width, lastHeight := height },
        [Effect.fontLoad fontPixelSize])
    else (a, [])
  let a1 := r1.1
  if width ≠ a1.crtWidth ∨ height ≠ a1.crtHeight then
    ({ a1 with crtWidth := width, crtHeight := height },
      r1.2 ++ [Effect.crtResize width height, Effect.tvResize width height])
  else (a1, r1.2)

/-- Lines 229 to 234: the offscreen pass is begun unless the state, as it is
before the switch, is one of the two black screen states. -/
def beginStage (a : App) : List Effect :=
  if notBlack a.appState then [Effect.beginRender] else []

/-- Lines 237 to 251: `case STATE_LOGIN`. -/
def caseLogin (a : App) (deltaTime : ℚ) : App × List Effect :=
  let r := a.loginScene.update deltaTime
  let a1 := { a with loginScene := r.1 }
  let e1 := List.replicate r.2 Effect.typeCallback ++ [Effect.loginRender]
  let a2 :=
    if a1.loginScene.isFinished then { a1 with appState := AppState.STATE_TERMINAL } else a1
  if a2.backgroundSoundPlaying = false then
    ({ a2 with backgroundSoundPlaying := true }, e1 ++ [Effect.playBackgroundSound])
  else (a2, e1)

/-- Lines 253 to 264: `case STATE_TERMINAL`. -/
def caseTerminal (a : App) (now : ℚ) : App × List Effect :=
  let r := a.terminalAnimation.update now
  let a1 := { a with terminalAnimation := r.1.render now }
  let e1 := List.replicate r.2 Effect.typeCallback ++ [Effect.terminalRender]
  if a1.terminalAnimation.isFinished then
    ({ a1 with appState := AppState.STATE_COLLAPSE, collapseStartTime := now },
      e1 ++ [Effect.playSound 6])
  else (a1, e1)

/-- Lines 266 to 276 and 320 to 330: `case STATE_COLLAPSE` and
`case STATE_RESET_COLLAPSE`, which differ only in the state they assign. -/
def caseCollapse (a : App) (now : ℚ) (target : AppState) : App × List Effect :=
  let t := (now - a.collapseStartTime) / (3 / 4)
  let a1 := { a with tvCloseAnim := easeInQuad (min t 1) }
  if t ≥ 1 then
    ({ a1 with appState := target, blackScreenStartTime := now }, [])
  else (a1, [])

/-- Lines 278 to 287 and 332 to 341: `case STATE_BLACKSCREEN` and
`case STATE_RESET_BLACKSCREEN`, which differ only in the state they assign. -/
def caseBlackscreen (a : App) (now : ℚ) (target : AppState) : App × List Effect :=
  let t := (now - a.blackScreenStartTime) / 1
  if t ≥ 1 then
    ({ a with appState := target, rebuildStartTime := now }, [Effect.playSound 7])
  else (a, [])

/-- Lines 289 to 298: `case STATE_REBUILD`. -/
def caseRebuild (a : App) (now : ℚ) : App × List Effect :=
  let t := (now - a.rebuildStartTime) / (5 / 4)
  let a1 := { a with tvCloseAnim := 1 - easeOutQuad (min t 1) }
  if t ≥ 1 then
    ({ a1 with appState := AppState.STATE_LOCATE }, [])
  else (a1, [])

/-- Lines 300 to 318: `case STATE_LOCATE`. -/
def caseLocate (a : App) (now deltaTime : ℚ) : App × List Effect :=
  let r := a.locateScene.update deltaTime
  let rr := r.1.render a.lastRadarSoundTime now
  let a1 := { a with locateScene := r.1, lastRadarSoundTime := rr.1 }
  let e1 := r.2.map Effect.locateSound ++ [Effect.locateRender] ++ rr.2.map Effect.locateSound
  let a2 :=
    if a1.firstLocateEnter then
      { a1 with locateSceneStartTime := now, firstLocateEnter := false }
    else a1
  if now - a2.locateSceneStartTime ≥ 3 ∧ a2.locateScene.isFinished = true then
    ({ a2 with
        appState := AppState.STATE_RESET_COLLAPSE
        collapseStartTime := now
        firstLocateEnter := true },
      e1 ++ [Effect.playSound 6])
  else (a2, e1)

/-- Lines 343 to 361: `case STATE_RESET_REBUILD`. -/
def caseResetRebuild (a : App) (now : ℚ) : App × List Effect :=
  let t := (now - a.rebuildStartTime) / (5 / 4)
  let a1 := { a with tvCloseAnim := 1 - easeOutQuad (min t 1) }
  if t ≥ 1 then
    ({ a1 with
        loginScene := a1.loginScene.reset
        terminalAnimation := a1.terminalAnimation.reset
        locateScene := a1.locateScene.reset
        appState := AppState.STATE_LOGIN
        backgroundSoundPlaying := false },
      [Effect.loginReset, Effect.terminalReset, Effect.locateReset,
        Effect.stopBackgroundSound])
  else (a1, [])

/-- The local `t` of `case STATE_REBUILD` and of `case STATE_RESET_REBUILD` in
binary32: `(now - rebuildStartTime) / 1.25f`, the difference and the quotient
each rounded (`1.25f` is exact). -/
def rebuildProgress32 (a : App) (now : ℚ) : ℚ := f32 (f32 (now - a.rebuildStartTime) / (5 / 4))

/-- Lines 289 to 298: `case STATE_REBUILD`, in binary32. -/
def caseRebuild32 (a : App) (now : ℚ) : App × List Effect :=
  let t := a.rebuildProgress32 now
  let a1 := { a with tvCloseAnim := f32 (1 - easeOutQuad32 (min t 1)) }
  if t ≥ 1 then
    ({ a1 with appState := AppState.STATE_LOCATE }, [])
  else (a1, [])

/-- Lines 343 to 361: `case STATE_RESET_REBUILD`, in binary32. -/
def caseResetRebuild32 (a : App) (now : ℚ) : App × List Effect :=
  let t := a.rebuildProgress32 now
  let a1 := { a with tvCloseAnim := f32 (1 - easeOutQuad32 (min t 1)) }
  if t ≥ 1 then
    ({ a1 with
        loginScene := a1.loginScene.reset
        terminalAnimation := a1.terminalAnimation.reset
        locateScene := a1.locateScene.reset
        appState := AppState.STATE_LOGIN
        backgroundSoundPlaying := false },
      [Effect.loginReset, Effect.terminalReset, Effect.locateReset,
        Effect.stopBackgroundSound])
  else (a1, [])

/-- Lines 236 to 362: the `switch (appState)`. -/
def switchStage (a : App) (now deltaTime : ℚ) : App × List Effect :=
  match a.appState with
  | AppState.STATE_LOGIN => a.caseLogin deltaTime
  | AppState.STATE_TERMINAL => a.caseTerminal now
  | AppState.STATE_COLLAPSE => a.caseCollapse now AppState.STATE_BLACKSCREEN
  | AppState.STATE_BLACKSCREEN => a.caseBlackscreen now AppState.STATE_REBUILD
  | AppState.STATE_REBUILD => a.caseRebuild now
  | AppState.STATE_LOCATE => a.caseLocate now deltaTime
  | AppState.STATE_RESET_COLLAPSE => a.caseCollapse now AppState.STATE_RESET_BLACKSCREEN
  | AppState.STATE_RESET_BLACKSCREEN => a.caseBlackscreen now AppState.STATE_RESET_REBUILD
  | AppState.STATE_RESET_REBUILD => a.caseResetRebuild now

/-- Lines 364 to 367: the offscreen pass is ended unless the state, as it is
after the switch, is one of the two black screen states. -/
def endStage (a : App) : List Effect :=
  if notBlack a.appState then [Effect.endRender] else []

/-- Lines 369 to 388: what is drawn to the window, chosen by the state as it is
after the switch. -/
def presentStage (a : App) (now : ℚ) : List Effect :=
  if a.appState = AppState.STATE_BLACKSCREEN ∨ a.appState = AppState.STATE_RESET_BLACKSCREEN then
    let t := (now - a.blackScreenStartTime) / 1
    let fade := easeInQuad (min t 1)
    [Effect.clearFade fade]
  else if a.appState = AppState.STATE_COLLAPSE ∨ a.appState = AppState.STATE_REBUILD ∨
      a.appState = AppState.STATE_RESET_COLLAPSE ∨ a.appState = AppState.STATE_RESET_REBUILD then
    [Effect.crtRender now, Effect.tvRender now a.tvCloseAnim]
  else [Effect.crtRender now]

/-- One iteration of the `while` loop of `main`, for the clock value `now` and
the framebuffer size `width`, `height` read in that iteration. -/
def frame (a : App) (now : ℚ) (width height : Int) : App × List Effect :=
  let deltaTime := now - a.lastTime
  let a0 := { a with lastTime := now }
  let r1 := a0.resizeStage width height
  let e2 := r1.1.beginStage
  let r3 := r1.1.switchStage now deltaTime
  let e4 := r3.1.endStage
  let e5 := r3.1.presentStage now
  (r3.1, r1.2 ++ e2 ++ r3.2 ++ e4 ++ e5)

end App

/-! ## Runs of the main loop and the vocabulary of the properties -/

/-- What one iteration of the main loop reads from its environment: the clock
(`glfwGetTime()`) and the framebuffer size (`getFramebufferSize`). -/
structure FrameInput where
  now : ℚ
  width : Int
  height : Int
  deriving DecidableEq, Repr

namespace App

/-- State after running the main loop over the given inputs, one frame each. -/
def run (a : App) : List FrameInput → App
  | [] => a
  | i :: rest => run (a.frame i.now i.width i.height).1 rest

/-- Effects of running the main loop over the given inputs, in program order. -/
def trace (a : App) : List FrameInput → List Effect
  | [] => []
  | i :: rest =>
    (a.frame i.now i.width i.height).2 ++ trace (a.frame i.now i.width i.height).1 rest

/-- Number of frames of a run in which `appState` changes. -/
def changes (a : App) : List FrameInput → Nat
  | [] => 0
  | i :: rest =>
    (if (a.frame i.now i.width i.height).1.appState ≠ a.appState then 1 else 0) +
      changes (a.frame i.now i.width i.height).1 rest

/-- The start timestamp that the current state compares `now` against:
`collapseStartTime`, `blackScreenStartTime` or `rebuildStartTime` in the six timed
states (and, for definiteness, `lastTime` in the three scene states). -/
def stateStart (a : App) : ℚ :=
  match a.appState with
  | AppState.STATE_COLLAPSE => a.collapseStartTime
  | AppState.STATE_RESET_COLLAPSE => a.collapseStartTime
  | AppState.STATE_BLACKSCREEN => a.blackScreenStartTime
  | AppState.STATE_RESET_BLACKSCREEN => a.blackScreenStartTime
  | AppState.STATE_REBUILD => a.rebuildStartTime
  | AppState.STATE_RESET_REBUILD => a.rebuildStartTime
  | _ => a.lastTime

/-- The state a frame hands to the switch: the clock stored, the resize done. -/
def preSwitch (a : App) (now : ℚ) (width height : Int) : App :=
  (({ a with lastTime := now } : App).resizeStage width height).1

/-- The instant stored in `locateSceneStartTime` once the `firstLocateEnter`
branch of `case STATE_LOCATE` has run. -/
def locateStart (a : App) (now : ℚ) : ℚ :=
  if a.firstLocateEnter then now else a.locateSceneStartTime

end App

/-- Successor of a state in the cycle `LOGIN, TERMINAL, COLLAPSE, BLACKSCREEN,
REBUILD, LOCATE, RESET_COLLAPSE, RESET_BLACKSCREEN, RESET_REBUILD, LOGIN`. -/
def AppState.next : AppState → AppState
  | STATE_LOGIN => STATE_TERMINAL
  | STATE_TERMINAL => STATE_COLLAPSE
  | STATE_COLLAPSE => STATE_BLACKSCREEN
  | STATE_BLACKSCREEN => STATE_REBUILD
  | STATE_REBUILD => STATE_LOCATE
  | STATE_LOCATE => STATE_RESET_COLLAPSE
  | STATE_RESET_COLLAPSE => STATE_RESET_BLACKSCREEN
  | STATE_RESET_BLACKSCREEN => STATE_RESET_REBUILD
  | STATE_RESET_REBUILD => STATE_LOGIN

/-- Predecessor of a state in the same cycle. -/
def AppState.prev : AppState → AppState
  | STATE_LOGIN => STATE_RESET_REBUILD
  | STATE_TERMINAL => STATE_LOGIN
  | STATE_COLLAPSE => STATE_TERMINAL
  | STATE_BLACKSCREEN => STATE_COLLAPSE
  | STATE_REBUILD => STATE_BLACKSCREEN
  | STATE_LOCATE => STATE_REBUILD
  | STATE_RESET_COLLAPSE => STATE_LOCATE
  | STATE_RESET_BLACKSCREEN => STATE_RESET_COLLAPSE
  | STATE_RESET_REBUILD => STATE_RESET_BLACKSCREEN

/-- Duration of the six timed transition states, in seconds: the divisors
`0.75f`, `1.0f` and `1.25f` of the switch. The three scene states have none. -/
def AppState.duration : AppState → Option ℚ
  | STATE_COLLAPSE => some (3 / 4)
  | STATE_RESET_COLLAPSE => some (3 / 4)
  | STATE_BLACKSCREEN => some 1
  | STATE_RESET_BLACKSCREEN => some 1
  | STATE_REBUILD => some (5 / 4)
  | STATE_RESET_REBUILD => some (5 / 4)
  | _ => none

/-- The state reached from a state by `k` steps along the cycle. -/
def AppState.advance : AppState → Nat → AppState
  | st, 0 => st
  | st, k + 1 => AppState.advance st.next k

/-- What a frame that ends in the given state presents, as the specification
words it: in the two black screen states only a clear whose fade is
`easeInQuad(min(now - blackStart, 1))`; in the four transition states the base
post-effect followed by the overlay with the current `closeAnim`; in the three
scene states the base post-effect alone. -/
def presentOf (st : AppState) (now blackStart closeAnim : ℚ) : List Effect :=
  match st with
  | AppState.STATE_BLACKSCREEN => [Effect.clearFade (easeInQuad (min (now - blackStart) 1))]
  | AppState.STATE_RESET_BLACKSCREEN =>
    [Effect.clearFade (easeInQuad (min (now - blackStart) 1))]
  | AppState.STATE_COLLAPSE => [Effect.crtRender now, Effect.tvRender now closeAnim]
  | AppState.STATE_REBUILD => [Effect.crtRender now, Effect.tvRender now closeAnim]
  | AppState.STATE_RESET_COLLAPSE => [Effect.crtRender now, Effect.tvRender now closeAnim]
  | AppState.STATE_RESET_REBUILD => [Effect.crtRender now, Effect.tvRender now closeAnim]
  | AppState.STATE_LOGIN => [Effect.crtRender now]
  | AppState.STATE_TERMINAL => [Effect.crtRender now]
  | AppState.STATE_LOCATE => [Effect.crtRender now]

/-- The cue index of an effect, when the effect is a `soundManager.playSound`
call made by `main` itself. -/
def Effect.cue : Effect → Option Int
  | playSound i => some i
  | _ => none

/-- The cues `main` itself fires in a list of effects, in order. -/
def cues (es : List Effect) : List Int := es.filterMap Effect.cue

/-- Whether an effect restarts the presentation or switches the background
loop: the three `reset()` calls, `stopBackgroundSound` and
`playBackgroundSound`. -/
def Effect.isLifecycle : Effect → Bool
  | loginReset => true
  | terminalReset => true
  | locateReset => true
  | stopBackgroundSound => true
  | playBackgroundSound => true
  | _ => false

/-- The restart and background loop effects in a list of effects, in order. -/
def lifecycle (es : List Effect) : List Effect := es.filter Effect.isLifecycle

/-- Position of a state in the cycle, `LOGIN` being 0 and `RESET_REBUILD` 8. -/
def AppState.index : AppState → Nat
  | STATE_LOGIN => 0
  | STATE_TERMINAL => 1
  | STATE_COLLAPSE => 2
  | STATE_BLACKSCREEN => 3
  | STATE_REBUILD => 4
  | STATE_LOCATE => 5
  | STATE_RESET_COLLAPSE => 6
  | STATE_RESET_BLACKSCREEN => 7
  | STATE_RESET_REBUILD => 8

/-- Whether an effect is a call of `crtEffect.resize`, which allocates the
storage of the offscreen texture. -/
def Effect.isCrtResize : Effect → Bool
  | crtResize _ _ => true
  | _ => false

/-- The `crtEffect.resize` calls in a list of effects, in order. -/
def reallocations (es : List Effect) : List Effect := es.filter Effect.isCrtResize

/-- Whether an effect opens or closes the offscreen pass: `beginRender` or
`endRender`. -/
def Effect.isPass : Effect → Bool
  | beginRender => true
  | endRender => true
  | _ => false

/-- The `beginRender` and `endRender` calls in a list of effects, in order. -/
def passes (es : List Effect) : List Effect := es.filter Effect.isPass

/-- Whether an effect draws to the window: the fading clear, the base
post-effect pass, or the overlay pass. -/
def Effect.isPresent : Effect → Bool
  | clearFade _ => true
  | crtRender _ => true
  | tvRender _ _ => true
  | _ => false

/-- The effects in a list that draw to the window, in order. -/
def presented (es : List Effect) : List Effect := es.filter Effect.isPresent

/-- Whether the transition from a state to its successor fires the given cue:
cue 6 on entering `COLLAPSE` and `RESET_COLLAPSE`, cue 7 on entering `REBUILD`
and `RESET_REBUILD`. -/
def AppState.exitCue : AppState → List Int
  | STATE_TERMINAL => [6]
  | STATE_LOCATE => [6]
  | STATE_BLACKSCREEN => [7]
  | STATE_RESET_BLACKSCREEN => [7]
  | _ => []

/-- The cues fired by `k` successive transitions along the cycle, starting from
the given state. -/
def cuesDue : AppState → Nat → List Int
  | _, 0 => []
  | st, k + 1 => st.exitCue ++ cuesDue st.next k

/-! ## Sample states -/

/-- A login scene one update before its end: both strings typed, the
`ACCESS_GRANTED` message shown for 1.4 s. -/
def sampleLogin : LoginScene :=
  { LoginScene.construct.setOnTypeCallback with
    stage := LoginScene.Stage.ACCESS_GRANTED
    typedUsername := "htw saar".toList
    typedPassword := "********".toList
    charIndex := 8
    verifyingDots := 16 / 5
    accessTimer := 7 / 5 }

/-- A terminal scene whose seven code lines are complete, the last one at
`t = 40`. -/
def sampleTerminal : TerminalScene :=
  { (TerminalScene.construct ⟨0, 0, 0, false⟩).setOnTypeCallback with
    displayedTextDirectory := "user@retroterminal:~$ cd RetroTerminal/".toList
    displayedTextFile := "user@retroterminal:~RetroTerminal$ ./RetroTerminal".toList
    animationIndex := 17
    animationIndexFile := 15
    animationLastTime := 14
    fileTypingStartTime := 12
    codeLineIndex := 7
    lastCodeLineTime := 40
    demoStarted := true
    demoStartTime := 15
    finished := true
    currentTime := 41 }

/-- A locate scene that has finished its fourth step. -/
def sampleLocate : LocateScene :=
  { LocateScene.construct.setSoundManager with
    currentStep := 3
    timer := 9
    finished := true
    charTimer := 5
    charIndex := 18
    zoom := 20
    targetZoom := 20
    centerX := 1 / 2
    centerY := 3 / 5
    targetCenterX := 1 / 2
    targetCenterY := 3 / 5
    locateAnimTimer := 8
    locatingStarted := true }

/-- A locate scene at step 0, reached from construction by 31 updates of a
quarter of a second and one of 0.24 s: the map is settled, the label is fully
revealed and the step timer stands at 7.99 s. -/
def nearAdvance : LocateScene :=
  LocateScene.construct.setSoundManager.after (List.replicate 31 (1 / 4) ++ [6 / 25])

/-- A locate scene at step 0 with a settled map and the step timer at 7.99 s
whose label still lacks its last character: the scene after `reset()` with the
timer and 14 revealed characters written in. -/
def nearAdvanceUnrevealed : LocateScene :=
  { LocateScene.construct.setSoundManager.reset with timer := 799 / 100, charIndex := 14 }

/-- An application state in the given `appState` whose scenes are the sample
scenes above and whose timed state, if any, started at `t = 100`. -/
def sampleApp (st : AppState) : App :=
  { App.init ⟨0, 0, 0, false⟩ 800 600 0 with
    loginScene := sampleLogin
    terminalAnimation := sampleTerminal
    locateScene := sampleLocate
    lastTime := 100
    appState := st
    tvCloseAnim := 0
    collapseStartTime := 100
    blackScreenStartTime := 100
    rebuildStartTime := 100
    locateSceneStartTime := 90
    backgroundSoundPlaying := true
    firstLocateEnter := false
    lastFontSize := 18
    lastWidth := 800
    lastHeight := 600 }

/-- The offscreen target of an application state, as `crtEffect` holds it. -/
def App.crtEffect (a : App) : CRTEffect := ⟨a.crtWidth, a.crtHeight⟩

/-- The application as `main` starts it at clock value 0 with an 800 by 600
framebuffer, the uninitialised `codeCharIndex` of the terminal scene holding 5. -/
def startApp : App := App.init ⟨5, 0, 0, false⟩ 800 600 0

/-- The inputs of `n` frames drawn at a steady four frames per second. -/
def steadyFrames (n : Nat) : List FrameInput :=
  (List.range n).map fun k => ⟨((k : ℚ) + 1) / 4, 800, 600⟩

/-- A locate scene with a sound manager at step 0 with its label revealed, the
map settled on its target and the step timer at `7.99f`. -/
def nearAdvance32 : LocateScene :=
  { LocateScene.construct.setSoundManager with
    timer := f32 (799 / 100)
    charTimer := f32 (649 / 100)
    charIndex := 15
    zoom := 1
    locateAnimTimer := f32 (749 / 100)
    locatingStarted := true }

namespace App

@[simp]
theorem resizeStage_loginScene (a : App) (width height : Int) :
    (a.resizeStage width height).1.loginScene = a.loginScene := by
  simp only [resizeStage]
  split_ifs <;> rfl

@[simp]
theorem resizeStage_terminalAnimation (a : App) (width height : Int) :
    (a.resizeStage width height).1.terminalAnimation = a.terminalAnimation := by
  simp only [resizeStage]
  split_ifs <;> rfl

@[simp]
theorem resizeStage_locateScene (a : App) (width height : Int) :
    (a.resizeStage width height).1.locateScene = a.locateScene := by
  simp only [resizeStage]
  split_ifs <;> rfl

@[simp]
theorem resizeStage_lastRadarSoundTime (a : App) (width height : Int) :
    (a.resizeStage width height).1.lastRadarSoundTime = a.lastRadarSoundTime := by
  simp only [resizeStage]
  split_ifs <;> rfl

@[simp]
theorem resizeStage_lastTime (a : App) (width height : Int) :
    (a.resizeStage width height).1.lastTime = a.lastTime := by
  simp only [resizeStage]
  split_ifs <;> rfl

@[simp]
theorem resizeStage_appState (a : App) (width height : Int) :
    (a.resizeStage width height).1.appState = a.appState := by
  simp only [resizeStage]
  split_ifs <;> rfl

@[simp]
theorem resizeStage_tvCloseAnim (a : App) (width height : Int) :
    (a.resizeStage width height).1.tvCloseAnim = a.tvCloseAnim := by
  simp only [resizeStage]
  split_ifs <;> rfl

@[simp]
theorem resizeStage_collapseStartTime (a : App) (width height : Int) :
    (a.resizeStage width height).1.collapseStartTime = a.collapseStartTime := by
  simp only [resizeStage]
  split_ifs <;> rfl

@[simp]
theorem resizeStage_blackScreenStartTime (a : App) (width height : Int) :
    (a.resizeStage width height).1.blackScreenStartTime = a.blackScreenStartTime := by
  simp only [resizeStage]
  split_ifs <;> rfl

@[simp]
theorem resizeStage_rebuildStartTime (a : App) (width height : Int) :
    (a.resizeStage width height).1.rebuildStartTime = a.rebuildStartTime := by
  simp only [resizeStage]
  split_ifs <;> rfl

@[simp]
theorem resizeStage_locateSceneStartTime (a : App) (width height : Int) :
    (a.resizeStage width height).1.locateSceneStartTime = a.locateSceneStartTime := by
  simp only [resizeStage]
  split_ifs <;> rfl

@[simp]
theorem resizeStage_backgroundSoundPlaying (a : App) (width height : Int) :
    (a.resizeStage width height).1.backgroundSoundPlaying = a.backgroundSoundPlaying := by
  simp only [resizeStage]
  split_ifs <;> rfl

@[simp]
theorem resizeStage_firstLocateEnter (a : App) (width height : Int) :
    (a.resizeStage width height).1.firstLocateEnter = a.firstLocateEnter := by
  simp only [resizeStage]
  split_ifs <;> rfl

theorem caseLogin_appState (a : App) (deltaTime : ℚ) :
    (a.caseLogin deltaTime).1.appState =
      if (a.loginScene.update deltaTime).1.isFinished then AppState.STATE_TERMINAL
      else a.appState := by
  simp only [caseLogin]
  split_ifs <;> rfl

theorem caseTerminal_appState (a : App) (now : ℚ) :
    (a.caseTerminal now).1.appState =
      if ((a.terminalAnimation.update now).1.render now).isFinished then AppState.STATE_COLLAPSE
      else a.appState := by
  simp only [caseTerminal]
  split_ifs <;> rfl

theorem caseCollapse_appState (a : App) (now : ℚ) (target : AppState) :
    (a.caseCollapse now target).1.appState =
      if (now - a.collapseStartTime) / (3 / 4) ≥ 1 then target else a.appState := by
  simp only [caseCollapse]
  split_ifs <;> rfl

theorem caseBlackscreen_appState (a : App) (now : ℚ) (target : AppState) :
    (a.caseBlackscreen now target).1.appState =
      if (now - a.blackScreenStartTime) / 1 ≥ 1 then target else a.appState := by
  simp only [caseBlackscreen]
  split_ifs <;> rfl

theorem caseRebuild_appState (a : App) (now : ℚ) :
    (a.caseRebuild now).1.appState =
      if (now - a.rebuildStartTime) / (5 / 4) ≥ 1 then AppState.STATE_LOCATE else a.appState := by
  simp only [caseRebuild]
  split_ifs <;> rfl

theorem caseResetRebuild_appState (a : App) (now : ℚ) :
    (a.caseResetRebuild now).1.appState =
      if (now - a.rebuildStartTime) / (5 / 4) ≥ 1 then AppState.STATE_LOGIN else a.appState := by
  simp only [caseResetRebuild]
  split_ifs <;> rfl

theorem caseLocate_appState (a : App) (now deltaTime : ℚ) :
    (a.caseLocate now deltaTime).1.appState =
      if now - a.locateStart now ≥ 3 ∧ (a.locateScene.update deltaTime).1.isFinished = true then
        AppState.STATE_RESET_COLLAPSE
      else a.appState := by
  simp only [caseLocate, locateStart]
  by_cases hf : a.firstLocateEnter = true
  · simp only [hf, if_true]
    split_ifs <;> rfl
  · simp only [hf, if_false]
    split_ifs <;> rfl

theorem switchStage_next (a : App) (now deltaTime : ℚ) :
    (a.switchStage now deltaTime).1.appState = a.appState ∨
      (a.switchStage now deltaTime).1.appState = a.appState.next := by
  unfold switchStage
  cases h : a.appState <;> simp only []
  · rw [caseLogin_appState, h]; split_ifs
    · right; rfl
    · left; rfl
  · rw [caseTerminal_appState, h]; split_ifs
    · right; rfl
    · left; rfl
  · rw [caseCollapse_appState, h]; split_ifs
    · right; rfl
    · left; rfl
  · rw [caseBlackscreen_appState, h]; split_ifs
    · right; rfl
    · left; rfl
  · rw [caseRebuild_appState, h]; split_ifs
    · right; rfl
    · left; rfl
  · rw [caseLocate_appState, h]; split_ifs
    · right; rfl
    · left; rfl
  · rw [caseCollapse_appState, h]; split_ifs
    · right; rfl
    · left; rfl
  · rw [caseBlackscreen_appState, h]; split_ifs
    · right; rfl
    · left; rfl
  · rw [caseResetRebuild_appState, h]; split_ifs
    · right; rfl
    · left; rfl

theorem frame_fst (a : App) (now : ℚ) (width height : Int) :
    (a.frame now width height).1 =
      ((a.preSwitch now width height).switchStage now (now - a.lastTime)).1 := rfl

theorem frame_next (a : App) (now : ℚ) (width height : Int) :
    (a.frame now width height).1.appState = a.appState ∨
      (a.frame now width height).1.appState = a.appState.next := by
  have h := switchStage_next (a.preSwitch now width height) now (now - a.lastTime)
  rw [frame_fst]
  simpa [preSwitch] using h

@[simp]
theorem preSwitch_loginScene (a : App) (now : ℚ) (width height : Int) :
    (a.preSwitch now width height).loginScene = a.loginScene := by
  simp [preSwitch]

@[simp]
theorem preSwitch_terminalAnimation (a : App) (now : ℚ) (width height : Int) :
    (a.preSwitch now width height).terminalAnimation = a.terminalAnimation := by
  simp [preSwitch]

@[simp]
theorem preSwitch_locateScene (a : App) (now : ℚ) (width height : Int) :
    (a.preSwitch now width height).locateScene = a.locateScene := by
  simp [preSwitch]

@[simp]
theorem preSwitch_lastRadarSoundTime (a : App) (now : ℚ) (width height : Int) :
    (a.preSwitch now width height).lastRadarSoundTime = a.lastRadarSoundTime := by
  simp [preSwitch]

@[simp]
theorem preSwitch_appState (a : App) (now : ℚ) (width height : Int) :
    (a.preSwitch now width height).appState = a.appState := by
  simp [preSwitch]

@[simp]
theorem preSwitch_tvCloseAnim (a : App) (now : ℚ) (width height : Int) :
    (a.preSwitch now width height).tvCloseAnim = a.tvCloseAnim := by
  simp [preSwitch]

@[simp]
theorem preSwitch_collapseStartTime (a : App) (now : ℚ) (width height : Int) :
    (a.preSwitch now width height).collapseStartTime = a.collapseStartTime := by
  simp [preSwitch]

@[simp]
theorem preSwitch_blackScreenStartTime (a : App) (now : ℚ) (width height : Int) :
    (a.preSwitch now width height).blackScreenStartTime = a.blackScreenStartTime := by
  simp [preSwitch]

@[simp]
theorem preSwitch_rebuildStartTime (a : App) (now : ℚ) (width height : Int) :
    (a.preSwitch now width height).rebuildStartTime = a.rebuildStartTime := by
  simp [preSwitch]

@[simp]
theorem preSwitch_locateSceneStartTime (a : App) (now : ℚ) (width height : Int) :
    (a.preSwitch now width height).locateSceneStartTime = a.locateSceneStartTime := by
  simp [preSwitch]

@[simp]
theorem preSwitch_backgroundSoundPlaying (a : App) (now : ℚ) (width height : Int) :
    (a.preSwitch now width height).backgroundSoundPlaying = a.backgroundSoundPlaying := by
  simp [preSwitch]

@[simp]
theorem preSwitch_firstLocateEnter (a : App) (now : ℚ) (width height : Int) :
    (a.preSwitch now width height).firstLocateEnter = a.firstLocateEnter := by
  simp [preSwitch]

/-! ## C1: every frame follows the cycle -/

theorem sample_leaves (st : AppState) :
    ((sampleApp st).frame 102 800 600).1.appState = st.next := by
  cases st <;> decide!

/-- C1. In every frame, whatever the clock value, the framebuffer size and the
state of the three scenes (hence whatever their `isFinished()` answer), the
application state after the frame is the state before it or that state's
successor in the cycle LOGIN, TERMINAL, COLLAPSE, BLACKSCREEN, REBUILD, LOCATE,
RESET_COLLAPSE, RESET_BLACKSCREEN, RESET_REBUILD, LOGIN. The successor map is
a bijection without fixed point, so a state that is entered is entered from
its one predecessor, and every state has a frame that leaves it. -/
theorem C1_frame_follows_cycle :
    (∀ (a : App) (now : ℚ) (width height : Int),
      (a.frame now width height).1.appState = a.appState ∨
        (a.frame now width height).1.appState = a.appState.next) ∧
    List.map AppState.next
        [AppState.STATE_LOGIN, AppState.STATE_TERMINAL, AppState.STATE_COLLAPSE,
          AppState.STATE_BLACKSCREEN, AppState.STATE_REBUILD, AppState.STATE_LOCATE,
          AppState.STATE_RESET_COLLAPSE, AppState.STATE_RESET_BLACKSCREEN,
          AppState.STATE_RESET_REBUILD] =
      [AppState.STATE_TERMINAL, AppState.STATE_COLLAPSE, AppState.STATE_BLACKSCREEN,
        AppState.STATE_REBUILD, AppState.STATE_LOCATE, AppState.STATE_RESET_COLLAPSE,
        AppState.STATE_RESET_BLACKSCREEN, AppState.STATE_RESET_REBUILD,
        AppState.STATE_LOGIN] ∧
    (∀ st : AppState, st.next ≠ st ∧ st.next.prev = st ∧ st.prev.next = st) ∧
    (∀ (a : App) (now : ℚ) (width height : Int),
      (a.frame now width height).1.appState ≠ a.appState →
        a.appState = (a.frame now width height).1.appState.prev) ∧
    (∀ st : AppState, ∃ (a : App) (now : ℚ) (width height : Int),
      a.appState = st ∧ (a.frame now width height).1.appState = st.next) := by
  have hcyc : ∀ st : AppState, st.next ≠ st ∧ st.next.prev = st ∧ st.prev.next = st := by
    intro st; cases st <;> decide
  refine ⟨frame_next, rfl, hcyc, ?_, ?_⟩
  · intro a now width height hne
    rcases frame_next a now width height with h | h
    · exact absurd h hne
    · rw [h]; exact ((hcyc a.appState).2.1).symm
  · intro st
    exact ⟨sampleApp st, 102, 800, 600, rfl, sample_leaves st⟩

/-! ## The six timed states -/

theorem switchStage_collapse (a : App) (now deltaTime : ℚ)
    (h : a.appState = AppState.STATE_COLLAPSE) :
    a.switchStage now deltaTime = a.caseCollapse now AppState.STATE_BLACKSCREEN := by
  unfold switchStage; rw [h]

theorem switchStage_resetCollapse (a : App) (now deltaTime : ℚ)
    (h : a.appState = AppState.STATE_RESET_COLLAPSE) :
    a.switchStage now deltaTime = a.caseCollapse now AppState.STATE_RESET_BLACKSCREEN := by
  unfold switchStage; rw [h]

theorem switchStage_blackscreen (a : App) (now deltaTime : ℚ)
    (h : a.appState = AppState.STATE_BLACKSCREEN) :
    a.switchStage now deltaTime = a.caseBlackscreen now AppState.STATE_REBUILD := by
  unfold switchStage; rw [h]

theorem switchStage_resetBlackscreen (a : App) (now deltaTime : ℚ)
    (h : a.appState = AppState.STATE_RESET_BLACKSCREEN) :
    a.switchStage now deltaTime = a.caseBlackscreen now AppState.STATE_RESET_REBUILD := by
  unfold switchStage; rw [h]

theorem switchStage_rebuild (a : App) (now deltaTime : ℚ)
    (h : a.appState = AppState.STATE_REBUILD) :
    a.switchStage now deltaTime = a.caseRebuild now := by
  unfold switchStage; rw [h]

theorem switchStage_resetRebuild (a : App) (now deltaTime : ℚ)
    (h : a.appState = AppState.STATE_RESET_REBUILD) :
    a.switchStage now deltaTime = a.caseResetRebuild now := by
  unfold switchStage; rw [h]

theorem switchStage_login (a : App) (now deltaTime : ℚ)
    (h : a.appState = AppState.STATE_LOGIN) :
    a.switchStage now deltaTime = a.caseLogin deltaTime := by
  unfold switchStage; rw [h]

theorem switchStage_terminal (a : App) (now deltaTime : ℚ)
    (h : a.appState = AppState.STATE_TERMINAL) :
    a.switchStage now deltaTime = a.caseTerminal now := by
  unfold switchStage; rw [h]

theorem switchStage_locate (a : App) (now deltaTime : ℚ)
    (h : a.appState = AppState.STATE_LOCATE) :
    a.switchStage now deltaTime = a.caseLocate now deltaTime := by
  unfold switchStage; rw [h]

theorem caseCollapse_tvCloseAnim (a : App) (now : ℚ) (target : AppState) :
    (a.caseCollapse now target).1.tvCloseAnim =
      easeInQuad (min ((now - a.collapseStartTime) / (3 / 4)) 1) := by
  simp only [caseCollapse]
  split_ifs <;> rfl

theorem caseCollapse_blackScreenStartTime (a : App) (now : ℚ) (target : AppState) :
    (a.caseCollapse now target).1.blackScreenStartTime =
      if (now - a.collapseStartTime) / (3 / 4) ≥ 1 then now else a.blackScreenStartTime := by
  simp only [caseCollapse]
  split_ifs <;> rfl

theorem caseCollapse_collapseStartTime (a : App) (now : ℚ) (target : AppState) :
    (a.caseCollapse now target).1.collapseStartTime = a.collapseStartTime := by
  simp only [caseCollapse]
  split_ifs <;> rfl

theorem caseBlackscreen_rebuildStartTime (a : App) (now : ℚ) (target : AppState) :
    (a.caseBlackscreen now target).1.rebuildStartTime =
      if (now - a.blackScreenStartTime) / 1 ≥ 1 then now else a.rebuildStartTime := by
  simp only [caseBlackscreen]
  split_ifs <;> rfl

theorem caseBlackscreen_blackScreenStartTime (a : App) (now : ℚ) (target : AppState) :
    (a.caseBlackscreen now target).1.blackScreenStartTime = a.blackScreenStartTime := by
  simp only [caseBlackscreen]
  split_ifs <;> rfl

theorem caseRebuild_tvCloseAnim (a : App) (now : ℚ) :
    (a.caseRebuild now).1.tvCloseAnim =
      1 - easeOutQuad (min ((now - a.rebuildStartTime) / (5 / 4)) 1) := by
  simp only [caseRebuild]
  split_ifs <;> rfl

theorem caseRebuild_rebuildStartTime (a : App) (now : ℚ) :
    (a.caseRebuild now).1.rebuildStartTime = a.rebuildStartTime := by
  simp only [caseRebuild]
  split_ifs <;> rfl

theorem caseResetRebuild_tvCloseAnim (a : App) (now : ℚ) :
    (a.caseResetRebuild now).1.tvCloseAnim =
      1 - easeOutQuad (min ((now - a.rebuildStartTime) / (5 / 4)) 1) := by
  simp only [caseResetRebuild]
  split_ifs <;> rfl

theorem caseResetRebuild_rebuildStartTime (a : App) (now : ℚ) :
    (a.caseResetRebuild now).1.rebuildStartTime = a.rebuildStartTime := by
  simp only [caseResetRebuild]
  split_ifs <;> rfl

theorem div_three_quarters_ge_one (x : ℚ) : x / (3 / 4) ≥ 1 ↔ x ≥ 3 / 4 := by
  constructor <;> intro h <;> linarith

theorem div_one_ge_one (x : ℚ) : x / 1 ≥ 1 ↔ x ≥ 1 := by
  rw [div_one]

theorem div_five_quarters_ge_one (x : ℚ) : x / (5 / 4) ≥ 1 ↔ x ≥ 5 / 4 := by
  constructor <;> intro h <;> linarith

/-! ## C2: the collapse animation -/

/-- C2. When the state is COLLAPSE with `collapseStartTime = t0`, the frame at
`now = t0 + 0.375` sets `tvCloseAnim` to `easeInQuad(0.5)`, which is `0.25`, and
leaves the state at COLLAPSE; a frame at any `now ≥ t0 + 0.75` moves the state
to BLACKSCREEN and sets `blackScreenStartTime` to `now`. -/
theorem C2_collapse_midpoint_and_exit (a : App) (width height : Int)
    (h : a.appState = AppState.STATE_COLLAPSE) :
    (a.frame (a.collapseStartTime + 3 / 8) width height).1.tvCloseAnim = easeInQuad (1 / 2) ∧
    easeInQuad (1 / 2) = 1 / 4 ∧
    (a.frame (a.collapseStartTime + 3 / 8) width height).1.appState = AppState.STATE_COLLAPSE ∧
    ∀ now : ℚ, now ≥ a.collapseStartTime + 3 / 4 →
      (a.frame now width height).1.appState = AppState.STATE_BLACKSCREEN ∧
      (a.frame now width height).1.blackScreenStartTime = now := by
  have hsw : ∀ now : ℚ, (a.frame now width height).1 =
      ((a.preSwitch now width height).caseCollapse now AppState.STATE_BLACKSCREEN).1 := by
    intro now
    rw [frame_fst, switchStage_collapse _ _ _ (by simp [h])]
  have hmid : (a.collapseStartTime + 3 / 8 - a.collapseStartTime) / (3 / 4) = (1 / 2 : ℚ) := by
    ring
  refine ⟨?_, by norm_num [easeInQuad], ?_, ?_⟩
  · rw [hsw, caseCollapse_tvCloseAnim, preSwitch_collapseStartTime, hmid]
    norm_num
  · rw [hsw, caseCollapse_appState, preSwitch_collapseStartTime, hmid, preSwitch_appState, h]
    norm_num
  · intro now hnow
    have ht : (now - a.collapseStartTime) / (3 / 4) ≥ 1 := by
      rw [div_three_quarters_ge_one]; linarith
    constructor
    · rw [hsw, caseCollapse_appState, preSwitch_collapseStartTime, if_pos ht]
    · rw [hsw, caseCollapse_blackScreenStartTime, preSwitch_collapseStartTime, if_pos ht]

/-- Witness of C2: the sample state in COLLAPSE, entered at `t0 = 100`. -/
theorem C2_collapse_midpoint_and_exit_witness :
    ((sampleApp AppState.STATE_COLLAPSE).frame
        ((sampleApp AppState.STATE_COLLAPSE).collapseStartTime + 3 / 8) 800 600).1.tvCloseAnim =
      easeInQuad (1 / 2) ∧
    easeInQuad (1 / 2) = 1 / 4 ∧
    ((sampleApp AppState.STATE_COLLAPSE).frame
        ((sampleApp AppState.STATE_COLLAPSE).collapseStartTime + 3 / 8) 800 600).1.appState =
      AppState.STATE_COLLAPSE ∧
    ∀ now : ℚ, now ≥ (sampleApp AppState.STATE_COLLAPSE).collapseStartTime + 3 / 4 →
      ((sampleApp AppState.STATE_COLLAPSE).frame now 800 600).1.appState =
        AppState.STATE_BLACKSCREEN ∧
      ((sampleApp AppState.STATE_COLLAPSE).frame now 800 600).1.blackScreenStartTime = now :=
  C2_collapse_midpoint_and_exit (sampleApp AppState.STATE_COLLAPSE) 800 600 rfl

/-! ## The two rebuild states -/

theorem frame_of_rebuild (a : App) (now : ℚ) (width height : Int)
    (h : a.appState = AppState.STATE_REBUILD) :
    (a.frame now width height).1 = ((a.preSwitch now width height).caseRebuild now).1 := by
  rw [frame_fst, switchStage_rebuild _ _ _ (by simp [h])]

theorem frame_of_resetRebuild (a : App) (now : ℚ) (width height : Int)
    (h : a.appState = AppState.STATE_RESET_REBUILD) :
    (a.frame now width height).1 = ((a.preSwitch now width height).caseResetRebuild now).1 := by
  rw [frame_fst, switchStage_resetRebuild _ _ _ (by simp [h])]

theorem frame_rebuild_left_iff (a : App) (now : ℚ) (width height : Int)
    (hs : a.appState = AppState.STATE_REBUILD ∨ a.appState = AppState.STATE_RESET_REBUILD) :
    (a.frame now width height).1.appState ≠ a.appState ↔
      (now - a.rebuildStartTime) / (5 / 4) ≥ 1 := by
  rcases hs with h | h
  · rw [frame_of_rebuild a now width height h, caseRebuild_appState,
      preSwitch_rebuildStartTime, preSwitch_appState, h]
    split_ifs with ht <;> simp [ht]
  · rw [frame_of_resetRebuild a now width height h, caseResetRebuild_appState,
      preSwitch_rebuildStartTime, preSwitch_appState, h]
    split_ifs with ht <;> simp [ht]

/-! ## C4: timed states run their full duration -/

theorem caseTerminal_collapseStartTime (a : App) (now : ℚ) :
    (a.caseTerminal now).1.collapseStartTime =
      if ((a.terminalAnimation.update now).1.render now).isFinished then now
      else a.collapseStartTime := by
  simp only [caseTerminal]
  split_ifs <;> rfl

theorem caseLocate_collapseStartTime (a : App) (now deltaTime : ℚ) :
    (a.caseLocate now deltaTime).1.collapseStartTime =
      if now - a.locateStart now ≥ 3 ∧ (a.locateScene.update deltaTime).1.isFinished = true then
        now
      else a.collapseStartTime := by
  simp only [caseLocate, locateStart]
  by_cases hf : a.firstLocateEnter = true
  · simp only [hf, if_true]
    split_ifs <;> rfl
  · simp only [hf, if_false]
    split_ifs <;> rfl

/-- One frame in a timed state: before the duration has elapsed the state and
its start timestamp are kept, from then on the state is left for its successor. -/
theorem frame_timed (a : App) (now : ℚ) (width height : Int) (d : ℚ)
    (hd : a.appState.duration = some d) :
    (now - a.stateStart < d →
      (a.frame now width height).1.appState = a.appState ∧
        (a.frame now width height).1.stateStart = a.stateStart) ∧
    (now - a.stateStart ≥ d → (a.frame now width height).1.appState = a.appState.next) := by
  cases h : a.appState <;> rw [h] at hd <;> simp only [AppState.duration] at hd <;> cases hd
  · -- COLLAPSE
    have hf : (a.frame now width height).1 =
        ((a.preSwitch now width height).caseCollapse now AppState.STATE_BLACKSCREEN).1 := by
      rw [frame_fst, switchStage_collapse _ _ _ (by simp [h])]
    have hst : a.stateStart = a.collapseStartTime := by simp [stateStart, h]
    rw [hst]
    constructor
    · intro hlt
      have ht : ¬ (now - a.collapseStartTime) / (3 / 4) ≥ 1 := by
        rw [div_three_quarters_ge_one]; linarith
      have hs : (a.frame now width height).1.appState = AppState.STATE_COLLAPSE := by
        rw [hf, caseCollapse_appState, preSwitch_collapseStartTime, if_neg ht,
          preSwitch_appState, h]
      refine ⟨hs, ?_⟩
      simp only [stateStart, hs]
      rw [hf, caseCollapse_collapseStartTime, preSwitch_collapseStartTime]
    · intro hge
      have ht : (now - a.collapseStartTime) / (3 / 4) ≥ 1 := by
        rw [div_three_quarters_ge_one]; linarith
      rw [hf, caseCollapse_appState, preSwitch_collapseStartTime, if_pos ht]; rfl
  · -- BLACKSCREEN
    have hf : (a.frame now width height).1 =
        ((a.preSwitch now width height).caseBlackscreen now AppState.STATE_REBUILD).1 := by
      rw [frame_fst, switchStage_blackscreen _ _ _ (by simp [h])]
    have hst : a.stateStart = a.blackScreenStartTime := by simp [stateStart, h]
    rw [hst]
    constructor
    · intro hlt
      have ht : ¬ (now - a.blackScreenStartTime) / 1 ≥ 1 := by
        rw [div_one_ge_one]; linarith
      have hs : (a.frame now width height).1.appState = AppState.STATE_BLACKSCREEN := by
        rw [hf, caseBlackscreen_appState, preSwitch_blackScreenStartTime, if_neg ht,
          preSwitch_appState, h]
      refine ⟨hs, ?_⟩
      simp only [stateStart, hs]
      rw [hf, caseBlackscreen_blackScreenStartTime, preSwitch_blackScreenStartTime]
    · intro hge
      have ht : (now - a.blackScreenStartTime) / 1 ≥ 1 := by
        rw [div_one_ge_one]; linarith
      rw [hf, caseBlackscreen_appState, preSwitch_blackScreenStartTime, if_pos ht]; rfl
  · -- REBUILD
    have hf := frame_of_rebuild a now width height h
    have hst : a.stateStart = a.rebuildStartTime := by simp [stateStart, h]
    rw [hst]
    constructor
    · intro hlt
      have ht : ¬ (now - a.rebuildStartTime) / (5 / 4) ≥ 1 := by
        rw [div_five_quarters_ge_one]; linarith
      have hs : (a.frame now width height).1.appState = AppState.STATE_REBUILD := by
        rw [hf, caseRebuild_appState, preSwitch_rebuildStartTime, if_neg ht,
          preSwitch_appState, h]
      refine ⟨hs, ?_⟩
      simp only [stateStart, hs]
      rw [hf, caseRebuild_rebuildStartTime, preSwitch_rebuildStartTime]
    · intro hge
      have ht : (now - a.rebuildStartTime) / (5 / 4) ≥ 1 := by
        rw [div_five_quarters_ge_one]; linarith
      rw [hf, caseRebuild_appState, preSwitch_rebuildStartTime, if_pos ht]; rfl
  · -- RESET_COLLAPSE
    have hf : (a.frame now width height).1 =
        ((a.preSwitch now width height).caseCollapse now
          AppState.STATE_RESET_BLACKSCREEN).1 := by
      rw [frame_fst, switchStage_resetCollapse _ _ _ (by simp [h])]
    have hst : a.stateStart = a.collapseStartTime := by simp [stateStart, h]
    rw [hst]
    constructor
    · intro hlt
      have ht : ¬ (now - a.collapseStartTime) / (3 / 4) ≥ 1 := by
        rw [div_three_quarters_ge_one]; linarith
      have hs : (a.frame now width height).1.appState = AppState.STATE_RESET_COLLAPSE := by
        rw [hf, caseCollapse_appState, preSwitch_collapseStartTime, if_neg ht,
          preSwitch_appState, h]
      refine ⟨hs, ?_⟩
      simp only [stateStart, hs]
      rw [hf, caseCollapse_collapseStartTime, preSwitch_collapseStartTime]
    · intro hge
      have ht : (now - a.collapseStartTime) / (3 / 4) ≥ 1 := by
        rw [div_three_quarters_ge_one]; linarith
      rw [hf, caseCollapse_appState, preSwitch_collapseStartTime, if_pos ht]; rfl
  · -- RESET_BLACKSCREEN
    have hf : (a.frame now width height).1 =
        ((a.preSwitch now width height).caseBlackscreen now
          AppState.STATE_RESET_REBUILD).1 := by
      rw [frame_fst, switchStage_resetBlackscreen _ _ _ (by simp [h])]
    have hst : a.stateStart = a.blackScreenStartTime := by simp [stateStart, h]
    rw [hst]
    constructor
    · intro hlt
      have ht : ¬ (now - a.blackScreenStartTime) / 1 ≥ 1 := by
        rw [div_one_ge_one]; linarith
      have hs : (a.frame now width height).1.appState = AppState.STATE_RESET_BLACKSCREEN := by
        rw [hf, caseBlackscreen_appState, preSwitch_blackScreenStartTime, if_neg ht,
          preSwitch_appState, h]
      refine ⟨hs, ?_⟩
      simp only [stateStart, hs]
      rw [hf, caseBlackscreen_blackScreenStartTime, preSwitch_blackScreenStartTime]
    · intro hge
      have ht : (now - a.blackScreenStartTime) / 1 ≥ 1 := by
        rw [div_one_ge_one]; linarith
      rw [hf, caseBlackscreen_appState, preSwitch_blackScreenStartTime, if_pos ht]; rfl
  · -- RESET_REBUILD
    have hf := frame_of_resetRebuild a now width height h
    have hst : a.stateStart = a.rebuildStartTime := by simp [stateStart, h]
    rw [hst]
    constructor
    · intro hlt
      have ht : ¬ (now - a.rebuildStartTime) / (5 / 4) ≥ 1 := by
        rw [div_five_quarters_ge_one]; linarith
      have hs : (a.frame now width height).1.appState = AppState.STATE_RESET_REBUILD := by
        rw [hf, caseResetRebuild_appState, preSwitch_rebuildStartTime, if_neg ht,
          preSwitch_appState, h]
      refine ⟨hs, ?_⟩
      simp only [stateStart, hs]
      rw [hf, caseResetRebuild_rebuildStartTime, preSwitch_rebuildStartTime]
    · intro hge
      have ht : (now - a.rebuildStartTime) / (5 / 4) ≥ 1 := by
        rw [div_five_quarters_ge_one]; linarith
      rw [hf, caseResetRebuild_appState, preSwitch_rebuildStartTime, if_pos ht]; rfl

/-- A run made of frames that all come before the duration has elapsed keeps
the timed state and its start timestamp. -/
theorem run_timed_stay (d : ℚ) (inputs : List FrameInput) :
    ∀ a : App, a.appState.duration = some d →
      (∀ i ∈ inputs, i.now - a.stateStart < d) →
      (a.run inputs).appState = a.appState ∧ (a.run inputs).stateStart = a.stateStart := by
  induction inputs with
  | nil => intro a _ _; exact ⟨rfl, rfl⟩
  | cons i rest ih =>
    intro a hd hearly
    have h1 := (frame_timed a i.now i.width i.height d hd).1
      (hearly i (List.mem_cons_self _ _))
    have h2 := ih (a.frame i.now i.width i.height).1 (by rw [h1.1]; exact hd)
      (fun j hj => by rw [h1.2]; exact hearly j (List.mem_cons_of_mem _ hj))
    simp only [run]
    exact ⟨h2.1.trans h1.1, h2.2.trans h1.2⟩

/-- A frame that enters a timed state records its own clock value as the start
timestamp of that state. -/
theorem frame_enters_timed (a : App) (now : ℚ) (width height : Int)
    (hne : (a.frame now width height).1.appState ≠ a.appState)
    (hd : (a.frame now width height).1.appState.duration ≠ none) :
    (a.frame now width height).1.stateStart = now := by
  have hnext : (a.frame now width height).1.appState = a.appState.next := by
    rcases frame_next a now width height with h | h
    · exact absurd h hne
    · exact h
  cases h : a.appState
  all_goals rw [h] at hnext hne
  all_goals simp only [AppState.next] at hnext
  all_goals rw [hnext] at hd
  all_goals simp only [stateStart, hnext]
  all_goals (try exact absurd rfl hd)
  · -- TERMINAL to COLLAPSE
    have hf : (a.frame now width height).1 = ((a.preSwitch now width height).caseTerminal now).1 := by
      rw [frame_fst, switchStage_terminal _ _ _ (by simp [h])]
    have hc := hnext
    rw [hf, caseTerminal_appState, preSwitch_appState, h] at hc
    rw [hf, caseTerminal_collapseStartTime]
    split_ifs at hc ⊢ with hfin
    rfl
  · -- COLLAPSE to BLACKSCREEN
    have hf : (a.frame now width height).1 =
        ((a.preSwitch now width height).caseCollapse now AppState.STATE_BLACKSCREEN).1 := by
      rw [frame_fst, switchStage_collapse _ _ _ (by simp [h])]
    have hc := hnext
    rw [hf, caseCollapse_appState, preSwitch_appState, h] at hc
    rw [hf, caseCollapse_blackScreenStartTime]
    split_ifs at hc ⊢ with ht
    rfl
  · -- BLACKSCREEN to REBUILD
    have hf : (a.frame now width height).1 =
        ((a.preSwitch now width height).caseBlackscreen now AppState.STATE_REBUILD).1 := by
      rw [frame_fst, switchStage_blackscreen _ _ _ (by simp [h])]
    have hc := hnext
    rw [hf, caseBlackscreen_appState, preSwitch_appState, h] at hc
    rw [hf, caseBlackscreen_rebuildStartTime]
    split_ifs at hc ⊢ with ht
    rfl
  · -- LOCATE to RESET_COLLAPSE
    have hf : (a.frame now width height).1 =
        ((a.preSwitch now width height).caseLocate now (now - a.lastTime)).1 := by
      rw [frame_fst, switchStage_locate _ _ _ (by simp [h])]
    have hc := hnext
    rw [hf, caseLocate_appState, preSwitch_appState, h] at hc
    rw [hf, caseLocate_collapseStartTime]
    split_ifs at hc ⊢ with ht
    rfl
  · -- RESET_COLLAPSE to RESET_BLACKSCREEN
    have hf : (a.frame now width height).1 =
        ((a.preSwitch now width height).caseCollapse now
          AppState.STATE_RESET_BLACKSCREEN).1 := by
      rw [frame_fst, switchStage_resetCollapse _ _ _ (by simp [h])]
    have hc := hnext
    rw [hf, caseCollapse_appState, preSwitch_appState, h] at hc
    rw [hf, caseCollapse_blackScreenStartTime]
    split_ifs at hc ⊢ with ht
    rfl
  · -- RESET_BLACKSCREEN to RESET_REBUILD
    have hf : (a.frame now width height).1 =
        ((a.preSwitch now width height).caseBlackscreen now
          AppState.STATE_RESET_REBUILD).1 := by
      rw [frame_fst, switchStage_resetBlackscreen _ _ _ (by simp [h])]
    have hc := hnext
    rw [hf, caseBlackscreen_appState, preSwitch_appState, h] at hc
    rw [hf, caseBlackscreen_rebuildStartTime]
    split_ifs at hc ⊢ with ht
    rfl

/-- C4. The six timed states have the durations 0.75 s (COLLAPSE and
RESET_COLLAPSE), 1.0 s (BLACKSCREEN and RESET_BLACKSCREEN) and 1.25 s (REBUILD
and RESET_REBUILD). From a state `a` in a timed state with start timestamp
`a.stateStart`: after any run of frames that all have `now - start` below the
duration, and after every prefix of it, the state is unchanged; and the next
frame whose `now - start` reaches the duration moves to the successor, a
different state. The start timestamp of a timed state is the clock value of
the frame that entered it. -/
theorem C4_timed_state_runs_full_duration (a : App) (d : ℚ) (inputs : List FrameInput)
    (last : FrameInput) (hd : a.appState.duration = some d)
    (hearly : ∀ i ∈ inputs, i.now - a.stateStart < d)
    (hlate : last.now - a.stateStart ≥ d) :
    (AppState.STATE_COLLAPSE.duration = some (3 / 4) ∧
      AppState.STATE_RESET_COLLAPSE.duration = some (3 / 4) ∧
      AppState.STATE_BLACKSCREEN.duration = some 1 ∧
      AppState.STATE_RESET_BLACKSCREEN.duration = some 1 ∧
      AppState.STATE_REBUILD.duration = some (5 / 4) ∧
      AppState.STATE_RESET_REBUILD.duration = some (5 / 4)) ∧
    (∀ k : Nat, (a.run (inputs.take k)).appState = a.appState) ∧
    ((a.run inputs).frame last.now last.width last.height).1.appState = a.appState.next ∧
    a.appState.next ≠ a.appState ∧
    (∀ (b : App) (now : ℚ) (width height : Int),
      (b.frame now width height).1.appState ≠ b.appState →
      (b.frame now width height).1.appState.duration ≠ none →
      (b.frame now width height).1.stateStart = now) := by
  refine ⟨⟨rfl, rfl, rfl, rfl, rfl, rfl⟩, ?_, ?_, ?_, frame_enters_timed⟩
  · intro k
    exact (run_timed_stay d (inputs.take k) a hd
      (fun i hi => hearly i (List.mem_of_mem_take hi))).1
  · have hrun := run_timed_stay d inputs a hd hearly
    have h := (frame_timed (a.run inputs) last.now last.width last.height d
      (by rw [hrun.1]; exact hd)).2 (by rw [hrun.2]; exact hlate)
    rw [h, hrun.1]
  · cases h : a.appState <;> decide

/-- Witness of C4: BLACKSCREEN entered at `t = 100`, three frames inside the
second and one frame at its end. -/
theorem C4_timed_state_runs_full_duration_witness :
    (∀ k : Nat, ((sampleApp AppState.STATE_BLACKSCREEN).run
        (List.take k [⟨100 + 1 / 60, 800, 600⟩, ⟨100 + 1 / 2, 800, 600⟩,
          ⟨100 + 59 / 60, 800, 600⟩])).appState = AppState.STATE_BLACKSCREEN) ∧
    (((sampleApp AppState.STATE_BLACKSCREEN).run
        [⟨100 + 1 / 60, 800, 600⟩, ⟨100 + 1 / 2, 800, 600⟩,
          ⟨100 + 59 / 60, 800, 600⟩]).frame 101 800 600).1.appState =
      AppState.STATE_REBUILD := by
  have h := C4_timed_state_runs_full_duration (sampleApp AppState.STATE_BLACKSCREEN) 1
    [⟨100 + 1 / 60, 800, 600⟩, ⟨100 + 1 / 2, 800, 600⟩, ⟨100 + 59 / 60, 800, 600⟩]
    ⟨101, 800, 600⟩ rfl
    (by
      intro i hi
      simp only [List.mem_cons, List.mem_singleton, List.not_mem_nil, or_false] at hi
      rcases hi with h | h | h <;> subst h <;> norm_num [stateStart, sampleApp, App.init])
    (by norm_num [stateStart, sampleApp, App.init])
  exact ⟨h.2.1, h.2.2.1⟩

/-! ## C5: the two transition cues -/

theorem cues_append (xs ys : List Effect) : cues (xs ++ ys) = cues xs ++ cues ys := by
  simp [cues, List.filterMap_append]

theorem cues_replicate_typeCallback (n : Nat) :
    cues (List.replicate n Effect.typeCallback) = [] := by
  induction n with
  | zero => rfl
  | succ n ih => simpa [cues, List.replicate_succ, Effect.cue] using ih

theorem cues_map_locateSound (l : List Int) : cues (l.map Effect.locateSound) = [] := by
  induction l with
  | nil => rfl
  | cons x xs ih => simpa [cues, Effect.cue] using ih

theorem cues_resizeStage (a : App) (width height : Int) :
    cues (a.resizeStage width height).2 = [] := by
  simp only [resizeStage]
  split_ifs <;> rfl

theorem cues_beginStage (a : App) : cues a.beginStage = [] := by
  simp only [beginStage]
  split_ifs <;> rfl

theorem cues_endStage (a : App) : cues a.endStage = [] := by
  simp only [endStage]
  split_ifs <;> rfl

theorem cues_presentStage (a : App) (now : ℚ) : cues (a.presentStage now) = [] := by
  simp only [presentStage]
  split_ifs <;> rfl

theorem frame_snd (a : App) (now : ℚ) (width height : Int) :
    (a.frame now width height).2 =
      (({ a with lastTime := now } : App).resizeStage width height).2 ++
        (a.preSwitch now width height).beginStage ++
        ((a.preSwitch now width height).switchStage now (now - a.lastTime)).2 ++
        ((a.preSwitch now width height).switchStage now (now - a.lastTime)).1.endStage ++
        ((a.preSwitch now width height).switchStage now (now - a.lastTime)).1.presentStage now :=
  rfl

theorem cues_frame (a : App) (now : ℚ) (width height : Int) :
    cues (a.frame now width height).2 =
      cues ((a.preSwitch now width height).switchStage now (now - a.lastTime)).2 := by
  rw [frame_snd]
  simp only [cues_append, cues_resizeStage, cues_beginStage, cues_endStage, cues_presentStage,
    List.nil_append, List.append_nil]

theorem cues_caseLogin (a : App) (deltaTime : ℚ) : cues (a.caseLogin deltaTime).2 = [] := by
  simp only [caseLogin]
  split_ifs <;>
    simp only [cues_append, cues_replicate_typeCallback, List.nil_append] <;> rfl

theorem cues_caseTerminal (a : App) (now : ℚ) :
    cues (a.caseTerminal now).2 =
      if ((a.terminalAnimation.update now).1.render now).isFinished then [6] else [] := by
  simp only [caseTerminal]
  split_ifs <;>
    simp only [cues_append, cues_replicate_typeCallback, List.nil_append] <;> rfl

theorem cues_caseCollapse (a : App) (now : ℚ) (target : AppState) :
    cues (a.caseCollapse now target).2 = [] := by
  simp only [caseCollapse]
  split_ifs <;> rfl

theorem cues_caseBlackscreen (a : App) (now : ℚ) (target : AppState) :
    cues (a.caseBlackscreen now target).2 =
      if (now - a.blackScreenStartTime) / 1 ≥ 1 then [7] else [] := by
  simp only [caseBlackscreen]
  split_ifs <;> rfl

theorem cues_caseRebuild (a : App) (now : ℚ) : cues (a.caseRebuild now).2 = [] := by
  simp only [caseRebuild]
  split_ifs <;> rfl

theorem cues_caseResetRebuild (a : App) (now : ℚ) :
    cues (a.caseResetRebuild now).2 = [] := by
  simp only [caseResetRebuild]
  split_ifs <;> rfl

theorem cues_caseLocate (a : App) (now deltaTime : ℚ) :
    cues (a.caseLocate now deltaTime).2 =
      if now - a.locateStart now ≥ 3 ∧ (a.locateScene.update deltaTime).1.isFinished = true then
        [6]
      else [] := by
  simp only [caseLocate, locateStart]
  by_cases hf : a.firstLocateEnter = true
  · simp only [hf, if_true]
    split_ifs <;>
      simp only [cues_append, cues_map_locateSound, List.nil_append, List.append_nil] <;> rfl
  · simp only [hf, if_false]
    split_ifs <;>
      simp only [cues_append, cues_map_locateSound, List.nil_append, List.append_nil] <;> rfl

/-- The cues `main` fires in one frame: those of the transition the frame
performs, none when the state is kept. -/
theorem cues_frame_eq (a : App) (now : ℚ) (width height : Int) :
    cues (a.frame now width height).2 =
      if (a.frame now width height).1.appState ≠ a.appState then a.appState.exitCue else [] := by
  rw [cues_frame, frame_fst]
  cases h : a.appState
  · rw [switchStage_login _ _ _ (by simp [h]), cues_caseLogin, caseLogin_appState,
      preSwitch_appState, h]
    split_ifs <;> first | rfl | simp_all
  · rw [switchStage_terminal _ _ _ (by simp [h]), cues_caseTerminal, caseTerminal_appState,
      preSwitch_appState, h]
    split_ifs <;> first | rfl | simp_all
  · rw [switchStage_collapse _ _ _ (by simp [h]), cues_caseCollapse, caseCollapse_appState,
      preSwitch_appState, h]
    split_ifs <;> first | rfl | simp_all
  · rw [switchStage_blackscreen _ _ _ (by simp [h]), cues_caseBlackscreen,
      caseBlackscreen_appState, preSwitch_appState, h]
    split_ifs <;> first | rfl | simp_all
  · rw [switchStage_rebuild _ _ _ (by simp [h]), cues_caseRebuild, caseRebuild_appState,
      preSwitch_appState, h]
    split_ifs <;> first | rfl | simp_all
  · rw [switchStage_locate _ _ _ (by simp [h]), cues_caseLocate, caseLocate_appState,
      preSwitch_appState, h]
    split_ifs <;> first | rfl | simp_all
  · rw [switchStage_resetCollapse _ _ _ (by simp [h]), cues_caseCollapse,
      caseCollapse_appState, preSwitch_appState, h]
    split_ifs <;> first | rfl | simp_all
  · rw [switchStage_resetBlackscreen _ _ _ (by simp [h]), cues_caseBlackscreen,
      caseBlackscreen_appState, preSwitch_appState, h]
    split_ifs <;> first | rfl | simp_all
  · rw [switchStage_resetRebuild _ _ _ (by simp [h]), cues_caseResetRebuild,
      caseResetRebuild_appState, preSwitch_appState, h]
    split_ifs <;> first | rfl | simp_all

/-- The cues `main` fires over a run are those of the transitions it performs. -/
theorem cues_trace (inputs : List FrameInput) :
    ∀ a : App, cues (a.trace inputs) = cuesDue a.appState (a.changes inputs) := by
  induction inputs with
  | nil => intro a; rfl
  | cons i rest ih =>
    intro a
    simp only [trace, changes, cues_append, ih, cues_frame_eq]
    by_cases hne : (a.frame i.now i.width i.height).1.appState ≠ a.appState
    · have hnext : (a.frame i.now i.width i.height).1.appState = a.appState.next := by
        rcases frame_next a i.now i.width i.height with h | h
        · exact absurd h hne
        · exact h
      rw [if_pos hne, if_pos hne, hnext, Nat.add_comm]
      rfl
    · rw [if_neg hne, if_neg hne]
      have heq : (a.frame i.now i.width i.height).1.appState = a.appState := not_not.mp hne
      rw [heq, Nat.zero_add, List.nil_append]

/-- The state after a run is the start state advanced by the number of state
changes of the run. -/
theorem run_appState (inputs : List FrameInput) :
    ∀ a : App, (a.run inputs).appState = a.appState.advance (a.changes inputs) := by
  induction inputs with
  | nil => intro a; rfl
  | cons i rest ih =>
    intro a
    simp only [run, changes, ih]
    by_cases hne : (a.frame i.now i.width i.height).1.appState ≠ a.appState
    · have hnext : (a.frame i.now i.width i.height).1.appState = a.appState.next := by
        rcases frame_next a i.now i.width i.height with h | h
        · exact absurd h hne
        · exact h
      rw [if_pos hne, hnext, Nat.add_comm]
      rfl
    · rw [if_neg hne, not_not.mp hne, Nat.zero_add]

theorem cues_frame_cases (a : App) (now : ℚ) (width height : Int) :
    (cues (a.frame now width height).2 = [6] ↔
      (a.appState = AppState.STATE_TERMINAL ∧
          (a.frame now width height).1.appState = AppState.STATE_COLLAPSE) ∨
        (a.appState = AppState.STATE_LOCATE ∧
          (a.frame now width height).1.appState = AppState.STATE_RESET_COLLAPSE)) ∧
    (cues (a.frame now width height).2 = [7] ↔
      (a.appState = AppState.STATE_BLACKSCREEN ∧
          (a.frame now width height).1.appState = AppState.STATE_REBUILD) ∨
        (a.appState = AppState.STATE_RESET_BLACKSCREEN ∧
          (a.frame now width height).1.appState = AppState.STATE_RESET_REBUILD)) ∧
    (cues (a.frame now width height).2 = [6] ∨ cues (a.frame now width height).2 = [7] ∨
      cues (a.frame now width height).2 = []) := by
  rw [cues_frame_eq]
  rcases frame_next a now width height with h | h
  · rw [h]
    cases a.appState <;> simp
  · rw [h]
    cases a.appState <;> simp [AppState.next, AppState.exitCue]

/-- C5. In every frame the cues fired by `main` itself are those of the
transition the frame performs: cue 6 (plasma) exactly on the frames that go
from TERMINAL to COLLAPSE or from LOCATE to RESET_COLLAPSE, cue 7 (plasma
reverse) exactly on the frames that go from BLACKSCREEN to REBUILD or from
RESET_BLACKSCREEN to RESET_REBUILD, each once, and no cue on any other frame.
Hence a run that starts in LOGIN and performs nine state changes, one full
cycle, fires the cues 6, 7, 6, 7: each of the two exactly twice. -/
theorem C5_transition_cues :
    (∀ (a : App) (now : ℚ) (width height : Int),
      (cues (a.frame now width height).2 = [6] ↔
        (a.appState = AppState.STATE_TERMINAL ∧
            (a.frame now width height).1.appState = AppState.STATE_COLLAPSE) ∨
          (a.appState = AppState.STATE_LOCATE ∧
            (a.frame now width height).1.appState = AppState.STATE_RESET_COLLAPSE)) ∧
      (cues (a.frame now width height).2 = [7] ↔
        (a.appState = AppState.STATE_BLACKSCREEN ∧
            (a.frame now width height).1.appState = AppState.STATE_REBUILD) ∨
          (a.appState = AppState.STATE_RESET_BLACKSCREEN ∧
            (a.frame now width height).1.appState = AppState.STATE_RESET_REBUILD)) ∧
      (cues (a.frame now width height).2 = [6] ∨ cues (a.frame now width height).2 = [7] ∨
        cues (a.frame now width height).2 = [])) ∧
    (∀ (a : App) (inputs : List FrameInput),
      a.appState = AppState.STATE_LOGIN → a.changes inputs = 9 →
        cues (a.trace inputs) = [6, 7, 6, 7] ∧
        (a.trace inputs).count (Effect.playSound 6) = 2 ∧
        (a.trace inputs).count (Effect.playSound 7) = 2 ∧
        (a.run inputs).appState = AppState.STATE_LOGIN) := by
  refine ⟨cues_frame_cases, ?_⟩
  intro a inputs hs hc
  have hcues : cues (a.trace inputs) = [6, 7, 6, 7] := by
    rw [cues_trace, hs, hc]; rfl
  have hcount : ∀ i : Int,
      (a.trace inputs).count (Effect.playSound i) = (cues (a.trace inputs)).count i := by
    intro i
    generalize a.trace inputs = es
    induction es with
    | nil => rfl
    | cons e es ih =>
      cases e <;> simp [cues, Effect.cue, List.count_cons] at ih ⊢ <;> first | exact ih | skip
  refine ⟨hcues, ?_, ?_, ?_⟩
  · rw [hcount, hcues]; rfl
  · rw [hcount, hcues]; rfl
  · rw [run_appState inputs a, hs, hc]; rfl

/-- Witness of C5: the first 446 frames of the application, drawn at four
frames per second from its start, make up one full cycle. -/
theorem C5_transition_cues_witness :
    cues (startApp.trace (steadyFrames 446)) = [6, 7, 6, 7] ∧
    (startApp.trace (steadyFrames 446)).count (Effect.playSound 6) = 2 ∧
    (startApp.trace (steadyFrames 446)).count (Effect.playSound 7) = 2 ∧
    (startApp.run (steadyFrames 446)).appState = AppState.STATE_LOGIN :=
  C5_transition_cues.2 startApp (steadyFrames 446) rfl (by decide!)

/-! ## C6: the restart at the end of the cycle -/

theorem lifecycle_append (xs ys : List Effect) :
    lifecycle (xs ++ ys) = lifecycle xs ++ lifecycle ys := by
  simp [lifecycle, List.filter_append]

theorem lifecycle_replicate_typeCallback (n : Nat) :
    lifecycle (List.replicate n Effect.typeCallback) = [] := by
  induction n with
  | zero => rfl
  | succ n ih => simpa [lifecycle, List.replicate_succ, Effect.isLifecycle] using ih

theorem lifecycle_map_locateSound (l : List Int) :
    lifecycle (l.map Effect.locateSound) = [] := by
  induction l with
  | nil => rfl
  | cons x xs ih => simpa [lifecycle, Effect.isLifecycle] using ih

theorem lifecycle_resizeStage (a : App) (width height : Int) :
    lifecycle (a.resizeStage width height).2 = [] := by
  simp only [resizeStage]
  split_ifs <;> rfl

theorem lifecycle_beginStage (a : App) : lifecycle a.beginStage = [] := by
  simp only [beginStage]
  split_ifs <;> rfl

theorem lifecycle_endStage (a : App) : lifecycle a.endStage = [] := by
  simp only [endStage]
  split_ifs <;> rfl

theorem lifecycle_presentStage (a : App) (now : ℚ) : lifecycle (a.presentStage now) = [] := by
  simp only [presentStage]
  split_ifs <;> rfl

theorem lifecycle_frame (a : App) (now : ℚ) (width height : Int) :
    lifecycle (a.frame now width height).2 =
      lifecycle ((a.preSwitch now width height).switchStage now (now - a.lastTime)).2 := by
  rw [frame_snd]
  simp only [lifecycle_append, lifecycle_resizeStage, lifecycle_beginStage, lifecycle_endStage,
    lifecycle_presentStage, List.nil_append, List.append_nil]

theorem lifecycle_caseLogin (a : App) (deltaTime : ℚ) :
    lifecycle (a.caseLogin deltaTime).2 =
      if a.backgroundSoundPlaying = false then [Effect.playBackgroundSound] else [] := by
  simp only [caseLogin]
  split_ifs <;>
    simp only [lifecycle_append, lifecycle_replicate_typeCallback, List.nil_append] <;>
    first | rfl | simp_all

theorem caseLogin_backgroundSoundPlaying (a : App) (deltaTime : ℚ) :
    (a.caseLogin deltaTime).1.backgroundSoundPlaying = true := by
  simp only [caseLogin]
  split_ifs <;> simp_all

theorem lifecycle_caseTerminal (a : App) (now : ℚ) :
    lifecycle (a.caseTerminal now).2 = [] := by
  simp only [caseTerminal]
  split_ifs <;>
    simp only [lifecycle_append, lifecycle_replicate_typeCallback, List.nil_append] <;> rfl

theorem caseTerminal_backgroundSoundPlaying (a : App) (now : ℚ) :
    (a.caseTerminal now).1.backgroundSoundPlaying = a.backgroundSoundPlaying := by
  simp only [caseTerminal]
  split_ifs <;> rfl

theorem lifecycle_caseCollapse (a : App) (now : ℚ) (target : AppState) :
    lifecycle (a.caseCollapse now target).2 = [] := by
  simp only [caseCollapse]
  split_ifs <;> rfl

theorem caseCollapse_backgroundSoundPlaying (a : App) (now : ℚ) (target : AppState) :
    (a.caseCollapse now target).1.backgroundSoundPlaying = a.backgroundSoundPlaying := by
  simp only [caseCollapse]
  split_ifs <;> rfl

theorem lifecycle_caseBlackscreen (a : App) (now : ℚ) (target : AppState) :
    lifecycle (a.caseBlackscreen now target).2 = [] := by
  simp only [caseBlackscreen]
  split_ifs <;> rfl

theorem caseBlackscreen_backgroundSoundPlaying (a : App) (now : ℚ) (target : AppState) :
    (a.caseBlackscreen now target).1.backgroundSoundPlaying = a.backgroundSoundPlaying := by
  simp only [caseBlackscreen]
  split_ifs <;> rfl

theorem lifecycle_caseRebuild (a : App) (now : ℚ) : lifecycle (a.caseRebuild now).2 = [] := by
  simp only [caseRebuild]
  split_ifs <;> rfl

theorem caseRebuild_backgroundSoundPlaying (a : App) (now : ℚ) :
    (a.caseRebuild now).1.backgroundSoundPlaying = a.backgroundSoundPlaying := by
  simp only [caseRebuild]
  split_ifs <;> rfl

theorem lifecycle_caseLocate (a : App) (now deltaTime : ℚ) :
    lifecycle (a.caseLocate now deltaTime).2 = [] := by
  simp only [caseLocate]
  split_ifs <;>
    simp only [lifecycle_append, lifecycle_map_locateSound, List.nil_append,
      List.append_nil] <;> rfl

theorem caseLocate_backgroundSoundPlaying (a : App) (now deltaTime : ℚ) :
    (a.caseLocate now deltaTime).1.backgroundSoundPlaying = a.backgroundSoundPlaying := by
  simp only [caseLocate]
  split_ifs <;> rfl

/-- The exit branch of `case STATE_RESET_REBUILD`, in full. -/
theorem caseResetRebuild_exit (a : App) (now : ℚ)
    (ht : (now - a.rebuildStartTime) / (5 / 4) ≥ 1) :
    a.caseResetRebuild now =
      ({ a with
          tvCloseAnim := 1 - easeOutQuad (min ((now - a.rebuildStartTime) / (5 / 4)) 1)
          loginScene := a.loginScene.reset
          terminalAnimation := a.terminalAnimation.reset
          locateScene := a.locateScene.reset
          appState := AppState.STATE_LOGIN
          backgroundSoundPlaying := false },
        [Effect.loginReset, Effect.terminalReset, Effect.locateReset,
          Effect.stopBackgroundSound]) := by
  simp only [caseResetRebuild]
  rw [if_pos ht]

/-- The other branch of `case STATE_RESET_REBUILD`, in full. -/
theorem caseResetRebuild_stay (a : App) (now : ℚ)
    (ht : ¬ (now - a.rebuildStartTime) / (5 / 4) ≥ 1) :
    a.caseResetRebuild now =
      ({ a with
          tvCloseAnim := 1 - easeOutQuad (min ((now - a.rebuildStartTime) / (5 / 4)) 1) },
        []) := by
  simp only [caseResetRebuild]
  rw [if_neg ht]

/-- The restart and background loop effects of one frame. -/
theorem lifecycle_frame_eq (a : App) (now : ℚ) (width height : Int) :
    lifecycle (a.frame now width height).2 =
      if a.appState = AppState.STATE_LOGIN then
        if a.backgroundSoundPlaying = false then [Effect.playBackgroundSound] else []
      else if a.appState = AppState.STATE_RESET_REBUILD ∧
          (a.frame now width height).1.appState ≠ a.appState then
        [Effect.loginReset, Effect.terminalReset, Effect.locateReset,
          Effect.stopBackgroundSound]
      else [] := by
  by_cases hrr : a.appState = AppState.STATE_RESET_REBUILD
  · have hiff := frame_rebuild_left_iff a now width height (Or.inr hrr)
    have hl : ¬ a.appState = AppState.STATE_LOGIN := by rw [hrr]; decide
    rw [if_neg hl, lifecycle_frame, switchStage_resetRebuild _ _ _ (by simp [hrr])]
    by_cases ht : (now - a.rebuildStartTime) / (5 / 4) ≥ 1
    · rw [if_pos ⟨hrr, hiff.mpr ht⟩, caseResetRebuild_exit _ _ (by simpa using ht)]; rfl
    · rw [if_neg (fun hc => ht (hiff.mp hc.2)),
        caseResetRebuild_stay _ _ (by simpa using ht)]; rfl
  · rw [lifecycle_frame]
    cases h : a.appState
    · rw [switchStage_login _ _ _ (by simp [h]), lifecycle_caseLogin,
        preSwitch_backgroundSoundPlaying]
      simp
    · rw [switchStage_terminal _ _ _ (by simp [h]), lifecycle_caseTerminal]; simp
    · rw [switchStage_collapse _ _ _ (by simp [h]), lifecycle_caseCollapse]; simp
    · rw [switchStage_blackscreen _ _ _ (by simp [h]), lifecycle_caseBlackscreen]; simp
    · rw [switchStage_rebuild _ _ _ (by simp [h]), lifecycle_caseRebuild]; simp
    · rw [switchStage_locate _ _ _ (by simp [h]), lifecycle_caseLocate]; simp
    · rw [switchStage_resetCollapse _ _ _ (by simp [h]), lifecycle_caseCollapse]; simp
    · rw [switchStage_resetBlackscreen _ _ _ (by simp [h]), lifecycle_caseBlackscreen]; simp
    · exact absurd h hrr

/-- The `backgroundSoundPlaying` flag after one frame. -/
theorem frame_backgroundSoundPlaying (a : App) (now : ℚ) (width height : Int) :
    (a.frame now width height).1.backgroundSoundPlaying =
      if a.appState = AppState.STATE_LOGIN then true
      else if a.appState = AppState.STATE_RESET_REBUILD ∧
          (a.frame now width height).1.appState ≠ a.appState then false
      else a.backgroundSoundPlaying := by
  by_cases hrr : a.appState = AppState.STATE_RESET_REBUILD
  · have hiff := frame_rebuild_left_iff a now width height (Or.inr hrr)
    have hl : ¬ a.appState = AppState.STATE_LOGIN := by rw [hrr]; decide
    rw [if_neg hl]
    by_cases ht : (now - a.rebuildStartTime) / (5 / 4) ≥ 1
    · rw [if_pos ⟨hrr, hiff.mpr ht⟩, frame_fst,
        switchStage_resetRebuild _ _ _ (by simp [hrr]),
        caseResetRebuild_exit _ _ (by simpa using ht)]
    · rw [if_neg (fun hc => ht (hiff.mp hc.2)), frame_fst,
        switchStage_resetRebuild _ _ _ (by simp [hrr]),
        caseResetRebuild_stay _ _ (by simpa using ht)]
      exact preSwitch_backgroundSoundPlaying a now width height
  · rw [frame_fst]
    cases h : a.appState
    · rw [switchStage_login _ _ _ (by simp [h]), caseLogin_backgroundSoundPlaying]; simp
    · rw [switchStage_terminal _ _ _ (by simp [h]), caseTerminal_backgroundSoundPlaying]; simp
    · rw [switchStage_collapse _ _ _ (by simp [h]), caseCollapse_backgroundSoundPlaying]; simp
    · rw [switchStage_blackscreen _ _ _ (by simp [h]),
        caseBlackscreen_backgroundSoundPlaying]; simp
    · rw [switchStage_rebuild _ _ _ (by simp [h]), caseRebuild_backgroundSoundPlaying]; simp
    · rw [switchStage_locate _ _ _ (by simp [h]), caseLocate_backgroundSoundPlaying]; simp
    · rw [switchStage_resetCollapse _ _ _ (by simp [h]),
        caseCollapse_backgroundSoundPlaying]; simp
    · rw [switchStage_resetBlackscreen _ _ _ (by simp [h]),
        caseBlackscreen_backgroundSoundPlaying]; simp
    · exact absurd h hrr

theorem run_append (xs ys : List FrameInput) :
    ∀ a : App, a.run (xs ++ ys) = (a.run xs).run ys := by
  induction xs with
  | nil => intro a; rfl
  | cons i rest ih =>
    intro a
    rw [List.cons_append]
    simp only [run]
    exact ih _

theorem trace_append (xs ys : List FrameInput) :
    ∀ a : App, a.trace (xs ++ ys) = a.trace xs ++ (a.run xs).trace ys := by
  induction xs with
  | nil => intro a; rfl
  | cons i rest ih =>
    intro a
    rw [List.cons_append]
    simp only [run, trace, List.append_assoc]
    rw [ih]

theorem changes_append (xs ys : List FrameInput) :
    ∀ a : App, a.changes (xs ++ ys) = a.changes xs + (a.run xs).changes ys := by
  induction xs with
  | nil => intro a; simp [changes, run]
  | cons i rest ih =>
    intro a
    rw [List.cons_append]
    simp only [run, changes, Nat.add_assoc]
    rw [ih]

theorem index_next (st : AppState) (h : st ≠ AppState.STATE_RESET_REBUILD) :
    st.next.index = st.index + 1 := by
  cases st <;> first | rfl | exact absurd rfl h

theorem index_le (st : AppState) : st.index ≤ 8 := by
  cases st <;> decide

/-- Frames that neither start a cycle with the loop off nor complete the cycle
produce no restart and no background loop effect. -/
theorem lifecycle_trace_middle (inputs : List FrameInput) :
    ∀ a : App, (a.appState = AppState.STATE_LOGIN → a.backgroundSoundPlaying = true) →
      a.appState.index + a.changes inputs ≤ 8 →
      lifecycle (a.trace inputs) = [] ∧
        ((a.run inputs).appState = AppState.STATE_LOGIN →
          (a.run inputs).backgroundSoundPlaying = true) := by
  induction inputs with
  | nil => intro a hflag _; exact ⟨rfl, hflag⟩
  | cons i rest ih =>
    intro a hflag hle
    simp only [changes] at hle
    have hstay : a.appState = AppState.STATE_RESET_REBUILD →
        (a.frame i.now i.width i.height).1.appState = a.appState := by
      intro hrr
      by_contra hne
      rw [if_pos hne, hrr] at hle
      simp [AppState.index] at hle
    have hidx : (a.frame i.now i.width i.height).1.appState.index =
        a.appState.index +
          (if (a.frame i.now i.width i.height).1.appState ≠ a.appState then 1 else 0) := by
      by_cases hne : (a.frame i.now i.width i.height).1.appState ≠ a.appState
      · rw [if_pos hne]
        rcases frame_next a i.now i.width i.height with h | h
        · exact absurd h hne
        · rw [h]
          exact index_next _ (fun hrr => hne (hstay hrr))
      · rw [if_neg hne, not_not.mp hne, Nat.add_zero]
    have hlife : lifecycle (a.frame i.now i.width i.height).2 = [] := by
      rw [lifecycle_frame_eq]
      by_cases hl : a.appState = AppState.STATE_LOGIN
      · rw [if_pos hl, if_neg (by simp [hflag hl])]
      · rw [if_neg hl, if_neg]
        rintro ⟨hrr, hne⟩
        exact hne (hstay hrr)
    have hflag2 : (a.frame i.now i.width i.height).1.appState = AppState.STATE_LOGIN →
        (a.frame i.now i.width i.height).1.backgroundSoundPlaying = true := by
      intro hpost
      rw [frame_backgroundSoundPlaying]
      by_cases hl : a.appState = AppState.STATE_LOGIN
      · rw [if_pos hl]
      · exfalso
        rcases frame_next a i.now i.width i.height with h | h
        · exact hl (h ▸ hpost)
        · have hrr : a.appState = AppState.STATE_RESET_REBUILD := by
            rw [hpost] at h
            cases h2 : a.appState <;> rw [h2] at h <;> simp [AppState.next] at h
          have := hstay hrr
          rw [hpost] at this
          exact hl this.symm
    have h2 := ih (a.frame i.now i.width i.height).1 hflag2 (by rw [hidx]; omega)
    simp only [trace, run, lifecycle_append, hlife, List.nil_append]
    exact h2

/-- One full cycle, cut right after the frame that returns to LOGIN: the
background loop is started once, by the first frame, and the only other restart
effects are the three resets and the stop of the loop, made by the last frame. -/
theorem lifecycle_cycle (a : App) (inputs : List FrameInput)
    (hs : a.appState = AppState.STATE_LOGIN) (hflag : a.backgroundSoundPlaying = false)
    (h9 : a.changes inputs = 9) (h8 : a.changes inputs.dropLast = 8) :
    lifecycle (a.trace inputs) =
        [Effect.playBackgroundSound, Effect.loginReset, Effect.terminalReset,
          Effect.locateReset, Effect.stopBackgroundSound] ∧
      (a.run inputs).appState = AppState.STATE_LOGIN ∧
      (a.run inputs).backgroundSoundPlaying = false := by
  cases inputs with
  | nil => simp [changes] at h9
  | cons i rest =>
    have hrest : rest ≠ [] := by
      intro hnil
      subst hnil
      simp only [changes] at h9
      split_ifs at h9 <;> omega
    obtain ⟨mid, last, hml⟩ : ∃ mid last, rest = mid ++ [last] :=
      ⟨rest.dropLast, rest.getLast hrest, (List.dropLast_append_getLast hrest).symm⟩
    subst hml
    have hdl : (i :: (mid ++ [last])).dropLast = i :: mid := by
      rw [← List.cons_append, List.dropLast_concat]
    rw [hdl] at h8
    rw [← List.cons_append, changes_append, h8] at h9
    have hlastc : (a.run (i :: mid)).changes [last] = 1 := by omega
    have hb : (a.run (i :: mid)).appState = AppState.STATE_RESET_REBUILD := by
      rw [run_appState, hs, h8]; rfl
    have hlast_ne : ((a.run (i :: mid)).frame last.now last.width last.height).1.appState ≠
        (a.run (i :: mid)).appState := by
      intro heq
      simp only [changes] at hlastc
      rw [if_neg (not_not.mpr heq)] at hlastc
      omega
    -- the first frame
    have hfirst : lifecycle (a.frame i.now i.width i.height).2 =
        [Effect.playBackgroundSound] := by
      rw [lifecycle_frame_eq, if_pos hs, if_pos hflag]
    have hflag1 : (a.frame i.now i.width i.height).1.backgroundSoundPlaying = true := by
      rw [frame_backgroundSoundPlaying, if_pos hs]
    -- the frames between the first and the last
    have hidx1 : (a.frame i.now i.width i.height).1.appState.index +
        (a.frame i.now i.width i.height).1.changes mid ≤ 8 := by
      have h8' := h8
      simp only [changes] at h8'
      rcases frame_next a i.now i.width i.height with h | h
      · rw [h, hs]
        rw [if_neg (not_not.mpr h)] at h8'
        simp only [AppState.index]; omega
      · have hne : (a.frame i.now i.width i.height).1.appState ≠ a.appState := by
          rw [h, hs]; decide
        rw [if_pos hne] at h8'
        rw [h, hs]
        simp only [AppState.next, AppState.index]; omega
    have hmid := (lifecycle_trace_middle mid (a.frame i.now i.width i.height).1
      (fun _ => hflag1) hidx1).1
    -- the last frame
    have hlast : lifecycle ((a.run (i :: mid)).frame last.now last.width last.height).2 =
        [Effect.loginReset, Effect.terminalReset, Effect.locateReset,
          Effect.stopBackgroundSound] := by
      rw [lifecycle_frame_eq, if_neg (by rw [hb]; decide), if_pos ⟨hb, hlast_ne⟩]
    have hpost : ((a.run (i :: mid)).frame last.now last.width last.height).1.appState =
        AppState.STATE_LOGIN := by
      rcases frame_next (a.run (i :: mid)) last.now last.width last.height with h | h
      · exact absurd h hlast_ne
      · rw [h, hb]; rfl
    have hpostflag :
        ((a.run (i :: mid)).frame last.now last.width last.height).1.backgroundSoundPlaying =
          false := by
      rw [frame_backgroundSoundPlaying, if_neg (by rw [hb]; decide), if_pos ⟨hb, hlast_ne⟩]
    refine ⟨?_, ?_, ?_⟩
    · rw [← List.cons_append, trace_append, lifecycle_append]
      have h1 : lifecycle (a.trace (i :: mid)) = [Effect.playBackgroundSound] := by
        simp only [trace, lifecycle_append, hfirst, hmid, List.append_nil]
      have h2 : lifecycle ((a.run (i :: mid)).trace [last]) =
          [Effect.loginReset, Effect.terminalReset, Effect.locateReset,
            Effect.stopBackgroundSound] := by
        simp only [trace, List.append_nil, hlast]
      rw [h1, h2]; rfl
    · rw [← List.cons_append, run_append]
      exact hpost
    · rw [← List.cons_append, run_append]
      exact hpostflag

/-- C6. On a RESET_REBUILD frame with `(now - rebuildStartTime) / 1.25 ≥ 1`,
`reset()` is called on the login, terminal and locate scenes, then the
background loop is stopped; the state becomes LOGIN and `backgroundSoundPlaying`
is cleared. On a RESET_REBUILD frame with a smaller quotient none of this
happens. A LOGIN frame that finds the flag cleared starts the background loop
and sets the flag, so over one full cycle, cut after the frame that returns to
LOGIN, the loop is started exactly once (by the first frame) and stopped exactly
once (by the last). -/
theorem C6_restart_at_cycle_end :
    (∀ (a : App) (now : ℚ) (width height : Int),
      a.appState = AppState.STATE_RESET_REBUILD →
      (now - a.rebuildStartTime) / (5 / 4) ≥ 1 →
        (a.frame now width height).1.loginScene = a.loginScene.reset ∧
        (a.frame now width height).1.terminalAnimation = a.terminalAnimation.reset ∧
        (a.frame now width height).1.locateScene = a.locateScene.reset ∧
        (a.frame now width height).1.appState = AppState.STATE_LOGIN ∧
        (a.frame now width height).1.backgroundSoundPlaying = false ∧
        lifecycle (a.frame now width height).2 =
          [Effect.loginReset, Effect.terminalReset, Effect.locateReset,
            Effect.stopBackgroundSound]) ∧
    (∀ (a : App) (now : ℚ) (width height : Int),
      a.appState = AppState.STATE_RESET_REBUILD →
      (now - a.rebuildStartTime) / (5 / 4) < 1 →
        (a.frame now width height).1.loginScene = a.loginScene ∧
        (a.frame now width height).1.terminalAnimation = a.terminalAnimation ∧
        (a.frame now width height).1.locateScene = a.locateScene ∧
        (a.frame now width height).1.appState = AppState.STATE_RESET_REBUILD ∧
        (a.frame now width height).1.backgroundSoundPlaying = a.backgroundSoundPlaying ∧
        lifecycle (a.frame now width height).2 = []) ∧
    (∀ (a : App) (now : ℚ) (width height : Int),
      a.appState = AppState.STATE_LOGIN → a.backgroundSoundPlaying = false →
        lifecycle (a.frame now width height).2 = [Effect.playBackgroundSound] ∧
        (a.frame now width height).1.backgroundSoundPlaying = true) ∧
    (∀ (a : App) (inputs : List FrameInput),
      a.appState = AppState.STATE_LOGIN → a.backgroundSoundPlaying = false →
      a.changes inputs = 9 → a.changes inputs.dropLast = 8 →
        lifecycle (a.trace inputs) =
          [Effect.playBackgroundSound, Effect.loginReset, Effect.terminalReset,
            Effect.locateReset, Effect.stopBackgroundSound] ∧
        (a.run inputs).appState = AppState.STATE_LOGIN ∧
        (a.run inputs).backgroundSoundPlaying = false) := by
  refine ⟨?_, ?_, ?_, lifecycle_cycle⟩
  · intro a now width height hrr ht
    have hf : (a.frame now width height).1 =
        ((a.preSwitch now width height).caseResetRebuild now).1 :=
      frame_of_resetRebuild a now width height hrr
    have hne := (frame_rebuild_left_iff a now width height (Or.inr hrr)).mpr ht
    have hl : ¬ a.appState = AppState.STATE_LOGIN := by rw [hrr]; decide
    refine ⟨?_, ?_, ?_, ?_, ?_, ?_⟩
    · rw [hf, caseResetRebuild_exit _ _ (by simpa using ht)]; simp
    · rw [hf, caseResetRebuild_exit _ _ (by simpa using ht)]; simp
    · rw [hf, caseResetRebuild_exit _ _ (by simpa using ht)]; simp
    · rw [hf, caseResetRebuild_exit _ _ (by simpa using ht)]
    · rw [hf, caseResetRebuild_exit _ _ (by simpa using ht)]
    · rw [lifecycle_frame_eq, if_neg hl, if_pos ⟨hrr, hne⟩]
  · intro a now width height hrr ht
    have hf : (a.frame now width height).1 =
        ((a.preSwitch now width height).caseResetRebuild now).1 :=
      frame_of_resetRebuild a now width height hrr
    have ht' : ¬ (now - a.rebuildStartTime) / (5 / 4) ≥ 1 := not_le.mpr ht
    have hne : ¬ (a.frame now width height).1.appState ≠ a.appState :=
      fun hc => ht' ((frame_rebuild_left_iff a now width height (Or.inr hrr)).mp hc)
    have hl : ¬ a.appState = AppState.STATE_LOGIN := by rw [hrr]; decide
    refine ⟨?_, ?_, ?_, ?_, ?_, ?_⟩
    · rw [hf, caseResetRebuild_stay _ _ (by simpa using ht')]; simp
    · rw [hf, caseResetRebuild_stay _ _ (by simpa using ht')]; simp
    · rw [hf, caseResetRebuild_stay _ _ (by simpa using ht')]; simp
    · rw [← hrr]; exact not_not.mp hne
    · rw [frame_backgroundSoundPlaying, if_neg hl, if_neg (fun hc => hne hc.2)]
    · rw [lifecycle_frame_eq, if_neg hl, if_neg (fun hc => hne hc.2)]
  · intro a now width height hs hflag
    constructor
    · rw [lifecycle_frame_eq, if_pos hs, if_pos hflag]
    · rw [frame_backgroundSoundPlaying, if_pos hs]

/-- Witness of C6: the first cycle of the application, 446 frames at four
frames per second, ending with the frame that returns to LOGIN. -/
theorem C6_restart_at_cycle_end_witness :
    lifecycle (startApp.trace (steadyFrames 446)) =
        [Effect.playBackgroundSound, Effect.loginReset, Effect.terminalReset,
          Effect.locateReset, Effect.stopBackgroundSound] ∧
      (startApp.run (steadyFrames 446)).appState = AppState.STATE_LOGIN ∧
      (startApp.run (steadyFrames 446)).backgroundSoundPlaying = false :=
  C6_restart_at_cycle_end.2.2.2 startApp (steadyFrames 446) rfl rfl (by decide!) (by decide!)

/-! ## C7 and C8: the offscreen pass and what is presented -/

theorem passes_append (xs ys : List Effect) : passes (xs ++ ys) = passes xs ++ passes ys := by
  simp [passes, List.filter_append]

theorem passes_replicate_typeCallback (n : Nat) :
    passes (List.replicate n Effect.typeCallback) = [] := by
  induction n with
  | zero => rfl
  | succ n ih => simpa [passes, List.replicate_succ, Effect.isPass] using ih

theorem passes_map_locateSound (l : List Int) : passes (l.map Effect.locateSound) = [] := by
  induction l with
  | nil => rfl
  | cons x xs ih => simpa [passes, Effect.isPass] using ih

theorem passes_resizeStage (a : App) (width height : Int) :
    passes (a.resizeStage width height).2 = [] := by
  simp only [resizeStage]
  split_ifs <;> rfl

theorem passes_caseLogin (a : App) (deltaTime : ℚ) : passes (a.caseLogin deltaTime).2 = [] := by
  simp only [caseLogin]
  split_ifs <;>
    simp only [passes_append, passes_replicate_typeCallback, List.nil_append] <;> rfl

theorem passes_caseTerminal (a : App) (now : ℚ) : passes (a.caseTerminal now).2 = [] := by
  simp only [caseTerminal]
  split_ifs <;>
    simp only [passes_append, passes_replicate_typeCallback, List.nil_append] <;> rfl

theorem passes_caseCollapse (a : App) (now : ℚ) (target : AppState) :
    passes (a.caseCollapse now target).2 = [] := by
  simp only [caseCollapse]
  split_ifs <;> rfl

theorem passes_caseBlackscreen (a : App) (now : ℚ) (target : AppState) :
    passes (a.caseBlackscreen now target).2 = [] := by
  simp only [caseBlackscreen]
  split_ifs <;> rfl

theorem passes_caseRebuild (a : App) (now : ℚ) : passes (a.caseRebuild now).2 = [] := by
  simp only [caseRebuild]
  split_ifs <;> rfl

theorem passes_caseResetRebuild (a : App) (now : ℚ) :
    passes (a.caseResetRebuild now).2 = [] := by
  simp only [caseResetRebuild]
  split_ifs <;> rfl

theorem passes_caseLocate (a : App) (now deltaTime : ℚ) :
    passes (a.caseLocate now deltaTime).2 = [] := by
  simp only [caseLocate]
  split_ifs <;>
    simp only [passes_append, passes_map_locateSound, List.nil_append, List.append_nil] <;> rfl

theorem passes_switchStage (a : App) (now deltaTime : ℚ) :
    passes (a.switchStage now deltaTime).2 = [] := by
  unfold switchStage
  cases a.appState <;> simp only []
  · exact passes_caseLogin a deltaTime
  · exact passes_caseTerminal a now
  · exact passes_caseCollapse a now _
  · exact passes_caseBlackscreen a now _
  · exact passes_caseRebuild a now
  · exact passes_caseLocate a now deltaTime
  · exact passes_caseCollapse a now _
  · exact passes_caseBlackscreen a now _
  · exact passes_caseResetRebuild a now

theorem presented_append (xs ys : List Effect) : presented (xs ++ ys) = presented xs ++ presented ys := by
  simp [presented, List.filter_append]

theorem presented_replicate_typeCallback (n : Nat) :
    presented (List.replicate n Effect.typeCallback) = [] := by
  induction n with
  | zero => rfl
  | succ n ih => simpa [presented, List.replicate_succ, Effect.isPresent] using ih

theorem presented_map_locateSound (l : List Int) : presented (l.map Effect.locateSound) = [] := by
  induction l with
  | nil => rfl
  | cons x xs ih => simpa [presented, Effect.isPresent] using ih

theorem presented_resizeStage (a : App) (width height : Int) :
    presented (a.resizeStage width height).2 = [] := by
  simp only [resizeStage]
  split_ifs <;> rfl

theorem presented_caseLogin (a : App) (deltaTime : ℚ) : presented (a.caseLogin deltaTime).2 = [] := by
  simp only [caseLogin]
  split_ifs <;>
    simp only [presented_append, presented_replicate_typeCallback, List.nil_append] <;> rfl

theorem presented_caseTerminal (a : App) (now : ℚ) : presented (a.caseTerminal now).2 = [] := by
  simp only [caseTerminal]
  split_ifs <;>
    simp only [presented_append, presented_replicate_typeCallback, List.nil_append] <;> rfl

theorem presented_caseCollapse (a : App) (now : ℚ) (target : AppState) :
    presented (a.caseCollapse now target).2 = [] := by
  simp only [caseCollapse]
  split_ifs <;> rfl

theorem presented_caseBlackscreen (a : App) (now : ℚ) (target : AppState) :
    presented (a.caseBlackscreen now target).2 = [] := by
  simp only [caseBlackscreen]
  split_ifs <;> rfl

theorem presented_caseRebuild (a : App) (now : ℚ) : presented (a.caseRebuild now).2 = [] := by
  simp only [caseRebuild]
  split_ifs <;> rfl

theorem presented_caseResetRebuild (a : App) (now : ℚ) :
    presented (a.caseResetRebuild now).2 = [] := by
  simp only [caseResetRebuild]
  split_ifs <;> rfl

theorem presented_caseLocate (a : App) (now deltaTime : ℚ) :
    presented (a.caseLocate now deltaTime).2 = [] := by
  simp only [caseLocate]
  split_ifs <;>
    simp only [presented_append, presented_map_locateSound, List.nil_append, List.append_nil] <;> rfl

theorem presented_switchStage (a : App) (now deltaTime : ℚ) :
    presented (a.switchStage now deltaTime).2 = [] := by
  unfold switchStage
  cases a.appState <;> simp only []
  · exact presented_caseLogin a deltaTime
  · exact presented_caseTerminal a now
  · exact presented_caseCollapse a now _
  · exact presented_caseBlackscreen a now _
  · exact presented_caseRebuild a now
  · exact presented_caseLocate a now deltaTime
  · exact presented_caseCollapse a now _
  · exact presented_caseBlackscreen a now _
  · exact presented_caseResetRebuild a now

theorem passes_beginStage (a : App) :
    passes a.beginStage = if notBlack a.appState then [Effect.beginRender] else [] := by
  simp only [beginStage]
  split_ifs <;> rfl

theorem passes_endStage (a : App) :
    passes a.endStage = if notBlack a.appState then [Effect.endRender] else [] := by
  simp only [endStage]
  split_ifs <;> rfl

theorem passes_presentStage (a : App) (now : ℚ) : passes (a.presentStage now) = [] := by
  simp only [presentStage]
  split_ifs <;> rfl

theorem presented_beginStage (a : App) : presented a.beginStage = [] := by
  simp only [beginStage]
  split_ifs <;> rfl

theorem presented_endStage (a : App) : presented a.endStage = [] := by
  simp only [endStage]
  split_ifs <;> rfl

theorem presented_presentStage (a : App) (now : ℚ) :
    presented (a.presentStage now) = a.presentStage now := by
  simp only [presentStage]
  split_ifs <;> rfl

/-- What the code does about the offscreen pass: `beginRender` is called when the
state before the switch is not a black screen state, `endRender` when the state
after the switch is not one. -/
theorem passes_frame (a : App) (now : ℚ) (width height : Int) :
    passes (a.frame now width height).2 =
      (if notBlack a.appState then [Effect.beginRender] else []) ++
        (if notBlack (a.frame now width height).1.appState then [Effect.endRender] else []) := by
  rw [frame_snd, frame_fst]
  simp only [passes_append, passes_resizeStage, passes_beginStage, passes_switchStage,
    passes_endStage, passes_presentStage, List.nil_append, List.append_nil,
    preSwitch_appState]

/-- What a frame draws to the window is what the final stage draws. -/
theorem presented_frame (a : App) (now : ℚ) (width height : Int) :
    presented (a.frame now width height).2 = (a.frame now width height).1.presentStage now := by
  rw [frame_snd, frame_fst]
  simp only [presented_append, presented_resizeStage, presented_beginStage,
    presented_switchStage, presented_endStage, presented_presentStage, List.nil_append,
    List.append_nil]

theorem run_singleton (b : App) (i : FrameInput) :
    b.run [i] = (b.frame i.now i.width i.height).1 := rfl

/-- The state after one more frame, from the number of state changes so far. -/
theorem frame_after_run_appState (a : App) (inputs : List FrameInput) (now : ℚ)
    (width height : Int) :
    ((a.run inputs).frame now width height).1.appState =
      a.appState.advance (a.changes (inputs ++ [⟨now, width, height⟩])) := by
  have h : ((a.run inputs).frame now width height).1 =
      (a.run inputs).run [⟨now, width, height⟩] := rfl
  rw [h, ← run_append, run_appState]

/-- C7, evaluated on the first cycle of the application (four frames per
second from its start). Frame 293 starts in COLLAPSE and ends in BLACKSCREEN: it
calls `beginRender` and never `endRender`. Frame 297 starts in BLACKSCREEN and
ends in REBUILD: it calls `endRender` without a `beginRender`. So the pass is
not bracketed in these frames, and a frame whose state is BLACKSCREEN (at its
end, or at its start) does call one of the two. -/
theorem C7_offscreen_pass_unbalanced :
    ((startApp.run (steadyFrames 292)).appState = AppState.STATE_COLLAPSE ∧
      ((startApp.run (steadyFrames 292)).frame (293 / 4) 800 600).1.appState =
        AppState.STATE_BLACKSCREEN ∧
      passes ((startApp.run (steadyFrames 292)).frame (293 / 4) 800 600).2 =
        [Effect.beginRender]) ∧
    ((startApp.run (steadyFrames 296)).appState = AppState.STATE_BLACKSCREEN ∧
      ((startApp.run (steadyFrames 296)).frame (297 / 4) 800 600).1.appState =
        AppState.STATE_REBUILD ∧
      passes ((startApp.run (steadyFrames 296)).frame (297 / 4) 800 600).2 =
        [Effect.endRender]) := by
  have c292 : startApp.changes (steadyFrames 292) = 2 := by decide!
  have c293 : startApp.changes (steadyFrames 292 ++ [⟨293 / 4, 800, 600⟩]) = 3 := by decide!
  have c296 : startApp.changes (steadyFrames 296) = 3 := by decide!
  have c297 : startApp.changes (steadyFrames 296 ++ [⟨297 / 4, 800, 600⟩]) = 4 := by decide!
  have s292 : (startApp.run (steadyFrames 292)).appState = AppState.STATE_COLLAPSE := by
    rw [run_appState, c292]; rfl
  have s293 : ((startApp.run (steadyFrames 292)).frame (293 / 4) 800 600).1.appState =
      AppState.STATE_BLACKSCREEN := by
    have h := frame_after_run_appState startApp (steadyFrames 292) (293 / 4) 800 600
    rw [c293] at h
    exact h
  have s296 : (startApp.run (steadyFrames 296)).appState = AppState.STATE_BLACKSCREEN := by
    rw [run_appState, c296]; rfl
  have s297 : ((startApp.run (steadyFrames 296)).frame (297 / 4) 800 600).1.appState =
      AppState.STATE_REBUILD := by
    have h := frame_after_run_appState startApp (steadyFrames 296) (297 / 4) 800 600
    rw [c297] at h
    exact h
  refine ⟨⟨s292, s293, ?_⟩, ⟨s296, s297, ?_⟩⟩
  · rw [passes_frame, s292, s293]; rfl
  · rw [passes_frame, s296, s297]; rfl

/-- C8. What a frame presents is determined by the state the frame ends in: in
BLACKSCREEN and RESET_BLACKSCREEN a single clear with fade
`easeInQuad(min(now - blackScreenStartTime, 1))` and neither post-effect pass;
in COLLAPSE, REBUILD, RESET_COLLAPSE and RESET_REBUILD the base post-effect
(`crtEffect.render(now)`) followed by the overlay
(`tvEffectScene.render(now, tvCloseAnim)`) with the value `tvCloseAnim` has at
the end of the frame; in LOGIN, TERMINAL and LOCATE the base post-effect
alone. -/
theorem C8_presented_by_end_state (a : App) (now : ℚ) (width height : Int) :
    presented (a.frame now width height).2 =
      presentOf (a.frame now width height).1.appState now
        (a.frame now width height).1.blackScreenStartTime
        (a.frame now width height).1.tvCloseAnim := by
  rw [presented_frame]
  generalize (a.frame now width height).1 = b
  simp only [presentStage]
  cases h : b.appState <;> simp [presentOf]

/-- The frame that leaves RESET_REBUILD hands on the three scenes as `reset()`
left them. -/
theorem frame_resetRebuild_exit (a : App) (now : ℚ) (width height : Int)
    (hrr : a.appState = AppState.STATE_RESET_REBUILD)
    (hne : (a.frame now width height).1.appState ≠ a.appState) :
    (a.frame now width height).1.loginScene = a.loginScene.reset ∧
      (a.frame now width height).1.terminalAnimation = a.terminalAnimation.reset ∧
      (a.frame now width height).1.locateScene = a.locateScene.reset := by
  have ht := (frame_rebuild_left_iff a now width height (Or.inr hrr)).mp hne
  have hf := frame_of_resetRebuild a now width height hrr
  rw [hf, caseResetRebuild_exit _ _ (by simpa using ht)]
  simp

/-- After one full cycle, cut right after the frame that returns to LOGIN, the
three scenes are as `reset()` left them. -/
theorem cycle_resets (a : App) (inputs : List FrameInput)
    (hs : a.appState = AppState.STATE_LOGIN)
    (h9 : a.changes inputs = 9) (h8 : a.changes inputs.dropLast = 8) :
    (a.run inputs).loginScene = (a.run inputs.dropLast).loginScene.reset ∧
      (a.run inputs).terminalAnimation = (a.run inputs.dropLast).terminalAnimation.reset ∧
      (a.run inputs).locateScene = (a.run inputs.dropLast).locateScene.reset := by
  have hne : inputs ≠ [] := by
    intro hnil
    subst hnil
    simp [changes] at h9
  obtain ⟨mid, last, hml⟩ : ∃ mid last, inputs = mid ++ [last] :=
    ⟨inputs.dropLast, inputs.getLast hne, (List.dropLast_append_getLast hne).symm⟩
  subst hml
  rw [List.dropLast_concat] at h8 ⊢
  rw [changes_append, h8] at h9
  have hb : (a.run mid).appState = AppState.STATE_RESET_REBUILD := by
    rw [run_appState, hs, h8]; rfl
  have hlast_ne : ((a.run mid).frame last.now last.width last.height).1.appState ≠
      (a.run mid).appState := by
    intro heq
    simp only [changes] at h9
    rw [if_neg (not_not.mpr heq)] at h9
    omega
  rw [run_append]
  exact frame_resetRebuild_exit (a.run mid) last.now last.width last.height hb hlast_ne

/-- C9, evaluated on the first cycle of the application (446 frames at four
frames per second), for a terminal scene constructed on storage in which the
never initialised member `codeCharIndex` held 5. After the cycle the state is
LOGIN again and every listed field has the value the claim gives, which is the
constructed value for all of them except `codeCharIndex`: the constructor left
5 there, `reset()` wrote 0. -/
theorem C9_full_cycle_fields :
    (startApp.run (steadyFrames 446)).appState = AppState.STATE_LOGIN ∧
    ((startApp.run (steadyFrames 446)).loginScene.stage = LoginScene.Stage.SHOW_USERNAME ∧
      (startApp.run (steadyFrames 446)).loginScene.charIndex = 0 ∧
      LoginScene.construct.stage = LoginScene.Stage.SHOW_USERNAME ∧
      LoginScene.construct.charIndex = 0) ∧
    ((startApp.run (steadyFrames 446)).terminalAnimation.animationIndex = 0 ∧
      (startApp.run (steadyFrames 446)).terminalAnimation.animationIndexFile = 0 ∧
      (startApp.run (steadyFrames 446)).terminalAnimation.codeLineIndex = 0 ∧
      (startApp.run (steadyFrames 446)).terminalAnimation.demoStarted = false ∧
      (TerminalScene.construct ⟨5, 0, 0, false⟩).animationIndex = 0 ∧
      (TerminalScene.construct ⟨5, 0, 0, false⟩).animationIndexFile = 0 ∧
      (TerminalScene.construct ⟨5, 0, 0, false⟩).codeLineIndex = 0 ∧
      (TerminalScene.construct ⟨5, 0, 0, false⟩).demoStarted = false) ∧
    ((startApp.run (steadyFrames 446)).locateScene.currentStep = 0 ∧
      (startApp.run (steadyFrames 446)).locateScene.charIndex = 0 ∧
      (startApp.run (steadyFrames 446)).locateScene.finished = false ∧
      LocateScene.construct.currentStep = 0 ∧
      LocateScene.construct.charIndex = 0 ∧
      LocateScene.construct.finished = false) ∧
    startApp.terminalAnimation.codeCharIndex = 5 ∧
    (TerminalScene.construct ⟨5, 0, 0, false⟩).codeCharIndex = 5 ∧
    (startApp.run (steadyFrames 446)).terminalAnimation.codeCharIndex = 0 := by
  have h9 : startApp.changes (steadyFrames 446) = 9 := by decide!
  have h8 : startApp.changes (steadyFrames 446).dropLast = 8 := by decide!
  have hst : (startApp.run (steadyFrames 446)).appState = AppState.STATE_LOGIN := by
    rw [run_appState, h9]; rfl
  obtain ⟨hl, ht, hc⟩ := cycle_resets startApp (steadyFrames 446) rfl h9 h8
  rw [hl, ht, hc]
  exact ⟨hst, ⟨rfl, rfl, rfl, rfl⟩, ⟨rfl, rfl, rfl, rfl, rfl, rfl, rfl, rfl⟩,
    ⟨rfl, rfl, rfl, rfl, rfl, rfl⟩, rfl, rfl, rfl⟩

end App

/-! ## C10: `LoginScene::reset` -/

namespace LoginScene

/-- The update of a scene does not depend on whether a callback is attached,
except for the callback count it reports. -/
theorem update_callback (s : LoginScene) (c : Bool) (deltaTime : ℚ) :
    (({ s with onTypeCallback := c } : LoginScene).update deltaTime).1 =
      { (s.update deltaTime).1 with onTypeCallback := c } := by
  simp only [update]
  cases h : s.stage <;> simp only [] <;> split_ifs <;> rfl

theorem states_callback (c : Bool) (dts : List ℚ) :
    ∀ s : LoginScene, ({ s with onTypeCallback := c } : LoginScene).states dts =
      (s.states dts).map fun t => { t with onTypeCallback := c } := by
  induction dts with
  | nil => intro s; rfl
  | cons d rest ih =>
    intro s
    simp only [states, List.map_cons, update_callback, ih]

theorem reset_eq (s : LoginScene) :
    s.reset = { construct with onTypeCallback := s.onTypeCallback } := rfl

/-- C10. `LoginScene::reset()` applied to any scene (reachable or not) yields the
freshly constructed scene in every member except the retained type callback;
with the callback `main` attaches it is the scene `main` starts with. Hence
reset is idempotent, and for every sequence of `update` calls the scenes after
each call agree, in every member except the callback and in the answer of
`isFinished()`, with those of a freshly constructed scene given the same
calls. -/
theorem C10_login_reset_restores_construction :
    (∀ s : LoginScene, s.reset = { construct with onTypeCallback := s.onTypeCallback }) ∧
    (∀ s : LoginScene, s.reset.observable = construct.observable) ∧
    (∀ s : LoginScene, s.onTypeCallback = true → s.reset = construct.setOnTypeCallback) ∧
    (∀ s : LoginScene, s.reset.reset = s.reset) ∧
    (∀ (s : LoginScene) (dts : List ℚ),
      (s.reset.states dts).map observable = (construct.states dts).map observable ∧
      (s.reset.states dts).map isFinished = (construct.states dts).map isFinished) := by
  refine ⟨reset_eq, fun _ => rfl, ?_, fun _ => rfl, ?_⟩
  · intro s h
    rw [reset_eq, h]; rfl
  · intro s dts
    rw [reset_eq, states_callback, List.map_map, List.map_map]
    exact ⟨rfl, rfl⟩

end LoginScene

/-! ## C14: the login stages advance one at a time -/

namespace LoginScene

theorem update_stage (s : LoginScene) (deltaTime : ℚ) :
    (s.update deltaTime).1.stage = s.stage ∨ (s.update deltaTime).1.stage = s.stage.next := by
  simp only [update]
  cases h : s.stage <;> simp only [] <;> (try split_ifs) <;> simp [Stage.next, h]

theorem update_finished (s : LoginScene) (deltaTime : ℚ) (h : s.stage = Stage.FINISHED) :
    (s.update deltaTime).1 = { s with timer := s.timer + deltaTime } ∧
      (s.update deltaTime).2 = 0 := by
  simp only [update, h, and_self]

theorem states_finished (dts : List ℚ) :
    ∀ s : LoginScene, s.isFinished = true → ∀ t ∈ s.states dts, t.isFinished = true := by
  induction dts with
  | nil => intro s _ t ht; simp [states] at ht
  | cons d rest ih =>
    intro s hs t ht
    have hst : s.stage = Stage.FINISHED := by simpa [isFinished] using hs
    have h1 : (s.update d).1.isFinished = true := by
      rw [(update_finished s d hst).1]
      simpa [isFinished] using hst
    simp only [states, List.mem_cons] at ht
    rcases ht with ht | ht
    · rw [ht]; exact h1
    · exact ih _ h1 t ht

/-- C14. For every login scene and every `deltaTime`, one `update` leaves the
stage unchanged or moves it to the next stage of SHOW_USERNAME, WAIT_PASSWORD,
SHOW_PASSWORD, VERIFYING, ACCESS_GRANTED, FINISHED: no stage is skipped and none
is re-entered. FINISHED is absorbing: an update of a finished scene changes only
`timer`, so `isFinished()` stays true over any sequence of updates, and only
`reset()` makes it false again. -/
theorem C14_login_stage_order :
    (∀ (s : LoginScene) (deltaTime : ℚ),
      (s.update deltaTime).1.stage = s.stage ∨
        (s.update deltaTime).1.stage = s.stage.next) ∧
    List.map Stage.next
        [Stage.SHOW_USERNAME, Stage.WAIT_PASSWORD, Stage.SHOW_PASSWORD, Stage.VERIFYING,
          Stage.ACCESS_GRANTED, Stage.FINISHED] =
      [Stage.WAIT_PASSWORD, Stage.SHOW_PASSWORD, Stage.VERIFYING, Stage.ACCESS_GRANTED,
        Stage.FINISHED, Stage.FINISHED] ∧
    (∀ (s : LoginScene) (deltaTime : ℚ), s.isFinished = true →
      (s.update deltaTime).1 = { s with timer := s.timer + deltaTime }) ∧
    (∀ (s : LoginScene) (dts : List ℚ), s.isFinished = true →
      ∀ t ∈ s.states dts, t.isFinished = true) ∧
    (∀ s : LoginScene, s.reset.isFinished = false) := by
  refine ⟨update_stage, rfl, ?_, fun s dts hs => states_finished dts s hs, fun _ => rfl⟩
  intro s deltaTime hs
  exact (update_finished s deltaTime (by simpa [isFinished] using hs)).1

end LoginScene

/-! ## C15: one type callback per revealed character -/

namespace LoginScene

theorem wellTyped_construct (c : Bool) :
    WellTyped { construct with onTypeCallback := c } := by
  simp [WellTyped, construct]

theorem wellTyped_update_showUsername (tu tp : List Char) (timer : ℚ) (ci : Int) (vd acc : ℚ)
    (cb : Bool) (deltaTime : ℚ)
    (h : WellTyped ⟨Stage.SHOW_USERNAME, "htw saar".toList, "********".toList, tu, tp, timer,
      ci, vd, acc, cb⟩) :
    ((⟨Stage.SHOW_USERNAME, "htw saar".toList, "********".toList, tu, tp, timer, ci, vd, acc,
      cb⟩ : LoginScene).update deltaTime).1.WellTyped := by
  obtain ⟨-, -, htp, h0, h8, htu⟩ := h
  simp only at htp h0 h8 htu
  subst htp htu
  simp only [update]
  interval_cases ci <;> split_ifs <;> simp_all [charAt, WellTyped] <;> decide

theorem wellTyped_update_showPassword (tu tp : List Char) (timer : ℚ) (ci : Int) (vd acc : ℚ)
    (cb : Bool) (deltaTime : ℚ)
    (h : WellTyped ⟨Stage.SHOW_PASSWORD, "htw saar".toList, "********".toList, tu, tp, timer,
      ci, vd, acc, cb⟩) :
    ((⟨Stage.SHOW_PASSWORD, "htw saar".toList, "********".toList, tu, tp, timer, ci, vd, acc,
      cb⟩ : LoginScene).update deltaTime).1.WellTyped := by
  obtain ⟨-, -, htu, h0, h8, htp⟩ := h
  simp only at htp h0 h8 htu
  subst htp htu
  simp only [update]
  interval_cases ci <;> split_ifs <;> simp_all [charAt, WellTyped] <;> decide

theorem wellTyped_update (s : LoginScene) (deltaTime : ℚ) (h : s.WellTyped) :
    (s.update deltaTime).1.WellTyped := by
  obtain ⟨stage, username, password, tu, tp, timer, ci, vd, acc, cb⟩ := s
  have hu : username = "htw saar".toList := h.1
  have hp : password = "********".toList := h.2.1
  subst hu hp
  cases stage
  · exact wellTyped_update_showUsername tu tp timer ci vd acc cb deltaTime h
  · obtain ⟨-, -, htp, htu⟩ := h
    simp only at htp htu
    subst htp htu
    simp only [update]
    split_ifs <;> simp [WellTyped]
  · exact wellTyped_update_showPassword tu tp timer ci vd acc cb deltaTime h
  · obtain ⟨-, -, htu, htp⟩ := h
    simp only at htp htu
    subst htp htu
    simp only [update]
    split_ifs <;> simp [WellTyped]
  · obtain ⟨-, -, htu, htp⟩ := h
    simp only at htp htu
    subst htp htu
    simp only [update]
    split_ifs <;> simp [WellTyped]
  · obtain ⟨-, -, htu, htp⟩ := h
    simp only at htp htu
    subst htp htu
    simp [update, WellTyped]

theorem wellTyped_after (dts : List ℚ) :
    ∀ s : LoginScene, s.WellTyped → (s.after dts).WellTyped := by
  induction dts with
  | nil => intro s h; exact h
  | cons d rest ih => intro s h; exact ih _ (wellTyped_update s d h)

/-- What one update does to the two typed texts, and how often it calls back. -/
theorem update_typed (s : LoginScene) (deltaTime : ℚ) :
    ((s.update deltaTime).1.typedUsername = s.typedUsername ∧
        (s.update deltaTime).1.typedPassword = s.typedPassword ∧
        (s.update deltaTime).2 = 0) ∨
      ((∃ c, (s.update deltaTime).1.typedUsername = s.typedUsername ++ [c]) ∧
        (s.update deltaTime).1.typedPassword = s.typedPassword ∧
        (s.update deltaTime).2 = if s.onTypeCallback then 1 else 0) ∨
      ((s.update deltaTime).1.typedUsername = s.typedUsername ∧
        (∃ c, (s.update deltaTime).1.typedPassword = s.typedPassword ++ [c]) ∧
        (s.update deltaTime).2 = if s.onTypeCallback then 1 else 0) := by
  simp only [update]
  cases h : s.stage <;> simp only [] <;> (try split_ifs) <;> simp

theorem update_onTypeCallback (s : LoginScene) (deltaTime : ℚ) :
    (s.update deltaTime).1.onTypeCallback = s.onTypeCallback := by
  simp only [update]
  cases h : s.stage <;> simp only [] <;> (try split_ifs) <;> rfl

theorem totalCalls_eq (dts : List ℚ) :
    ∀ s : LoginScene, s.onTypeCallback = true →
      (s.after dts).typedUsername.length + (s.after dts).typedPassword.length =
        s.typedUsername.length + s.typedPassword.length + s.totalCalls dts := by
  induction dts with
  | nil => intro s _; rfl
  | cons d rest ih =>
    intro s hcb
    have h1 := ih (s.update d).1 (by rw [update_onTypeCallback]; exact hcb)
    simp only [after, totalCalls]
    rw [h1]
    rcases update_typed s d with ⟨hu, hp, hc⟩ | ⟨⟨c, hu⟩, hp, hc⟩ | ⟨hu, ⟨c, hp⟩, hc⟩
    · rw [hu, hp, hc]; omega
    · rw [hu, hp, hc, hcb]; simp; omega
    · rw [hu, hp, hc, hcb]; simp; omega

/-- C15. With a type callback attached (as `main` does), every update invokes
it at most once, and exactly when the update appended a character to
`typedUsername` or to `typedPassword`; an update appends at most one character,
to at most one of the two texts, so the number of invocations equals the number
of characters revealed. Over a run from the constructed scene to FINISHED the
callback is invoked `len(username) + len(password)` times, 16 for the built-in
strings. -/
theorem C15_one_callback_per_character (s : LoginScene) (deltaTime : ℚ)
    (hcb : s.onTypeCallback = true) :
    (s.update deltaTime).2 ≤ 1 ∧
    ((s.update deltaTime).2 = 1 ↔
      ((s.update deltaTime).1.typedUsername ≠ s.typedUsername ∨
        (s.update deltaTime).1.typedPassword ≠ s.typedPassword)) ∧
    ((s.update deltaTime).1.typedUsername.length + (s.update deltaTime).1.typedPassword.length =
      s.typedUsername.length + s.typedPassword.length + (s.update deltaTime).2) ∧
    (((s.update deltaTime).1.typedUsername = s.typedUsername ∧
        (s.update deltaTime).1.typedPassword = s.typedPassword) ∨
      ((∃ c, (s.update deltaTime).1.typedUsername = s.typedUsername ++ [c]) ∧
        (s.update deltaTime).1.typedPassword = s.typedPassword) ∨
      ((s.update deltaTime).1.typedUsername = s.typedUsername ∧
        ∃ c, (s.update deltaTime).1.typedPassword = s.typedPassword ++ [c])) ∧
    (∀ dts : List ℚ, (construct.setOnTypeCallback.after dts).isFinished = true →
      construct.setOnTypeCallback.totalCalls dts =
        construct.username.length + construct.password.length ∧
      construct.setOnTypeCallback.totalCalls dts = 16) := by
  refine ⟨?_, ?_, ?_, ?_, ?_⟩
  · rcases update_typed s deltaTime with ⟨_, _, hc⟩ | ⟨_, _, hc⟩ | ⟨_, _, hc⟩ <;>
      rw [hc] <;> simp [hcb]
  · rcases update_typed s deltaTime with ⟨hu, hp, hc⟩ | ⟨⟨c, hu⟩, hp, hc⟩ | ⟨hu, ⟨c, hp⟩, hc⟩ <;>
      rw [hu, hp, hc] <;> simp [hcb]
  · rcases update_typed s deltaTime with ⟨hu, hp, hc⟩ | ⟨⟨c, hu⟩, hp, hc⟩ | ⟨hu, ⟨c, hp⟩, hc⟩ <;>
      rw [hu, hp, hc] <;> simp [hcb] <;> omega
  · rcases update_typed s deltaTime with ⟨hu, hp, _⟩ | ⟨hu, hp, _⟩ | ⟨hu, hp, _⟩
    · exact Or.inl ⟨hu, hp⟩
    · exact Or.inr (Or.inl ⟨hu, hp⟩)
    · exact Or.inr (Or.inr ⟨hu, hp⟩)
  · intro dts hfin
    have hw := wellTyped_after dts construct.setOnTypeCallback (wellTyped_construct true)
    have hst : (construct.setOnTypeCallback.after dts).stage = Stage.FINISHED := by
      simpa [isFinished] using hfin
    obtain ⟨hu, hp, hrest⟩ := hw
    rw [hst] at hrest
    simp only at hrest
    have hcount := totalCalls_eq dts construct.setOnTypeCallback rfl
    rw [hrest.1, hrest.2, hu, hp] at hcount
    have h16 : construct.setOnTypeCallback.totalCalls dts = 16 := by
      simpa [construct, setOnTypeCallback] using hcount.symm
    exact ⟨by rw [h16]; rfl, h16⟩

/-- Witness of C15: the first typing update of the scene `main` starts with. -/
theorem C15_one_callback_per_character_witness :
    (construct.setOnTypeCallback.update (1 / 5)).2 = 1 ∧
      (construct.setOnTypeCallback.update (1 / 5)).1.typedUsername = ['h'] ∧
      (construct.setOnTypeCallback.after (List.replicate 40 (1 / 4))).isFinished = true ∧
      construct.setOnTypeCallback.totalCalls (List.replicate 40 (1 / 4)) = 16 := by
  have h := C15_one_callback_per_character construct.setOnTypeCallback (1 / 5) rfl
  have hfin : (construct.setOnTypeCallback.after (List.replicate 40 (1 / 4))).isFinished =
      true := by decide!
  exact ⟨h.2.1.mpr (Or.inl (by decide!)), by decide!, hfin,
    (h.2.2.2.2 (List.replicate 40 (1 / 4)) hfin).2⟩

end LoginScene

/-! ## LocateScene: step change -/

namespace LocateScene

theorem stepped_fields (s : LocateScene) (deltaTime : ℚ) :
    (s.stepped deltaTime).timer = s.timer + deltaTime ∧
      (s.stepped deltaTime).currentStep = s.currentStep ∧
      (s.stepped deltaTime).finished = s.finished ∧
      (s.stepped deltaTime).steps = s.steps ∧
      (s.stepped deltaTime).soundManager = s.soundManager ∧
      (s.stepped deltaTime).targetZoom = s.targetZoom ∧
      (s.stepped deltaTime).targetCenterX = s.targetCenterX ∧
      (s.stepped deltaTime).targetCenterY = s.targetCenterY ∧
      (s.stepped deltaTime).charIndex = ((s.interpolate deltaTime).revealChar).charIndex ∧
      (s.stepped deltaTime).mapAnimFinished =
        ((s.interpolate deltaTime).revealChar).mapAnimFinished := by
  simp only [stepped, trackSettled, revealChar, interpolate, mapAnimFinished]
  split_ifs <;> simp

theorem update_due (s : LocateScene) (deltaTime : ℚ) (hfin : s.finished = false)
    (h : s.advanceDue deltaTime) :
    s.update deltaTime = advanceStep (s.stepped deltaTime) := by
  obtain ⟨h1, h2, h3⟩ := h
  rw [(stepped_fields s deltaTime).2.2.2.2.2.2.2.2.2] at h3
  simp only [update, hfin, Bool.false_eq_true, if_false]
  exact if_pos ⟨h1, h2, h3⟩

theorem update_not_due (s : LocateScene) (deltaTime : ℚ) (hfin : s.finished = false)
    (h : ¬ s.advanceDue deltaTime) :
    s.update deltaTime = (s.stepped deltaTime, []) := by
  simp only [update, hfin, Bool.false_eq_true, if_false]
  refine if_neg ?_
  rintro ⟨h1, h2, h3⟩
  refine h ⟨h1, h2, ?_⟩
  rw [(stepped_fields s deltaTime).2.2.2.2.2.2.2.2.2]
  exact h3

theorem update_of_finished (s : LocateScene) (deltaTime : ℚ) (hfin : s.finished = true) :
    s.update deltaTime = (s, []) := by
  simp only [update, hfin, if_true]

/-- A settled map stays settled under an update of at most a third of a
second: each distance to the target shrinks by the factor `1 - 3 * deltaTime`. -/
theorem settled_interpolate (s : LocateScene) (deltaTime : ℚ) (h0 : 0 ≤ deltaTime)
    (h1 : deltaTime ≤ 1 / 3) (h : s.mapAnimFinished = true) :
    ((s.interpolate deltaTime).revealChar).mapAnimFinished = true := by
  have key : ∀ z t : ℚ, |z - t| < 1 / 100 → |z + (t - z) * 3 * deltaTime - t| < 1 / 100 := by
    intro z t hz
    have e : z + (t - z) * 3 * deltaTime - t = (z - t) * (1 - 3 * deltaTime) := by ring
    rw [e, abs_mul]
    have h2 : |1 - 3 * deltaTime| ≤ 1 := by
      rw [abs_le]; constructor <;> linarith
    calc |z - t| * |1 - 3 * deltaTime| ≤ |z - t| * 1 :=
          mul_le_mul_of_nonneg_left h2 (abs_nonneg _)
      _ < 1 / 100 := by rw [mul_one]; exact hz
  simp only [mapAnimFinished, Bool.and_eq_true, decide_eq_true_eq] at h
  obtain ⟨⟨hz, hx⟩, hy⟩ := h
  have hi : (s.interpolate deltaTime).mapAnimFinished = true := by
    simp only [mapAnimFinished, interpolate, Bool.and_eq_true, decide_eq_true_eq]
    exact ⟨⟨key _ _ hz, key _ _ hx⟩, key _ _ hy⟩
  simp only [revealChar]
  split_ifs
  · simpa [mapAnimFinished] using hi
  · exact hi

theorem advanceStep_low (s : LocateScene) (h0 : 0 ≤ s.currentStep) (h2 : s.currentStep ≤ 2) :
    (advanceStep s).1.currentStep = s.currentStep + 1 ∧
      ((advanceStep s).1.targetZoom, (advanceStep s).1.targetCenterX,
          (advanceStep s).1.targetCenterY) = nextTarget s.currentStep ∧
      (advanceStep s).1.timer = 0 ∧ (advanceStep s).1.charIndex = 0 ∧
      (advanceStep s).1.finished = s.finished ∧
      (advanceStep s).2 = if s.soundManager then [2] else [] := by
  obtain ⟨c, hc⟩ : ∃ c, s.currentStep = c := ⟨_, rfl⟩
  rw [hc] at h0 h2
  interval_cases c <;> simp [advanceStep, nextTarget, hc]

theorem advanceStep_last (s : LocateScene) (h3 : s.currentStep = 3) :
    advanceStep s = ({ s with finished := true }, []) := by
  simp [advanceStep, h3]

/-- C19 as stated fails: the scene `nearAdvance` is at step 0, unfinished, settled,
with the step timer at 7.99 s and target zoom 1; one further update with
`deltaTime = 0.02` brings the timer to 8.01 s and advances to step 1 with target
zoom 5. -/
theorem C19_counterexample :
    nearAdvance.currentStep = 0 ∧ nearAdvance.finished = false ∧
      nearAdvance.mapAnimFinished = true ∧ nearAdvance.timer = 799 / 100 ∧
      nearAdvance.targetZoom = 1 ∧
      (nearAdvance.update (1 / 50)).1.currentStep = 1 ∧
      (nearAdvance.update (1 / 50)).1.targetZoom = 5 := by
  decide!

/-- C19, amended: from an unfinished scene at step 0 with a settled map and the
step timer at 7.99 s, an update of at most 0.01 s never advances the step; the
update of 0.02 s advances to step 1 with targets (5, 0.4, 0.6) when the label is
fully revealed after this update, and leaves step and targets unchanged exactly
when it is not. -/
theorem C19_advance_at_step_zero (s : LocateScene) (hstep : s.currentStep = 0)
    (hfin : s.finished = false) (hset : s.mapAnimFinished = true)
    (ht : s.timer = 799 / 100) :
    (∀ deltaTime : ℚ, deltaTime ≤ 1 / 100 →
      (s.update deltaTime).1.currentStep = 0 ∧
        (s.update deltaTime).1.targetZoom = s.targetZoom ∧
        (s.update deltaTime).1.targetCenterX = s.targetCenterX ∧
        (s.update deltaTime).1.targetCenterY = s.targetCenterY) ∧
    (((s.interpolate (1 / 50)).revealChar).charIndex = (s.stepLabel.length : Int) →
      (s.update (1 / 50)).1.currentStep = 1 ∧
        (s.update (1 / 50)).1.targetZoom = 5 ∧
        (s.update (1 / 50)).1.targetCenterX = 2 / 5 ∧
        (s.update (1 / 50)).1.targetCenterY = 3 / 5) ∧
    (((s.interpolate (1 / 50)).revealChar).charIndex ≠ (s.stepLabel.length : Int) →
      (s.update (1 / 50)).1.currentStep = 0 ∧
        (s.update (1 / 50)).1.targetZoom = s.targetZoom ∧
        (s.update (1 / 50)).1.targetCenterX = s.targetCenterX ∧
        (s.update (1 / 50)).1.targetCenterY = s.targetCenterY) := by
  have hnot : ∀ deltaTime : ℚ, ¬ s.advanceDue deltaTime →
      (s.update deltaTime).1.currentStep = 0 ∧
        (s.update deltaTime).1.targetZoom = s.targetZoom ∧
        (s.update deltaTime).1.targetCenterX = s.targetCenterX ∧
        (s.update deltaTime).1.targetCenterY = s.targetCenterY := by
    intro deltaTime hd
    obtain ⟨-, f2, -, -, -, f6, f7, f8, -, -⟩ := stepped_fields s deltaTime
    rw [update_not_due s deltaTime hfin hd]
    exact ⟨by rw [f2, hstep], f6, f7, f8⟩
  have hlabel : ∀ deltaTime : ℚ, (s.stepped deltaTime).stepLabel = s.stepLabel := by
    intro deltaTime
    obtain ⟨-, f2, -, f4, -⟩ := stepped_fields s deltaTime
    simp only [stepLabel, f2, f4]
  refine ⟨?_, ?_, ?_⟩
  · intro deltaTime hle
    refine hnot deltaTime ?_
    rintro ⟨h1, -, -⟩
    rw [(stepped_fields s deltaTime).1, ht] at h1
    linarith
  · intro hrev
    obtain ⟨f1, f2, -, -, -, -, -, -, f9, f10⟩ := stepped_fields s (1 / 50)
    have hd : s.advanceDue (1 / 50) := by
      refine ⟨?_, ?_, ?_⟩
      · rw [f1, ht]; norm_num
      · rw [f9, hlabel]; exact hrev
      · rw [f10]; exact settled_interpolate s (1 / 50) (by norm_num) (by norm_num) hset
    have hlow := advanceStep_low (s.stepped (1 / 50)) (by rw [f2, hstep])
      (by rw [f2, hstep]; decide)
    rw [update_due s (1 / 50) hfin hd]
    rw [f2, hstep] at hlow
    obtain ⟨h1, h2, -⟩ := hlow
    simp only [nextTarget, if_true, Prod.mk.injEq] at h2
    exact ⟨h1, h2.1, h2.2.1, h2.2.2⟩
  · intro hrev
    refine hnot (1 / 50) ?_
    rintro ⟨-, h2, -⟩
    rw [(stepped_fields s (1 / 50)).2.2.2.2.2.2.2.2.1, hlabel] at h2
    exact hrev h2

/-- Witness of the amended C19: the fully revealed scene `nearAdvance` advances
on the update of 0.02 s, the scene `nearAdvanceUnrevealed` (14 of 15 characters)
does not. -/
theorem C19_advance_at_step_zero_witness :
    ((nearAdvance.update (1 / 50)).1.currentStep = 1 ∧
      (nearAdvance.update (1 / 50)).1.targetZoom = 5 ∧
      (nearAdvance.update (1 / 50)).1.targetCenterX = 2 / 5 ∧
      (nearAdvance.update (1 / 50)).1.targetCenterY = 3 / 5) ∧
    ((nearAdvanceUnrevealed.update (1 / 50)).1.currentStep = 0 ∧
      (nearAdvanceUnrevealed.update (1 / 50)).1.targetZoom = nearAdvanceUnrevealed.targetZoom ∧
      (nearAdvanceUnrevealed.update (1 / 50)).1.targetCenterX =
        nearAdvanceUnrevealed.targetCenterX ∧
      (nearAdvanceUnrevealed.update (1 / 50)).1.targetCenterY =
        nearAdvanceUnrevealed.targetCenterY) :=
  ⟨(C19_advance_at_step_zero nearAdvance (by decide!) (by decide!) (by decide!)
      (by decide!)).2.1 (by decide!),
   (C19_advance_at_step_zero nearAdvanceUnrevealed (by decide!) (by decide!) (by decide!)
      (by decide!)).2.2 (by decide!)⟩

/-! ## LocateScene: reset against construction -/

/-- C12 fails on `zoom`: `reset()` sets `zoom = 1.0f` for every scene, while the
constructor gives `zoom(0.5f)`; every other member `reset()` writes does get its
constructed value. The difference reaches the sequence of
`(currentStep, charIndex, finished)`: under fifteen updates of one second the
scene after `reset()` stays settled and is at step 1 after the fifteenth, while
the constructed scene (whose zoom error doubles with every such update) is
still at step 0. -/
theorem C12_reset_zoom_differs :
    (∀ s : LocateScene,
      s.reset.zoom = 1 ∧
        s.reset = { construct with zoom := 1, steps := s.steps, soundManager := s.soundManager }) ∧
    construct.zoom = 1 / 2 ∧
    construct.reset.zoom ≠ construct.zoom ∧
    (construct.reset.after (List.replicate 15 1)).currentStep = 1 ∧
    (construct.after (List.replicate 15 1)).currentStep = 0 ∧
    construct.reset.progress (List.replicate 15 1) ≠ construct.progress (List.replicate 15 1) := by
  refine ⟨fun s => ⟨rfl, rfl⟩, rfl, by decide!, by decide!, by decide!, by decide!⟩

end LocateScene

/-! ## TerminalScene: reset against construction -/

namespace TerminalScene

theorem updateDirectory_core (a b : TerminalScene) (t : ℚ) (h : a.core = b.core) :
    (updateDirectory a t).1.core = (updateDirectory b t).1.core := by
  cases a; cases b
  simp only [core, mk.injEq] at h
  obtain ⟨-, h2, h3, h4, h5, h6, h7, h8, -, -, h11, h12, h13, h14, h15, h16, h17, h18, -, h20⟩ := h
  subst_vars
  simp only [updateDirectory, core]
  split_ifs <;> rfl

theorem updateFile_core (a b : TerminalScene) (t : ℚ) (h : a.core = b.core) :
    (updateFile a t).1.core = (updateFile b t).1.core := by
  cases a; cases b
  simp only [core, mk.injEq] at h
  obtain ⟨-, h2, h3, h4, h5, h6, h7, h8, -, -, h11, h12, h13, h14, h15, h16, h17, h18, -, h20⟩ := h
  subst_vars
  simp only [updateFile, core]
  split_ifs <;> rfl

theorem updateDemoStart_core (a b : TerminalScene) (t : ℚ) (h : a.core = b.core) :
    (updateDemoStart a t).core = (updateDemoStart b t).core := by
  cases a; cases b
  simp only [core, mk.injEq] at h
  obtain ⟨-, h2, h3, h4, h5, h6, h7, h8, -, -, h11, h12, h13, h14, h15, h16, h17, h18, -, h20⟩ := h
  subst_vars
  simp only [updateDemoStart, core]
  split_ifs <;> rfl

theorem updateCode_core (a b : TerminalScene) (t : ℚ) (h : a.core = b.core) :
    (updateCode a t).1.core = (updateCode b t).1.core := by
  cases a; cases b
  simp only [core, mk.injEq] at h
  obtain ⟨-, h2, h3, h4, h5, h6, h7, h8, -, -, h11, h12, h13, h14, h15, h16, h17, h18, -, h20⟩ := h
  subst_vars
  simp only [updateCode, core, codeLines]
  split_ifs <;> rfl

/-- The update reads neither the callback flag's effect on the state, nor
`directoryCharIndex`, `fileCharIndex`, `finished`, nor the old `currentTime`. -/
theorem update_core (a b : TerminalScene) (t : ℚ)
    (h : ({ a with currentTime := 0 } : TerminalScene).core =
      ({ b with currentTime := 0 } : TerminalScene).core) :
    (a.update t).1.core = (b.update t).1.core := by
  simp only [update]
  refine updateCode_core _ _ t (updateDemoStart_core _ _ t (updateFile_core _ _ t
    (updateDirectory_core _ _ t ?_)))
  cases a; cases b
  simp only [core, mk.injEq] at h ⊢
  obtain ⟨-, h2, h3, h4, h5, h6, h7, h8, -, -, h11, h12, h13, h14, h15, h16, h17, h18, -, -⟩ := h
  simp only [h2, h3, h4, h5, h6, h7, h8, h11, h12, h13, h14, h15, h16, h17, h18, and_self]

theorem observe_core (a b : TerminalScene) (h : a.core = b.core) : a.observe = b.observe := by
  cases a; cases b
  simp only [core, mk.injEq] at h
  obtain ⟨-, h2, h3, h4, h5, h6, h7, h8, -, -, h11, h12, h13, h14, h15, h16, h17, h18, -, h20⟩ := h
  subst_vars
  rfl

theorem observations_core (ts : List ℚ) (a b : TerminalScene)
    (h : ({ a with currentTime := 0 } : TerminalScene).core =
      ({ b with currentTime := 0 } : TerminalScene).core) :
    a.observations ts = b.observations ts := by
  induction ts generalizing a b with
  | nil => rfl
  | cons t rest ih =>
    have hc := update_core a b t h
    simp only [observations]
    rw [observe_core _ _ hc, ih (a.update t).1 (b.update t).1 ?_]
    cases hu : (a.update t).1; cases hv : (b.update t).1
    rw [hu, hv] at hc
    simp only [core, mk.injEq] at hc ⊢
    obtain ⟨-, h2, h3, h4, h5, h6, h7, h8, -, -, h11, h12, h13, h14, h15, h16, h17, h18, -, -⟩ := hc
    simp only [h2, h3, h4, h5, h6, h7, h8, h11, h12, h13, h14, h15, h16, h17, h18, and_self]

theorem intact_updateDirectory (s : TerminalScene) (t : ℚ) (h : s.Intact) :
    (updateDirectory s t).1.Intact := by
  simp only [updateDirectory]
  split_ifs <;> exact h

theorem intact_updateFile (s : TerminalScene) (t : ℚ) (h : s.Intact) :
    (updateFile s t).1.Intact := by
  simp only [updateFile]
  split_ifs <;> exact h

theorem intact_updateDemoStart (s : TerminalScene) (t : ℚ) (h : s.Intact) :
    (updateDemoStart s t).Intact := by
  simp only [updateDemoStart]
  split_ifs <;> exact h

theorem intact_updateCode (s : TerminalScene) (t : ℚ) (h : s.Intact) :
    (updateCode s t).1.Intact := by
  simp only [updateCode]
  split_ifs <;> exact h

theorem intact_update (s : TerminalScene) (t : ℚ) (h : s.Intact) : (s.update t).1.Intact := by
  simp only [update]
  exact intact_updateCode _ t (intact_updateDemoStart _ t (intact_updateFile _ t
    (intact_updateDirectory _ t h)))

theorem intact_after (ts : List ℚ) (s : TerminalScene) (h : s.Intact) : (s.after ts).Intact := by
  induction ts generalizing s with
  | nil => exact h
  | cons t rest ih => exact ih _ (intact_update s t h)

theorem intact_construct (u : Indeterminate) : (construct u).Intact :=
  ⟨rfl, rfl, rfl, rfl⟩

theorem reset_core (s : TerminalScene) (u : Indeterminate) (h : s.Intact)
    (hu : u.codeCharIndex = 0) :
    ({ s.reset with currentTime := 0 } : TerminalScene).core =
      ({ construct u with currentTime := 0 } : TerminalScene).core := by
  obtain ⟨h1, h2, h3, h4⟩ := h
  simp only [core, reset, construct, mk.injEq, h1, h2, h3, h4, hu, and_self]

/-- C11 fails on the code character index: `TerminalScene::TerminalScene()` leaves
`codeCharIndex` uninitialised while `reset()` sets it to 0. For the scene
constructed on storage holding 5 there, the first update already shows
character index 5 against 0 after `reset()`, and under updates one second
apart the constructed scene answers `isFinished()` with true from the 232nd
update on, the reset scene only from the 237th. Had the constructor stored 0
(the argument `u` with `codeCharIndex = 0`), every scene whose constant members
are intact would, after `reset()`, show the same observations as a
construction for every sequence of timestamps. -/
theorem C11_reset_differs_in_codeCharIndex :
    ((construct ⟨5, 0, 0, false⟩).update (1 / 4)).1.codeCharIndex = 5 ∧
    ((construct ⟨5, 0, 0, false⟩).reset.update (1 / 4)).1.codeCharIndex = 0 ∧
    (construct ⟨5, 0, 0, false⟩).reset.observations [1 / 4] ≠
      (construct ⟨5, 0, 0, false⟩).observations [1 / 4] ∧
    (construct ⟨5, 0, 0, false⟩).answers ((List.range 236).map fun k => (k : ℚ) + 1) =
      List.replicate 231 false ++ List.replicate 5 true ∧
    (construct ⟨5, 0, 0, false⟩).reset.answers ((List.range 236).map fun k => (k : ℚ) + 1) =
      List.replicate 236 false ∧
    (∀ (u : Indeterminate) (s : TerminalScene) (ts : List ℚ), u.codeCharIndex = 0 →
      s.Intact → s.reset.observations ts = (construct u).observations ts) := by
  refine ⟨by decide!, by decide!, by decide!, by decide!, by decide!, ?_⟩
  intro u s ts hu hs
  exact observations_core ts _ _ (reset_core s u hs hu)

/-! ## TerminalScene: `isFinished` -/

theorem isFinished_iff (s : TerminalScene) :
    s.isFinished = true ↔
      s.animationTextDirectory.length ≤ s.animationIndex ∧
        s.animationTextFile.length ≤ s.animationIndexFile ∧
        s.demoStarted = true ∧ s.codeLines.length ≤ s.codeLineIndex ∧
        s.currentTime - s.lastCodeLineTime > 2 := by
  simp only [isFinished, Bool.and_eq_true, decide_eq_true_eq, ge_iff_le, gt_iff_lt, and_assoc]

@[simp]
theorem updateDirectory_onTypeCallback (s : TerminalScene) (t : ℚ) :
    (updateDirectory s t).1.onTypeCallback = s.onTypeCallback := by
  simp only [updateDirectory]
  split_ifs <;> rfl

@[simp]
theorem updateDirectory_animationTextDirectory (s : TerminalScene) (t : ℚ) :
    (updateDirectory s t).1.animationTextDirectory = s.animationTextDirectory := by
  simp only [updateDirectory]
  split_ifs <;> rfl

@[simp]
theorem updateDirectory_animationTextFile (s : TerminalScene) (t : ℚ) :
    (updateDirectory s t).1.animationTextFile = s.animationTextFile := by
  simp only [updateDirectory]
  split_ifs <;> rfl

@[simp]
theorem updateDirectory_displayedTextFile (s : TerminalScene) (t : ℚ) :
    (updateDirectory s t).1.displayedTextFile = s.displayedTextFile := by
  simp only [updateDirectory]
  split_ifs <;> rfl

@[simp]
theorem updateDirectory_animationIndexFile (s : TerminalScene) (t : ℚ) :
    (updateDirectory s t).1.animationIndexFile = s.animationIndexFile := by
  simp only [updateDirectory]
  split_ifs <;> rfl

@[simp]
theorem updateDirectory_codeCharIndex (s : TerminalScene) (t : ℚ) :
    (updateDirectory s t).1.codeCharIndex = s.codeCharIndex := by
  simp only [updateDirectory]
  split_ifs <;> rfl

@[simp]
theorem updateDirectory_directoryCharIndex (s : TerminalScene) (t : ℚ) :
    (updateDirectory s t).1.directoryCharIndex = s.directoryCharIndex := by
  simp only [updateDirectory]
  split_ifs <;> rfl

@[simp]
theorem updateDirectory_fileCharIndex (s : TerminalScene) (t : ℚ) :
    (updateDirectory s t).1.fileCharIndex = s.fileCharIndex := by
  simp only [updateDirectory]
  split_ifs <;> rfl

@[simp]
theorem updateDirectory_fileTypingStartTime (s : TerminalScene) (t : ℚ) :
    (updateDirectory s t).1.fileTypingStartTime = s.fileTypingStartTime := by
  simp only [updateDirectory]
  split_ifs <;> rfl

@[simp]
theorem updateDirectory_demos (s : TerminalScene) (t : ℚ) :
    (updateDirectory s t).1.demos = s.demos := by
  simp only [updateDirectory]
  split_ifs <;> rfl

@[simp]
theorem updateDirectory_codeLineIndex (s : TerminalScene) (t : ℚ) :
    (updateDirectory s t).1.codeLineIndex = s.codeLineIndex := by
  simp only [updateDirectory]
  split_ifs <;> rfl

@[simp]
theorem updateDirectory_lastCodeLineTime (s : TerminalScene) (t : ℚ) :
    (updateDirectory s t).1.lastCodeLineTime = s.lastCodeLineTime := by
  simp only [updateDirectory]
  split_ifs <;> rfl

@[simp]
theorem updateDirectory_codeLineInterval (s : TerminalScene) (t : ℚ) :
    (updateDirectory s t).1.codeLineInterval = s.codeLineInterval := by
  simp only [updateDirectory]
  split_ifs <;> rfl

@[simp]
theorem updateDirectory_demoStarted (s : TerminalScene) (t : ℚ) :
    (updateDirectory s t).1.demoStarted = s.demoStarted := by
  simp only [updateDirectory]
  split_ifs <;> rfl

@[simp]
theorem updateDirectory_demoStartTime (s : TerminalScene) (t : ℚ) :
    (updateDirectory s t).1.demoStartTime = s.demoStartTime := by
  simp only [updateDirectory]
  split_ifs <;> rfl

@[simp]
theorem updateDirectory_finished (s : TerminalScene) (t : ℚ) :
    (updateDirectory s t).1.finished = s.finished := by
  simp only [updateDirectory]
  split_ifs <;> rfl

@[simp]
theorem updateDirectory_currentTime (s : TerminalScene) (t : ℚ) :
    (updateDirectory s t).1.currentTime = s.currentTime := by
  simp only [updateDirectory]
  split_ifs <;> rfl

@[simp]
theorem updateDirectory_codeLines (s : TerminalScene) (t : ℚ) :
    (updateDirectory s t).1.codeLines = s.codeLines := by
  simp only [codeLines, updateDirectory_demos]

@[simp]
theorem updateFile_onTypeCallback (s : TerminalScene) (t : ℚ) :
    (updateFile s t).1.onTypeCallback = s.onTypeCallback := by
  simp only [updateFile]
  split_ifs <;> rfl

@[simp]
theorem updateFile_animationTextDirectory (s : TerminalScene) (t : ℚ) :
    (updateFile s t).1.animationTextDirectory = s.animationTextDirectory := by
  simp only [updateFile]
  split_ifs <;> rfl

@[simp]
theorem updateFile_animationTextFile (s : TerminalScene) (t : ℚ) :
    (updateFile s t).1.animationTextFile = s.animationTextFile := by
  simp only [updateFile]
  split_ifs <;> rfl

@[simp]
theorem updateFile_displayedTextDirectory (s : TerminalScene) (t : ℚ) :
    (updateFile s t).1.displayedTextDirectory = s.displayedTextDirectory := by
  simp only [updateFile]
  split_ifs <;> rfl

@[simp]
theorem updateFile_animationIndex (s : TerminalScene) (t : ℚ) :
    (updateFile s t).1.animationIndex = s.animationIndex := by
  simp only [updateFile]
  split_ifs <;> rfl

@[simp]
theorem updateFile_codeCharIndex (s : TerminalScene) (t : ℚ) :
    (updateFile s t).1.codeCharIndex = s.codeCharIndex := by
  simp only [updateFile]
  split_ifs <;> rfl

@[simp]
theorem updateFile_directoryCharIndex (s : TerminalScene) (t : ℚ) :
    (updateFile s t).1.directoryCharIndex = s.directoryCharIndex := by
  simp only [updateFile]
  split_ifs <;> rfl

@[simp]
theorem updateFile_fileCharIndex (s : TerminalScene) (t : ℚ) :
    (updateFile s t).1.fileCharIndex = s.fileCharIndex := by
  simp only [updateFile]
  split_ifs <;> rfl

@[simp]
theorem updateFile_demos (s : TerminalScene) (t : ℚ) :
    (updateFile s t).1.demos = s.demos := by
  simp only [updateFile]
  split_ifs <;> rfl

@[simp]
theorem updateFile_codeLineIndex (s : TerminalScene) (t : ℚ) :
    (updateFile s t).1.codeLineIndex = s.codeLineIndex := by
  simp only [updateFile]
  split_ifs <;> rfl

@[simp]
theorem updateFile_lastCodeLineTime (s : TerminalScene) (t : ℚ) :
    (updateFile s t).1.lastCodeLineTime = s.lastCodeLineTime := by
  simp only [updateFile]
  split_ifs <;> rfl

@[simp]
theorem updateFile_codeLineInterval (s : TerminalScene) (t : ℚ) :
    (updateFile s t).1.codeLineInterval = s.codeLineInterval := by
  simp only [updateFile]
  split_ifs <;> rfl

@[simp]
theorem updateFile_demoStarted (s : TerminalScene) (t : ℚ) :
    (updateFile s t).1.demoStarted = s.demoStarted := by
  simp only [updateFile]
  split_ifs <;> rfl

@[simp]
theorem updateFile_demoStartTime (s : TerminalScene) (t : ℚ) :
    (updateFile s t).1.demoStartTime = s.demoStartTime := by
  simp only [updateFile]
  split_ifs <;> rfl

@[simp]
theorem updateFile_finished (s : TerminalScene) (t : ℚ) :
    (updateFile s t).1.finished = s.finished := by
  simp only [updateFile]
  split_ifs <;> rfl

@[simp]
theorem updateFile_currentTime (s : TerminalScene) (t : ℚ) :
    (updateFile s t).1.currentTime = s.currentTime := by
  simp only [updateFile]
  split_ifs <;> rfl

@[simp]
theorem updateFile_codeLines (s : TerminalScene) (t : ℚ) :
    (updateFile s t).1.codeLines = s.codeLines := by
  simp only [codeLines, updateFile_demos]

@[simp]
theorem updateDemoStart_onTypeCallback (s : TerminalScene) (t : ℚ) :
    (updateDemoStart s t).onTypeCallback = s.onTypeCallback := by
  simp only [updateDemoStart]
  split_ifs <;> rfl

@[simp]
theorem updateDemoStart_animationTextDirectory (s : TerminalScene) (t : ℚ) :
    (updateDemoStart s t).animationTextDirectory = s.animationTextDirectory := by
  simp only [updateDemoStart]
  split_ifs <;> rfl

@[simp]
theorem updateDemoStart_animationTextFile (s : TerminalScene) (t : ℚ) :
    (updateDemoStart s t).animationTextFile = s.animationTextFile := by
  simp only [updateDemoStart]
  split_ifs <;> rfl

@[simp]
theorem updateDemoStart_displayedTextDirectory (s : TerminalScene) (t : ℚ) :
    (updateDemoStart s t).displayedTextDirectory = s.displayedTextDirectory := by
  simp only [updateDemoStart]
  split_ifs <;> rfl

@[simp]
theorem updateDemoStart_displayedTextFile (s : TerminalScene) (t : ℚ) :
    (updateDemoStart s t).displayedTextFile = s.displayedTextFile := by
  simp only [updateDemoStart]
  split_ifs <;> rfl

@[simp]
theorem updateDemoStart_animationIndex (s : TerminalScene) (t : ℚ) :
    (updateDemoStart s t).animationIndex = s.animationIndex := by
  simp only [updateDemoStart]
  split_ifs <;> rfl

@[simp]
theorem updateDemoStart_animationIndexFile (s : TerminalScene) (t : ℚ) :
    (updateDemoStart s t).animationIndexFile = s.animationIndexFile := by
  simp only [updateDemoStart]
  split_ifs <;> rfl

@[simp]
theorem updateDemoStart_codeCharIndex (s : TerminalScene) (t : ℚ) :
    (updateDemoStart s t).codeCharIndex = s.codeCharIndex := by
  simp only [updateDemoStart]
  split_ifs <;> rfl

@[simp]
theorem updateDemoStart_directoryCharIndex (s : TerminalScene) (t : ℚ) :
    (updateDemoStart s t).directoryCharIndex = s.directoryCharIndex := by
  simp only [updateDemoStart]
  split_ifs <;> rfl

@[simp]
theorem updateDemoStart_fileCharIndex (s : TerminalScene) (t : ℚ) :
    (updateDemoStart s t).fileCharIndex = s.fileCharIndex := by
  simp only [updateDemoStart]
  split_ifs <;> rfl

@[simp]
theorem updateDemoStart_animationLastTime (s : TerminalScene) (t : ℚ) :
    (updateDemoStart s t).animationLastTime = s.animationLastTime := by
  simp only [updateDemoStart]
  split_ifs <;> rfl

@[simp]
theorem updateDemoStart_fileTypingStartTime (s : TerminalScene) (t : ℚ) :
    (updateDemoStart s t).fileTypingStartTime = s.fileTypingStartTime := by
  simp only [updateDemoStart]
  split_ifs <;> rfl

@[simp]
theorem updateDemoStart_demos (s : TerminalScene) (t : ℚ) :
    (updateDemoStart s t).demos = s.demos := by
  simp only [updateDemoStart]
  split_ifs <;> rfl

@[simp]
theorem updateDemoStart_codeLineIndex (s : TerminalScene) (t : ℚ) :
    (updateDemoStart s t).codeLineIndex = s.codeLineIndex := by
  simp only [updateDemoStart]
  split_ifs <;> rfl

@[simp]
theorem updateDemoStart_lastCodeLineTime (s : TerminalScene) (t : ℚ) :
    (updateDemoStart s t).lastCodeLineTime = s.lastCodeLineTime := by
  simp only [updateDemoStart]
  split_ifs <;> rfl

@[simp]
theorem updateDemoStart_codeLineInterval (s : TerminalScene) (t : ℚ) :
    (updateDemoStart s t).codeLineInterval = s.codeLineInterval := by
  simp only [updateDemoStart]
  split_ifs <;> rfl

@[simp]
theorem updateDemoStart_finished (s : TerminalScene) (t : ℚ) :
    (updateDemoStart s t).finished = s.finished := by
  simp only [updateDemoStart]
  split_ifs <;> rfl

@[simp]
theorem updateDemoStart_currentTime (s : TerminalScene) (t : ℚ) :
    (updateDemoStart s t).currentTime = s.currentTime := by
  simp only [updateDemoStart]
  split_ifs <;> rfl

@[simp]
theorem updateDemoStart_codeLines (s : TerminalScene) (t : ℚ) :
    (updateDemoStart s t).codeLines = s.codeLines := by
  simp only [codeLines, updateDemoStart_demos]

@[simp]
theorem updateCode_onTypeCallback (s : TerminalScene) (t : ℚ) :
    (updateCode s t).1.onTypeCallback = s.onTypeCallback := by
  simp only [updateCode]
  split_ifs <;> rfl

@[simp]
theorem updateCode_animationTextDirectory (s : TerminalScene) (t : ℚ) :
    (updateCode s t).1.animationTextDirectory = s.animationTextDirectory := by
  simp only [updateCode]
  split_ifs <;> rfl

@[simp]
theorem updateCode_animationTextFile (s : TerminalScene) (t : ℚ) :
    (updateCode s t).1.animationTextFile = s.animationTextFile := by
  simp only [updateCode]
  split_ifs <;> rfl

@[simp]
theorem updateCode_displayedTextDirectory (s : TerminalScene) (t : ℚ) :
    (updateCode s t).1.displayedTextDirectory = s.displayedTextDirectory := by
  simp only [updateCode]
  split_ifs <;> rfl

@[simp]
theorem updateCode_displayedTextFile (s : TerminalScene) (t : ℚ) :
    (updateCode s t).1.displayedTextFile = s.displayedTextFile := by
  simp only [updateCode]
  split_ifs <;> rfl

@[simp]
theorem updateCode_animationIndex (s : TerminalScene) (t : ℚ) :
    (updateCode s t).1.animationIndex = s.animationIndex := by
  simp only [updateCode]
  split_ifs <;> rfl

@[simp]
theorem updateCode_animationIndexFile (s : TerminalScene) (t : ℚ) :
    (updateCode s t).1.animationIndexFile = s.animationIndexFile := by
  simp only [updateCode]
  split_ifs <;> rfl

@[simp]
theorem updateCode_directoryCharIndex (s : TerminalScene) (t : ℚ) :
    (updateCode s t).1.directoryCharIndex = s.directoryCharIndex := by
  simp only [updateCode]
  split_ifs <;> rfl

@[simp]
theorem updateCode_fileCharIndex (s : TerminalScene) (t : ℚ) :
    (updateCode s t).1.fileCharIndex = s.fileCharIndex := by
  simp only [updateCode]
  split_ifs <;> rfl

@[simp]
theorem updateCode_animationLastTime (s : TerminalScene) (t : ℚ) :
    (updateCode s t).1.animationLastTime = s.animationLastTime := by
  simp only [updateCode]
  split_ifs <;> rfl

@[simp]
theorem updateCode_fileTypingStartTime (s : TerminalScene) (t : ℚ) :
    (updateCode s t).1.fileTypingStartTime = s.fileTypingStartTime := by
  simp only [updateCode]
  split_ifs <;> rfl

@[simp]
theorem updateCode_demos (s : TerminalScene) (t : ℚ) :
    (updateCode s t).1.demos = s.demos := by
  simp only [updateCode]
  split_ifs <;> rfl

@[simp]
theorem updateCode_codeLineInterval (s : TerminalScene) (t : ℚ) :
    (updateCode s t).1.codeLineInterval = s.codeLineInterval := by
  simp only [updateCode]
  split_ifs <;> rfl

@[simp]
theorem updateCode_demoStarted (s : TerminalScene) (t : ℚ) :
    (updateCode s t).1.demoStarted = s.demoStarted := by
  simp only [updateCode]
  split_ifs <;> rfl

@[simp]
theorem updateCode_demoStartTime (s : TerminalScene) (t : ℚ) :
    (updateCode s t).1.demoStartTime = s.demoStartTime := by
  simp only [updateCode]
  split_ifs <;> rfl

@[simp]
theorem updateCode_finished (s : TerminalScene) (t : ℚ) :
    (updateCode s t).1.finished = s.finished := by
  simp only [updateCode]
  split_ifs <;> rfl

@[simp]
theorem updateCode_currentTime (s : TerminalScene) (t : ℚ) :
    (updateCode s t).1.currentTime = s.currentTime := by
  simp only [updateCode]
  split_ifs <;> rfl

@[simp]
theorem updateCode_codeLines (s : TerminalScene) (t : ℚ) :
    (updateCode s t).1.codeLines = s.codeLines := by
  simp only [codeLines, updateCode_demos]

theorem update_fst (s : TerminalScene) (t : ℚ) :
    (s.update t).1 =
      (updateCode (updateDemoStart (updateFile
        (updateDirectory { s with currentTime := t } t).1 t).1 t) t).1 := by
  simp only [update]

theorem update_currentTime (s : TerminalScene) (t : ℚ) : (s.update t).1.currentTime = t := by
  simp only [update_fst, updateCode_currentTime, updateDemoStart_currentTime,
    updateFile_currentTime, updateDirectory_currentTime]

theorem updateDirectory_idle (s : TerminalScene) (t : ℚ)
    (h : s.animationTextDirectory.length ≤ s.animationIndex) :
    (updateDirectory s t).1 = s := by
  simp only [updateDirectory, not_lt.mpr h, false_and, if_false]

theorem updateFile_idle (s : TerminalScene) (t : ℚ)
    (h : s.animationTextFile.length ≤ s.animationIndexFile) :
    (updateFile s t).1.animationIndexFile = s.animationIndexFile ∧
      (updateFile s t).1.displayedTextFile = s.displayedTextFile ∧
      (updateFile s t).1.animationLastTime = s.animationLastTime := by
  simp only [updateFile]
  split_ifs <;> first | exact ⟨rfl, rfl, rfl⟩ | (exfalso; omega) | simp_all

theorem updateDemoStart_idle (s : TerminalScene) (t : ℚ) (h : s.demoStarted = true) :
    updateDemoStart s t = s := by
  simp only [updateDemoStart, h, Bool.true_eq_false, and_false, if_false]

theorem updateCode_idle (s : TerminalScene) (t : ℚ)
    (h : s.codeLines.length ≤ s.codeLineIndex) :
    (updateCode s t).1 = s := by
  simp only [updateCode, not_lt.mpr h, if_false, ite_self]

/-- Once the four completion conditions of `isFinished` hold, an update changes
nothing but `currentTime` and possibly the latch `fileTypingStartTime`. -/
theorem update_of_complete (s : TerminalScene) (t : ℚ)
    (h1 : s.animationTextDirectory.length ≤ s.animationIndex)
    (h2 : s.animationTextFile.length ≤ s.animationIndexFile)
    (h3 : s.demoStarted = true) (h4 : s.codeLines.length ≤ s.codeLineIndex) :
    (s.update t).1.animationTextDirectory = s.animationTextDirectory ∧
      (s.update t).1.animationTextFile = s.animationTextFile ∧
      (s.update t).1.animationIndex = s.animationIndex ∧
      (s.update t).1.animationIndexFile = s.animationIndexFile ∧
      (s.update t).1.demoStarted = true ∧
      (s.update t).1.codeLines = s.codeLines ∧
      (s.update t).1.codeLineIndex = s.codeLineIndex ∧
      (s.update t).1.lastCodeLineTime = s.lastCodeLineTime ∧
      (s.update t).1.displayedTextDirectory = s.displayedTextDirectory ∧
      (s.update t).1.displayedTextFile = s.displayedTextFile ∧
      (s.update t).1.codeCharIndex = s.codeCharIndex := by
  rw [update_fst]
  obtain ⟨a, ha⟩ : ∃ a : TerminalScene, a = { s with currentTime := t } := ⟨_, rfl⟩
  rw [← ha]
  have g1 : a.animationTextDirectory.length ≤ a.animationIndex := by rw [ha]; exact h1
  have g2 : a.animationTextFile.length ≤ a.animationIndexFile := by rw [ha]; exact h2
  have g3 : a.demoStarted = true := by rw [ha]; exact h3
  have g4 : a.codeLines.length ≤ a.codeLineIndex := by rw [ha]; exact h4
  rw [updateDirectory_idle a t g1]
  obtain ⟨f1, f2, -⟩ := updateFile_idle a t g2
  rw [updateDemoStart_idle _ t (by rw [updateFile_demoStarted]; exact g3)]
  rw [updateCode_idle _ t (by rw [updateFile_codeLines, updateFile_codeLineIndex]; exact g4)]
  simp only [updateFile_animationTextDirectory, updateFile_animationTextFile,
    updateFile_animationIndex, updateFile_demoStarted, updateFile_codeLines,
    updateFile_codeLineIndex, updateFile_lastCodeLineTime, updateFile_displayedTextDirectory,
    updateFile_codeCharIndex, f1, f2, g3]
  rw [ha]
  exact ⟨rfl, rfl, rfl, rfl, trivial, rfl, rfl, rfl, rfl, rfl, rfl⟩

theorem isFinished_update (s : TerminalScene) (t : ℚ) (h : s.isFinished = true)
    (ht : s.currentTime ≤ t) : (s.update t).1.isFinished = true := by
  rw [isFinished_iff] at h ⊢
  obtain ⟨h1, h2, h3, h4, h5⟩ := h
  obtain ⟨f1, f2, f3, f4, f5, f6, f7, f8, -⟩ := update_of_complete s t h1 h2 h3 h4
  rw [f1, f2, f3, f4, f5, f6, f7, f8, update_currentTime]
  exact ⟨h1, h2, rfl, h4, by linarith⟩

theorem isFinished_after (ts : List ℚ) (s : TerminalScene) (h : s.isFinished = true)
    (hts : List.Chain (fun a b => a ≤ b) s.currentTime ts) :
    (s.after ts).isFinished = true ∧ s.answers ts = List.replicate ts.length true := by
  induction ts generalizing s with
  | nil => exact ⟨h, rfl⟩
  | cons t rest ih =>
    rw [List.chain_cons] at hts
    have hf := isFinished_update s t h hts.1
    have hr := ih (s.update t).1 hf (by rw [update_currentTime]; exact hts.2)
    simp only [after, answers, List.length_cons, List.replicate_succ, hf, hr.2]
    exact ⟨hr.1, trivial⟩

/-- C16: `TerminalScene::isFinished()` returns true only if the directory and file
indices have reached the sizes of their strings, the demo has started, the code
line index has reached the number of code lines of the first demo, and more
than (hence at least) 2 s lie between `currentTime`, which every update sets to
its timestamp, and the last code-line timestamp. Once true it stays true after
every sequence of further updates with non-decreasing timestamps (the scene
then shows the same texts and indices), and it is false after `reset()`. -/
theorem C16_isFinished_only_when_done_and_stays (s : TerminalScene)
    (h : s.isFinished = true) :
    (s.animationTextDirectory.length ≤ s.animationIndex ∧
      s.animationTextFile.length ≤ s.animationIndexFile ∧
      s.demoStarted = true ∧ s.codeLines.length ≤ s.codeLineIndex ∧
      s.currentTime - s.lastCodeLineTime ≥ 2 ∧ s.currentTime - s.lastCodeLineTime > 2) ∧
    (∀ t : ℚ, (s.update t).1.currentTime = t) ∧
    (∀ ts : List ℚ, List.Chain (fun a b => a ≤ b) s.currentTime ts →
      (s.after ts).isFinished = true ∧ s.answers ts = List.replicate ts.length true) ∧
    (s.animationTextDirectory ≠ [] → s.reset.isFinished = false) := by
  have h0 := (isFinished_iff s).mp h
  obtain ⟨h1, h2, h3, h4, h5⟩ := h0
  refine ⟨⟨h1, h2, h3, h4, le_of_lt h5, h5⟩, update_currentTime s, ?_, ?_⟩
  · intro ts hts
    exact isFinished_after ts s h hts
  · intro hne
    have hpos : 0 < s.animationTextDirectory.length := List.length_pos.mpr hne
    simp only [isFinished, reset, Bool.and_eq_false_imp, Bool.and_eq_true, decide_eq_true_eq,
      ge_iff_le, Nat.le_zero_eq]
    intro hz
    omega

/-- Witness of C16: the sample scene whose seven code lines were complete at
t = 40, updated at t = 43, answers true, still does after the updates at
t = 44 and t = 45, and answers false after `reset()`. -/
theorem C16_isFinished_only_when_done_and_stays_witness :
    (sampleTerminal.update 43).1.isFinished = true ∧
      (sampleTerminal.update 43).1.codeLineIndex = 7 ∧
      (((sampleTerminal.update 43).1).after [44, 45]).isFinished = true ∧
      ((sampleTerminal.update 43).1).reset.isFinished = false := by
  have h := C16_isFinished_only_when_done_and_stays (sampleTerminal.update 43).1 (by decide!)
  refine ⟨by decide!, by decide!, (h.2.2.1 [44, 45] ?_).1, h.2.2.2 (by decide!)⟩
  rw [update_currentTime]
  simp only [List.chain_cons, List.Chain.nil, and_true]
  norm_num

end TerminalScene

/-! ## TerminalScene: the earliest end of the code demo -/

namespace TerminalScene

theorem sum_take_succ (l : List (List Char)) (n : Nat) (h : n < l.length) :
    ((l.take (n + 1)).map List.length).sum =
      ((l.take n).map List.length).sum + (l.getD n []).length := by
  rw [List.take_succ, List.map_append, List.sum_append, List.getD_eq_getElem?_getD,
    List.getElem?_eq_getElem h]
  simp

theorem paced_updateDirectory (s : TerminalScene) (t : ℚ) (h : s.Paced) :
    (updateDirectory s t).1.Paced := by
  simpa only [Paced, typedChars, updateDirectory_codeLines, updateDirectory_codeLineIndex,
    updateDirectory_codeCharIndex, updateDirectory_demoStarted,
    updateDirectory_lastCodeLineTime, updateDirectory_demoStartTime] using h

theorem paced_updateFile (s : TerminalScene) (t : ℚ) (h : s.Paced) :
    (updateFile s t).1.Paced := by
  simpa only [Paced, typedChars, updateFile_codeLines, updateFile_codeLineIndex,
    updateFile_codeCharIndex, updateFile_demoStarted,
    updateFile_lastCodeLineTime, updateFile_demoStartTime] using h

theorem paced_updateDemoStart (s : TerminalScene) (t : ℚ) (h : s.Paced) :
    (updateDemoStart s t).Paced := by
  simp only [updateDemoStart]
  split_ifs with hc
  · obtain ⟨h1, h2, h3⟩ := h
    refine ⟨h1, h2, Or.inl ?_⟩
    rcases h3 with h3 | h3
    · exact h3
    · rw [hc.2.2] at h3
      exact absurd h3.1 (by simp)
  · exact h

theorem updateCode_fst (s : TerminalScene) (t : ℚ) :
    (updateCode s t).1 =
      if s.demoStarted = true ∧ t - s.demoStartTime > 1 / 2 ∧ s.demos ≠ [] then
        if s.codeLineIndex < s.codeLines.length then
          if s.codeCharIndex < (s.codeLines.getD s.codeLineIndex []).length then
            if t - s.lastCodeLineTime > 1 / 20 then
              { s with codeCharIndex := s.codeCharIndex + 1, lastCodeLineTime := t }
            else s
          else if t - s.lastCodeLineTime > s.codeLineInterval then
            { s with
              codeLineIndex := s.codeLineIndex + 1
              codeCharIndex := 0
              lastCodeLineTime := t }
          else s
        else s
      else s := by
  simp only [updateCode]
  split_ifs <;> rfl

theorem paced_updateCode (s : TerminalScene) (t : ℚ) (hi : s.Intact) (h : s.Paced) :
    (updateCode s t).1.Paced := by
  obtain ⟨-, -, hdemos, hint⟩ := hi
  rw [updateCode_fst]
  split_ifs with g hlt hc ht hl
  · simp only [Paced, typedChars, codeLines] at h ⊢
    obtain ⟨h1, h2, h3⟩ := h
    refine ⟨h1, hc, Or.inr ⟨g.1, ?_⟩⟩
    have g2 := g.2.1
    push_cast
    rcases h3 with h3 | h3
    · rw [h3.1, h3.2]
      simp only [List.take_zero, List.map_nil, List.sum_nil, Nat.cast_zero]
      linarith
    · have := h3.2
      push_cast at this
      linarith
  · exact h
  · have hc2 := h.2.1
    have hceq : s.codeCharIndex = (s.codeLines.getD s.codeLineIndex []).length := by omega
    have hsum := sum_take_succ s.codeLines s.codeLineIndex hlt
    rw [← hceq] at hsum
    simp only [Paced, typedChars, codeLines] at h hsum hc ⊢
    obtain ⟨h1, h2, h3⟩ := h
    refine ⟨hlt, Nat.zero_le _, Or.inr ⟨g.1, ?_⟩⟩
    rw [hsum]
    push_cast
    rw [hint] at hl
    rcases h3 with h3 | h3
    · exfalso
      rw [h3.1, h3.2] at hc
      simp [hdemos, initializeDemos] at hc
    · have := h3.2
      push_cast at this
      linarith
  · exact h
  · exact h
  · exact h

theorem paced_update (s : TerminalScene) (t : ℚ) (hi : s.Intact) (h : s.Paced) :
    (s.update t).1.Paced := by
  rw [update_fst]
  obtain ⟨a, ha⟩ : ∃ a : TerminalScene, a = { s with currentTime := t } := ⟨_, rfl⟩
  rw [← ha]
  have hia : a.Intact := by rw [ha]; exact hi
  have hpa : a.Paced := by rw [ha]; exact h
  exact paced_updateCode _ t
    (intact_updateDemoStart _ t (intact_updateFile _ t (intact_updateDirectory _ t hia)))
    (paced_updateDemoStart _ t (paced_updateFile _ t (paced_updateDirectory _ t hpa)))

theorem paced_after (ts : List ℚ) (s : TerminalScene) (hi : s.Intact) (h : s.Paced) :
    (s.after ts).Paced := by
  induction ts generalizing s with
  | nil => exact h
  | cons t rest ih => exact ih _ (intact_update s t hi) (paced_update s t hi h)

theorem intact_counts (s : TerminalScene) (hi : s.Intact) :
    s.totalCodeChars = 195 ∧ s.numLines = 7 := by
  obtain ⟨-, -, hdemos, -⟩ := hi
  simp only [totalCodeChars, numLines, codeLines, hdemos, initializeDemos]
  decide

/-- A paced scene that answers `isFinished()` with true has its clock more than
15.7 s past the start of the demo. -/
theorem paced_isFinished (s : TerminalScene) (hi : s.Intact) (hp : s.Paced)
    (h : s.isFinished = true) : s.currentTime > s.demoStartTime + 157 / 10 := by
  obtain ⟨-, -, hdemos, -⟩ := hi
  obtain ⟨-, -, -, h4, h5⟩ := (isFinished_iff s).mp h
  obtain ⟨h1, h2, h3⟩ := hp
  have hlen : s.codeLines.length = 7 := by
    simp only [codeLines, hdemos, initializeDemos]
    decide
  have hcli : s.codeLineIndex = 7 := by omega
  have hcci : s.codeCharIndex = 0 := by
    rw [hcli] at h2
    simp only [codeLines, hdemos, initializeDemos] at h2
    simpa using h2
  rcases h3 with h3 | h3
  · omega
  · have hty : s.typedChars = 195 := by
      simp only [typedChars, hcli, hcci, codeLines, hdemos, initializeDemos]
      decide
    have := h3.2
    rw [hty, hcli] at this
    push_cast at this
    linarith

theorem updateDemoStart_demoStartTime_of_start (s : TerminalScene) (t : ℚ)
    (h0 : s.demoStarted = false) (h1 : (updateDemoStart s t).demoStarted = true) :
    (updateDemoStart s t).demoStartTime = t := by
  simp only [updateDemoStart] at h1 ⊢
  split_ifs with hc
  · rfl
  · rw [if_neg hc, h0] at h1
    exact absurd h1 (by simp)

theorem updateDemoStart_demoStartTime_of_started (s : TerminalScene) (t : ℚ)
    (h0 : s.demoStarted = true) :
    (updateDemoStart s t).demoStarted = true ∧
      (updateDemoStart s t).demoStartTime = s.demoStartTime := by
  rw [updateDemoStart_idle s t h0]
  exact ⟨h0, rfl⟩

/-- The update in which `demoStarted` becomes true stores its timestamp in
`demoStartTime`; later updates keep both. -/
theorem update_demoStartTime (s : TerminalScene) (t : ℚ) :
    (s.demoStarted = false → (s.update t).1.demoStarted = true →
      (s.update t).1.demoStartTime = t) ∧
    (s.demoStarted = true →
      (s.update t).1.demoStarted = true ∧ (s.update t).1.demoStartTime = s.demoStartTime) := by
  rw [update_fst]
  obtain ⟨a, ha⟩ : ∃ a : TerminalScene, a = { s with currentTime := t } := ⟨_, rfl⟩
  rw [← ha]
  have e1 : a.demoStarted = s.demoStarted := by rw [ha]
  have e2 : a.demoStartTime = s.demoStartTime := by rw [ha]
  simp only [updateCode_demoStarted, updateCode_demoStartTime]
  constructor
  · intro h0 h1
    refine updateDemoStart_demoStartTime_of_start _ t ?_ h1
    rw [updateFile_demoStarted, updateDirectory_demoStarted, e1, h0]
  · intro h0
    have := updateDemoStart_demoStartTime_of_started (updateFile (updateDirectory a t).1 t).1 t
      (by rw [updateFile_demoStarted, updateDirectory_demoStarted, e1, h0])
    rw [updateFile_demoStartTime, updateDirectory_demoStartTime, e2] at this
    exact this

/-- C17 as stated fails in its second half: from the scene after `reset()`, the
updates at `sparseTimes` (non-decreasing, one second apart up to 45 s, then
45.75 s, 46 s, 47 s, 47.76 s) start the demo at 32 s, so
`t = 32 + 0.5 + 0.05 * 195 + 0.5 * 7 = 45.75` and `t + 2.01 = 47.76` are both
among them; after the update at 47.76 s only 17 characters of the first code
line are typed and `isFinished()` is false. -/
theorem C17_counterexample :
    List.Pairwise (fun a b => a ≤ b) sparseTimes ∧
    (183 / 4 : ℚ) ∈ sparseTimes ∧ (183 / 4 + 201 / 100 : ℚ) ∈ sparseTimes ∧
    (((construct ⟨0, 0, 0, false⟩).reset.after sparseTimes).demoStartTime +
        1 / 2 + (1 / 20) * ((construct ⟨0, 0, 0, false⟩).reset.totalCodeChars : ℚ) +
        (1 / 2) * ((construct ⟨0, 0, 0, false⟩).reset.numLines : ℚ) = 183 / 4) ∧
    ((construct ⟨0, 0, 0, false⟩).reset.after sparseTimes).currentTime = 183 / 4 + 201 / 100 ∧
    ((construct ⟨0, 0, 0, false⟩).reset.after sparseTimes).codeLineIndex = 0 ∧
    ((construct ⟨0, 0, 0, false⟩).reset.after sparseTimes).codeCharIndex = 17 ∧
    ((construct ⟨0, 0, 0, false⟩).reset.after sparseTimes).isFinished = false := by
  refine ⟨by decide!, by decide!, by decide!, by decide!, by decide!, by decide!, by decide!,
    by decide!⟩

/-- C17, amended: starting from a scene with intact constants whose code
indices are 0 (the scene after `reset()`, or a construction whose storage
held 0 in `codeCharIndex`), after every sequence of
updates `isFinished()` is false as long as the timestamp of the latest update
is at most `demoStartTime + 0.5 + 0.05 * totalCodeChars + 0.5 * numLines + 1.95`
(so in particular at the instant `t` of the claim); the counts are 195 and 7;
`demoStartTime` is the timestamp of the update that started the demo. When it
is true, the last code line was completed more than 2 s before the latest
update, which at `t + 2.01` means before `t + 0.01`. -/
theorem C17_not_finished_before_minimum (s0 : TerminalScene) (ts : List ℚ)
    (hi : s0.Intact) (hl : s0.codeLineIndex = 0)
    (hc : s0.codeCharIndex = 0) :
    ((s0.after ts).totalCodeChars = 195 ∧ (s0.after ts).numLines = 7) ∧
    ((s0.after ts).currentTime ≤
        (s0.after ts).demoStartTime + 1 / 2 + (1 / 20) * ((s0.after ts).totalCodeChars : ℚ) +
          (1 / 2) * ((s0.after ts).numLines : ℚ) + 39 / 20 →
      (s0.after ts).isFinished = false) ∧
    ((s0.after ts).isFinished = true →
      (s0.after ts).lastCodeLineTime < (s0.after ts).currentTime - 2) ∧
    (∀ t : ℚ, (s0.after ts).demoStarted = false → ((s0.after ts).update t).1.demoStarted = true →
      ((s0.after ts).update t).1.demoStartTime = t) := by
  have hia := intact_after ts s0 hi
  have hp0 : s0.Paced := ⟨by rw [hl]; exact Nat.zero_le _, by rw [hc]; exact Nat.zero_le _,
    Or.inl ⟨hl, hc⟩⟩
  have hpa := paced_after ts s0 hi hp0
  obtain ⟨c1, c2⟩ := intact_counts _ hia
  refine ⟨⟨c1, c2⟩, ?_, ?_, ?_⟩
  · intro hle
    rw [c1, c2] at hle
    by_contra hf
    have hfin : (s0.after ts).isFinished = true := by
      cases hb : (s0.after ts).isFinished
      · exact absurd hb hf
      · rfl
    have := paced_isFinished _ hia hpa hfin
    push_cast at hle
    linarith
  · intro hfin
    have := ((isFinished_iff _).mp hfin).2.2.2.2
    linarith
  · intro t h0 h1
    exact (update_demoStartTime _ t).1 h0 h1

/-- Witness of the amended C17: under the updates one second apart up to 45 s
and at 45.75 s on the reset scene, `isFinished()` is false at 45.75 s. -/
theorem C17_not_finished_before_minimum_witness :
    ((construct ⟨0, 0, 0, false⟩).reset.after (sparseTimes.take 46)).currentTime = 183 / 4 ∧
      ((construct ⟨0, 0, 0, false⟩).reset.after (sparseTimes.take 46)).demoStartTime = 32 ∧
      ((construct ⟨0, 0, 0, false⟩).reset.after (sparseTimes.take 46)).isFinished = false :=
  ⟨by decide!, by decide!,
    (C17_not_finished_before_minimum (construct ⟨0, 0, 0, false⟩).reset (sparseTimes.take 46)
      ⟨rfl, rfl, rfl, rfl⟩ rfl rfl).2.1 (by decide!)⟩

end TerminalScene

/-! ## TerminalScene: the pace of the typing -/

namespace TerminalScene

theorem updateDirectory_cases (s : TerminalScene) (t : ℚ) :
    (s.animationIndex < s.animationTextDirectory.length ∧ t - s.animationLastTime ≥ 1 / 10 ∧
      (updateDirectory s t).1.animationIndex = s.animationIndex + 1 ∧
      (updateDirectory s t).1.animationLastTime = t) ∨
    ((updateDirectory s t).1.animationIndex = s.animationIndex ∧
      (updateDirectory s t).1.animationLastTime = s.animationLastTime) := by
  by_cases h : s.animationIndex < s.animationTextDirectory.length ∧
      t - s.animationLastTime ≥ 1 / 10
  · rw [updateDirectory, if_pos h]
    exact Or.inl ⟨h.1, h.2, rfl, rfl⟩
  · rw [updateDirectory, if_neg h]
    exact Or.inr ⟨rfl, rfl⟩

theorem updateFile_cases (s : TerminalScene) (t : ℚ) :
    (s.animationTextDirectory.length ≤ s.animationIndex ∧
      s.animationIndexFile < s.animationTextFile.length ∧
      0 ≤ s.fileTypingStartTime ∧ t - s.fileTypingStartTime ≥ 1 ∧
      t - s.animationLastTime ≥ 1 / 10 ∧
      (updateFile s t).1.animationIndexFile = s.animationIndexFile + 1 ∧
      (updateFile s t).1.animationLastTime = t ∧
      (updateFile s t).1.fileTypingStartTime = s.fileTypingStartTime) ∨
    ((updateFile s t).1.animationIndexFile = s.animationIndexFile ∧
      (updateFile s t).1.animationLastTime = s.animationLastTime ∧
      (updateFile s t).1.fileTypingStartTime =
        if s.animationIndex = 0 ∧ s.animationIndexFile = 0 then -1
        else if s.animationTextDirectory.length ≤ s.animationIndex ∧ s.animationIndexFile = 0 ∧
            s.fileTypingStartTime < 0 then t
        else s.fileTypingStartTime) := by
  simp only [updateFile, ge_iff_le]
  by_cases hl : s.animationTextDirectory.length ≤ s.animationIndex ∧ s.animationIndexFile = 0 ∧
      s.fileTypingStartTime < 0
  · rw [if_pos hl]
    have hn : ¬ (s.animationTextDirectory.length ≤ s.animationIndex ∧
        s.animationIndexFile < s.animationTextFile.length ∧ (0 : ℚ) ≤ t ∧ 1 ≤ t - t ∧
        1 / 10 ≤ t - s.animationLastTime) := by
      rintro ⟨-, -, -, h, -⟩
      norm_num at h
    simp only [hn, if_false]
    right
    split_ifs <;> simp_all
  · rw [if_neg hl]
    by_cases hc : s.animationTextDirectory.length ≤ s.animationIndex ∧
        s.animationIndexFile < s.animationTextFile.length ∧ 0 ≤ s.fileTypingStartTime ∧
        1 ≤ t - s.fileTypingStartTime ∧ 1 / 10 ≤ t - s.animationLastTime
    · left
      simp only [hc, and_self, if_true, true_and]
      have : ¬ (s.animationIndex = 0 ∧ s.animationIndexFile + 1 = 0) := by omega
      simp only [this, if_false, and_self]
    · right
      simp only [hc, if_false]
      split_ifs <;> simp_all

theorem update_animationTextDirectory (s : TerminalScene) (t : ℚ) :
    (s.update t).1.animationTextDirectory = s.animationTextDirectory := by
  rw [update_fst]
  simp only [updateCode_animationTextDirectory, updateDemoStart_animationTextDirectory,
    updateFile_animationTextDirectory, updateDirectory_animationTextDirectory]

theorem update_animationTextFile (s : TerminalScene) (t : ℚ) :
    (s.update t).1.animationTextFile = s.animationTextFile := by
  rw [update_fst]
  simp only [updateCode_animationTextFile, updateDemoStart_animationTextFile,
    updateFile_animationTextFile, updateDirectory_animationTextFile]

/-- The typing part of one update: it reveals a directory character, or a file
character, or neither, never both. -/
theorem update_typing (s : TerminalScene) (t : ℚ) :
    (s.animationIndex < s.animationTextDirectory.length ∧ t - s.animationLastTime ≥ 1 / 10 ∧
      (s.update t).1.animationIndex = s.animationIndex + 1 ∧
      (s.update t).1.animationIndexFile = s.animationIndexFile ∧
      (s.update t).1.animationLastTime = t ∧
      (s.update t).1.fileTypingStartTime =
        if s.animationTextDirectory.length ≤ s.animationIndex + 1 ∧ s.animationIndexFile = 0 ∧
            s.fileTypingStartTime < 0 then t
        else s.fileTypingStartTime) ∨
    (s.animationTextDirectory.length ≤ s.animationIndex ∧
      s.animationIndexFile < s.animationTextFile.length ∧
      0 ≤ s.fileTypingStartTime ∧ t - s.fileTypingStartTime ≥ 1 ∧
      t - s.animationLastTime ≥ 1 / 10 ∧
      (s.update t).1.animationIndex = s.animationIndex ∧
      (s.update t).1.animationIndexFile = s.animationIndexFile + 1 ∧
      (s.update t).1.animationLastTime = t ∧
      (s.update t).1.fileTypingStartTime = s.fileTypingStartTime) ∨
    ((s.update t).1.animationIndex = s.animationIndex ∧
      (s.update t).1.animationIndexFile = s.animationIndexFile ∧
      (s.update t).1.animationLastTime = s.animationLastTime ∧
      (s.update t).1.fileTypingStartTime =
        if s.animationIndex = 0 ∧ s.animationIndexFile = 0 then -1
        else if s.animationTextDirectory.length ≤ s.animationIndex ∧ s.animationIndexFile = 0 ∧
            s.fileTypingStartTime < 0 then t
        else s.fileTypingStartTime) := by
  rw [update_fst]
  obtain ⟨a, ha⟩ : ∃ a : TerminalScene, a = { s with currentTime := t } := ⟨_, rfl⟩
  rw [← ha]
  have e1 : a.animationIndex = s.animationIndex := by rw [ha]
  have e2 : a.animationIndexFile = s.animationIndexFile := by rw [ha]
  have e3 : a.animationLastTime = s.animationLastTime := by rw [ha]
  have e4 : a.fileTypingStartTime = s.fileTypingStartTime := by rw [ha]
  have e5 : a.animationTextDirectory = s.animationTextDirectory := by rw [ha]
  have e6 : a.animationTextFile = s.animationTextFile := by rw [ha]
  simp only [updateCode_animationIndex, updateDemoStart_animationIndex,
    updateCode_animationIndexFile, updateDemoStart_animationIndexFile,
    updateCode_animationLastTime, updateDemoStart_animationLastTime,
    updateCode_fileTypingStartTime, updateDemoStart_fileTypingStartTime,
    updateFile_animationIndex]
  have hf := updateFile_cases (updateDirectory a t).1 t
  simp only [updateDirectory_animationTextDirectory, updateDirectory_animationTextFile,
    updateDirectory_animationIndexFile, updateDirectory_fileTypingStartTime] at hf
  rw [e2, e4, e5, e6] at hf
  rcases updateDirectory_cases a t with hd | hd
  · rw [e1, e3, e5] at hd
    obtain ⟨d1, d2, d3, d4⟩ := hd
    rw [d3, d4] at hf
    left
    rcases hf with hf | hf
    · exfalso
      have := hf.2.2.2.2.1
      norm_num at this
    · obtain ⟨f1, f2, f3⟩ := hf
      refine ⟨d1, d2, d3, f1, f2, ?_⟩
      rw [f3, if_neg (by omega)]
  · rw [e1, e3] at hd
    obtain ⟨d3, d4⟩ := hd
    rw [d3, d4] at hf
    right
    rcases hf with hf | hf
    · left
      obtain ⟨f1, f2, f3, f4, f5, f6, f7, f8⟩ := hf
      exact ⟨f1, f2, f3, f4, f5, d3, f6, f7, f8⟩
    · right
      obtain ⟨f1, f2, f3⟩ := hf
      exact ⟨d3, f1, f2, f3⟩

theorem update_demoStarted_iff (s : TerminalScene) (t : ℚ) :
    (s.update t).1.demoStarted = true ↔
      s.demoStarted = true ∨
        (s.animationTextDirectory.length ≤ (s.update t).1.animationIndex ∧
          s.animationTextFile.length ≤ (s.update t).1.animationIndexFile) := by
  rw [update_fst]
  obtain ⟨a, ha⟩ : ∃ a : TerminalScene, a = { s with currentTime := t } := ⟨_, rfl⟩
  rw [← ha]
  have e5 : a.animationTextDirectory = s.animationTextDirectory := by rw [ha]
  have e6 : a.animationTextFile = s.animationTextFile := by rw [ha]
  have e7 : a.demoStarted = s.demoStarted := by rw [ha]
  simp only [updateCode_demoStarted, updateCode_animationIndex, updateCode_animationIndexFile,
    updateDemoStart_animationIndex, updateDemoStart_animationIndexFile]
  obtain ⟨c, hc⟩ : ∃ c : TerminalScene, c = (updateFile (updateDirectory a t).1 t).1 := ⟨_, rfl⟩
  have c1 : c.animationTextDirectory = s.animationTextDirectory := by
    rw [hc, updateFile_animationTextDirectory, updateDirectory_animationTextDirectory, e5]
  have c2 : c.animationTextFile = s.animationTextFile := by
    rw [hc, updateFile_animationTextFile, updateDirectory_animationTextFile, e6]
  have c3 : c.demoStarted = s.demoStarted := by
    rw [hc, updateFile_demoStarted, updateDirectory_demoStarted, e7]
  rw [← hc]
  simp only [updateDemoStart, ge_iff_le, c1, c2, c3]
  split_ifs with h
  · simp only [true_iff]
    exact Or.inr ⟨h.1, h.2.1⟩
  · rw [c3]
    constructor
    · intro h1
      exact Or.inl h1
    · rintro (h1 | h1)
      · exact h1
      · cases hds : s.demoStarted
        · exact absurd ⟨h1.1, h1.2, hds⟩ h
        · rfl

/-- The code part of one update: it reveals a code character, or starts the
next code line, or neither; the first two need the demo to have started at an
earlier update, more than half a second before. -/
theorem update_code (s : TerminalScene) (t : ℚ) :
    (s.demoStarted = true ∧ t - s.demoStartTime > 1 / 2 ∧ t - s.lastCodeLineTime > 1 / 20 ∧
      (s.update t).1.codeLineIndex = s.codeLineIndex ∧
      (s.update t).1.codeCharIndex = s.codeCharIndex + 1 ∧
      (s.update t).1.lastCodeLineTime = t) ∨
    (s.demoStarted = true ∧ t - s.demoStartTime > 1 / 2 ∧
      t - s.lastCodeLineTime > s.codeLineInterval ∧
      (s.update t).1.codeLineIndex = s.codeLineIndex + 1 ∧
      (s.update t).1.codeCharIndex = 0 ∧
      (s.update t).1.lastCodeLineTime = t) ∨
    ((s.update t).1.codeLineIndex = s.codeLineIndex ∧
      (s.update t).1.codeCharIndex = s.codeCharIndex ∧
      (s.update t).1.lastCodeLineTime = s.lastCodeLineTime) := by
  rw [update_fst]
  obtain ⟨a, ha⟩ : ∃ a : TerminalScene, a = { s with currentTime := t } := ⟨_, rfl⟩
  rw [← ha]
  obtain ⟨c, hc⟩ : ∃ c : TerminalScene, c = (updateFile (updateDirectory a t).1 t).1 := ⟨_, rfl⟩
  rw [← hc]
  have c1 : c.demoStarted = s.demoStarted := by
    rw [hc, updateFile_demoStarted, updateDirectory_demoStarted, ha]
  have c2 : c.demoStartTime = s.demoStartTime := by
    rw [hc, updateFile_demoStartTime, updateDirectory_demoStartTime, ha]
  have c3 : c.codeLineIndex = s.codeLineIndex := by
    rw [hc, updateFile_codeLineIndex, updateDirectory_codeLineIndex, ha]
  have c4 : c.codeCharIndex = s.codeCharIndex := by
    rw [hc, updateFile_codeCharIndex, updateDirectory_codeCharIndex, ha]
  have c5 : c.lastCodeLineTime = s.lastCodeLineTime := by
    rw [hc, updateFile_lastCodeLineTime, updateDirectory_lastCodeLineTime, ha]
  have c6 : c.codeLineInterval = s.codeLineInterval := by
    rw [hc, updateFile_codeLineInterval, updateDirectory_codeLineInterval, ha]
  obtain ⟨d, hd⟩ : ∃ d : TerminalScene, d = updateDemoStart c t := ⟨_, rfl⟩
  rw [← hd]
  have d3 : d.codeLineIndex = s.codeLineIndex := by rw [hd, updateDemoStart_codeLineIndex, c3]
  have d4 : d.codeCharIndex = s.codeCharIndex := by rw [hd, updateDemoStart_codeCharIndex, c4]
  have d5 : d.lastCodeLineTime = s.lastCodeLineTime := by
    rw [hd, updateDemoStart_lastCodeLineTime, c5]
  have d6 : d.codeLineInterval = s.codeLineInterval := by
    rw [hd, updateDemoStart_codeLineInterval, c6]
  have dstart : d.demoStarted = true → t - d.demoStartTime > 1 / 2 →
      s.demoStarted = true ∧ t - s.demoStartTime > 1 / 2 := by
    rw [hd]
    simp only [updateDemoStart]
    split_ifs with h
    · intro _ h2
      norm_num at h2
    · rw [c1, c2]
      exact fun h1 h2 => ⟨h1, h2⟩
  rw [updateCode_fst]
  split_ifs with g hlt hcc ht hl
  · left
    obtain ⟨g1, g2⟩ := dstart g.1 g.2.1
    rw [d5] at ht
    exact ⟨g1, g2, ht, d3, by rw [← d4], rfl⟩
  · right; right
    exact ⟨d3, d4, d5⟩
  · right; left
    obtain ⟨g1, g2⟩ := dstart g.1 g.2.1
    rw [d5, d6] at hl
    exact ⟨g1, g2, hl, by rw [← d3], rfl, rfl⟩
  · right; right
    exact ⟨d3, d4, d5⟩
  · right; right
    exact ⟨d3, d4, d5⟩
  · right; right
    exact ⟨d3, d4, d5⟩

/-- The directory or file character one update reveals, with the guard that let
it through and the members it wrote. -/
theorem typingReveals_cases (s : TerminalScene) (t : ℚ) :
    (s.typingReveals t = [Reveal.directoryChar] ∧
      s.animationIndex < s.animationTextDirectory.length ∧ t - s.animationLastTime ≥ 1 / 10 ∧
      (s.update t).1.animationIndex = s.animationIndex + 1 ∧
      (s.update t).1.animationIndexFile = s.animationIndexFile ∧
      (s.update t).1.animationLastTime = t ∧
      (s.update t).1.fileTypingStartTime =
        if s.animationTextDirectory.length ≤ s.animationIndex + 1 ∧ s.animationIndexFile = 0 ∧
            s.fileTypingStartTime < 0 then t
        else s.fileTypingStartTime) ∨
    (s.typingReveals t = [Reveal.fileChar] ∧
      s.animationTextDirectory.length ≤ s.animationIndex ∧
      s.animationIndexFile < s.animationTextFile.length ∧
      0 ≤ s.fileTypingStartTime ∧ t - s.fileTypingStartTime ≥ 1 ∧
      t - s.animationLastTime ≥ 1 / 10 ∧
      (s.update t).1.animationIndex = s.animationIndex ∧
      (s.update t).1.animationIndexFile = s.animationIndexFile + 1 ∧
      (s.update t).1.animationLastTime = t ∧
      (s.update t).1.fileTypingStartTime = s.fileTypingStartTime) ∨
    (s.typingReveals t = [] ∧
      (s.update t).1.animationIndex = s.animationIndex ∧
      (s.update t).1.animationIndexFile = s.animationIndexFile ∧
      (s.update t).1.animationLastTime = s.animationLastTime ∧
      (s.update t).1.fileTypingStartTime =
        if s.animationIndex = 0 ∧ s.animationIndexFile = 0 then -1
        else if s.animationTextDirectory.length ≤ s.animationIndex ∧ s.animationIndexFile = 0 ∧
            s.fileTypingStartTime < 0 then t
        else s.fileTypingStartTime) := by
  rcases update_typing s t with h | h | h
  · left
    refine ⟨?_, h⟩
    simp only [typingReveals, h.2.2.1, h.2.2.2.1]
    simp
  · right; left
    refine ⟨?_, h⟩
    simp only [typingReveals, h.2.2.2.2.2.1, h.2.2.2.2.2.2.1]
    simp
  · right; right
    refine ⟨?_, h⟩
    simp only [typingReveals, h.1, h.2.1]
    simp

/-- The code character or line start one update reveals, with the guard that
let it through and the members it wrote. -/
theorem codeReveals_cases (s : TerminalScene) (t : ℚ) :
    (s.codeReveals t = [Reveal.codeChar] ∧
      s.demoStarted = true ∧ t - s.demoStartTime > 1 / 2 ∧ t - s.lastCodeLineTime > 1 / 20 ∧
      (s.update t).1.codeLineIndex = s.codeLineIndex ∧
      (s.update t).1.codeCharIndex = s.codeCharIndex + 1 ∧
      (s.update t).1.lastCodeLineTime = t) ∨
    (s.codeReveals t = [Reveal.codeLine] ∧
      s.demoStarted = true ∧ t - s.demoStartTime > 1 / 2 ∧
      t - s.lastCodeLineTime > s.codeLineInterval ∧
      (s.update t).1.codeLineIndex = s.codeLineIndex + 1 ∧
      (s.update t).1.codeCharIndex = 0 ∧
      (s.update t).1.lastCodeLineTime = t) ∨
    (s.codeReveals t = [] ∧
      (s.update t).1.codeLineIndex = s.codeLineIndex ∧
      (s.update t).1.codeCharIndex = s.codeCharIndex ∧
      (s.update t).1.lastCodeLineTime = s.lastCodeLineTime) := by
  rcases update_code s t with h | h | h
  · left
    refine ⟨?_, h⟩
    simp only [codeReveals, h.2.2.2.1, h.2.2.2.2.1]
    simp
  · right; left
    refine ⟨?_, h⟩
    simp only [codeReveals, h.2.2.2.1]
    simp
  · right; right
    refine ⟨?_, h⟩
    simp only [codeReveals, h.1, h.2.1]
    simp

theorem revealTimes_append (k : Reveal → Bool) (l1 l2 : List (ℚ × Reveal)) :
    revealTimes k (l1 ++ l2) = revealTimes k l1 ++ revealTimes k l2 := by
  simp only [revealTimes, List.filter_append, List.map_append]

theorem revealTimes_map (k : Reveal → Bool) (t : ℚ) (rs : List Reveal) :
    revealTimes k (rs.map fun r => (t, r)) = (rs.filter k).map fun _ => t := by
  induction rs with
  | nil => rfl
  | cons r rest ih =>
    simp only [revealTimes, List.map_cons, List.filter_cons] at ih ⊢
    split_ifs
    · simp only [List.map_cons, ih]
    · exact ih

theorem revealTimes_revealLog_cons (k : Reveal → Bool) (s : TerminalScene) (t : ℚ)
    (ts : List ℚ) :
    revealTimes k (s.revealLog (t :: ts)) =
      ((s.typingReveals t).filter k).map (fun _ => t) ++
        ((s.codeReveals t).filter k).map (fun _ => t) ++
        revealTimes k ((s.update t).1.revealLog ts) := by
  simp only [revealLog, reveals, revealTimes_append, revealTimes_map, List.filter_append,
    List.map_append]

theorem mem_revealLog_cons (s : TerminalScene) (t : ℚ) (ts : List ℚ) (x : ℚ) (r : Reveal) :
    (x, r) ∈ s.revealLog (t :: ts) ↔
      (x = t ∧ (r ∈ s.typingReveals t ∨ r ∈ s.codeReveals t)) ∨
        (x, r) ∈ (s.update t).1.revealLog ts := by
  simp only [revealLog, reveals, List.mem_append, List.mem_map, Prod.mk.injEq]
  constructor
  · rintro ((⟨a, ha, rfl, rfl⟩) | h)
    · exact Or.inl ⟨rfl, ha⟩
    · exact Or.inr h
  · rintro (⟨rfl, ha⟩ | h)
    · exact Or.inl ⟨r, ha, rfl, rfl⟩
    · exact Or.inr h

theorem mem_typingReveals (s : TerminalScene) (t : ℚ) (r : Reveal)
    (h : r ∈ s.typingReveals t) : r = Reveal.directoryChar ∨ r = Reveal.fileChar := by
  rcases typingReveals_cases s t with c | c | c <;> rw [c.1] at h <;> simp at h
  · exact Or.inl h
  · exact Or.inr h

theorem mem_codeReveals (s : TerminalScene) (t : ℚ) (r : Reveal)
    (h : r ∈ s.codeReveals t) : r = Reveal.codeChar ∨ r = Reveal.codeLine := by
  rcases codeReveals_cases s t with c | c | c <;> rw [c.1] at h <;> simp at h
  · exact Or.inl h
  · exact Or.inr h

theorem codeReveals_isTyping (s : TerminalScene) (t : ℚ) :
    (s.codeReveals t).filter Reveal.isTyping = [] := by
  rcases codeReveals_cases s t with c | c | c <;> rw [c.1] <;> rfl

theorem typingReveals_isCodeChar (s : TerminalScene) (t : ℚ) :
    (s.typingReveals t).filter Reveal.isCodeChar = [] := by
  rcases typingReveals_cases s t with c | c | c <;> rw [c.1] <;> rfl

theorem update_codeLineInterval (s : TerminalScene) (t : ℚ) :
    (s.update t).1.codeLineInterval = s.codeLineInterval := by
  rw [update_fst]
  simp only [updateCode_codeLineInterval, updateDemoStart_codeLineInterval,
    updateFile_codeLineInterval, updateDirectory_codeLineInterval]

/-- Directory and file characters are at least 0.1 s apart, the first one at
least 0.1 s after `animationLastTime`. -/
theorem typing_chain (ts : List ℚ) (s : TerminalScene) :
    List.Chain (fun a b : ℚ => b - a ≥ 1 / 10) s.animationLastTime
      (revealTimes Reveal.isTyping (s.revealLog ts)) := by
  induction ts generalizing s with
  | nil => exact List.Chain.nil
  | cons t rest ih =>
    rw [revealTimes_revealLog_cons, codeReveals_isTyping]
    have h := ih (s.update t).1
    rcases typingReveals_cases s t with c | c | c
    · rw [c.1]
      rw [c.2.2.2.2.2.1] at h
      exact List.Chain.cons c.2.2.1 h
    · rw [c.1]
      rw [c.2.2.2.2.2.2.2.2.1] at h
      exact List.Chain.cons c.2.2.2.2.2.1 h
    · rw [c.1]
      rw [c.2.2.2.1] at h
      exact h

/-- Code characters are more than 0.05 s apart, the first one more than 0.05 s
after any time not later than `lastCodeLineTime`. -/
theorem codeChar_chain (ts : List ℚ) (s : TerminalScene) (l : ℚ)
    (hint : s.codeLineInterval = 1 / 2) (hl : l ≤ s.lastCodeLineTime) :
    List.Chain (fun a b : ℚ => b - a > 1 / 20) l
      (revealTimes Reveal.isCodeChar (s.revealLog ts)) := by
  induction ts generalizing s l with
  | nil => exact List.Chain.nil
  | cons t rest ih =>
    rw [revealTimes_revealLog_cons, typingReveals_isCodeChar]
    have hint2 : (s.update t).1.codeLineInterval = 1 / 2 := by
      rw [update_codeLineInterval, hint]
    rcases codeReveals_cases s t with c | c | c
    · rw [c.1]
      have h := ih (s.update t).1 t hint2 (by rw [c.2.2.2.2.2.2])
      have hgap := c.2.2.2.1
      exact List.Chain.cons (by linarith) h
    · rw [c.1]
      have hgap := c.2.2.2.1
      rw [hint] at hgap
      exact ih (s.update t).1 l hint2 (by rw [c.2.2.2.2.2.2]; linarith)
    · rw [c.1]
      exact ih (s.update t).1 l hint2 (by rw [c.2.2.2]; exact hl)

theorem filter_isCode_revealLog_cons (s : TerminalScene) (t : ℚ) (ts : List ℚ) :
    (s.revealLog (t :: ts)).filter (fun e => e.2.isCode) =
      (s.codeReveals t).map (fun r => (t, r)) ++
        ((s.update t).1.revealLog ts).filter (fun e => e.2.isCode) := by
  simp only [revealLog, reveals, List.map_append, List.filter_append]
  congr 1
  rcases typingReveals_cases s t with c | c | c <;>
    rcases codeReveals_cases s t with d | d | d <;> rw [c.1, d.1] <;> rfl

/-- Among the code reveals, each comes more than 0.05 s after the one before,
and a line start more than 0.5 s after it. -/
theorem code_chain (ts : List ℚ) (s : TerminalScene) (r0 : Reveal)
    (hint : s.codeLineInterval = 1 / 2) :
    List.Chain
      (fun e1 e2 : ℚ × Reveal =>
        e2.1 - e1.1 > 1 / 20 ∧ (e2.2 = Reveal.codeLine → e2.1 - e1.1 > 1 / 2))
      (s.lastCodeLineTime, r0) ((s.revealLog ts).filter fun e => e.2.isCode) := by
  induction ts generalizing s r0 with
  | nil => exact List.Chain.nil
  | cons t rest ih =>
    rw [filter_isCode_revealLog_cons]
    have hint2 : (s.update t).1.codeLineInterval = 1 / 2 := by
      rw [update_codeLineInterval, hint]
    rcases codeReveals_cases s t with c | c | c
    · rw [c.1]
      have h := ih (s.update t).1 Reveal.codeChar hint2
      rw [c.2.2.2.2.2.2] at h
      refine List.Chain.cons ⟨c.2.2.2.1, ?_⟩ h
      intro hc
      cases hc
    · rw [c.1]
      have h := ih (s.update t).1 Reveal.codeLine hint2
      rw [c.2.2.2.2.2.2] at h
      have hgap := c.2.2.2.1
      rw [hint] at hgap
      refine List.Chain.cons ⟨?_, fun _ => hgap⟩ h
      show t - s.lastCodeLineTime > 1 / 20
      linarith
    · rw [c.1]
      have h := ih (s.update t).1 r0 hint2
      rw [c.2.2.2] at h
      exact h

/-- Once the directory is fully typed, with `T` the timestamp of its last
character as the latch `fileTypingStartTime` remembers it: no directory
character follows, and every file character comes at least 1 s after `T`. -/
theorem file_after_directory_done (T : ℚ) (ts : List ℚ) (s : TerminalScene)
    (hpos : 0 < s.animationTextDirectory.length)
    (hdone : s.animationTextDirectory.length ≤ s.animationIndex)
    (h1 : 0 ≤ s.fileTypingStartTime → T ≤ s.fileTypingStartTime)
    (h2 : s.fileTypingStartTime < 0 → T < 0 ∧ s.animationIndexFile = 0) :
    ∀ (x : ℚ) (r : Reveal), (x, r) ∈ s.revealLog ts →
      r ≠ Reveal.directoryChar ∧ (r = Reveal.fileChar → x - T ≥ 1) := by
  induction ts generalizing s with
  | nil =>
    intro x r hm
    simp [revealLog] at hm
  | cons t rest ih =>
    intro x r hm
    rw [mem_revealLog_cons] at hm
    have hlen : (s.update t).1.animationTextDirectory.length = s.animationTextDirectory.length := by
      rw [update_animationTextDirectory]
    rcases typingReveals_cases s t with c | c | c
    · exfalso
      have := c.2.1
      omega
    · obtain ⟨c0, -, -, c3, c4, -, c6, c7, -, c9⟩ := c
      rcases hm with ⟨rfl, hr⟩ | hm
      · rcases hr with hr | hr
        · rw [c0] at hr
          simp only [List.mem_singleton] at hr
          subst hr
          refine ⟨by decide, fun _ => ?_⟩
          have := h1 c3
          linarith
        · rcases mem_codeReveals s x r hr with h | h <;> subst h <;>
            exact ⟨by decide, fun h => by cases h⟩
      · refine ih (s.update t).1 (by rw [hlen]; exact hpos) (by rw [hlen, c6]; exact hdone)
          (by rw [c9]; exact h1) ?_ x r hm
        rw [c9]
        intro hneg
        linarith
    · obtain ⟨c0, c1, c2, -, c4⟩ := c
      rcases hm with ⟨rfl, hr⟩ | hm
      · rcases hr with hr | hr
        · rw [c0] at hr
          simp at hr
        · rcases mem_codeReveals s x r hr with h | h <;> subst h <;>
            exact ⟨by decide, fun h => by cases h⟩
      · have hne : ¬ (s.animationIndex = 0 ∧ s.animationIndexFile = 0) := by omega
        rw [if_neg hne] at c4
        refine ih (s.update t).1 (by rw [hlen]; exact hpos) (by rw [hlen, c1]; exact hdone)
          ?_ ?_ x r hm
        · rw [c4]
          split_ifs with hl
          · intro _
            have := (h2 hl.2.2).1
            linarith
          · exact h1
        · rw [c4, c2]
          split_ifs with hl
          · intro _
            exact h2 hl.2.2
          · exact h2

/-- While the directory is being typed: every later file character comes at
least 1 s after `animationLastTime` and after every later directory
character. -/
theorem file_after_directory (ts : List ℚ) (s : TerminalScene)
    (hlt : s.animationIndex < s.animationTextDirectory.length)
    (hf : s.fileTypingStartTime < 0) (ha : s.animationIndexFile = 0) :
    ∀ xf : ℚ, (xf, Reveal.fileChar) ∈ s.revealLog ts →
      xf - s.animationLastTime ≥ 1 ∧
        ∀ xd : ℚ, (xd, Reveal.directoryChar) ∈ s.revealLog ts → xf - xd ≥ 1 := by
  induction ts generalizing s with
  | nil =>
    intro xf hm
    simp [revealLog] at hm
  | cons t rest ih =>
    intro xf hm
    rw [mem_revealLog_cons] at hm
    have hlen : (s.update t).1.animationTextDirectory.length = s.animationTextDirectory.length := by
      rw [update_animationTextDirectory]
    have hnocode : ∀ r : Reveal, r ∈ s.codeReveals t → r ≠ Reveal.fileChar ∧
        r ≠ Reveal.directoryChar := by
      intro r hr
      rcases mem_codeReveals s t r hr with h | h <;> subst h <;> exact ⟨by decide, by decide⟩
    rcases typingReveals_cases s t with c | c | c
    · obtain ⟨c0, -, c2, c3, c4, c5, c6⟩ := c
      have hrest : (xf, Reveal.fileChar) ∈ (s.update t).1.revealLog rest := by
        rcases hm with ⟨-, hr⟩ | hm
        · exfalso
          rcases hr with hr | hr
          · rw [c0] at hr
            simp at hr
          · exact (hnocode _ hr).1 rfl
        · exact hm
      by_cases hfull : s.animationTextDirectory.length ≤ s.animationIndex + 1
      · rw [if_pos ⟨hfull, ha, hf⟩] at c6
        have hB := file_after_directory_done t rest (s.update t).1
          (by rw [hlen]; omega) (by rw [hlen, c3]; exact hfull)
          (by rw [c6]; exact fun _ => le_refl _)
          (by rw [c6, c4]; exact fun h => ⟨h, ha⟩)
        have hx := (hB xf Reveal.fileChar hrest).2 rfl
        refine ⟨by linarith, ?_⟩
        intro xd hd
        rw [mem_revealLog_cons] at hd
        rcases hd with ⟨rfl, -⟩ | hd
        · exact hx
        · exact absurd rfl (hB xd Reveal.directoryChar hd).1
      · rw [if_neg (fun h => hfull h.1)] at c6
        have hA := ih (s.update t).1 (by rw [hlen, c3]; omega) (by rw [c6]; exact hf)
          (by rw [c4]; exact ha) xf hrest
        rw [c5] at hA
        refine ⟨by linarith [hA.1], ?_⟩
        intro xd hd
        rw [mem_revealLog_cons] at hd
        rcases hd with ⟨rfl, -⟩ | hd
        · exact hA.1
        · exact hA.2 xd hd
    · exfalso
      have := c.2.1
      omega
    · obtain ⟨c0, c1, c2, c3, c4⟩ := c
      have hrest : (xf, Reveal.fileChar) ∈ (s.update t).1.revealLog rest := by
        rcases hm with ⟨-, hr⟩ | hm
        · exfalso
          rcases hr with hr | hr
          · rw [c0] at hr
            simp at hr
          · exact (hnocode _ hr).1 rfl
        · exact hm
      have hfts : (s.update t).1.fileTypingStartTime < 0 := by
        rw [c4]
        split_ifs with g1 g2
        · norm_num
        · exfalso
          have := g2.1
          omega
        · exact hf
      have hA := ih (s.update t).1 (by rw [hlen, c1]; exact hlt) hfts
        (by rw [c2]; exact ha) xf hrest
      rw [c3] at hA
      refine ⟨hA.1, ?_⟩
      intro xd hd
      rw [mem_revealLog_cons] at hd
      rcases hd with ⟨-, hr⟩ | hd
      · exfalso
        rcases hr with hr | hr
        · rw [c0] at hr
          simp at hr
        · exact (hnocode _ hr).2 rfl
      · exact hA.2 xd hd

/-- Once the demo has started: no directory or file character follows, and
every code character comes more than 0.5 s after `demoStartTime`. -/
theorem code_after_demo_start (ts : List ℚ) (s : TerminalScene)
    (hd : s.demoStarted = true)
    (h1 : s.animationTextDirectory.length ≤ s.animationIndex)
    (h2 : s.animationTextFile.length ≤ s.animationIndexFile) :
    ∀ (x : ℚ) (r : Reveal), (x, r) ∈ s.revealLog ts →
      r ≠ Reveal.fileChar ∧ (r = Reveal.codeChar → x - s.demoStartTime > 1 / 2) := by
  induction ts generalizing s with
  | nil =>
    intro x r hm
    simp [revealLog] at hm
  | cons t rest ih =>
    intro x r hm
    rw [mem_revealLog_cons] at hm
    obtain ⟨d1, d2⟩ := (update_demoStartTime s t).2 hd
    rcases typingReveals_cases s t with c | c | c
    · exfalso
      have := c.2.1
      omega
    · exfalso
      have := c.2.2.1
      omega
    · obtain ⟨c0, c1, c2, -⟩ := c
      rcases hm with ⟨rfl, hr⟩ | hm
      · rcases hr with hr | hr
        · rw [c0] at hr
          simp at hr
        · rcases codeReveals_cases s x with e | e | e <;> rw [e.1] at hr <;>
            simp only [List.mem_singleton, List.not_mem_nil] at hr
          · subst hr
            exact ⟨by decide, fun _ => e.2.2.1⟩
          · subst hr
            exact ⟨by decide, fun h => by cases h⟩
      · have := ih (s.update t).1 d1
          (by rw [update_animationTextDirectory, c1]; exact h1)
          (by rw [update_animationTextFile, c2]; exact h2) x r hm
        rw [d2] at this
        exact this

/-- Before the demo has started: every later code character comes more than
0.5 s after `animationLastTime` and after every later file character. -/
theorem code_after_file (ts : List ℚ) (s : TerminalScene)
    (hd : s.demoStarted = false)
    (h : s.animationIndex < s.animationTextDirectory.length ∨
      s.animationIndexFile < s.animationTextFile.length) :
    ∀ xc : ℚ, (xc, Reveal.codeChar) ∈ s.revealLog ts →
      xc - s.animationLastTime > 1 / 2 ∧
        ∀ xf : ℚ, (xf, Reveal.fileChar) ∈ s.revealLog ts → xc - xf > 1 / 2 := by
  induction ts generalizing s with
  | nil =>
    intro xc hm
    simp [revealLog] at hm
  | cons t rest ih =>
    intro xc hm
    rw [mem_revealLog_cons] at hm
    have hrest : (xc, Reveal.codeChar) ∈ (s.update t).1.revealLog rest := by
      rcases hm with ⟨-, hr⟩ | hm
      · exfalso
        rcases hr with hr | hr
        · rcases mem_typingReveals s t _ hr with h | h <;> cases h
        · rcases codeReveals_cases s t with e | e | e <;> rw [e.1] at hr <;>
            simp only [List.mem_singleton, List.not_mem_nil] at hr
          · rw [hd] at e
            exact absurd e.2.1 (by simp)
          · cases hr
      · exact hm
    have hiff := update_demoStarted_iff s t
    rw [hd] at hiff
    simp only [Bool.false_eq_true, false_or] at hiff
    -- the rest of the log, seen from the updated scene
    have key : ∀ alt : ℚ, (s.update t).1.animationLastTime = alt →
        (alt = t ∨ alt = s.animationLastTime) →
        xc - alt > 1 / 2 ∧
          ∀ xf : ℚ, (xf, Reveal.fileChar) ∈ (s.update t).1.revealLog rest → xc - xf > 1 / 2 := by
      intro alt halt hcase
      by_cases hs : (s.update t).1.demoStarted = true
      · have hidx := hiff.mp hs
        have hstart := (update_demoStartTime s t).1 hd hs
        have hP := code_after_demo_start rest (s.update t).1 hs
          (by rw [update_animationTextDirectory]; exact hidx.1)
          (by rw [update_animationTextFile]; exact hidx.2)
        have hx := (hP xc Reveal.codeChar hrest).2 rfl
        rw [hstart] at hx
        refine ⟨?_, fun xf hf => absurd rfl (hP xf Reveal.fileChar hf).1⟩
        rcases hcase with h0 | h0
        · rw [h0]; exact hx
        · exfalso
          -- no typing in this update, so the indices did not move
          rcases typingReveals_cases s t with c | c | c
          · rw [c.2.2.2.2.2.1] at halt
            have := c.2.2.1
            rw [← halt] at h0
            linarith
          · rw [c.2.2.2.2.2.2.2.2.1] at halt
            have := c.2.2.2.2.2.1
            rw [← halt] at h0
            linarith
          · rw [c.2.1, c.2.2.1] at hidx
            omega
      · have hs2 : (s.update t).1.demoStarted = false := by
          cases hb : (s.update t).1.demoStarted
          · rfl
          · exact absurd hb hs
        have hidx : (s.update t).1.animationIndex < (s.update t).1.animationTextDirectory.length ∨
            (s.update t).1.animationIndexFile < (s.update t).1.animationTextFile.length := by
          rw [update_animationTextDirectory, update_animationTextFile]
          by_contra hcon
          exact hs (hiff.mpr (by omega))
        have hA := ih (s.update t).1 hs2 hidx xc hrest
        rw [halt] at hA
        exact hA
    rcases typingReveals_cases s t with c | c | c
    · obtain ⟨c0, -, c2, c3, c4, c5, -⟩ := c
      have hk := key t c5 (Or.inl rfl)
      refine ⟨by linarith [hk.1], ?_⟩
      intro xf hf
      rw [mem_revealLog_cons] at hf
      rcases hf with ⟨rfl, -⟩ | hf
      · exact hk.1
      · exact hk.2 xf hf
    · obtain ⟨c0, -, -, -, -, c5, c6, c7, c8, -⟩ := c
      have hk := key t c8 (Or.inl rfl)
      refine ⟨by linarith [hk.1], ?_⟩
      intro xf hf
      rw [mem_revealLog_cons] at hf
      rcases hf with ⟨rfl, -⟩ | hf
      · exact hk.1
      · exact hk.2 xf hf
    · obtain ⟨c0, c1, c2, c3, -⟩ := c
      have hk := key s.animationLastTime c3 (Or.inr rfl)
      refine ⟨hk.1, ?_⟩
      intro xf hf
      rw [mem_revealLog_cons] at hf
      rcases hf with ⟨-, hr⟩ | hf
      · exfalso
        rcases hr with hr | hr
        · rw [c0] at hr
          simp at hr
        · rcases mem_codeReveals s t _ hr with h | h <;> cases h
      · exact hk.2 xf hf

/-- C18: for a scene as the constructor or `reset()` leaves it (constants
intact, both typing indices 0, the latch `fileTypingStartTime` negative, the
demo not started) and every sequence of update timestamps, non-decreasing or
not: consecutive directory or file characters are revealed at least 0.1 s
apart; every file character is revealed at least 1 s after every directory
character, the last one included; every code character is revealed more than
0.5 s after every file character, the last one included; consecutive code
characters are more than 0.05 s apart; and among the code reveals a line start
(the step of `codeLineIndex` that ends the completed line) comes more than
0.5 s after the reveal before it, every reveal more than 0.05 s after it. -/
theorem C18_typing_pace (s0 : TerminalScene) (ts : List ℚ) (hi : s0.Intact)
    (h1 : s0.animationIndex = 0) (h2 : s0.animationIndexFile = 0)
    (h3 : s0.fileTypingStartTime < 0) (h4 : s0.demoStarted = false) :
    List.Chain' (fun a b : ℚ => b - a ≥ 1 / 10)
      (revealTimes Reveal.isTyping (s0.revealLog ts)) ∧
    (∀ xd xf : ℚ, (xd, Reveal.directoryChar) ∈ s0.revealLog ts →
      (xf, Reveal.fileChar) ∈ s0.revealLog ts → xf - xd ≥ 1) ∧
    (∀ xf xc : ℚ, (xf, Reveal.fileChar) ∈ s0.revealLog ts →
      (xc, Reveal.codeChar) ∈ s0.revealLog ts → xc - xf > 1 / 2) ∧
    List.Chain' (fun a b : ℚ => b - a > 1 / 20)
      (revealTimes Reveal.isCodeChar (s0.revealLog ts)) ∧
    List.Chain'
      (fun e1 e2 : ℚ × Reveal =>
        e2.1 - e1.1 > 1 / 20 ∧ (e2.2 = Reveal.codeLine → e2.1 - e1.1 > 1 / 2))
      ((s0.revealLog ts).filter fun e => e.2.isCode) := by
  obtain ⟨i1, -, -, i4⟩ := hi
  have hlt : s0.animationIndex < s0.animationTextDirectory.length := by
    rw [h1, i1]
    decide
  refine ⟨?_, ?_, ?_, ?_, ?_⟩
  · exact (show List.Chain' _ (s0.animationLastTime :: _) from typing_chain ts s0).tail
  · intro xd xf hd hf
    exact (file_after_directory ts s0 hlt h3 h2 xf hf).2 xd hd
  · intro xf xc hf hc
    exact (code_after_file ts s0 h4 (Or.inl hlt) xc hc).2 xf hf
  · exact (show List.Chain' _ (s0.lastCodeLineTime :: _) from
      codeChar_chain ts s0 s0.lastCodeLineTime i4 (le_refl _)).tail
  · exact (show List.Chain' _ ((s0.lastCodeLineTime, Reveal.codeChar) :: _) from
      code_chain ts s0 Reveal.codeChar i4).tail

/-- Witness of C18: the scene constructed on storage holding 5 in
`codeCharIndex`, updated at `sparseTimes`: the last directory character comes
at 17 s, the first file character at 18 s, the last one at 32 s, the first
code character at 33 s. -/
theorem C18_typing_pace_witness :
    (17, Reveal.directoryChar) ∈ (construct ⟨5, 0, 0, false⟩).revealLog sparseTimes ∧
      (18, Reveal.fileChar) ∈ (construct ⟨5, 0, 0, false⟩).revealLog sparseTimes ∧
      (32, Reveal.fileChar) ∈ (construct ⟨5, 0, 0, false⟩).revealLog sparseTimes ∧
      (33, Reveal.codeChar) ∈ (construct ⟨5, 0, 0, false⟩).revealLog sparseTimes ∧
      (18 : ℚ) - 17 ≥ 1 ∧ (33 : ℚ) - 32 > 1 / 2 := by
  have h := C18_typing_pace (construct ⟨5, 0, 0, false⟩) sparseTimes ⟨rfl, rfl, rfl, rfl⟩
    rfl rfl (by decide!) rfl
  have m1 : ((17 : ℚ), Reveal.directoryChar) ∈
      (construct ⟨5, 0, 0, false⟩).revealLog sparseTimes := by decide!
  have m2 : ((18 : ℚ), Reveal.fileChar) ∈
      (construct ⟨5, 0, 0, false⟩).revealLog sparseTimes := by decide!
  have m3 : ((32 : ℚ), Reveal.fileChar) ∈
      (construct ⟨5, 0, 0, false⟩).revealLog sparseTimes := by decide!
  have m4 : ((33 : ℚ), Reveal.codeChar) ∈
      (construct ⟨5, 0, 0, false⟩).revealLog sparseTimes := by decide!
  exact ⟨m1, m2, m3, m4, h.2.1 17 18 m1 m2, h.2.2.1 32 33 m3 m4⟩

end TerminalScene

/-! ## LoginScene: the typed texts in every reachable scene -/

namespace LoginScene

theorem wellTyped_reset (s : LoginScene) : s.reset.WellTyped := by
  simp [WellTyped, reset]

theorem wellTyped_setOnTypeCallback (s : LoginScene) (h : s.WellTyped) :
    s.setOnTypeCallback.WellTyped := by
  obtain ⟨stage, username, password, tu, tp, timer, ci, vd, acc, cb⟩ := s
  cases stage <;> exact h

theorem wellTyped_step (s : LoginScene) (op : Op) (h : s.WellTyped) : (s.step op).WellTyped := by
  cases op with
  | update d => exact wellTyped_update s d h
  | reset => exact wellTyped_reset s
  | setOnTypeCallback => exact wellTyped_setOnTypeCallback s h

theorem wellTyped_exec (ops : List Op) :
    ∀ s : LoginScene, s.WellTyped → (s.exec ops).WellTyped := by
  induction ops with
  | nil => intro s h; exact h
  | cons op rest ih =>
    intro s h
    exact ih (s.step op) (wellTyped_step s op h)

/-- What the invariant `WellTyped` says about the typed texts. -/
theorem wellTyped_texts (s : LoginScene) (h : s.WellTyped) :
    s.typedUsername <+: s.username ∧ s.typedPassword <+: s.password ∧
    (s.stage = Stage.SHOW_USERNAME →
      (s.typedUsername.length : Int) = s.charIndex ∧ 0 ≤ s.charIndex ∧
        s.charIndex < (s.username.length : Int)) ∧
    (s.stage = Stage.SHOW_PASSWORD →
      (s.typedPassword.length : Int) = s.charIndex ∧ 0 ≤ s.charIndex ∧
        s.charIndex < (s.password.length : Int)) ∧
    (s.stage ≠ Stage.SHOW_USERNAME → s.typedUsername = s.username) ∧
    (s.stage = Stage.VERIFYING ∨ s.stage = Stage.ACCESS_GRANTED ∨ s.stage = Stage.FINISHED →
      s.typedPassword = s.password) := by
  obtain ⟨stage, username, password, tu, tp, timer, ci, vd, acc, cb⟩ := s
  obtain ⟨hu, hp, hrest⟩ := h
  simp only at hu hp hrest
  subst hu hp
  have len8 : ∀ n : Int, 0 ≤ n → n < 8 →
      ∀ l : List Char, l.length = 8 → ((l.take n.toNat).length : Int) = n := by
    intro n h0 h8 l hl
    rw [List.length_take, hl]
    omega
  cases stage
  · obtain ⟨h1, h2, h3, h4⟩ := hrest
    subst h1 h4
    refine ⟨List.take_prefix _ _, List.nil_prefix, ?_, ?_, ?_, ?_⟩
    · intro _
      exact ⟨len8 ci h2 h3 _ rfl, h2, h3⟩
    · intro h; cases h
    · intro h; exact absurd rfl h
    · rintro (h | h | h) <;> cases h
  · obtain ⟨h1, h2⟩ := hrest
    subst h1 h2
    refine ⟨List.prefix_refl _, List.nil_prefix, ?_, ?_, ?_, ?_⟩
    · intro h; cases h
    · intro h; cases h
    · intro _; rfl
    · rintro (h | h | h) <;> cases h
  · obtain ⟨h1, h2, h3, h4⟩ := hrest
    subst h1 h4
    refine ⟨List.prefix_refl _, List.take_prefix _ _, ?_, ?_, ?_, ?_⟩
    · intro h; cases h
    · intro _
      exact ⟨len8 ci h2 h3 _ rfl, h2, h3⟩
    · intro _; rfl
    · rintro (h | h | h) <;> cases h
  all_goals
    obtain ⟨h1, h2⟩ := hrest
    subst h1 h2
    refine ⟨List.prefix_refl _, List.prefix_refl _, ?_, ?_, ?_, ?_⟩
    · intro h; cases h
    · intro h; cases h
    · intro _; rfl
    · intro _; rfl

/-- C30: every login scene reached from the constructed one by calls of `update`
(any `deltaTime`), `reset` and `setOnTypeCallback` has `typedUsername` a prefix
of `username` and `typedPassword` a prefix of `password`; in SHOW_USERNAME
(SHOW_PASSWORD) the typed text has length `charIndex` and
`0 ≤ charIndex < length`, so the access `username[charIndex]`
(`password[charIndex]`) of the next update is in bounds; `typedUsername` is
`username` in every stage after SHOW_USERNAME and `typedPassword` is `password`
in every stage after SHOW_PASSWORD. -/
theorem C30_login_typed_prefixes (ops : List Op) :
    (construct.exec ops).typedUsername <+: (construct.exec ops).username ∧
    (construct.exec ops).typedPassword <+: (construct.exec ops).password ∧
    ((construct.exec ops).stage = Stage.SHOW_USERNAME →
      ((construct.exec ops).typedUsername.length : Int) = (construct.exec ops).charIndex ∧
        0 ≤ (construct.exec ops).charIndex ∧
        (construct.exec ops).charIndex < ((construct.exec ops).username.length : Int)) ∧
    ((construct.exec ops).stage = Stage.SHOW_PASSWORD →
      ((construct.exec ops).typedPassword.length : Int) = (construct.exec ops).charIndex ∧
        0 ≤ (construct.exec ops).charIndex ∧
        (construct.exec ops).charIndex < ((construct.exec ops).password.length : Int)) ∧
    ((construct.exec ops).stage ≠ Stage.SHOW_USERNAME →
      (construct.exec ops).typedUsername = (construct.exec ops).username) ∧
    ((construct.exec ops).stage = Stage.VERIFYING ∨
        (construct.exec ops).stage = Stage.ACCESS_GRANTED ∨
        (construct.exec ops).stage = Stage.FINISHED →
      (construct.exec ops).typedPassword = (construct.exec ops).password) :=
  wellTyped_texts _ (wellTyped_exec ops construct (wellTyped_construct false))

end LoginScene

/-! ## LoginScene: the dot count -/

namespace LoginScene

end LoginScene

/-! ## LocateScene: the range of the step and the label index -/

namespace LocateScene

theorem stepLabel_length (s : LocateScene) (hs : s.steps = construct.steps)
    (h0 : 0 ≤ s.currentStep) (h3 : s.currentStep ≤ 3) :
    s.currentStep.toNat < s.steps.length ∧
      (s.stepLabel.length : Int) =
        if s.currentStep = 0 then 15 else if s.currentStep = 1 then 17
        else if s.currentStep = 2 then 22 else 18 := by
  obtain ⟨c, hc⟩ : ∃ c, s.currentStep = c := ⟨_, rfl⟩
  rw [hc] at h0 h3
  simp only [stepLabel, hs, hc, construct]
  interval_cases c <;> decide

theorem inRange_stepped (s : LocateScene) (deltaTime : ℚ) (h : s.InRange) :
    (s.stepped deltaTime).InRange := by
  obtain ⟨f1, f2, f3, f4, f5, f6, f7, f8, f9, f10⟩ := stepped_fields s deltaTime
  obtain ⟨h1, h2, h3, h4, h5⟩ := h
  have hlabel : (s.stepped deltaTime).stepLabel = s.stepLabel := by
    simp only [stepLabel, f2, f4]
  refine ⟨by rw [f4]; exact h1, by rw [f2]; exact h2, by rw [f2]; exact h3, ?_, ?_⟩
  · rw [f9]
    simp only [revealChar, interpolate]
    split_ifs <;> simp only [] <;> omega
  · rw [f9, hlabel]
    have e : (s.interpolate deltaTime).stepLabel = s.stepLabel := rfl
    have e2 : (s.interpolate deltaTime).charIndex = s.charIndex := rfl
    simp only [revealChar]
    split_ifs with hc
    · rw [e, e2] at hc
      show s.charIndex + 1 ≤ _
      omega
    · exact h5

theorem inRange_advanceStep (s : LocateScene) (h : s.InRange) : (advanceStep s).1.InRange := by
  obtain ⟨h1, h2, h3, h4, h5⟩ := h
  have hcases : s.currentStep = 0 ∨ s.currentStep = 1 ∨ s.currentStep = 2 ∨
      s.currentStep = 3 := by omega
  rcases hcases with hc | hc | hc | hc
  · have e : (advanceStep s).1 =
        ({ s with currentStep := 1, targetZoom := 5, targetCenterX := 2 / 5,
                  targetCenterY := 3 / 5, timer := 0, charIndex := 0 } : LocateScene) := by
      simp [advanceStep, hc]
    rw [e]
    refine ⟨h1, ?_, ?_, le_refl _, Int.natCast_nonneg _⟩
    · show (0 : Int) ≤ 1
      decide
    · show (1 : Int) ≤ 3
      decide
  · have e : (advanceStep s).1 =
        ({ s with currentStep := 2, targetZoom := 10, targetCenterX := 3 / 5,
                  targetCenterY := 2 / 5, timer := 0, charIndex := 0 } : LocateScene) := by
      simp [advanceStep, hc]
    rw [e]
    refine ⟨h1, ?_, ?_, le_refl _, Int.natCast_nonneg _⟩
    · show (0 : Int) ≤ 2
      decide
    · show (2 : Int) ≤ 3
      decide
  · have e : (advanceStep s).1 =
        ({ s with currentStep := 3, targetZoom := 20, targetCenterX := 1 / 2,
                  targetCenterY := 3 / 5, timer := 0, charIndex := 0 } : LocateScene) := by
      simp [advanceStep, hc]
    rw [e]
    refine ⟨h1, ?_, ?_, le_refl _, Int.natCast_nonneg _⟩
    · show (0 : Int) ≤ 3
      decide
    · show (3 : Int) ≤ 3
      decide
  · rw [advanceStep_last s hc]
    exact ⟨h1, h2, h3, h4, h5⟩

theorem inRange_update (s : LocateScene) (deltaTime : ℚ) (h : s.InRange) :
    (s.update deltaTime).1.InRange := by
  cases hf : s.finished
  · by_cases hd : s.advanceDue deltaTime
    · rw [update_due s deltaTime hf hd]
      exact inRange_advanceStep _ (inRange_stepped s deltaTime h)
    · rw [update_not_due s deltaTime hf hd]
      exact inRange_stepped s deltaTime h
  · rw [update_of_finished s deltaTime hf]
    exact h

theorem inRange_construct : construct.InRange := by
  refine ⟨rfl, by decide, by decide, by decide, ?_⟩
  decide

theorem inRange_reset (s : LocateScene) (h : s.InRange) : s.reset.InRange := by
  refine ⟨h.1, le_refl _, ?_, le_refl _, Int.natCast_nonneg _⟩
  show (0 : Int) ≤ 3
  decide

theorem inRange_step (s : LocateScene) (op : Op) (h : s.InRange) : (s.step op).InRange := by
  cases op with
  | update d => exact inRange_update s d h
  | reset => exact inRange_reset s h
  | setSoundManager => exact h

theorem inRange_exec (ops : List Op) :
    ∀ s : LocateScene, s.InRange → (s.exec ops).InRange := by
  induction ops with
  | nil => intro s h; exact h
  | cons op rest ih =>
    intro s h
    exact ih (s.step op) (inRange_step s op h)

/-- One update keeps the step or adds one to it (for a step within 0..3), and
sets `finished` only at step 3. -/
theorem update_currentStep (s : LocateScene) (deltaTime : ℚ) (h0 : 0 ≤ s.currentStep)
    (h3 : s.currentStep ≤ 3) :
    ((s.update deltaTime).1.currentStep = s.currentStep ∨
      (s.update deltaTime).1.currentStep = s.currentStep + 1) ∧
    (s.finished = false → (s.update deltaTime).1.finished = true →
      s.currentStep = 3 ∧ (s.update deltaTime).1.currentStep = 3) := by
  cases hf : s.finished
  · obtain ⟨f1, f2, f3, -⟩ := stepped_fields s deltaTime
    by_cases hd : s.advanceDue deltaTime
    · rw [update_due s deltaTime hf hd]
      by_cases hlow : s.currentStep ≤ 2
      · have hl := advanceStep_low (s.stepped deltaTime) (by rw [f2]; exact h0)
          (by rw [f2]; exact hlow)
        rw [f2, f3, hf] at hl
        refine ⟨Or.inr hl.1, ?_⟩
        intro _ hfin
        rw [hl.2.2.2.2.1] at hfin
        cases hfin
      · have h3' : s.currentStep = 3 := by omega
        rw [advanceStep_last (s.stepped deltaTime) (by rw [f2]; exact h3')]
        exact ⟨Or.inl f2, fun _ _ => ⟨h3', by show (s.stepped deltaTime).currentStep = 3; rw [f2, h3']⟩⟩
    · rw [update_not_due s deltaTime hf hd]
      refine ⟨Or.inl f2, ?_⟩
      intro _ hfin
      rw [show (s.stepped deltaTime, ([] : List Int)).1.finished = (s.stepped deltaTime).finished
        from rfl, f3, hf] at hfin
      cases hfin
  · rw [update_of_finished s deltaTime hf]
    exact ⟨Or.inl rfl, fun h => by cases h⟩

/-- C22: every locate scene reached from the constructed one by calls of
`update` (any `deltaTime`), `reset` and `setSoundManager` has
`0 ≤ currentStep ≤ 3`, so `steps[currentStep]` is a valid access, and
`0 ≤ charIndex ≤` the length of that label; an update leaves `currentStep`
unchanged or adds exactly 1; `finished` turns true only in an update that
starts and ends at step 3; and on a finished scene `update` changes no member
and plays no cue. -/
theorem C22_locate_step_in_range (ops : List Op) :
    (0 ≤ (construct.exec ops).currentStep ∧ (construct.exec ops).currentStep ≤ 3) ∧
    (construct.exec ops).currentStep.toNat < (construct.exec ops).steps.length ∧
    (0 ≤ (construct.exec ops).charIndex ∧
      (construct.exec ops).charIndex ≤ ((construct.exec ops).stepLabel.length : Int)) ∧
    (∀ deltaTime : ℚ,
      ((construct.exec ops).update deltaTime).1.currentStep = (construct.exec ops).currentStep ∨
        ((construct.exec ops).update deltaTime).1.currentStep =
          (construct.exec ops).currentStep + 1) ∧
    (∀ deltaTime : ℚ, (construct.exec ops).finished = false →
      ((construct.exec ops).update deltaTime).1.finished = true →
      (construct.exec ops).currentStep = 3 ∧
        ((construct.exec ops).update deltaTime).1.currentStep = 3) ∧
    (∀ deltaTime : ℚ, (construct.exec ops).finished = true →
      (construct.exec ops).update deltaTime = (construct.exec ops, [])) := by
  obtain ⟨h1, h2, h3, h4, h5⟩ := inRange_exec ops construct inRange_construct
  refine ⟨⟨h2, h3⟩, (stepLabel_length _ h1 h2 h3).1, ⟨h4, h5⟩, ?_, ?_, ?_⟩
  · intro deltaTime
    exact (update_currentStep _ deltaTime h2 h3).1
  · intro deltaTime
    exact (update_currentStep _ deltaTime h2 h3).2
  · intro deltaTime hf
    exact update_of_finished _ deltaTime hf

end LocateScene

/-! ## LocateScene: interpolation and the two timers -/

namespace LocateScene

theorem advanceStep_targetZoom (s : LocateScene) :
    (advanceStep s).1.targetZoom = s.targetZoom ∨ (advanceStep s).1.targetZoom = 5 ∨
      (advanceStep s).1.targetZoom = 10 ∨ (advanceStep s).1.targetZoom = 20 := by
  simp only [advanceStep]
  split_ifs <;>
    first
      | exact Or.inl rfl
      | exact Or.inr (Or.inl rfl)
      | exact Or.inr (Or.inr (Or.inl rfl))
      | exact Or.inr (Or.inr (Or.inr rfl))

theorem update_targetZoom (s : LocateScene) (deltaTime : ℚ) :
    (s.update deltaTime).1.targetZoom = s.targetZoom ∨ (s.update deltaTime).1.targetZoom = 5 ∨
      (s.update deltaTime).1.targetZoom = 10 ∨ (s.update deltaTime).1.targetZoom = 20 := by
  cases hf : s.finished
  · by_cases hd : s.advanceDue deltaTime
    · rw [update_due s deltaTime hf hd]
      have := advanceStep_targetZoom (s.stepped deltaTime)
      rw [(stepped_fields s deltaTime).2.2.2.2.2.1] at this
      exact this
    · rw [update_not_due s deltaTime hf hd]
      exact Or.inl (stepped_fields s deltaTime).2.2.2.2.2.1
  · rw [update_of_finished s deltaTime hf]
    exact Or.inl rfl

end LocateScene

/-! ## LocateScene: which timer waits for the map -/

namespace LocateScene

end LocateScene

/-! ## LocateScene: the targeting marker and the highlight -/

namespace LocateScene

theorem targetingProgress_eq (s : LocateScene) :
    s.targetingProgress = clamp ((s.locateAnimTimer - 3 / 2) * (1 / 2)) 0 1 := by
  simp only [targetingProgress, clamp]
  split_ifs with h
  · rfl
  · have h1 : (s.locateAnimTimer - 3 / 2) * (1 / 2) ≤ 0 := by linarith
    rw [max_eq_right h1, min_eq_left (by norm_num)]

theorem targetingProgress_range (s : LocateScene) :
    0 ≤ s.targetingProgress ∧ s.targetingProgress ≤ 1 := by
  rw [targetingProgress_eq]
  simp only [clamp]
  exact ⟨le_min (le_max_right _ _) (by norm_num), min_le_right _ _⟩

theorem targetingProgress_eq_one (s : LocateScene) :
    s.targetingProgress = 1 ↔ s.locateAnimTimer ≥ 7 / 2 := by
  rw [targetingProgress_eq]
  simp only [clamp]
  constructor
  · intro h
    by_contra hc
    have hlt : s.locateAnimTimer < 7 / 2 := lt_of_not_ge hc
    have h1 : max ((s.locateAnimTimer - 3 / 2) * (1 / 2)) 0 < 1 :=
      max_lt (by linarith) (by norm_num)
    rw [min_eq_left (le_of_lt h1)] at h
    linarith
  · intro h
    have h1 : (1 : ℚ) ≤ max ((s.locateAnimTimer - 3 / 2) * (1 / 2)) 0 :=
      le_max_of_le_left (by linarith)
    exact min_eq_right h1

theorem showHighlight_iff (s : LocateScene) :
    s.showHighlight = true ↔ s.currentStep = 0 ∨ s.currentStep = 1 ∨ s.currentStep = 2 := by
  simp only [showHighlight]
  split_ifs with h0 h1 h2
  · simp [h0]
  · simp [h1]
  · simp [h2]
  · simp [h0, h1, h2]

end LocateScene

/-! ## When the offscreen target is allocated -/

namespace App

theorem reallocations_append (xs ys : List Effect) : reallocations (xs ++ ys) = reallocations xs ++ reallocations ys := by
  simp [reallocations, List.filter_append]

theorem reallocations_replicate_typeCallback (n : Nat) :
    reallocations (List.replicate n Effect.typeCallback) = [] := by
  induction n with
  | zero => rfl
  | succ n ih => simpa [reallocations, List.replicate_succ, Effect.isCrtResize] using ih

theorem reallocations_map_locateSound (l : List Int) : reallocations (l.map Effect.locateSound) = [] := by
  induction l with
  | nil => rfl
  | cons x xs ih => simpa [reallocations, Effect.isCrtResize] using ih

theorem reallocations_caseLogin (a : App) (deltaTime : ℚ) : reallocations (a.caseLogin deltaTime).2 = [] := by
  simp only [caseLogin]
  split_ifs <;>
    simp only [reallocations_append, reallocations_replicate_typeCallback, List.nil_append] <;> rfl

theorem reallocations_caseTerminal (a : App) (now : ℚ) : reallocations (a.caseTerminal now).2 = [] := by
  simp only [caseTerminal]
  split_ifs <;>
    simp only [reallocations_append, reallocations_replicate_typeCallback, List.nil_append] <;> rfl

theorem reallocations_caseCollapse (a : App) (now : ℚ) (target : AppState) :
    reallocations (a.caseCollapse now target).2 = [] := by
  simp only [caseCollapse]
  split_ifs <;> rfl

theorem reallocations_caseBlackscreen (a : App) (now : ℚ) (target : AppState) :
    reallocations (a.caseBlackscreen now target).2 = [] := by
  simp only [caseBlackscreen]
  split_ifs <;> rfl

theorem reallocations_caseRebuild (a : App) (now : ℚ) : reallocations (a.caseRebuild now).2 = [] := by
  simp only [caseRebuild]
  split_ifs <;> rfl

theorem reallocations_caseResetRebuild (a : App) (now : ℚ) :
    reallocations (a.caseResetRebuild now).2 = [] := by
  simp only [caseResetRebuild]
  split_ifs <;> rfl

theorem reallocations_caseLocate (a : App) (now deltaTime : ℚ) :
    reallocations (a.caseLocate now deltaTime).2 = [] := by
  simp only [caseLocate]
  split_ifs <;>
    simp only [reallocations_append, reallocations_map_locateSound, List.nil_append, List.append_nil] <;> rfl

theorem reallocations_switchStage (a : App) (now deltaTime : ℚ) :
    reallocations (a.switchStage now deltaTime).2 = [] := by
  unfold switchStage
  cases a.appState <;> simp only []
  · exact reallocations_caseLogin a deltaTime
  · exact reallocations_caseTerminal a now
  · exact reallocations_caseCollapse a now _
  · exact reallocations_caseBlackscreen a now _
  · exact reallocations_caseRebuild a now
  · exact reallocations_caseLocate a now deltaTime
  · exact reallocations_caseCollapse a now _
  · exact reallocations_caseBlackscreen a now _
  · exact reallocations_caseResetRebuild a now

theorem reallocations_beginStage (a : App) :
    reallocations a.beginStage = [] := by
  simp only [beginStage]
  split_ifs <;> rfl

theorem reallocations_endStage (a : App) :
    reallocations a.endStage = [] := by
  simp only [endStage]
  split_ifs <;> rfl

theorem reallocations_presentStage (a : App) (now : ℚ) : reallocations (a.presentStage now) = [] := by
  simp only [presentStage]
  split_ifs <;> rfl


theorem reallocations_resizeStage (a : App) (width height : Int) :
    reallocations (a.resizeStage width height).2 =
      if width ≠ a.crtWidth ∨ height ≠ a.crtHeight then [Effect.crtResize width height]
      else [] := by
  simp only [resizeStage]
  split_ifs <;> rfl

theorem resizeStage_crtSize (a : App) (width height : Int) :
    (a.resizeStage width height).1.crtWidth = width ∧
      (a.resizeStage width height).1.crtHeight = height := by
  simp only [resizeStage]
  split_ifs with h1 h2 h2
  · exact ⟨rfl, rfl⟩
  · simp only [not_or, not_not] at h2
    exact ⟨h2.1.symm, h2.2.symm⟩
  · exact ⟨rfl, rfl⟩
  · simp only [not_or, not_not] at h2
    exact ⟨h2.1.symm, h2.2.symm⟩

theorem switchStage_crtSize (a : App) (now deltaTime : ℚ) :
    (a.switchStage now deltaTime).1.crtWidth = a.crtWidth ∧
      (a.switchStage now deltaTime).1.crtHeight = a.crtHeight := by
  unfold switchStage
  cases a.appState <;> simp only []
  · simp only [caseLogin]
    split_ifs <;> exact ⟨rfl, rfl⟩
  · simp only [caseTerminal]
    split_ifs <;> exact ⟨rfl, rfl⟩
  · simp only [caseCollapse]
    split_ifs <;> exact ⟨rfl, rfl⟩
  · simp only [caseBlackscreen]
    split_ifs <;> exact ⟨rfl, rfl⟩
  · simp only [caseRebuild]
    split_ifs <;> exact ⟨rfl, rfl⟩
  · simp only [caseLocate]
    split_ifs <;> exact ⟨rfl, rfl⟩
  · simp only [caseCollapse]
    split_ifs <;> exact ⟨rfl, rfl⟩
  · simp only [caseBlackscreen]
    split_ifs <;> exact ⟨rfl, rfl⟩
  · simp only [caseResetRebuild]
    split_ifs <;> exact ⟨rfl, rfl⟩

theorem reallocations_frame (a : App) (now : ℚ) (width height : Int) :
    reallocations (a.frame now width height).2 =
      if width ≠ a.crtWidth ∨ height ≠ a.crtHeight then [Effect.crtResize width height]
      else [] := by
  rw [frame_snd]
  simp only [reallocations_append, reallocations_resizeStage, reallocations_beginStage,
    reallocations_switchStage, reallocations_endStage, reallocations_presentStage,
    List.append_nil]

theorem frame_crtSize (a : App) (now : ℚ) (width height : Int) :
    (a.frame now width height).1.crtWidth = width ∧
      (a.frame now width height).1.crtHeight = height := by
  rw [frame_fst]
  obtain ⟨s1, s2⟩ := switchStage_crtSize (a.preSwitch now width height) now (now - a.lastTime)
  rw [s1, s2]
  exact resizeStage_crtSize _ width height

/-- C24 as stated fails in its first half: `CRTEffect::resize` has no guard, so
on a target that is already 800 by 600 the call `resize(800, 600)` performs a
`glTexImage2D` allocation all the same (and leaves the size as it was). -/
theorem C24_counterexample :
    (CRTEffect.resize ⟨800, 600⟩ 800 600).2 = 1 ∧
      (CRTEffect.resize ⟨800, 600⟩ 800 600).1 = ⟨800, 600⟩ := by
  exact ⟨rfl, rfl⟩

/-- C24, amended: `CRTEffect::resize(w, h)` is idempotent in the size it leaves
(the target is `w` by `h` after one call and after two) but allocates the
target anew on every call. The guard is in the main loop: a frame calls
`crtEffect.resize`, once and with the viewport size, exactly when the viewport
size differs from the current size of the offscreen target, and after the frame
the target has the viewport size, so a following frame with the same viewport
size allocates nothing. -/
theorem C24_resize_guard_in_main (c : CRTEffect) (a : App) (now later : ℚ)
    (width height : Int) :
    (c.resize width height).2 = 1 ∧
    ((c.resize width height).1.getWidth = width ∧
      (c.resize width height).1.getHeight = height) ∧
    ((c.resize width height).1.resize width height).1 = (c.resize width height).1 ∧
    reallocations (a.frame now width height).2 =
      (if width ≠ a.crtEffect.getWidth ∨ height ≠ a.crtEffect.getHeight then
        [Effect.crtResize width height]
      else []) ∧
    (a.frame now width height).1.crtEffect = (a.crtEffect.resize width height).1 ∧
    reallocations ((a.frame now width height).1.frame later width height).2 = [] := by
  refine ⟨rfl, ⟨rfl, rfl⟩, rfl, reallocations_frame a now width height, ?_, ?_⟩
  · obtain ⟨h1, h2⟩ := frame_crtSize a now width height
    simp only [App.crtEffect, CRTEffect.resize, h1, h2]
  · obtain ⟨h1, h2⟩ := frame_crtSize a now width height
    rw [reallocations_frame, h1, h2]
    simp

end App

/-! ## TerminalScene: the implicit stage order -/

namespace TerminalScene

theorem ordered_updateDirectory (s : TerminalScene) (t : ℚ) (h : s.Ordered) :
    (updateDirectory s t).1.Ordered := by
  obtain ⟨h1, h2, h3, h4⟩ := h
  simp only [Ordered, updateDirectory_animationIndexFile, updateDirectory_animationTextDirectory,
    updateDirectory_animationTextFile, updateDirectory_demoStarted, updateDirectory_codeLines,
    updateDirectory_codeLineIndex]
  have hge : s.animationIndex ≤ (updateDirectory s t).1.animationIndex := by
    rcases updateDirectory_cases s t with c | c
    · rw [c.2.2.1]; omega
    · rw [c.1]
  refine ⟨fun h => le_trans (h1 h) hge, fun h => ⟨le_trans (h2 h).1 hge, (h2 h).2⟩, h3, h4⟩

theorem ordered_updateFile (s : TerminalScene) (t : ℚ) (h : s.Ordered) :
    (updateFile s t).1.Ordered := by
  obtain ⟨h1, h2, h3, h4⟩ := h
  simp only [Ordered, updateFile_animationIndex, updateFile_animationTextDirectory,
    updateFile_animationTextFile, updateFile_demoStarted, updateFile_codeLines,
    updateFile_codeLineIndex]
  rcases updateFile_cases s t with c | c
  · rw [c.2.2.2.2.2.1]
    exact ⟨fun _ => c.1, fun h => ⟨(h2 h).1, by have := (h2 h).2; omega⟩, h3, h4⟩
  · rw [c.1]
    exact ⟨h1, h2, h3, h4⟩

theorem ordered_updateDemoStart (s : TerminalScene) (t : ℚ) (h : s.Ordered) :
    (updateDemoStart s t).Ordered := by
  obtain ⟨h1, h2, h3, h4⟩ := h
  simp only [updateDemoStart]
  split_ifs with hc
  · exact ⟨h1, fun _ => ⟨hc.1, hc.2.1⟩, h3, fun _ => rfl⟩
  · exact ⟨h1, h2, h3, h4⟩

theorem ordered_updateCode (s : TerminalScene) (t : ℚ) (h : s.Ordered) :
    (updateCode s t).1.Ordered := by
  obtain ⟨h1, h2, h3, h4⟩ := h
  rw [updateCode_fst]
  split_ifs with g hlt hc ht hl
  · exact ⟨h1, h2, h3, h4⟩
  · exact ⟨h1, h2, h3, h4⟩
  · exact ⟨h1, h2, hlt, fun _ => g.1⟩
  · exact ⟨h1, h2, h3, h4⟩
  · exact ⟨h1, h2, h3, h4⟩
  · exact ⟨h1, h2, h3, h4⟩

theorem ordered_update (s : TerminalScene) (t : ℚ) (h : s.Ordered) : (s.update t).1.Ordered := by
  rw [update_fst]
  obtain ⟨a, ha⟩ : ∃ a : TerminalScene, a = { s with currentTime := t } := ⟨_, rfl⟩
  rw [← ha]
  have hpa : a.Ordered := by rw [ha]; exact h
  exact ordered_updateCode _ t (ordered_updateDemoStart _ t (ordered_updateFile _ t
    (ordered_updateDirectory _ t hpa)))

theorem codeOrdered_updateCode (s : TerminalScene) (t : ℚ) (h : s.CodeOrdered) :
    (updateCode s t).1.CodeOrdered := by
  obtain ⟨h1, h2⟩ := h
  rw [updateCode_fst]
  split_ifs with g hlt hc ht hl
  · exact ⟨fun _ => g.1, hc⟩
  · exact ⟨h1, h2⟩
  · exact ⟨fun _ => g.1, Nat.zero_le _⟩
  · exact ⟨h1, h2⟩
  · exact ⟨h1, h2⟩
  · exact ⟨h1, h2⟩

theorem codeOrdered_updateDemoStart (s : TerminalScene) (t : ℚ) (h : s.CodeOrdered) :
    (updateDemoStart s t).CodeOrdered := by
  obtain ⟨h1, h2⟩ := h
  simp only [updateDemoStart]
  split_ifs with hc
  · exact ⟨fun _ => rfl, h2⟩
  · exact ⟨h1, h2⟩

theorem codeOrdered_update (s : TerminalScene) (t : ℚ) (h : s.CodeOrdered) :
    (s.update t).1.CodeOrdered := by
  rw [update_fst]
  obtain ⟨a, ha⟩ : ∃ a : TerminalScene, a = { s with currentTime := t } := ⟨_, rfl⟩
  rw [← ha]
  have hpa : a.CodeOrdered := by rw [ha]; exact h
  refine codeOrdered_updateCode _ t (codeOrdered_updateDemoStart _ t ?_)
  simpa only [CodeOrdered, updateFile_codeCharIndex, updateFile_demoStarted,
    updateFile_codeLines, updateFile_codeLineIndex, updateDirectory_codeCharIndex,
    updateDirectory_demoStarted, updateDirectory_codeLines, updateDirectory_codeLineIndex]
    using hpa

theorem render_eq (s : TerminalScene) (t : ℚ) :
    s.render t = s ∨ s.render t = { s with finished := true } := by
  simp only [render]
  split_ifs
  · exact Or.inr rfl
  · exact Or.inl rfl

theorem ordered_step (s : TerminalScene) (op : Op) (h : s.Ordered) : (s.step op).Ordered := by
  cases op with
  | update t => exact ordered_update s t h
  | render t =>
    rcases render_eq s t with e | e
    · simp only [step, e]; exact h
    · simp only [step, e]; exact h
  | reset =>
    refine ⟨fun h0 => absurd h0 (lt_irrefl 0), (fun h0 => by cases h0), Nat.zero_le _,
      fun h0 => absurd h0 (lt_irrefl 0)⟩
  | setOnTypeCallback => exact h

theorem codeOrdered_step (s : TerminalScene) (op : Op) (h : s.CodeOrdered) :
    (s.step op).CodeOrdered := by
  cases op with
  | update t => exact codeOrdered_update s t h
  | render t =>
    rcases render_eq s t with e | e
    · simp only [step, e]; exact h
    · simp only [step, e]; exact h
  | reset => exact ⟨fun h0 => absurd h0 (lt_irrefl 0), Nat.zero_le _⟩
  | setOnTypeCallback => exact h

theorem ordered_exec (ops : List Op) :
    ∀ s : TerminalScene, s.Ordered → (s.exec ops).Ordered := by
  induction ops with
  | nil => intro s h; exact h
  | cons op rest ih => intro s h; exact ih (s.step op) (ordered_step s op h)

theorem codeOrdered_exec (ops : List Op) :
    ∀ s : TerminalScene, s.CodeOrdered → (s.exec ops).CodeOrdered := by
  induction ops with
  | nil => intro s h; exact h
  | cons op rest ih => intro s h; exact ih (s.step op) (codeOrdered_step s op h)

theorem ordered_construct (u : Indeterminate) : (construct u).Ordered :=
  ⟨fun h0 => absurd h0 (lt_irrefl 0), (fun h0 => by cases h0), Nat.zero_le _,
    fun h0 => absurd h0 (lt_irrefl 0)⟩

/-- No update decreases one of the three indices of the stage order. -/
theorem update_indices_mono (s : TerminalScene) (t : ℚ) :
    s.animationIndex ≤ (s.update t).1.animationIndex ∧
      s.animationIndexFile ≤ (s.update t).1.animationIndexFile ∧
      s.codeLineIndex ≤ (s.update t).1.codeLineIndex := by
  refine ⟨?_, ?_, ?_⟩
  · rcases update_typing s t with c | c | c
    · rw [c.2.2.1]; omega
    · rw [c.2.2.2.2.2.1]
    · rw [c.1]
  · rcases update_typing s t with c | c | c
    · rw [c.2.2.2.1]
    · rw [c.2.2.2.2.2.2.1]; omega
    · rw [c.2.1]
  · rcases update_code s t with c | c | c
    · rw [c.2.2.2.1]
    · rw [c.2.2.2.1]; omega
    · rw [c.1]

/-- C26 fails on `codeCharIndex`, which `TerminalScene::TerminalScene()` leaves
uninitialised: the scene constructed on storage holding 5 there has
`codeCharIndex > 0` although the demo has not started, also after an update, and
on storage holding 100 the index is beyond the 19 characters of the current
code line. Everything else of the stage order holds in every scene reached
from any construction by `update`, `render`, `reset` and `setOnTypeCallback`
(`Ordered`), no update decreases `animationIndex`, `animationIndexFile` or
`codeLineIndex`, and the two statements about `codeCharIndex` (`CodeOrdered`)
hold when the storage held 0 and in every scene reached after a `reset()`. -/
theorem C26_stage_order_broken_by_codeCharIndex :
    ((construct ⟨5, 0, 0, false⟩).codeCharIndex = 5 ∧
      (construct ⟨5, 0, 0, false⟩).demoStarted = false ∧
      ((construct ⟨5, 0, 0, false⟩).exec [Op.update (1 / 4)]).codeCharIndex = 5 ∧
      ((construct ⟨5, 0, 0, false⟩).exec [Op.update (1 / 4)]).demoStarted = false) ∧
    ((construct ⟨100, 0, 0, false⟩).codeCharIndex = 100 ∧
      ((construct ⟨100, 0, 0, false⟩).codeLines.getD
        (construct ⟨100, 0, 0, false⟩).codeLineIndex []).length = 19) ∧
    (∀ (u : Indeterminate) (ops : List Op), ((construct u).exec ops).Ordered) ∧
    (∀ (s : TerminalScene) (t : ℚ),
      s.animationIndex ≤ (s.update t).1.animationIndex ∧
        s.animationIndexFile ≤ (s.update t).1.animationIndexFile ∧
        s.codeLineIndex ≤ (s.update t).1.codeLineIndex) ∧
    (∀ (u : Indeterminate) (ops : List Op), u.codeCharIndex = 0 →
      ((construct u).exec ops).CodeOrdered) ∧
    (∀ (s : TerminalScene) (ops : List Op), (s.reset.exec ops).CodeOrdered) := by
  refine ⟨⟨by decide!, by decide!, by decide!, by decide!⟩, ⟨by decide!, by decide!⟩, ?_,
    update_indices_mono, ?_, ?_⟩
  · intro u ops
    exact ordered_exec ops _ (ordered_construct u)
  · intro u ops hu
    refine codeOrdered_exec ops _ ⟨fun h0 => ?_, ?_⟩
    · exfalso
      have : (construct u).codeCharIndex = 0 := hu
      omega
    · have : (construct u).codeCharIndex = 0 := hu
      rw [this]
      exact Nat.zero_le _
  · intro s ops
    exact codeOrdered_exec ops _ ⟨fun h0 => absurd h0 (lt_irrefl 0), Nat.zero_le _⟩

/-! ## TerminalScene: one callback for every character -/

theorem updateDirectory_snd (s : TerminalScene) (t : ℚ) :
    (updateDirectory s t).2 =
      if (updateDirectory s t).1.animationIndex ≠ s.animationIndex then
        (if s.onTypeCallback then 1 else 0)
      else 0 := by
  by_cases h : s.animationIndex < s.animationTextDirectory.length ∧
      t - s.animationLastTime ≥ 1 / 10
  · rw [updateDirectory, if_pos h]
    simp
  · rw [updateDirectory, if_neg h]
    simp

theorem updateFile_snd (s : TerminalScene) (t : ℚ) :
    (updateFile s t).2 =
      if (updateFile s t).1.animationIndexFile ≠ s.animationIndexFile then
        (if s.onTypeCallback then 1 else 0)
      else 0 := by
  simp only [updateFile]
  split_ifs <;> simp_all

theorem updateCode_snd (s : TerminalScene) (t : ℚ) :
    (updateCode s t).2 =
      if (updateCode s t).1.codeLineIndex = s.codeLineIndex ∧
          (updateCode s t).1.codeCharIndex ≠ s.codeCharIndex then
        (if s.onTypeCallback then 1 else 0)
      else 0 := by
  simp only [updateCode]
  split_ifs <;> simp_all

theorem update_keeps_callback (s : TerminalScene) (t : ℚ) :
    (s.update t).1.onTypeCallback = s.onTypeCallback := by
  rw [update_fst]
  simp only [updateCode_onTypeCallback, updateDemoStart_onTypeCallback,
    updateFile_onTypeCallback, updateDirectory_onTypeCallback]

/-- The number of callback invocations of one update, from the index changes. -/
theorem update_snd (s : TerminalScene) (t : ℚ) :
    (s.update t).2 =
      (if (s.update t).1.animationIndex ≠ s.animationIndex then
          (if s.onTypeCallback then 1 else 0) else 0) +
        (if (s.update t).1.animationIndexFile ≠ s.animationIndexFile then
          (if s.onTypeCallback then 1 else 0) else 0) +
        (if (s.update t).1.codeLineIndex = s.codeLineIndex ∧
            (s.update t).1.codeCharIndex ≠ s.codeCharIndex then
          (if s.onTypeCallback then 1 else 0) else 0) := by
  have e : (s.update t).2 =
      (updateDirectory { s with currentTime := t } t).2 +
        (updateFile (updateDirectory { s with currentTime := t } t).1 t).2 +
        (updateCode (updateDemoStart (updateFile
          (updateDirectory { s with currentTime := t } t).1 t).1 t) t).2 := by
    simp only [update]
  rw [e, update_fst]
  obtain ⟨a, ha⟩ : ∃ a : TerminalScene, a = { s with currentTime := t } := ⟨_, rfl⟩
  rw [← ha]
  have e1 : s.animationIndex = a.animationIndex := by rw [ha]
  have e2 : s.animationIndexFile = a.animationIndexFile := by rw [ha]
  have e3 : s.codeLineIndex = a.codeLineIndex := by rw [ha]
  have e4 : s.codeCharIndex = a.codeCharIndex := by rw [ha]
  have e5 : s.onTypeCallback = a.onTypeCallback := by rw [ha]
  rw [e1, e2, e3, e4, e5, updateDirectory_snd, updateFile_snd, updateCode_snd]
  simp only [updateCode_animationIndex, updateDemoStart_animationIndex,
    updateFile_animationIndex, updateCode_animationIndexFile,
    updateDemoStart_animationIndexFile, updateDirectory_animationIndexFile,
    updateDemoStart_codeLineIndex, updateFile_codeLineIndex, updateDirectory_codeLineIndex,
    updateDemoStart_codeCharIndex, updateFile_codeCharIndex, updateDirectory_codeCharIndex,
    updateDemoStart_onTypeCallback, updateFile_onTypeCallback, updateDirectory_onTypeCallback]

theorem reveals_chars (s : TerminalScene) (t : ℚ) :
    ((s.reveals t).filter Reveal.isChar).length =
      (if (s.update t).1.animationIndex ≠ s.animationIndex then 1 else 0) +
        (if (s.update t).1.animationIndexFile ≠ s.animationIndexFile then 1 else 0) +
        (if (s.update t).1.codeLineIndex = s.codeLineIndex ∧
            (s.update t).1.codeCharIndex ≠ s.codeCharIndex then 1 else 0) := by
  simp only [reveals, typingReveals, codeReveals, List.filter_append, List.length_append]
  split_ifs <;> simp_all [Reveal.isChar]

/-- From a scene in stage order an update reveals at most one thing. -/
theorem reveals_length (s : TerminalScene) (t : ℚ) (h : s.Ordered) :
    (s.reveals t).length ≤ 1 := by
  obtain ⟨-, h2, -, -⟩ := h
  simp only [reveals, List.length_append]
  rcases typingReveals_cases s t with c | c | c <;>
    rcases codeReveals_cases s t with d | d | d <;> rw [c.1, d.1] <;>
    first
      | (simp only [List.length_cons, List.length_nil]; omega)
      | (exfalso
         have h3 := h2 d.2.1
         have c1 := c.2.1
         have c2 := c.2.2.1
         omega)

/-- C28: in every terminal scene reached from a construction by `update`,
`render`, `reset` and `setOnTypeCallback`, an update at any timestamp reveals at
most one thing, so at most one character (directory, file or code); the type
callback is invoked as often as characters are revealed when one is attached
and never otherwise, so at most once, and with a callback attached exactly
when the update revealed a character; an update that starts the next code
line invokes no callback. -/
theorem C28_one_callback_per_revealed_character (u : Indeterminate) (ops : List Op) (t : ℚ) :
    (((construct u).exec ops).reveals t).length ≤ 1 ∧
    ((((construct u).exec ops).reveals t).filter Reveal.isChar).length ≤ 1 ∧
    (((construct u).exec ops).update t).2 =
      (if ((construct u).exec ops).onTypeCallback then
        ((((construct u).exec ops).reveals t).filter Reveal.isChar).length
      else 0) ∧
    (((construct u).exec ops).update t).2 ≤ 1 ∧
    (((construct u).exec ops).onTypeCallback = true →
      ((((construct u).exec ops).update t).2 = 1 ↔
        ∃ r ∈ ((construct u).exec ops).reveals t, r.isChar = true)) ∧
    (Reveal.codeLine ∈ ((construct u).exec ops).reveals t →
      (((construct u).exec ops).update t).2 = 0) := by
  obtain ⟨s, hs⟩ : ∃ s : TerminalScene, s = (construct u).exec ops := ⟨_, rfl⟩
  rw [← hs]
  have hord : s.Ordered := by rw [hs]; exact ordered_exec ops _ (ordered_construct u)
  have hlen := reveals_length s t hord
  have hchars : ((s.reveals t).filter Reveal.isChar).length ≤ 1 :=
    le_trans (List.length_filter_le _ _) hlen
  have hcount : (s.update t).2 =
      (if s.onTypeCallback then ((s.reveals t).filter Reveal.isChar).length else 0) := by
    rw [update_snd, reveals_chars]
    cases s.onTypeCallback <;> simp
  refine ⟨hlen, hchars, hcount, ?_, ?_, ?_⟩
  · rw [hcount]
    split_ifs
    · exact hchars
    · exact Nat.zero_le _
  · intro hcb
    rw [hcount, if_pos hcb]
    constructor
    · intro h1
      have hpos : 0 < ((s.reveals t).filter Reveal.isChar).length := by omega
      obtain ⟨r, hr⟩ := List.exists_mem_of_length_pos hpos
      rw [List.mem_filter] at hr
      exact ⟨r, hr.1, hr.2⟩
    · rintro ⟨r, hr, hc⟩
      have hm : r ∈ (s.reveals t).filter Reveal.isChar := List.mem_filter.mpr ⟨hr, hc⟩
      have hpos : 0 < ((s.reveals t).filter Reveal.isChar).length := List.length_pos_of_mem hm
      omega
  · intro hline
    rw [hcount]
    have hall : s.reveals t = [Reveal.codeLine] := by
      match hl : s.reveals t, hlen, hline with
      | [x], _, hm =>
        rw [hl] at hline
        simp only [List.mem_singleton] at hline
        rw [hline]
    rw [hall]
    split_ifs <;> rfl

end TerminalScene

/-! ## Binary32 rounding: what the claims need of it -/

namespace Float32

theorem pow2_eq (e : Int) : pow2 e = (2 : ℚ) ^ e := by
  unfold pow2
  split_ifs with h
  · obtain ⟨n, rfl⟩ := Int.eq_ofNat_of_zero_le h
    simp
  · push_neg at h
    obtain ⟨n, hn⟩ := Int.exists_eq_neg_ofNat (le_of_lt h)
    subst hn
    simp [zpow_neg]

theorem floor_le_roundEven (q : ℚ) : ⌊q⌋ ≤ roundEven q := by
  unfold roundEven
  split_ifs <;> omega

theorem roundEven_le_floor_add_one (q : ℚ) : roundEven q ≤ ⌊q⌋ + 1 := by
  unfold roundEven
  split_ifs <;> omega

theorem roundEven_intCast (n : Int) : roundEven (n : ℚ) = n := by
  unfold roundEven
  simp

theorem abs_roundEven_sub_le (q : ℚ) : |(roundEven q : ℚ) - q| ≤ 1 / 2 := by
  have h1 := Int.floor_le q
  have h2 := Int.lt_floor_add_one q
  unfold roundEven
  rw [abs_le]
  split_ifs with a b c <;> push_cast <;> constructor <;> linarith

theorem roundEven_mono {p q : ℚ} (h : p ≤ q) : roundEven p ≤ roundEven q := by
  have hf : ⌊p⌋ ≤ ⌊q⌋ := Int.floor_mono h
  rcases hf.lt_or_eq with hlt | heq
  · have h1 := roundEven_le_floor_add_one p
    have h2 := floor_le_roundEven q
    omega
  · have hr : p - ⌊q⌋ ≤ q - ⌊q⌋ := by linarith
    unfold roundEven
    rw [heq]
    split_ifs <;> first | omega | (exfalso; linarith)

theorem roundEven_neg (q : ℚ) : roundEven (-q) = -roundEven q := by
  by_cases hq : q = ⌊q⌋
  · rw [hq, ← Int.cast_neg, roundEven_intCast, roundEven_intCast]
  · have h1 := Int.floor_le q
    have h2 := Int.lt_floor_add_one q
    have h3 : (⌊q⌋ : ℚ) < q := lt_of_le_of_ne h1 (fun h => hq h.symm)
    have hf : ⌊-q⌋ = -⌊q⌋ - 1 := by
      rw [Int.floor_eq_iff]
      push_cast
      constructor <;> linarith
    unfold roundEven
    rw [hf]
    push_cast
    split_ifs <;> first | omega | (exfalso; linarith)


theorem pow2_pos (e : Int) : 0 < pow2 e := by
  rw [pow2_eq]; positivity

theorem pow2_succ (e : Int) : pow2 (e + 1) = 2 * pow2 e := by
  rw [pow2_eq, pow2_eq, zpow_add_one₀ (by norm_num : (2 : ℚ) ≠ 0)]; ring

theorem pow2_mono {a b : Int} (h : a ≤ b) : pow2 a ≤ pow2 b := by
  rw [pow2_eq, pow2_eq]
  exact zpow_le_zpow_right₀ (by norm_num) h

theorem pow2_add (a b : Int) : pow2 (a + b) = pow2 a * pow2 b := by
  rw [pow2_eq, pow2_eq, pow2_eq, zpow_add₀ (by norm_num : (2 : ℚ) ≠ 0)]

theorem expUp_spec (n : Nat) : ∀ a : ℚ, 1 ≤ a → a < 2 ^ n →
    0 ≤ expUp n a ∧ pow2 (expUp n a) ≤ a ∧ a < pow2 (expUp n a + 1) := by
  induction n with
  | zero =>
    intro a h1 h2
    simp at h2
    linarith
  | succ n ih =>
    intro a h1 h2
    unfold expUp
    split_ifs with h
    · have := ih (a / 2) (by linarith) (by rw [pow_succ] at h2; linarith)
      obtain ⟨i0, i1, i2⟩ := this
      refine ⟨by omega, ?_, ?_⟩
      · rw [pow2_succ]; linarith
      · rw [pow2_succ]; linarith
    · push_neg at h
      refine ⟨le_refl _, ?_, ?_⟩
      · rw [pow2_eq]; simpa using h1
      · rw [pow2_eq]; simpa using h

theorem expDown_spec (n : Nat) : ∀ a : ℚ, 0 ≤ a → a < 1 →
    -(n : Int) ≤ expDown n a ∧ expDown n a ≤ 0 ∧ a < pow2 (expDown n a + 1) ∧
      (-(n : Int) < expDown n a → pow2 (expDown n a) ≤ a) := by
  induction n with
  | zero =>
    intro a h0 h1
    unfold expDown
    refine ⟨by simp, le_refl _, ?_, ?_⟩
    · rw [pow2_eq]; norm_num; linarith
    · intro h; simp at h
  | succ n ih =>
    intro a h0 h1
    unfold expDown
    rw [if_pos h1]
    by_cases h2 : a * 2 < 1
    · obtain ⟨i0, i1, i2, i3⟩ := ih (a * 2) (by linarith) h2
      refine ⟨by push_cast; omega, by omega, ?_, ?_⟩
      · have : expDown n (a * 2) - 1 + 1 = expDown n (a * 2) := by ring
        rw [this]
        rw [pow2_succ] at i2; linarith
      · intro h
        have h4 := i3 (by push_cast at h; omega)
        have : expDown n (a * 2) = (expDown n (a * 2) - 1) + 1 := by ring
        rw [this, pow2_succ] at h4
        linarith
    · push_neg at h2
      have he : expDown n (a * 2) = 0 := by
        cases n with
        | zero => rfl
        | succ m => unfold expDown; rw [if_neg (by linarith)]
      rw [he]
      refine ⟨by push_cast; omega, by omega, ?_, ?_⟩
      · rw [pow2_eq]; norm_num; linarith
      · intro _
        rw [pow2_eq]; norm_num; linarith

theorem exponent_spec (q : ℚ) :
    -126 ≤ exponent q ∧ |q| < pow2 (exponent q + 1) ∧
      (-126 < exponent q → pow2 (exponent q) ≤ |q|) := by
  unfold exponent
  split_ifs with h
  · have hc : |q| < 2 ^ ⌈|q|⌉.toNat := by
      have h1 : |q| ≤ (⌈|q|⌉ : ℚ) := Int.le_ceil _
      have h2 : 0 ≤ ⌈|q|⌉ := Int.ceil_nonneg (abs_nonneg q)
      have h3 : ((⌈|q|⌉.toNat : ℕ) : ℚ) = (⌈|q|⌉ : ℚ) := by
        have := Int.toNat_of_nonneg h2
        exact_mod_cast this
      have h4 : ((⌈|q|⌉.toNat : ℕ) : ℚ) < 2 ^ ⌈|q|⌉.toNat := by
        exact_mod_cast Nat.lt_two_pow _
      linarith
    obtain ⟨i0, i1, i2⟩ := expUp_spec _ |q| h hc
    exact ⟨by omega, i2, fun _ => i1⟩
  · push_neg at h
    obtain ⟨i0, i1, i2, i3⟩ := expDown_spec 126 |q| (abs_nonneg q) h
    exact ⟨by simpa using i0, i2, fun h5 => i3 (by simpa using h5)⟩

theorem exponent_unique (q : ℚ) (e : Int) (h0 : -126 ≤ e) (h1 : |q| < pow2 (e + 1))
    (h2 : -126 < e → pow2 e ≤ |q|) : exponent q = e := by
  obtain ⟨s0, s1, s2⟩ := exponent_spec q
  rcases lt_trichotomy (exponent q) e with h | h | h
  · exfalso
    have a1 := h2 (by omega)
    have a2 : pow2 (exponent q + 1) ≤ pow2 e := pow2_mono (by omega)
    linarith
  · exact h
  · exfalso
    have a1 := s2 (by omega)
    have a2 : pow2 (e + 1) ≤ pow2 (exponent q) := pow2_mono (by omega)
    linarith

theorem exponent_neg (q : ℚ) : exponent (-q) = exponent q := by
  unfold exponent; rw [abs_neg]

theorem exponent_mono {p q : ℚ} (h : |p| ≤ |q|) : exponent p ≤ exponent q := by
  obtain ⟨p0, p1, p2⟩ := exponent_spec p
  obtain ⟨q0, q1, q2⟩ := exponent_spec q
  by_contra hc
  push_neg at hc
  have a1 := p2 (by omega)
  have a2 : pow2 (exponent q + 1) ≤ pow2 (exponent p) := pow2_mono (by omega)
  linarith

theorem quantum_pos (q : ℚ) : 0 < quantum q := pow2_pos _

theorem quantum_neg (q : ℚ) : quantum (-q) = quantum q := by
  unfold quantum; rw [exponent_neg]

theorem round_neg (q : ℚ) : round (-q) = -round q := by
  unfold round
  rw [quantum_neg, neg_div, roundEven_neg]
  push_cast; ring

theorem round_nonneg {q : ℚ} (h : 0 ≤ q) : 0 ≤ round q := by
  unfold round
  have h1 : (0 : ℚ) ≤ q / quantum q := div_nonneg h (quantum_pos q).le
  have h2 : roundEven 0 ≤ roundEven (q / quantum q) := roundEven_mono h1
  have h3 : roundEven (0 : ℚ) = 0 := by simpa using roundEven_intCast 0
  rw [h3] at h2
  have h4 : (0 : ℚ) ≤ (roundEven (q / quantum q) : ℚ) := by exact_mod_cast h2
  exact mul_nonneg h4 (quantum_pos q).le

theorem abs_round_sub_le_quantum (q : ℚ) : |round q - q| ≤ quantum q / 2 := by
  have hq := quantum_pos q
  have h := abs_roundEven_sub_le (q / quantum q)
  have e : round q - q = ((roundEven (q / quantum q) : ℚ) - q / quantum q) * quantum q := by
    unfold round; field_simp
  rw [e, abs_mul, abs_of_pos hq]
  calc |(roundEven (q / quantum q) : ℚ) - q / quantum q| * quantum q
      ≤ 1 / 2 * quantum q := mul_le_mul_of_nonneg_right h hq.le
    _ = quantum q / 2 := by ring

theorem quantum_le (q : ℚ) (e : Int) (h0 : -126 ≤ e) (h1 : |q| < pow2 (e + 1)) :
    quantum q ≤ pow2 (e - 23) := by
  unfold quantum
  apply pow2_mono
  obtain ⟨s0, s1, s2⟩ := exponent_spec q
  by_contra hc
  push_neg at hc
  have a1 := s2 (by omega)
  have a2 : pow2 (e + 1) ≤ pow2 (exponent q) := pow2_mono (by omega)
  linarith

theorem round_le_pow2 {x : ℚ} : round x ≤ pow2 (exponent x + 1) := by
  obtain ⟨s0, s1, s2⟩ := exponent_spec x
  have hq := quantum_pos x
  have hx : x < pow2 (exponent x + 1) := lt_of_le_of_lt (le_abs_self x) s1
  have e1 : pow2 (exponent x + 1) = ((2 ^ 24 : Int) : ℚ) * quantum x := by
    unfold quantum
    have : exponent x + 1 = 24 + (exponent x - 23) := by ring
    rw [this, pow2_add]
    congr 1
  have h1 : x / quantum x ≤ ((2 ^ 24 : Int) : ℚ) := by
    rw [div_le_iff₀ hq]; linarith
  have h2 := roundEven_mono h1
  rw [roundEven_intCast] at h2
  unfold round
  rw [e1]
  exact mul_le_mul_of_nonneg_right (by exact_mod_cast h2) hq.le

theorem pow2_le_round {x : ℚ} (hx : 0 ≤ x) (he : -126 < exponent x) :
    pow2 (exponent x) ≤ round x := by
  obtain ⟨s0, s1, s2⟩ := exponent_spec x
  have hq := quantum_pos x
  have h0 := s2 he
  rw [abs_of_nonneg hx] at h0
  have e1 : pow2 (exponent x) = ((2 ^ 23 : Int) : ℚ) * quantum x := by
    unfold quantum
    have : exponent x = 23 + (exponent x - 23) := by ring
    conv_lhs => rw [this, pow2_add]
    congr 1
  have h1 : ((2 ^ 23 : Int) : ℚ) ≤ x / quantum x := by
    rw [le_div_iff₀ hq]; linarith
  have h2 := roundEven_mono h1
  rw [roundEven_intCast] at h2
  unfold round
  rw [e1]
  exact mul_le_mul_of_nonneg_right (by exact_mod_cast h2) hq.le

theorem round_mono_nonneg {x y : ℚ} (hx : 0 ≤ x) (h : x ≤ y) : round x ≤ round y := by
  have hy : 0 ≤ y := le_trans hx h
  have he : exponent x ≤ exponent y :=
    exponent_mono (by rw [abs_of_nonneg hx, abs_of_nonneg hy]; exact h)
  rcases he.lt_or_eq with hlt | heq
  · have h1 := @round_le_pow2 x
    have h2 := pow2_le_round hy (by have := (exponent_spec x).1; omega)
    have h3 : pow2 (exponent x + 1) ≤ pow2 (exponent y) := pow2_mono (by omega)
    linarith
  · have hq : quantum x = quantum y := by unfold quantum; rw [heq]
    unfold round
    rw [hq]
    have h1 : x / quantum y ≤ y / quantum y := div_le_div_of_nonneg_right h (quantum_pos y).le
    have h2 := roundEven_mono h1
    exact mul_le_mul_of_nonneg_right (by exact_mod_cast h2) (quantum_pos y).le

theorem round_nonpos {q : ℚ} (h : q ≤ 0) : round q ≤ 0 := by
  have := round_nonneg (neg_nonneg.mpr h)
  rw [round_neg] at this
  linarith

theorem round_mono {x y : ℚ} (h : x ≤ y) : round x ≤ round y := by
  rcases le_total 0 x with hx | hx
  · exact round_mono_nonneg hx h
  · rcases le_total 0 y with hy | hy
    · exact le_trans (round_nonpos hx) (round_nonneg hy)
    · have := round_mono_nonneg (neg_nonneg.mpr hy) (neg_le_neg h)
      rw [round_neg, round_neg] at this
      linarith


theorem round_eq_of_int {x : ℚ} (n : Int) (h : x = (n : ℚ) * quantum x) : round x = x := by
  have hq := quantum_pos x
  unfold round
  have : x / quantum x = (n : ℚ) := by
    rw [div_eq_iff hq.ne']; exact h
  rw [this, roundEven_intCast]
  exact h.symm

theorem round_pow2 (k : Int) (hk : -126 ≤ k) : round (pow2 k) = pow2 k := by
  have he : exponent (pow2 k) = k := by
    apply exponent_unique _ _ hk
    · rw [abs_of_pos (pow2_pos k), pow2_succ]; linarith [pow2_pos k]
    · intro _; rw [abs_of_pos (pow2_pos k)]
  apply round_eq_of_int (2 ^ 23)
  unfold quantum
  rw [he]
  have : k = 23 + (k - 23) := by ring
  conv_lhs => rw [this, pow2_add]
  congr 1

theorem round_round_nonneg {q : ℚ} (hq : 0 ≤ q) : round (round q) = round q := by
  have hr0 := round_nonneg hq
  have hle := @round_le_pow2 q
  obtain ⟨s0, s1, s2⟩ := exponent_spec q
  rcases hle.lt_or_eq with hlt | heq
  · have he : exponent (round q) = exponent q := by
      apply exponent_unique _ _ s0
      · rw [abs_of_nonneg hr0]; exact hlt
      · intro h; rw [abs_of_nonneg hr0]; exact pow2_le_round hq h
    apply round_eq_of_int (roundEven (q / quantum q))
    have : quantum (round q) = quantum q := by unfold quantum; rw [he]
    rw [this]; rfl
  · rw [heq]
    exact round_pow2 _ (by omega)

theorem round_round (q : ℚ) : round (round q) = round q := by
  rcases le_total 0 q with h | h
  · exact round_round_nonneg h
  · have := round_round_nonneg (neg_nonneg.mpr h)
    rw [round_neg, round_neg] at this
    linarith

/-- Every binary32 value is a multiple of the smallest subnormal. -/
theorem multiple_of_round_eq {x : ℚ} (h : round x = x) : ∃ n : Int, x = (n : ℚ) * pow2 (-149) := by
  obtain ⟨s0, s1, s2⟩ := exponent_spec x
  obtain ⟨k, hk⟩ := Int.eq_ofNat_of_zero_le (show 0 ≤ exponent x + 126 by omega)
  refine ⟨roundEven (x / quantum x) * 2 ^ k, ?_⟩
  have hq : quantum x = ((2 : ℚ) ^ k) * pow2 (-149) := by
    unfold quantum
    have : exponent x - 23 = (k : Int) + (-149) := by omega
    rw [this, pow2_add]
    congr 1
    rw [pow2_eq]; simp
  conv_lhs => rw [← h]
  unfold round
  rw [hq]
  push_cast
  ring

theorem round_eq_of_small {x : ℚ} (n : Int) (h : x = (n : ℚ) * pow2 (-149))
    (hx : |x| < pow2 (-125)) : round x = x := by
  have he : exponent x = -126 := by
    apply exponent_unique _ _ (le_refl _)
    · simpa using hx
    · intro h; omega
  apply round_eq_of_int n
  unfold quantum
  rw [he]
  exact h

theorem round_two_mul {x : ℚ} (hx : ∃ n : Int, x = (n : ℚ) * pow2 (-149)) :
    round (2 * x) = 2 * round x := by
  obtain ⟨s0, s1, s2⟩ := exponent_spec x
  by_cases hbig : pow2 (-126) ≤ |x|
  · have hlow : pow2 (exponent x) ≤ |x| := by
      rcases s0.lt_or_eq with h | h
      · exact s2 h
      · rw [← h]; exact hbig
    have he : exponent (2 * x) = exponent x + 1 := by
      apply exponent_unique _ _ (by omega)
      · rw [abs_mul, abs_of_pos (by norm_num : (0 : ℚ) < 2), pow2_succ]; linarith
      · intro _
        rw [abs_mul, abs_of_pos (by norm_num : (0 : ℚ) < 2), pow2_succ]; linarith
    have hq : quantum (2 * x) = 2 * quantum x := by
      unfold quantum
      rw [he]
      have : exponent x + 1 - 23 = (exponent x - 23) + 1 := by ring
      rw [this, pow2_succ]
    unfold round
    rw [hq]
    have hq0 := quantum_pos x
    have : 2 * x / (2 * quantum x) = x / quantum x := by
      field_simp
      ring
    rw [this]; ring
  · push_neg at hbig
    obtain ⟨n, hn⟩ := hx
    have h1 : round x = x := by
      apply round_eq_of_small n hn
      have : pow2 (-126) ≤ pow2 (-125) := pow2_mono (by norm_num)
      linarith
    have h2 : round (2 * x) = 2 * x := by
      apply round_eq_of_small (2 * n)
      · rw [hn]; push_cast; ring
      · rw [abs_mul, abs_of_pos (by norm_num : (0 : ℚ) < 2)]
        have : pow2 (-125) = 2 * pow2 (-126) := by
          have : (-125 : Int) = -126 + 1 := by norm_num
          rw [this, pow2_succ]
        linarith
    rw [h1, h2]

theorem abs_round_sub_le (x : ℚ) (e : Int) (h0 : -126 ≤ e) (hx : |x| ≤ pow2 (e + 1)) :
    |round x - x| ≤ pow2 (e - 24) := by
  rcases hx.lt_or_eq with hlt | heq
  · have h1 := abs_round_sub_le_quantum x
    have h2 := quantum_le x e h0 hlt
    have h3 : pow2 (e - 23) = 2 * pow2 (e - 24) := by
      have : e - 23 = (e - 24) + 1 := by ring
      rw [this, pow2_succ]
    linarith
  · have hr : round x = x := by
      rcases abs_choice x with h | h
      · rw [h] at heq; rw [heq]; exact round_pow2 _ (by omega)
      · rw [h] at heq
        have : x = -pow2 (e + 1) := by linarith
        rw [this, round_neg, round_pow2 _ (by omega)]
    rw [hr, sub_self, abs_zero]
    exact (pow2_pos _).le

/-- Rounding a value that is not negative and is normal (at least `2 ^ (-126)`) or
already a binary32 value increases it by at most one part in `2 ^ 24`. -/
theorem round_le_mul {x : ℚ} (hx : 0 ≤ x) (h : pow2 (-126) ≤ x ∨ round x = x) :
    round x ≤ x * (1 + pow2 (-24)) := by
  rcases h with h | h
  · obtain ⟨s0, s1, s2⟩ := exponent_spec x
    have hlow : pow2 (exponent x) ≤ x := by
      rcases s0.lt_or_eq with h' | h'
      · have := s2 h'; rwa [abs_of_nonneg hx] at this
      · rw [← h']; exact h
    have h1 := abs_round_sub_le_quantum x
    have h2 : quantum x / 2 = pow2 (exponent x) * pow2 (-24) := by
      unfold quantum
      have e1 : exponent x - 23 = (exponent x + (-24)) + 1 := by ring
      rw [e1, pow2_succ, pow2_add]; ring
    have h3 := (abs_le.mp h1).2
    have h4 : pow2 (exponent x) * pow2 (-24) ≤ x * pow2 (-24) :=
      mul_le_mul_of_nonneg_right hlow (pow2_pos _).le
    linarith
  · rw [h]
    have := mul_nonneg hx (pow2_pos (-24)).le
    linarith

end Float32

theorem f32_nonneg {q : ℚ} (h : 0 ≤ q) : 0 ≤ f32 q := Float32.round_nonneg h

theorem f32_nonpos {q : ℚ} (h : q ≤ 0) : f32 q ≤ 0 := Float32.round_nonpos h

theorem f32_mono {x y : ℚ} (h : x ≤ y) : f32 x ≤ f32 y := Float32.round_mono h

theorem f32_neg (q : ℚ) : f32 (-q) = -f32 q := Float32.round_neg q

theorem f32_f32 (q : ℚ) : f32 (f32 q) = f32 q := Float32.round_round q

theorem f32_one : f32 1 = 1 := by decide!

theorem f32_two : f32 2 = 2 := by decide!

/-- Doubling a binary32 value is exact. -/
theorem f32_two_mul_self {x : ℚ} (h : f32 x = x) : f32 (2 * x) = 2 * x := by
  have := Float32.round_two_mul (Float32.multiple_of_round_eq h)
  unfold f32 at h ⊢
  rw [this, h]

namespace LocateScene

/-- C23: in `LocateScene::render` the targeting progress is
`t = clamp((locateAnimTimer - 1.5) * 0.5, 0, 1)`: it is 0 while the timer is at
most 1.5 s, lies in [0,1], and is 1 exactly when the timer is at least 3.5 s.
The marker point `start + (target - start) * t` is the start point (the camera
centre, the source's radar center position) at `t = 0` and the step's target at
`t = 1`; the marker is drawn while the map is settled and `t > 0`. The pulsing
highlight is drawn if and only if the map is settled, `t ≥ 1` and `currentStep`
is 0, 1 or 2, with the scale `1.05f` when `fmod(time, 0.7f) < 0.15f` and 1.0
otherwise, the three literals being binary32 values: `0.7f` is
`11744051 / 2 ^ 24`, below 0.7, so that at `time = 0.7f` the remainder is 0 and
the scale is `1.05f`. -/
theorem C23_targeting_progress (s : LocateScene) (time : ℚ) (width height : Int) :
    s.targetingProgress = clamp ((s.locateAnimTimer - 3 / 2) * (1 / 2)) 0 1 ∧
    (s.locateAnimTimer ≤ 3 / 2 → s.targetingProgress = 0) ∧
    (0 ≤ s.targetingProgress ∧ s.targetingProgress ≤ 1) ∧
    (s.targetingProgress = 1 ↔ s.locateAnimTimer ≥ 7 / 2) ∧
    (s.markerAt width height 0 = s.startPoint width height ∧
      s.startPoint width height = (s.centerX * (width : ℚ), s.centerY * (height : ℚ)) ∧
      s.markerAt width height 1 = s.targetPoint width height) ∧
    (s.marker width height =
      if s.mapAnimFinished = true ∧ s.targetingProgress > 0 then
        some (s.markerAt width height s.targetingProgress)
      else none) ∧
    ((s.highlight time).isSome = true ↔
      s.mapAnimFinished = true ∧ s.targetingProgress ≥ 1 ∧
        (s.currentStep = 0 ∨ s.currentStep = 1 ∨ s.currentStep = 2)) ∧
    (∀ scale : ℚ, s.highlight time = some scale →
      scale = if fmod time (f32 (7 / 10)) < f32 (3 / 20) then f32 (21 / 20) else 1) ∧
    (f32 (7 / 10) = 11744051 / 16777216 ∧ f32 (3 / 20) = 5033165 / 33554432 ∧
      f32 (21 / 20) = 4404019 / 4194304 ∧ fmod (f32 (7 / 10)) (f32 (7 / 10)) = 0) := by
  refine ⟨targetingProgress_eq s, ?_, targetingProgress_range s, targetingProgress_eq_one s,
    ⟨?_, rfl, ?_⟩, ?_, ?_, ?_, by decide!⟩
  · intro h
    simp only [targetingProgress, if_neg (not_lt.mpr h)]
  · simp only [markerAt, mul_zero, add_zero]
  · simp only [markerAt, mul_one, add_sub_cancel]
  · simp only [marker]
    split_ifs with h1 h2 h3 h3 <;> first | rfl | (exfalso; tauto)
  · rw [← showHighlight_iff]
    simp only [highlight]
    by_cases h1 : s.mapAnimFinished = true
    · rw [if_pos h1]
      by_cases h2 : s.targetingProgress > 0
      · rw [if_pos h2]
        by_cases h3 : s.targetingProgress ≥ 1 ∧ s.showHighlight = true
        · rw [if_pos h3]
          simp only [Option.isSome_some, true_iff]
          exact ⟨h1, h3.1, h3.2⟩
        · rw [if_neg h3]
          simp only [Option.isSome_none, Bool.false_eq_true, false_iff]
          intro hc
          exact h3 ⟨hc.2.1, hc.2.2⟩
      · rw [if_neg h2]
        simp only [Option.isSome_none, Bool.false_eq_true, false_iff]
        intro hc
        have := hc.2.1
        exact h2 (by linarith)
    · rw [if_neg h1]
      simp only [Option.isSome_none, Bool.false_eq_true, false_iff]
      intro hc
      exact h1 hc.1
  · intro scale h
    simp only [highlight] at h
    by_cases h1 : s.mapAnimFinished = true
    · rw [if_pos h1] at h
      by_cases h2 : s.targetingProgress > 0
      · rw [if_pos h2] at h
        by_cases h3 : s.targetingProgress ≥ 1 ∧ s.showHighlight = true
        · rw [if_pos h3] at h
          exact (Option.some.inj h).symm
        · rw [if_neg h3] at h
          cases h
      · rw [if_neg h2] at h
        cases h
    · rw [if_neg h1] at h
      cases h

end LocateScene

/-! ## LocateScene: the step change in binary32 -/

namespace LocateScene

theorem stepped32_fields (s : LocateScene) (deltaTime : ℚ) :
    (s.stepped32 deltaTime).timer = f32 (s.timer + deltaTime) ∧
      (s.stepped32 deltaTime).currentStep = s.currentStep ∧
      (s.stepped32 deltaTime).finished = s.finished ∧
      (s.stepped32 deltaTime).steps = s.steps ∧
      (s.stepped32 deltaTime).soundManager = s.soundManager ∧
      (s.stepped32 deltaTime).targetZoom = s.targetZoom ∧
      (s.stepped32 deltaTime).targetCenterX = s.targetCenterX ∧
      (s.stepped32 deltaTime).targetCenterY = s.targetCenterY ∧
      (s.stepped32 deltaTime).charIndex = ((s.interpolate32 deltaTime).revealChar32).charIndex ∧
      (s.stepped32 deltaTime).mapAnimFinished32 =
        ((s.interpolate32 deltaTime).revealChar32).mapAnimFinished32 := by
  simp only [stepped32, trackSettled32, revealChar32, interpolate32, mapAnimFinished32]
  split_ifs <;> simp

theorem update32_due (s : LocateScene) (deltaTime : ℚ) (hfin : s.finished = false)
    (h : s.advanceDue32 deltaTime) :
    s.update32 deltaTime = advanceStep32 (s.stepped32 deltaTime) := by
  obtain ⟨h1, h2, h3⟩ := h
  rw [(stepped32_fields s deltaTime).2.2.2.2.2.2.2.2.2] at h3
  simp only [update32, hfin, Bool.false_eq_true, if_false]
  exact if_pos ⟨h1, h2, h3⟩

theorem update32_not_due (s : LocateScene) (deltaTime : ℚ) (hfin : s.finished = false)
    (h : ¬ s.advanceDue32 deltaTime) :
    s.update32 deltaTime = (s.stepped32 deltaTime, []) := by
  simp only [update32, hfin, Bool.false_eq_true, if_false]
  refine if_neg ?_
  rintro ⟨h1, h2, h3⟩
  refine h ⟨h1, h2, ?_⟩
  rw [(stepped32_fields s deltaTime).2.2.2.2.2.2.2.2.2]
  exact h3

theorem update32_of_finished (s : LocateScene) (deltaTime : ℚ) (hfin : s.finished = true) :
    s.update32 deltaTime = (s, []) := by
  simp only [update32, hfin, if_true]

theorem advanceStep32_low (s : LocateScene) (h0 : 0 ≤ s.currentStep) (h2 : s.currentStep ≤ 2) :
    (advanceStep32 s).1.currentStep = s.currentStep + 1 ∧
      ((advanceStep32 s).1.targetZoom, (advanceStep32 s).1.targetCenterX,
          (advanceStep32 s).1.targetCenterY) = nextTarget32 s.currentStep ∧
      (advanceStep32 s).1.timer = 0 ∧ (advanceStep32 s).1.charIndex = 0 ∧
      (advanceStep32 s).1.finished = s.finished ∧
      (advanceStep32 s).2 = if s.soundManager then [2] else [] := by
  obtain ⟨c, hc⟩ : ∃ c, s.currentStep = c := ⟨_, rfl⟩
  rw [hc] at h0 h2
  interval_cases c <;> simp [advanceStep32, nextTarget32, hc]

theorem advanceStep32_last (s : LocateScene) (h3 : s.currentStep = 3) :
    advanceStep32 s = ({ s with finished := true }, []) := by
  simp [advanceStep32, h3]

/-- C20: in `LocateScene::update` on an unfinished scene, computed in binary32,
with the timer, label index and map read after this update's increments
(`stepped32`, whose timer is the rounded sum of the old one and `deltaTime` and
whose step and targets are the old ones), the step changes if and only if that
timer exceeds 8 s, the label is fully revealed and the map is settled
(`advanceDue32`); otherwise the update is just the increments and no cue. On an
advance from step 0, 1, 2 the step grows by exactly one, the targets become
`(5.0f, 0.4f, 0.6f)`, `(10.0f, 0.6f, 0.4f)`, `(20.0f, 0.5f, 0.6f)`, timer and
label index are 0, the scene stays unfinished and cue 2 is played once (given a
sound manager). At step 3 the same condition sets `finished` and nothing else:
step and targets are unchanged and no cue is played. -/
theorem C20_step_advance (s : LocateScene) (deltaTime : ℚ) (hfin : s.finished = false) :
    ((s.stepped32 deltaTime).timer = f32 (s.timer + deltaTime) ∧
      (s.stepped32 deltaTime).currentStep = s.currentStep ∧
      (s.stepped32 deltaTime).charIndex =
        ((s.interpolate32 deltaTime).revealChar32).charIndex ∧
      (s.advanceDue32 deltaTime ↔
        f32 (s.timer + deltaTime) > 8 ∧
          ((s.interpolate32 deltaTime).revealChar32).charIndex = (s.stepLabel.length : Int) ∧
          ((s.interpolate32 deltaTime).revealChar32).mapAnimFinished32 = true)) ∧
    (¬ s.advanceDue32 deltaTime → s.update32 deltaTime = (s.stepped32 deltaTime, [])) ∧
    (0 ≤ s.currentStep → s.currentStep ≤ 2 →
      ((s.update32 deltaTime).1.currentStep ≠ s.currentStep ↔ s.advanceDue32 deltaTime) ∧
      (s.advanceDue32 deltaTime →
        (s.update32 deltaTime).1.currentStep = s.currentStep + 1 ∧
        ((s.update32 deltaTime).1.targetZoom, (s.update32 deltaTime).1.targetCenterX,
            (s.update32 deltaTime).1.targetCenterY) = nextTarget32 s.currentStep ∧
        (s.update32 deltaTime).1.timer = 0 ∧ (s.update32 deltaTime).1.charIndex = 0 ∧
        (s.update32 deltaTime).1.finished = false ∧
        (s.update32 deltaTime).2 = if s.soundManager then [2] else [])) ∧
    (s.currentStep = 3 →
      ((s.update32 deltaTime).1.finished = true ↔ s.advanceDue32 deltaTime) ∧
      (s.update32 deltaTime).1.currentStep = 3 ∧
      (s.update32 deltaTime).1.targetZoom = s.targetZoom ∧
      (s.update32 deltaTime).1.targetCenterX = s.targetCenterX ∧
      (s.update32 deltaTime).1.targetCenterY = s.targetCenterY ∧
      (s.update32 deltaTime).2 = []) := by
  obtain ⟨f1, f2, f3, f4, f5, f6, f7, f8, f9, f10⟩ := stepped32_fields s deltaTime
  have hlabel : (s.stepped32 deltaTime).stepLabel = s.stepLabel := by
    simp only [stepLabel, f2, f4]
  refine ⟨⟨f1, f2, f9, ?_⟩, update32_not_due s deltaTime hfin, ?_, ?_⟩
  · simp only [advanceDue32, f1, f9, f10, hlabel]
  · intro h0 h2
    have hlow := advanceStep32_low (s.stepped32 deltaTime) (by rw [f2]; exact h0)
      (by rw [f2]; exact h2)
    rw [f2, f3, f5, hfin] at hlow
    constructor
    · constructor
      · intro hne
        by_contra hnd
        rw [update32_not_due s deltaTime hfin hnd] at hne
        exact hne f2
      · intro hd
        rw [update32_due s deltaTime hfin hd, hlow.1]
        omega
    · intro hd
      rw [update32_due s deltaTime hfin hd]
      exact hlow
  · intro h3
    have hlast := advanceStep32_last (s.stepped32 deltaTime) (by rw [f2]; exact h3)
    by_cases hd : s.advanceDue32 deltaTime
    · rw [update32_due s deltaTime hfin hd, hlast]
      simp [hd, f2, f6, f7, f8, h3]
    · rw [update32_not_due s deltaTime hfin hd]
      simp [hd, f2, f3, f6, f7, f8, h3, hfin]

/-- Witness of C20: the scene `nearAdvance32` is at step 0, unfinished, settled
and fully revealed with the step timer at `7.99f`. The update of `0.02f`
advances it to step 1 with the targets `(5.0f, 0.4f, 0.6f)` and plays cue 2
once; the update of `0.0100003f`, whose sum with the timer rounds to 8.0, does
not. -/
theorem C20_step_advance_witness :
    nearAdvance32.finished = false ∧ nearAdvance32.timer = f32 (799 / 100) ∧
      (nearAdvance32.update32 (f32 (1 / 50))).1.currentStep = 1 ∧
      (nearAdvance32.update32 (f32 (1 / 50))).1.targetZoom = 5 ∧
      (nearAdvance32.update32 (f32 (1 / 50))).1.targetCenterX = f32 (2 / 5) ∧
      (nearAdvance32.update32 (f32 (1 / 50))).1.targetCenterY = f32 (3 / 5) ∧
      (nearAdvance32.update32 (f32 (1 / 50))).1.timer = 0 ∧
      (nearAdvance32.update32 (f32 (1 / 50))).1.charIndex = 0 ∧
      (nearAdvance32.update32 (f32 (1 / 50))).2 = [2] ∧
      f32 (nearAdvance32.timer + f32 (100003 / 10000000)) = 8 ∧
      (nearAdvance32.update32 (f32 (100003 / 10000000))).1.currentStep = 0 ∧
      (nearAdvance32.update32 (f32 (100003 / 10000000))).2 = [] := by
  have hfin : nearAdvance32.finished = false := by decide!
  have hstep : nearAdvance32.currentStep = 0 := by decide!
  have hsm : nearAdvance32.soundManager = true := by decide!
  have hdue : nearAdvance32.advanceDue32 (f32 (1 / 50)) := by
    unfold advanceDue32
    decide!
  have hnot : ¬ nearAdvance32.advanceDue32 (f32 (100003 / 10000000)) := by
    unfold advanceDue32
    decide!
  have hC := C20_step_advance nearAdvance32 (f32 (1 / 50)) hfin
  have h := (hC.2.2.1 (by rw [hstep]) (by rw [hstep]; decide)).2 hdue
  rw [hstep, hsm] at h
  obtain ⟨h1, h2, h3, h4, -, h6⟩ := h
  simp only [nextTarget32, if_true, Prod.mk.injEq] at h2
  have hD := C20_step_advance nearAdvance32 (f32 (100003 / 10000000)) hfin
  have h7 := hD.2.1 hnot
  refine ⟨hfin, by decide!, h1, h2.1, h2.2.1, h2.2.2, h3, h4, h6, by decide!, ?_, ?_⟩
  · rw [h7]; exact hD.1.2.1.trans hstep
  · rw [h7]

end LocateScene

/-! ## LoginScene in binary32: the typed texts -/

namespace LoginScene

theorem wellTyped_update32_showUsername (tu tp : List Char) (timer : ℚ) (ci : Int) (vd acc : ℚ)
    (cb : Bool) (deltaTime : ℚ)
    (h : WellTyped ⟨Stage.SHOW_USERNAME, "htw saar".toList, "********".toList, tu, tp, timer,
      ci, vd, acc, cb⟩) :
    ((⟨Stage.SHOW_USERNAME, "htw saar".toList, "********".toList, tu, tp, timer, ci, vd, acc,
      cb⟩ : LoginScene).update32 deltaTime).1.WellTyped := by
  obtain ⟨-, -, htp, h0, h8, htu⟩ := h
  simp only at htp h0 h8 htu
  subst htp htu
  simp only [update32]
  interval_cases ci <;> split_ifs <;> simp_all [charAt, WellTyped] <;> decide

theorem wellTyped_update32_showPassword (tu tp : List Char) (timer : ℚ) (ci : Int) (vd acc : ℚ)
    (cb : Bool) (deltaTime : ℚ)
    (h : WellTyped ⟨Stage.SHOW_PASSWORD, "htw saar".toList, "********".toList, tu, tp, timer,
      ci, vd, acc, cb⟩) :
    ((⟨Stage.SHOW_PASSWORD, "htw saar".toList, "********".toList, tu, tp, timer, ci, vd, acc,
      cb⟩ : LoginScene).update32 deltaTime).1.WellTyped := by
  obtain ⟨-, -, htu, h0, h8, htp⟩ := h
  simp only at htp h0 h8 htu
  subst htp htu
  simp only [update32]
  interval_cases ci <;> split_ifs <;> simp_all [charAt, WellTyped] <;> decide

theorem wellTyped_update32 (s : LoginScene) (deltaTime : ℚ) (h : s.WellTyped) :
    (s.update32 deltaTime).1.WellTyped := by
  obtain ⟨stage, username, password, tu, tp, timer, ci, vd, acc, cb⟩ := s
  have hu : username = "htw saar".toList := h.1
  have hp : password = "********".toList := h.2.1
  subst hu hp
  cases stage
  · exact wellTyped_update32_showUsername tu tp timer ci vd acc cb deltaTime h
  · obtain ⟨-, -, htp, htu⟩ := h
    simp only at htp htu
    subst htp htu
    simp only [update32]
    split_ifs <;> simp [WellTyped]
  · exact wellTyped_update32_showPassword tu tp timer ci vd acc cb deltaTime h
  · obtain ⟨-, -, htu, htp⟩ := h
    simp only at htp htu
    subst htp htu
    simp only [update32]
    split_ifs <;> simp [WellTyped]
  · obtain ⟨-, -, htu, htp⟩ := h
    simp only at htp htu
    subst htp htu
    simp only [update32]
    split_ifs <;> simp [WellTyped]
  · obtain ⟨-, -, htu, htp⟩ := h
    simp only at htp htu
    subst htp htu
    simp [update32, WellTyped]

/-- The `SHOW_USERNAME` case of `update32` for the built-in username, field by
field. -/
theorem update32_showUsername (s : LoginScene) (d : ℚ) (hs : s.stage = Stage.SHOW_USERNAME)
    (hu : s.username = "htw saar".toList) :
    (s.update32 d).1.charIndex =
        (if s.charIndex < 8 ∧ f32 (s.timer + d) > f32 (9 / 50) then s.charIndex + 1
          else s.charIndex) ∧
      (s.update32 d).1.stage =
        (if (if s.charIndex < 8 ∧ f32 (s.timer + d) > f32 (9 / 50) then s.charIndex + 1
              else s.charIndex) = 8
          then Stage.WAIT_PASSWORD else Stage.SHOW_USERNAME) ∧
      (s.update32 d).1.timer =
        (if (s.charIndex < 8 ∧ f32 (s.timer + d) > f32 (9 / 50)) ∨
            (if s.charIndex < 8 ∧ f32 (s.timer + d) > f32 (9 / 50) then s.charIndex + 1
              else s.charIndex) = 8
          then 0 else f32 (s.timer + d)) := by
  have hlen : (s.username.length : Int) = 8 := by rw [hu]; decide
  simp only [update32, hs]
  by_cases hc : s.charIndex < 8 ∧ f32 (s.timer + d) > f32 (9 / 50)
  · by_cases h8 : s.charIndex + 1 = 8
    · simp [hc, h8, hlen]
    · simp [hc, h8, hlen]
  · by_cases h8 : s.charIndex = 8
    · simp [hc, h8, hlen]
    · simp [hc, h8, hlen]

/-- Updates by binary32 values above `0.18f`, one for every character still to
come, type the whole username: after each of them the timer is the update's
`deltaTime` itself. -/
theorem after32_long_updates (dts : List ℚ) :
    ∀ s : LoginScene, s.WellTyped → s.stage = Stage.SHOW_USERNAME →
      s.timer = 0 → s.charIndex + dts.length = 8 →
      (∀ d ∈ dts, f32 d = d ∧ f32 (9 / 50) < d) →
      (s.after32 dts).stage = Stage.WAIT_PASSWORD ∧ (s.after32 dts).WellTyped := by
  induction dts with
  | nil =>
    intro s hw hs _ hc _
    obtain ⟨_, _, hrest⟩ := hw
    rw [hs] at hrest
    simp only [List.length_nil, Nat.cast_zero, add_zero] at hc
    have := hrest.2.2.1
    omega
  | cons d rest ih =>
    intro s hw hs ht hc hd
    have hdpos := hd d (List.mem_cons_self _ _)
    have hw' := wellTyped_update32 s d hw
    obtain ⟨hci, hst, htm⟩ := update32_showUsername s d hs hw.1
    have hlt : s.charIndex < 8 := by
      simp only [List.length_cons, Nat.cast_add, Nat.cast_one] at hc
      omega
    have hsum : f32 (s.timer + d) = d := by rw [ht, zero_add]; exact hdpos.1
    have hcond : s.charIndex < 8 ∧ f32 (s.timer + d) > f32 (9 / 50) :=
      ⟨hlt, by rw [hsum]; exact hdpos.2⟩
    rw [if_pos hcond] at hci hst
    rw [if_pos (Or.inl hcond)] at htm
    simp only [after32]
    by_cases h8 : s.charIndex + 1 = 8
    · rw [if_pos h8] at hst
      have hrest : rest = [] := by
        simp only [List.length_cons, Nat.cast_add, Nat.cast_one] at hc
        have : (rest.length : Int) = 0 := by omega
        exact List.length_eq_zero.mp (by exact_mod_cast this)
      subst hrest
      exact ⟨hst, hw'⟩
    · rw [if_neg h8] at hst
      exact ih _ hw' hst htm (by
        rw [hci]
        simp only [List.length_cons, Nat.cast_add, Nat.cast_one] at hc
        omega) (fun x hx => hd x (List.mem_cons_of_mem _ hx))

/-- C13 as stated fails: eight updates of `0.18f`, the binary32 value of 0.18,
leave the scene in SHOW_USERNAME with only `htw ` typed, although `0.18f` is
even a little more than 0.18: the timer must exceed `0.18f` strictly, so a
character appears on every second update. -/
theorem C13_counterexample :
    (∀ d ∈ List.replicate 8 (f32 (9 / 50)), 0 < d) ∧
    9 / 50 * (construct.username.length : ℚ) ≤ (List.replicate 8 (f32 (9 / 50))).sum ∧
    (construct.after32 (List.replicate 8 (f32 (9 / 50)))).stage = Stage.SHOW_USERNAME ∧
    (construct.after32 (List.replicate 8 (f32 (9 / 50)))).typedUsername = "htw ".toList ∧
    (construct.after32 (List.replicate 8 (f32 (9 / 50)))).typedUsername ≠
      construct.username := by
  refine ⟨?_, ?_, ?_, ?_, ?_⟩
  · intro d hd
    rw [List.eq_of_mem_replicate hd]
    decide!
  · decide!
  · decide!
  · decide!
  · decide!

/-- C13, amended. From the constructed scene, `len(username) = 8` updates whose
`deltaTime` are binary32 values above `0.18f` leave the stage WAIT_PASSWORD with
`typedUsername` equal to `username`. -/
theorem C13_username_needs_more_than_its_nominal_time (dts : List ℚ)
    (hlen : dts.length = construct.username.length)
    (hd : ∀ d ∈ dts, f32 d = d ∧ f32 (9 / 50) < d) :
    (construct.after32 dts).stage = Stage.WAIT_PASSWORD ∧
      (construct.after32 dts).typedUsername = construct.username := by
  have hw : construct.WellTyped := wellTyped_construct false
  have h := after32_long_updates dts construct hw rfl rfl (by rw [hlen]; decide) hd
  obtain ⟨hst, hu, _, hrest⟩ := h
  rw [hst] at hrest
  refine ⟨hst, ?_⟩
  rw [hrest.2, hu]; rfl

/-- Witness of the amended C13: eight updates of `0.19f`. -/
theorem C13_username_needs_more_than_its_nominal_time_witness :
    (List.replicate 8 (f32 (19 / 100))).length = construct.username.length ∧
      (∀ d ∈ List.replicate 8 (f32 (19 / 100)), f32 d = d ∧ f32 (9 / 50) < d) ∧
      (construct.after32 (List.replicate 8 (f32 (19 / 100)))).stage = Stage.WAIT_PASSWORD ∧
      (construct.after32 (List.replicate 8 (f32 (19 / 100)))).typedUsername =
        construct.username :=
  ⟨by decide, fun d hd => by rw [List.eq_of_mem_replicate hd]; decide!,
    C13_username_needs_more_than_its_nominal_time (List.replicate 8 (f32 (19 / 100)))
      (by decide) (fun d hd => by rw [List.eq_of_mem_replicate hd]; decide!)⟩

end LoginScene

/-! ## LoginScene in binary32: no stage is left before its timer has run out -/

namespace LoginScene

end LoginScene

/-! ## The easing functions in binary32 -/

/-- Rounding a value of magnitude at most 2 moves it by at most `2 ^ (-24)`. -/
theorem f32_err_two (x : ℚ) (h : |x| ≤ 2) : |f32 x - x| ≤ 1 / 16777216 := by
  have h1 := Float32.abs_round_sub_le x 0 (by norm_num)
    (by rw [show Float32.pow2 (0 + 1) = 2 by decide!]; exact h)
  rwa [show Float32.pow2 (0 - 24) = 1 / 16777216 by decide!] at h1

/-- Rounding a value of magnitude at most 4 moves it by at most `2 ^ (-23)`. -/
theorem f32_err_four (x : ℚ) (h : |x| ≤ 4) : |f32 x - x| ≤ 1 / 8388608 := by
  have h1 := Float32.abs_round_sub_le x 1 (by norm_num)
    (by rw [show Float32.pow2 (1 + 1) = 4 by decide!]; exact h)
  rwa [show Float32.pow2 (1 - 24) = 1 / 8388608 by decide!] at h1

theorem easeInQuad32_mono (a b : ℚ) (h0 : 0 ≤ a) (hab : a ≤ b) :
    easeInQuad32 a ≤ easeInQuad32 b :=
  f32_mono (mul_le_mul hab hab h0 (le_trans h0 hab))

theorem easeInQuad32_range (t : ℚ) (h0 : 0 ≤ t) (h1 : t ≤ 1) :
    0 ≤ easeInQuad32 t ∧ easeInQuad32 t ≤ 1 := by
  constructor
  · exact f32_nonneg (mul_nonneg h0 h0)
  · calc easeInQuad32 t ≤ f32 1 := f32_mono (by nlinarith)
      _ = 1 := f32_one

theorem easeOutQuad32_range (t : ℚ) (h0 : 0 ≤ t) (h1 : t ≤ 1) :
    0 ≤ easeOutQuad32 t ∧ easeOutQuad32 t ≤ 1 := by
  have ha1 : 1 ≤ f32 (2 - t) := by
    rw [← f32_one]; exact f32_mono (by linarith)
  have herr := f32_err_two (2 - t) (by rw [abs_le]; constructor <;> linarith)
  have hup : f32 (2 - t) ≤ 2 - t + 1 / 16777216 := by
    have := (abs_le.mp herr).2; linarith
  constructor
  · exact f32_nonneg (mul_nonneg h0 (by linarith))
  · have hp : t * f32 (2 - t) ≤ 1 + 1 / 16777216 := by
      nlinarith [mul_le_mul_of_nonneg_left hup h0, sq_nonneg (1 - t)]
    calc easeOutQuad32 t ≤ f32 (1 + 1 / 16777216) := f32_mono hp
      _ = 1 := by decide!

theorem easeInOutQuad32_range (t : ℚ) (ht : f32 t = t) (h0 : 0 ≤ t) (h1 : t ≤ 1) :
    0 ≤ easeInOutQuad32 t ∧ easeInOutQuad32 t ≤ 1 := by
  have h2t : f32 (2 * t) = 2 * t := f32_two_mul_self ht
  unfold easeInOutQuad32
  split_ifs with hlt
  · rw [h2t]
    constructor
    · exact f32_nonneg (by nlinarith)
    · calc f32 (2 * t * t) ≤ f32 1 := f32_mono (by nlinarith)
        _ = 1 := f32_one
  · push_neg at hlt
    rw [h2t]
    have hv2 : 2 ≤ f32 (4 - 2 * t) := by
      have h := f32_mono (show (2 : ℚ) ≤ 4 - 2 * t by linarith)
      rwa [f32_two] at h
    have herr := f32_err_four (4 - 2 * t) (by rw [abs_le]; constructor <;> linarith)
    have hup : f32 (4 - 2 * t) ≤ 4 - 2 * t + 1 / 8388608 := by
      have := (abs_le.mp herr).2; linarith
    have hw1 : 1 ≤ f32 (f32 (4 - 2 * t) * t) := by
      rw [← f32_one]; exact f32_mono (by nlinarith)
    have hw2 : f32 (f32 (4 - 2 * t) * t) ≤ 2 := by
      have hp : f32 (4 - 2 * t) * t ≤ 2 + 1 / 8388608 := by
        nlinarith [mul_le_mul_of_nonneg_right hup h0, sq_nonneg (1 - t)]
      calc f32 (f32 (4 - 2 * t) * t) ≤ f32 (2 + 1 / 8388608) := f32_mono hp
        _ = 2 := by decide!
    constructor
    · exact f32_nonneg (by linarith)
    · calc f32 (-1 + f32 (f32 (4 - 2 * t) * t)) ≤ f32 1 := f32_mono (by linarith)
        _ = 1 := f32_one

/-- C27 as stated fails in binary32: `easeOutQuad` and `easeInOutQuad` are not
monotone on [0,1] (each decreases between two neighbouring binary32 arguments),
and `easeOutQuad(t) = 1 - easeInQuad(1 - t)` fails at `t = 0.1f`, where the left
side is `0x1.851eb8p-3` and the right side `0x1.851ecp-3`. -/
theorem C27_counterexample :
    ((0 : ℚ) ≤ 16775167 / 34359738368 ∧ (16775167 / 34359738368 : ℚ) < 8191 / 16777216 ∧
      (8191 / 16777216 : ℚ) ≤ 1 ∧
      f32 (16775167 / 34359738368) = 16775167 / 34359738368 ∧
      f32 (8191 / 16777216) = 8191 / 16777216 ∧
      easeOutQuad32 (8191 / 16777216) < easeOutQuad32 (16775167 / 34359738368)) ∧
    ((0 : ℚ) ≤ 11190009 / 16777216 ∧ (11190009 / 16777216 : ℚ) < 5595005 / 8388608 ∧
      (5595005 / 8388608 : ℚ) ≤ 1 ∧
      f32 (11190009 / 16777216) = 11190009 / 16777216 ∧
      f32 (5595005 / 8388608) = 5595005 / 8388608 ∧
      easeInOutQuad32 (5595005 / 8388608) < easeInOutQuad32 (11190009 / 16777216)) ∧
    (easeOutQuad32 (f32 (1 / 10)) = 3187671 / 16777216 ∧
      f32 (1 - easeInQuad32 (f32 (1 - f32 (1 / 10)))) = 398459 / 2097152 ∧
      easeOutQuad32 (f32 (1 / 10)) ≠ f32 (1 - easeInQuad32 (f32 (1 - f32 (1 / 10))))) := by
  refine ⟨by decide!, by decide!, by decide!⟩

/-- C27, amended to what holds in binary32. Each of `easeInQuad`, `easeOutQuad`
and `easeInOutQuad` maps 0 to 0 and 1 to 1 and maps every `t` in [0,1] into
[0,1] (for `easeInOutQuad`: every binary32 value `t`); `easeInQuad` is
monotonically non-decreasing on [0,1]; and the two branches of `easeInOutQuad`
agree at `t = 0.5`, where both give 0.5. -/
theorem C27_easing_functions :
    (easeInQuad32 0 = 0 ∧ easeInQuad32 1 = 1 ∧ easeOutQuad32 0 = 0 ∧ easeOutQuad32 1 = 1 ∧
      easeInOutQuad32 0 = 0 ∧ easeInOutQuad32 1 = 1) ∧
    (∀ t : ℚ, 0 ≤ t → t ≤ 1 →
      (0 ≤ easeInQuad32 t ∧ easeInQuad32 t ≤ 1) ∧ (0 ≤ easeOutQuad32 t ∧ easeOutQuad32 t ≤ 1)) ∧
    (∀ t : ℚ, f32 t = t → 0 ≤ t → t ≤ 1 → 0 ≤ easeInOutQuad32 t ∧ easeInOutQuad32 t ≤ 1) ∧
    (∀ a b : ℚ, 0 ≤ a → a ≤ b → b ≤ 1 → easeInQuad32 a ≤ easeInQuad32 b) ∧
    (∀ t : ℚ, t < 1 / 2 → easeInOutQuad32 t = f32 (f32 (2 * t) * t)) ∧
    (∀ t : ℚ, 1 / 2 ≤ t →
      easeInOutQuad32 t = f32 (-1 + f32 (f32 (4 - f32 (2 * t)) * t))) ∧
    (f32 (f32 (2 * (1 / 2)) * (1 / 2)) = 1 / 2 ∧
      f32 (-1 + f32 (f32 (4 - f32 (2 * (1 / 2))) * (1 / 2))) = 1 / 2 ∧
      easeInOutQuad32 (1 / 2) = 1 / 2) := by
  refine ⟨by decide!, ?_, ?_, ?_, ?_, ?_, by decide!⟩
  · intro t h0 h1
    exact ⟨easeInQuad32_range t h0 h1, easeOutQuad32_range t h0 h1⟩
  · intro t ht h0 h1
    exact easeInOutQuad32_range t ht h0 h1
  · intro a b h0 hab _
    exact easeInQuad32_mono a b h0 hab
  · intro t ht
    simp only [easeInOutQuad32, if_pos ht]
  · intro t ht
    simp only [easeInOutQuad32, if_neg (not_lt.mpr ht)]

/-! ## C3: the rebuild animation in binary32 -/

namespace App

theorem caseRebuild32_tvCloseAnim (a : App) (now : ℚ) :
    (a.caseRebuild32 now).1.tvCloseAnim =
      f32 (1 - easeOutQuad32 (min (a.rebuildProgress32 now) 1)) := by
  simp only [caseRebuild32]
  split_ifs <;> rfl

theorem caseResetRebuild32_tvCloseAnim (a : App) (now : ℚ) :
    (a.caseResetRebuild32 now).1.tvCloseAnim =
      f32 (1 - easeOutQuad32 (min (a.rebuildProgress32 now) 1)) := by
  simp only [caseResetRebuild32]
  split_ifs <;> rfl

theorem caseRebuild32_appState (a : App) (now : ℚ) :
    (a.caseRebuild32 now).1.appState =
      if a.rebuildProgress32 now ≥ 1 then AppState.STATE_LOCATE else a.appState := by
  simp only [caseRebuild32]
  split_ifs <;> rfl

theorem caseResetRebuild32_appState (a : App) (now : ℚ) :
    (a.caseResetRebuild32 now).1.appState =
      if a.rebuildProgress32 now ≥ 1 then AppState.STATE_LOGIN else a.appState := by
  simp only [caseResetRebuild32]
  split_ifs <;> rfl

theorem rebuildProgress32_nonneg (a : App) (now : ℚ) (h : a.rebuildStartTime ≤ now) :
    0 ≤ a.rebuildProgress32 now := by
  unfold rebuildProgress32
  apply f32_nonneg
  apply div_nonneg _ (by norm_num)
  exact f32_nonneg (by linarith)

theorem rebuildAnim32_bounds (t : ℚ) (ht : 0 ≤ t) :
    0 ≤ f32 (1 - easeOutQuad32 (min t 1)) ∧ f32 (1 - easeOutQuad32 (min t 1)) ≤ 1 := by
  have h := easeOutQuad32_range (min t 1) (le_min ht (by norm_num)) (min_le_right _ _)
  constructor
  · exact f32_nonneg (by linarith)
  · calc f32 (1 - easeOutQuad32 (min t 1)) ≤ f32 1 := f32_mono (by linarith)
      _ = 1 := f32_one

theorem rebuildAnim32_done (t : ℚ) (ht : t ≥ 1) : f32 (1 - easeOutQuad32 (min t 1)) = 0 := by
  rw [min_eq_right ht]
  decide!

/-- C3 as stated fails in binary32. In the sample state in REBUILD, entered at
`t = 100`, the frame at `now = 0x1.94fffep+6` (101.24999) has
`t = 0x1.ffff34p-1 < 1` and stays in REBUILD, but `easeOutQuad` already rounds
to 1 and `tvCloseAnim` is 0; and between the frames at `0x1.94f4bp+6` and at
`0x1.94f4b2p+6` (101.23895 and 101.23896) `tvCloseAnim` increases. -/
theorem C3_counterexample :
    ((sampleApp AppState.STATE_REBUILD).rebuildStartTime ≤ 13271039 / 131072 ∧
      f32 (13271039 / 131072) = 13271039 / 131072 ∧
      (sampleApp AppState.STATE_REBUILD).rebuildProgress32 (13271039 / 131072) =
        8388557 / 8388608 ∧
      ¬ (sampleApp AppState.STATE_REBUILD).rebuildProgress32 (13271039 / 131072) ≥ 1 ∧
      ((sampleApp AppState.STATE_REBUILD).caseRebuild32 (13271039 / 131072)).1.appState =
        AppState.STATE_REBUILD ∧
      ((sampleApp AppState.STATE_REBUILD).caseRebuild32 (13271039 / 131072)).1.tvCloseAnim =
        0) ∧
    ((sampleApp AppState.STATE_REBUILD).rebuildStartTime ≤ 1658699 / 16384 ∧
      (1658699 / 16384 : ℚ) < 13269593 / 131072 ∧
      f32 (1658699 / 16384) = 1658699 / 16384 ∧ f32 (13269593 / 131072) = 13269593 / 131072 ∧
      ((sampleApp AppState.STATE_REBUILD).caseRebuild32 (1658699 / 16384)).1.tvCloseAnim =
        1309 / 16777216 ∧
      ((sampleApp AppState.STATE_REBUILD).caseRebuild32 (13269593 / 131072)).1.tvCloseAnim =
        655 / 8388608 ∧
      ((sampleApp AppState.STATE_REBUILD).caseRebuild32 (1658699 / 16384)).1.tvCloseAnim <
        ((sampleApp AppState.STATE_REBUILD).caseRebuild32
          (13269593 / 131072)).1.tvCloseAnim) := by
  refine ⟨by decide!, by decide!⟩

/-- C3, amended to what holds in binary32. In REBUILD and in RESET_REBUILD every
frame sets `tvCloseAnim` to `1 - easeOutQuad(min(t, 1))` with
`t = (now - rebuildStartTime) / 1.25`, each operation rounded. For
`now ≥ rebuildStartTime` this value lies in `[0, 1]`, it is 0 on every frame
where `t ≥ 1`, and the frames where `t ≥ 1` are exactly the frames on which the
state is left (for LOCATE, respectively LOGIN). -/
theorem C3_rebuild_close_anim (a : App) (now : ℚ) (hnow : a.rebuildStartTime ≤ now) :
    a.rebuildProgress32 now = f32 (f32 (now - a.rebuildStartTime) / (5 / 4)) ∧
    ((a.caseRebuild32 now).1.tvCloseAnim =
        f32 (1 - easeOutQuad32 (min (a.rebuildProgress32 now) 1)) ∧
      (a.caseResetRebuild32 now).1.tvCloseAnim =
        f32 (1 - easeOutQuad32 (min (a.rebuildProgress32 now) 1))) ∧
    (0 ≤ (a.caseRebuild32 now).1.tvCloseAnim ∧ (a.caseRebuild32 now).1.tvCloseAnim ≤ 1 ∧
      0 ≤ (a.caseResetRebuild32 now).1.tvCloseAnim ∧
      (a.caseResetRebuild32 now).1.tvCloseAnim ≤ 1) ∧
    (a.rebuildProgress32 now ≥ 1 →
      (a.caseRebuild32 now).1.tvCloseAnim = 0 ∧ (a.caseResetRebuild32 now).1.tvCloseAnim = 0) ∧
    (a.appState = AppState.STATE_REBUILD →
      ((a.caseRebuild32 now).1.appState ≠ a.appState ↔ a.rebuildProgress32 now ≥ 1) ∧
      (a.rebuildProgress32 now ≥ 1 → (a.caseRebuild32 now).1.appState = AppState.STATE_LOCATE)) ∧
    (a.appState = AppState.STATE_RESET_REBUILD →
      ((a.caseResetRebuild32 now).1.appState ≠ a.appState ↔ a.rebuildProgress32 now ≥ 1) ∧
      (a.rebuildProgress32 now ≥ 1 →
        (a.caseResetRebuild32 now).1.appState = AppState.STATE_LOGIN)) := by
  have h0 := rebuildProgress32_nonneg a now hnow
  have hb := rebuildAnim32_bounds (a.rebuildProgress32 now) h0
  refine ⟨rfl, ⟨caseRebuild32_tvCloseAnim a now, caseResetRebuild32_tvCloseAnim a now⟩, ?_, ?_,
    ?_, ?_⟩
  · rw [caseRebuild32_tvCloseAnim, caseResetRebuild32_tvCloseAnim]
    exact ⟨hb.1, hb.2, hb.1, hb.2⟩
  · intro ht
    rw [caseRebuild32_tvCloseAnim, caseResetRebuild32_tvCloseAnim]
    exact ⟨rebuildAnim32_done _ ht, rebuildAnim32_done _ ht⟩
  · intro hs
    rw [caseRebuild32_appState, hs]
    constructor
    · split_ifs with ht <;> simp [ht]
    · intro ht; rw [if_pos ht]
  · intro hs
    rw [caseResetRebuild32_appState, hs]
    constructor
    · split_ifs with ht <;> simp [ht]
    · intro ht; rw [if_pos ht]

/-- Witness of the amended C3: the sample state in REBUILD, entered at
`t = 100`, at the frame `now = 101`: `t` is `0.8f`, `tvCloseAnim` is
`0x1.47ae1p-5` (about 0.04) and the state is kept. -/
theorem C3_rebuild_close_anim_witness :
    (sampleApp AppState.STATE_REBUILD).rebuildStartTime ≤ 101 ∧
      (sampleApp AppState.STATE_REBUILD).rebuildProgress32 101 = f32 (4 / 5) ∧
      0 ≤ ((sampleApp AppState.STATE_REBUILD).caseRebuild32 101).1.tvCloseAnim ∧
      ((sampleApp AppState.STATE_REBUILD).caseRebuild32 101).1.tvCloseAnim ≤ 1 ∧
      ((sampleApp AppState.STATE_REBUILD).caseRebuild32 101).1.appState =
        AppState.STATE_REBUILD := by
  have h := C3_rebuild_close_anim (sampleApp AppState.STATE_REBUILD) 101 (by decide!)
  exact ⟨by decide!, by decide!, h.2.2.1.1, h.2.2.1.2.1, by decide!⟩

end App

/-! ## LocateScene: the interpolation in binary32 -/

/-- The largest binary32 value that is at most a third is `0x1.555554p-2`. -/
theorem f32_le_third {d : ℚ} (hd : f32 d = d) (h : d ≤ 1 / 3) : d ≤ 11184810 / 33554432 := by
  by_cases hq : d < 1 / 4
  · linarith
  · push_neg at hq
    have he : Float32.exponent d = -2 := by
      apply Float32.exponent_unique _ _ (by norm_num)
      · rw [abs_of_nonneg (by linarith), show Float32.pow2 (-2 + 1) = 1 / 2 by decide!]
        linarith
      · intro _
        rw [abs_of_nonneg (by linarith), show Float32.pow2 (-2) = 1 / 4 by decide!]
        exact hq
    have hQ : Float32.quantum d = 1 / 33554432 := by
      unfold Float32.quantum; rw [he]; decide!
    obtain ⟨n, hn⟩ : ∃ n : Int, d = (n : ℚ) * (1 / 33554432) := by
      refine ⟨Float32.roundEven (d / Float32.quantum d), ?_⟩
      conv_lhs => rw [← hd]
      rw [← hQ]
      rfl
    have h3 : (n : ℚ) * 3 ≤ 33554432 := by rw [hn] at h; linarith
    have h4 : n * 3 ≤ 33554432 := by exact_mod_cast h3
    have h5 : n ≤ 11184810 := by omega
    have h6 : (n : ℚ) ≤ 11184810 := by exact_mod_cast h5
    rw [hn]; linarith

/-- Tripling a binary32 value that is not negative: the rounded product exceeds
the exact one by at most one part in `2 ^ 24`. -/
theorem f32_mul_three_le {d : ℚ} (hd : f32 d = d) (h0 : 0 ≤ d) :
    f32 (d * 3) ≤ d * 3 * (1 + 1 / 16777216) := by
  have hcase : Float32.pow2 (-126) ≤ d * 3 ∨ Float32.round (d * 3) = d * 3 := by
    by_cases hs : Float32.pow2 (-126) ≤ d * 3
    · exact Or.inl hs
    · right
      push_neg at hs
      obtain ⟨n, hn⟩ := Float32.multiple_of_round_eq hd
      apply Float32.round_eq_of_small (3 * n)
      · rw [hn]; push_cast; ring
      · rw [abs_of_nonneg (by linarith)]
        have : Float32.pow2 (-126) ≤ Float32.pow2 (-125) := Float32.pow2_mono (by norm_num)
        linarith
  have h := Float32.round_le_mul (x := d * 3) (by linarith) hcase
  rwa [show Float32.pow2 (-24) = 1 / 16777216 by decide!] at h

/-- The increment `(d * 3) * deltaTime` of an interpolation, rounded twice,
lies between 0 and the distance `d` for a binary32 `deltaTime` in [0, 1/3]. -/
theorem lerpStep_bounds {d dt : ℚ} (hd : f32 d = d) (h0 : 0 ≤ d) (hdt : f32 dt = dt)
    (hdt0 : 0 ≤ dt) (hdt1 : dt ≤ 1 / 3) :
    0 ≤ f32 (f32 (d * 3) * dt) ∧ f32 (f32 (d * 3) * dt) ≤ d := by
  have hp := f32_le_third hdt hdt1
  have h3 := f32_mul_three_le hd h0
  have h30 : 0 ≤ f32 (d * 3) := f32_nonneg (by linarith)
  constructor
  · exact f32_nonneg (mul_nonneg h30 hdt0)
  · have hle : f32 (d * 3) * dt ≤ d := by
      calc f32 (d * 3) * dt
          ≤ (d * 3 * (1 + 1 / 16777216)) * (11184810 / 33554432) :=
            mul_le_mul h3 hp hdt0 (by positivity)
        _ = d * (281474976710655 / 281474976710656) := by ring
        _ ≤ d := by nlinarith
    calc f32 (f32 (d * 3) * dt) ≤ f32 d := f32_mono hle
      _ = d := hd

theorem abs_f32 (x : ℚ) : |f32 x| = f32 |x| := by
  rcases le_total 0 x with h | h
  · rw [abs_of_nonneg h, abs_of_nonneg (f32_nonneg h)]
  · rw [abs_of_nonpos h, abs_of_nonpos (f32_nonpos h), f32_neg]

theorem abs_f32_le {x y : ℚ} (h : |x| ≤ |y|) : |f32 x| ≤ |f32 y| := by
  rw [abs_f32, abs_f32]; exact f32_mono h

namespace LocateScene

theorem lerp32_neg (v T dt : ℚ) : lerp32 (-v) (-T) dt = -lerp32 v T dt := by
  unfold lerp32
  have e1 : -T - -v = -(T - v) := by ring
  rw [e1, f32_neg, neg_mul, f32_neg, neg_mul, f32_neg, ← neg_add, f32_neg]

/-- An interpolation towards a larger target does not move back and does not
pass the target, when the rounding of the distance adds at most `err` and the
target absorbs `err`. -/
theorem lerp32_up (v T dt err : ℚ) (hv : f32 v = v) (hvT : v ≤ T) (hdt : f32 dt = dt)
    (hdt0 : 0 ≤ dt) (hdt1 : dt ≤ 1 / 3) (herr : f32 (T - v) ≤ T - v + err)
    (htie : f32 (T + err) ≤ T) :
    v ≤ lerp32 v T dt ∧ lerp32 v T dt ≤ T := by
  unfold lerp32
  have hd0 : 0 ≤ f32 (T - v) := f32_nonneg (by linarith)
  obtain ⟨b0, b1⟩ := lerpStep_bounds (f32_f32 _) hd0 hdt hdt0 hdt1
  constructor
  · calc v = f32 v := hv.symm
      _ ≤ f32 (v + f32 (f32 (f32 (T - v) * 3) * dt)) := f32_mono (by linarith)
  · calc f32 (v + f32 (f32 (f32 (T - v) * 3) * dt)) ≤ f32 (T + err) := f32_mono (by linarith)
      _ ≤ T := htie

/-- An interpolation towards a smaller target, likewise. -/
theorem lerp32_down (v T dt err : ℚ) (hv : f32 v = v) (hTv : T ≤ v) (hdt : f32 dt = dt)
    (hdt0 : 0 ≤ dt) (hdt1 : dt ≤ 1 / 3) (herr : f32 (v - T) ≤ v - T + err)
    (htie : T ≤ f32 (T - err)) :
    T ≤ lerp32 v T dt ∧ lerp32 v T dt ≤ v := by
  have h := lerp32_up (-v) (-T) dt err
    (by rw [f32_neg, hv]) (by linarith) hdt hdt0 hdt1
    (by
      have e : -T - -v = v - T := by ring
      rw [e]; exact herr)
    (by
      have e : -T + err = -(T - err) := by ring
      rw [e, f32_neg]; linarith)
  rw [lerp32_neg] at h
  constructor <;> linarith [h.1, h.2]

/-- Rounding a difference of magnitude at most `2 ^ (e + 1)` adds at most
`2 ^ (e - 24)`. -/
theorem f32_sub_le (x : ℚ) (e : Int) (h0 : -126 ≤ e) (hx : |x| ≤ Float32.pow2 (e + 1)) :
    f32 x ≤ x + Float32.pow2 (e - 24) := by
  have h := (abs_le.mp (Float32.abs_round_sub_le x e h0 hx)).2
  unfold f32
  linarith

/-- The zoom of a scene on track moves between its old value and its target. -/
theorem zoom_between (s : LocateScene) (dt : ℚ) (h : s.OnTrack32) (hdt : f32 dt = dt)
    (hdt0 : 0 ≤ dt) (hdt1 : dt ≤ 1 / 3) :
    s.zoom ≤ lerp32 s.zoom s.targetZoom dt ∧ lerp32 s.zoom s.targetZoom dt ≤ s.targetZoom := by
  obtain ⟨rz, -, -, z0, z1, -, -, -, -, ht⟩ := h
  rcases ht with ⟨-, hT, -, -⟩ | ⟨-, hT, -, -⟩ | ⟨-, hT, -, -⟩ | ⟨-, hT, -, -⟩
  · rw [hT] at z1 ⊢
    refine lerp32_up _ _ _ (1 / 67108864) rz z1 hdt hdt0 hdt1 ?_ (by decide!)
    have := f32_sub_le (1 - s.zoom) (-2) (by norm_num)
      (by rw [show Float32.pow2 (-2 + 1) = 1 / 2 by decide!, abs_le]; constructor <;> linarith)
    rwa [show Float32.pow2 (-2 - 24) = 1 / 67108864 by decide!] at this
  · rw [hT] at z1 ⊢
    refine lerp32_up _ _ _ (1 / 4194304) rz z1 hdt hdt0 hdt1 ?_ (by decide!)
    have := f32_sub_le (5 - s.zoom) 2 (by norm_num)
      (by rw [show Float32.pow2 (2 + 1) = 8 by decide!, abs_le]; constructor <;> linarith)
    rwa [show Float32.pow2 (2 - 24) = 1 / 4194304 by decide!] at this
  · rw [hT] at z1 ⊢
    refine lerp32_up _ _ _ (1 / 2097152) rz z1 hdt hdt0 hdt1 ?_ (by decide!)
    have := f32_sub_le (10 - s.zoom) 3 (by norm_num)
      (by rw [show Float32.pow2 (3 + 1) = 16 by decide!, abs_le]; constructor <;> linarith)
    rwa [show Float32.pow2 (3 - 24) = 1 / 2097152 by decide!] at this
  · rw [hT] at z1 ⊢
    refine lerp32_up _ _ _ (1 / 1048576) rz z1 hdt hdt0 hdt1 ?_ (by decide!)
    have := f32_sub_le (20 - s.zoom) 4 (by norm_num)
      (by rw [show Float32.pow2 (4 + 1) = 32 by decide!, abs_le]; constructor <;> linarith)
    rwa [show Float32.pow2 (4 - 24) = 1 / 1048576 by decide!] at this

/-- A centre coordinate between `0.4f` and `0.6f` moves between its old value
and its target, one of `0.4f`, `0.5f`, `0.6f`. -/
theorem center_between (v T dt : ℚ) (hv : f32 v = v) (h0 : f32 (2 / 5) ≤ v)
    (h1 : v ≤ f32 (3 / 5)) (hT : T = 1 / 2 ∨ T = f32 (2 / 5) ∨ T = f32 (3 / 5))
    (hdt : f32 dt = dt) (hdt0 : 0 ≤ dt) (hdt1 : dt ≤ 1 / 3) :
    min v T ≤ lerp32 v T dt ∧ lerp32 v T dt ≤ max v T := by
  have c0 : f32 (2 / 5) = 13421773 / 33554432 := by decide!
  have c1 : f32 (3 / 5) = 10066330 / 16777216 := by decide!
  rw [c0] at h0
  rw [c1] at h1
  have hTr : 13421773 / 33554432 ≤ T ∧ T ≤ 10066330 / 16777216 := by
    rcases hT with h | h | h
    · rw [h]; constructor <;> norm_num
    · rw [h, c0]; constructor <;> norm_num
    · rw [h, c1]; constructor <;> norm_num
  have p1 : Float32.pow2 (-3 + 1) = 1 / 4 := by decide!
  have p2 : Float32.pow2 (-3 - 24) = 1 / 134217728 := by decide!
  rcases le_total v T with hvT | hTv
  · rw [min_eq_left hvT, max_eq_right hvT]
    refine lerp32_up _ _ _ (1 / 134217728) hv hvT hdt hdt0 hdt1 ?_ ?_
    · have := f32_sub_le (T - v) (-3) (by norm_num)
        (by rw [p1, abs_le]; constructor <;> linarith [hTr.1, hTr.2])
      rwa [p2] at this
    · rcases hT with h | h | h <;> rw [h] <;> decide!
  · rw [min_eq_right hTv, max_eq_left hTv]
    refine lerp32_down _ _ _ (1 / 134217728) hv hTv hdt hdt0 hdt1 ?_ ?_
    · have := f32_sub_le (v - T) (-3) (by norm_num)
        (by rw [p1, abs_le]; constructor <;> linarith [hTr.1, hTr.2])
      rwa [p2] at this
    · rcases hT with h | h | h <;> rw [h] <;> decide!

end LocateScene

namespace LocateScene

theorem f32_lerp32 (v T dt : ℚ) : f32 (lerp32 v T dt) = lerp32 v T dt := by
  unfold lerp32; exact f32_f32 _

theorem stepped32_moves (s : LocateScene) (deltaTime : ℚ) :
    (s.stepped32 deltaTime).zoom = lerp32 s.zoom s.targetZoom deltaTime ∧
      (s.stepped32 deltaTime).centerX = lerp32 s.centerX s.targetCenterX deltaTime ∧
      (s.stepped32 deltaTime).centerY = lerp32 s.centerY s.targetCenterY deltaTime := by
  simp only [stepped32, trackSettled32, revealChar32, interpolate32]
  split_ifs <;> simp

theorem advanceStep32_keeps (s : LocateScene) :
    (advanceStep32 s).1.zoom = s.zoom ∧ (advanceStep32 s).1.centerX = s.centerX ∧
      (advanceStep32 s).1.centerY = s.centerY := by
  simp only [advanceStep32]
  split_ifs <;> simp

theorem update32_moves (s : LocateScene) (deltaTime : ℚ) (hfin : s.finished = false) :
    (s.update32 deltaTime).1.zoom = lerp32 s.zoom s.targetZoom deltaTime ∧
      (s.update32 deltaTime).1.centerX = lerp32 s.centerX s.targetCenterX deltaTime ∧
      (s.update32 deltaTime).1.centerY = lerp32 s.centerY s.targetCenterY deltaTime := by
  obtain ⟨m1, m2, m3⟩ := stepped32_moves s deltaTime
  by_cases hd : s.advanceDue32 deltaTime
  · rw [update32_due s deltaTime hfin hd]
    obtain ⟨k1, k2, k3⟩ := advanceStep32_keeps (s.stepped32 deltaTime)
    rw [k1, k2, k3]
    exact ⟨m1, m2, m3⟩
  · rw [update32_not_due s deltaTime hfin hd]
    exact ⟨m1, m2, m3⟩

theorem onTrack32_construct : construct.OnTrack32 := by
  simp only [OnTrack32, construct]
  refine ⟨by decide!, by decide!, by decide!, by norm_num, by norm_num, by decide!, by decide!,
    by decide!, by decide!, by simp⟩

theorem onTrack32_reset (s : LocateScene) : s.reset.OnTrack32 := by
  simp only [OnTrack32, reset]
  refine ⟨by decide!, by decide!, by decide!, by norm_num, by norm_num, by decide!, by decide!,
    by decide!, by decide!, by simp⟩

theorem onTrack32_setSoundManager (s : LocateScene) (h : s.OnTrack32) :
    s.setSoundManager.OnTrack32 := h

/-- The targets of a scene on track are among `0.4f`, `0.5f`, `0.6f`. -/
theorem onTrack32_targets (s : LocateScene) (h : s.OnTrack32) :
    (s.targetCenterX = 1 / 2 ∨ s.targetCenterX = f32 (2 / 5) ∨ s.targetCenterX = f32 (3 / 5)) ∧
      (s.targetCenterY = 1 / 2 ∨ s.targetCenterY = f32 (2 / 5) ∨
        s.targetCenterY = f32 (3 / 5)) := by
  obtain ⟨-, -, -, -, -, -, -, -, -, ht⟩ := h
  rcases ht with ⟨-, -, hx, hy⟩ | ⟨-, -, hx, hy⟩ | ⟨-, -, hx, hy⟩ | ⟨-, -, hx, hy⟩ <;>
    rw [hx, hy] <;> simp

/-- Between two values that lie in a range. -/
theorem between_range {lo hi v T x : ℚ} (hv0 : lo ≤ v) (hv1 : v ≤ hi) (hT0 : lo ≤ T)
    (hT1 : T ≤ hi) (hx : min v T ≤ x ∧ x ≤ max v T) : lo ≤ x ∧ x ≤ hi :=
  ⟨le_trans (le_min hv0 hT0) hx.1, le_trans hx.2 (max_le hv1 hT1)⟩

theorem target_range {T : ℚ} (hT : T = 1 / 2 ∨ T = f32 (2 / 5) ∨ T = f32 (3 / 5)) :
    f32 (2 / 5) ≤ T ∧ T ≤ f32 (3 / 5) := by
  rcases hT with h | h | h <;> rw [h] <;> decide!

theorem onTrack32_stepped32 (s : LocateScene) (dt : ℚ) (h : s.OnTrack32) (hdt : f32 dt = dt)
    (hdt0 : 0 ≤ dt) (hdt1 : dt ≤ 1 / 3) : (s.stepped32 dt).OnTrack32 := by
  obtain ⟨m1, m2, m3⟩ := stepped32_moves s dt
  obtain ⟨-, f2, -, -, -, f6, f7, f8, -, -⟩ := stepped32_fields s dt
  have hz := zoom_between s dt h hdt hdt0 hdt1
  obtain ⟨tx, ty⟩ := onTrack32_targets s h
  obtain ⟨rz, rx, ry, z0, z1, x0, x1, y0, y1, ht⟩ := h
  have hx := center_between s.centerX s.targetCenterX dt rx x0 x1 tx hdt hdt0 hdt1
  have hy := center_between s.centerY s.targetCenterY dt ry y0 y1 ty hdt hdt0 hdt1
  have hxr := between_range x0 x1 (target_range tx).1 (target_range tx).2 hx
  have hyr := between_range y0 y1 (target_range ty).1 (target_range ty).2 hy
  simp only [OnTrack32, m1, m2, m3, f2, f6, f7, f8]
  exact ⟨f32_lerp32 _ _ _, f32_lerp32 _ _ _, f32_lerp32 _ _ _, le_trans z0 hz.1, hz.2,
    hxr.1, hxr.2, hyr.1, hyr.2, ht⟩

theorem onTrack32_advanceStep32 (s : LocateScene) (h : s.OnTrack32) :
    (advanceStep32 s).1.OnTrack32 := by
  obtain ⟨rz, rx, ry, z0, z1, x0, x1, y0, y1, ht⟩ := h
  rcases ht with ⟨hs, hT, hx, hy⟩ | ⟨hs, hT, hx, hy⟩ | ⟨hs, hT, hx, hy⟩ | ⟨hs, hT, hx, hy⟩
  · simp only [OnTrack32, advanceStep32, hs, if_true]
    rw [hT] at z1
    exact ⟨rz, rx, ry, z0, by linarith, x0, x1, y0, y1, by simp⟩
  · simp only [OnTrack32, advanceStep32, hs]
    rw [hT] at z1
    exact ⟨rz, rx, ry, z0, by norm_num; linarith, x0, x1, y0, y1,
      Or.inr (Or.inr (Or.inl ⟨by norm_num, by norm_num, by norm_num, by norm_num⟩))⟩
  · simp only [OnTrack32, advanceStep32, hs]
    rw [hT] at z1
    exact ⟨rz, rx, ry, z0, by norm_num; linarith, x0, x1, y0, y1,
      Or.inr (Or.inr (Or.inr ⟨by norm_num, by norm_num, by norm_num, by norm_num⟩))⟩
  · simp only [OnTrack32, advanceStep32, hs]
    rw [hT] at z1
    exact ⟨rz, rx, ry, z0, by norm_num; linarith, x0, x1, y0, y1,
      Or.inr (Or.inr (Or.inr ⟨by norm_num, by norm_num; exact hT, by norm_num; exact hx,
        by norm_num; exact hy⟩))⟩

theorem onTrack32_update32 (s : LocateScene) (dt : ℚ) (h : s.OnTrack32) (hdt : f32 dt = dt)
    (hdt0 : 0 ≤ dt) (hdt1 : dt ≤ 1 / 3) : (s.update32 dt).1.OnTrack32 := by
  cases hfin : s.finished
  · by_cases hd : s.advanceDue32 dt
    · rw [update32_due s dt hfin hd]
      exact onTrack32_advanceStep32 _ (onTrack32_stepped32 s dt h hdt hdt0 hdt1)
    · rw [update32_not_due s dt hfin hd]
      exact onTrack32_stepped32 s dt h hdt hdt0 hdt1
  · rw [update32_of_finished s dt hfin]
    exact h

theorem onTrack32_step32 (s : LocateScene) (op : Op) (h : s.OnTrack32)
    (hop : op.gentle32 = true) : (s.step32 op).OnTrack32 := by
  cases op with
  | update deltaTime =>
    simp only [Op.gentle32, Bool.and_eq_true, decide_eq_true_eq] at hop
    exact onTrack32_update32 s deltaTime h hop.1.1 hop.1.2 hop.2
  | reset => exact onTrack32_reset s
  | setSoundManager => exact onTrack32_setSoundManager s h

theorem onTrack32_exec32 (ops : List Op) :
    ∀ s : LocateScene, s.OnTrack32 → (∀ op ∈ ops, op.gentle32 = true) →
      (s.exec32 ops).OnTrack32 := by
  induction ops with
  | nil => intro s h _; exact h
  | cons op rest ih =>
    intro s h hops
    exact ih _ (onTrack32_step32 s op h (hops op (List.mem_cons_self _ _)))
      (fun x hx => hops x (List.mem_cons_of_mem _ hx))

/-- A value between the old one and the target is at most as far from the target,
also after the rounding of the difference. -/
theorem settled_of_between {v T x : ℚ} (hx : min v T ≤ x ∧ x ≤ max v T) :
    |f32 (x - T)| ≤ |f32 (v - T)| := by
  apply abs_f32_le
  rcases le_total v T with h | h
  · rw [min_eq_left h, max_eq_right h] at hx
    rw [abs_of_nonpos (by linarith), abs_of_nonpos (by linarith)]
    linarith
  · rw [min_eq_right h, max_eq_left h] at hx
    rw [abs_of_nonneg (by linarith), abs_of_nonneg (by linarith)]
    linarith

/-- C29 as stated fails in binary32: the first update of the constructed scene
with `deltaTime = 0.1f` moves the zoom from 0.5 to `0x1.4cccccp-1`, whose
distance to the target 1 is not `1 - 3 * 0.1f` times the old distance 0.5. -/
theorem C29_counterexample :
    f32 (f32 (1 / 10)) = f32 (1 / 10) ∧ 0 ≤ f32 (1 / 10) ∧ f32 (1 / 10) ≤ 1 / 3 ∧
      construct.zoom = 1 / 2 ∧ construct.targetZoom = 1 ∧
      (construct.update32 (f32 (1 / 10))).1.targetZoom = 1 ∧
      (construct.update32 (f32 (1 / 10))).1.zoom = 10905190 / 16777216 ∧
      (construct.update32 (f32 (1 / 10))).1.zoom - construct.targetZoom ≠
        (1 - 3 * f32 (1 / 10)) * (construct.zoom - construct.targetZoom) := by
  decide!

/-- C29, amended to what holds in binary32. In every scene reached from the
constructed one by `reset`, `setSoundManager` and updates whose `deltaTime` is a
binary32 value with `0 ≤ deltaTime ≤ 1/3`, a further such update moves each of
zoom, centerX and centerY to a value between its previous value and its target
(on an unfinished scene to the rounded `v + (target - v) * 3 * deltaTime`); a
settled map is still settled after the increments of the update, where the
targets are unchanged; and the zoom is within [0.5, 20], so it is not zero. -/
theorem C29_interpolation_keeps_range (ops : List Op) (deltaTime : ℚ)
    (hops : ∀ op ∈ ops, op.gentle32 = true) (hd : f32 deltaTime = deltaTime)
    (h0 : 0 ≤ deltaTime) (h1 : deltaTime ≤ 1 / 3) :
    (min (construct.exec32 ops).zoom (construct.exec32 ops).targetZoom ≤
        ((construct.exec32 ops).update32 deltaTime).1.zoom ∧
      ((construct.exec32 ops).update32 deltaTime).1.zoom ≤
        max (construct.exec32 ops).zoom (construct.exec32 ops).targetZoom) ∧
    (min (construct.exec32 ops).centerX (construct.exec32 ops).targetCenterX ≤
        ((construct.exec32 ops).update32 deltaTime).1.centerX ∧
      ((construct.exec32 ops).update32 deltaTime).1.centerX ≤
        max (construct.exec32 ops).centerX (construct.exec32 ops).targetCenterX) ∧
    (min (construct.exec32 ops).centerY (construct.exec32 ops).targetCenterY ≤
        ((construct.exec32 ops).update32 deltaTime).1.centerY ∧
      ((construct.exec32 ops).update32 deltaTime).1.centerY ≤
        max (construct.exec32 ops).centerY (construct.exec32 ops).targetCenterY) ∧
    ((construct.exec32 ops).finished = false →
      ((construct.exec32 ops).update32 deltaTime).1.zoom =
          lerp32 (construct.exec32 ops).zoom (construct.exec32 ops).targetZoom deltaTime ∧
        ((construct.exec32 ops).update32 deltaTime).1.centerX =
          lerp32 (construct.exec32 ops).centerX (construct.exec32 ops).targetCenterX
            deltaTime ∧
        ((construct.exec32 ops).update32 deltaTime).1.centerY =
          lerp32 (construct.exec32 ops).centerY (construct.exec32 ops).targetCenterY
            deltaTime) ∧
    ((construct.exec32 ops).mapAnimFinished32 = true →
      ((construct.exec32 ops).stepped32 deltaTime).targetZoom =
          (construct.exec32 ops).targetZoom ∧
        ((construct.exec32 ops).stepped32 deltaTime).targetCenterX =
          (construct.exec32 ops).targetCenterX ∧
        ((construct.exec32 ops).stepped32 deltaTime).targetCenterY =
          (construct.exec32 ops).targetCenterY ∧
        ((construct.exec32 ops).stepped32 deltaTime).mapAnimFinished32 = true) ∧
    (1 / 2 ≤ (construct.exec32 ops).zoom ∧ (construct.exec32 ops).zoom ≤ 20 ∧
      (construct.exec32 ops).zoom ≠ 0 ∧
      1 / 2 ≤ ((construct.exec32 ops).update32 deltaTime).1.zoom ∧
      ((construct.exec32 ops).update32 deltaTime).1.zoom ≤ 20 ∧
      ((construct.exec32 ops).update32 deltaTime).1.zoom ≠ 0) := by
  obtain ⟨s, hs⟩ : ∃ s : LocateScene, s = construct.exec32 ops := ⟨_, rfl⟩
  rw [← hs]
  have ht : s.OnTrack32 := by
    rw [hs]; exact onTrack32_exec32 ops construct onTrack32_construct hops
  have ht' := onTrack32_update32 s deltaTime ht hd h0 h1
  have hz := zoom_between s deltaTime ht hd h0 h1
  obtain ⟨tx, ty⟩ := onTrack32_targets s ht
  have hT20 : ∀ x : LocateScene, x.OnTrack32 → x.targetZoom ≤ 20 := by
    intro x hx
    obtain ⟨-, -, -, -, -, -, -, -, -, hc⟩ := hx
    rcases hc with ⟨-, hT, -, -⟩ | ⟨-, hT, -, -⟩ | ⟨-, hT, -, -⟩ | ⟨-, hT, -, -⟩ <;>
      rw [hT] <;> norm_num
  have hx := center_between s.centerX s.targetCenterX deltaTime ht.2.1 ht.2.2.2.2.2.1
    ht.2.2.2.2.2.2.1 tx hd h0 h1
  have hy := center_between s.centerY s.targetCenterY deltaTime ht.2.2.1 ht.2.2.2.2.2.2.2.1
    ht.2.2.2.2.2.2.2.2.1 ty hd h0 h1
  have hzb : min s.zoom s.targetZoom ≤ lerp32 s.zoom s.targetZoom deltaTime ∧
      lerp32 s.zoom s.targetZoom deltaTime ≤ max s.zoom s.targetZoom := by
    rw [min_eq_left ht.2.2.2.2.1, max_eq_right ht.2.2.2.2.1]; exact hz
  have hz20 : s.zoom ≤ 20 := le_trans ht.2.2.2.2.1 (hT20 s ht)
  have hz20' : (s.update32 deltaTime).1.zoom ≤ 20 := le_trans ht'.2.2.2.2.1 (hT20 _ ht')
  refine ⟨?_, ?_, ?_, update32_moves s deltaTime, ?_, ht.2.2.2.1, hz20,
    by linarith [ht.2.2.2.1], ht'.2.2.2.1, hz20', by linarith [ht'.2.2.2.1]⟩
  · cases hfin : s.finished
    · rw [(update32_moves s deltaTime hfin).1]; exact hzb
    · rw [update32_of_finished s deltaTime hfin]
      exact ⟨min_le_left _ _, le_max_left _ _⟩
  · cases hfin : s.finished
    · rw [(update32_moves s deltaTime hfin).2.1]; exact hx
    · rw [update32_of_finished s deltaTime hfin]
      exact ⟨min_le_left _ _, le_max_left _ _⟩
  · cases hfin : s.finished
    · rw [(update32_moves s deltaTime hfin).2.2]; exact hy
    · rw [update32_of_finished s deltaTime hfin]
      exact ⟨min_le_left _ _, le_max_left _ _⟩
  · intro hset
    obtain ⟨m1, m2, m3⟩ := stepped32_moves s deltaTime
    obtain ⟨-, -, -, -, -, f6, f7, f8, -, -⟩ := stepped32_fields s deltaTime
    refine ⟨f6, f7, f8, ?_⟩
    simp only [mapAnimFinished32, Bool.and_eq_true, decide_eq_true_eq] at hset ⊢
    rw [m1, m2, m3, f6, f7, f8]
    exact ⟨⟨lt_of_le_of_lt (settled_of_between hzb) hset.1.1,
      lt_of_le_of_lt (settled_of_between hx) hset.1.2⟩,
      lt_of_le_of_lt (settled_of_between hy) hset.2⟩

/-- Witness of the amended C29: the first update of the constructed scene with
`deltaTime = 0.1f`. -/
theorem C29_interpolation_keeps_range_witness :
    (∀ op ∈ ([] : List Op), op.gentle32 = true) ∧ f32 (f32 (1 / 10)) = f32 (1 / 10) ∧
      0 ≤ f32 (1 / 10) ∧ f32 (1 / 10) ≤ 1 / 3 ∧
      1 / 2 ≤ ((construct.exec32 []).update32 (f32 (1 / 10))).1.zoom ∧
      ((construct.exec32 []).update32 (f32 (1 / 10))).1.zoom ≤ 20 :=
  ⟨fun _ h => absurd h (List.not_mem_nil _), by decide!, by decide!, by decide!,
    (C29_interpolation_keeps_range [] (f32 (1 / 10)) (fun _ h => absurd h (List.not_mem_nil _))
      (by decide!) (by decide!) (by decide!)).2.2.2.2.2.2.2.2.1,
    (C29_interpolation_keeps_range [] (f32 (1 / 10)) (fun _ h => absurd h (List.not_mem_nil _))
      (by decide!) (by decide!) (by decide!)).2.2.2.2.2.2.2.2.2.1⟩

end LocateScene

end Demoszene
